import Mathlib

/-! # Value-group builder and operator dispatch of the Maxim compiler

A shallow embedding of `SurfaceMirBuilder::build`
(`src/editor/compiler/SurfaceMirBuilder.cpp`), of the lookups, the type
assertions, `callFunction` and `callOperator` of `MaximContext`
(`src/compiler/codegen/MaximContext.cpp`), of the integer and the logical
operators (`src/compiler/codegen/operators/`), of the call, cast, control,
variable, assignment, math, unary and postfix expressions of
`ExpressionGenerator` (`src/compiler/codegen/ExpressionGenerator.cpp`) and of
`CompositeAction` (`src/editor/model/actions/CompositeAction.cpp`), with the
properties of the specification proved about them.

Conventions of the embedding:
* a `QUuid` is a natural number, the null id is `0`;
* a `ValueGroup *` is a natural number handed out by an allocation counter
  (`std::make_unique<ValueGroup>()` returns the counter and increments it);
* `std::unordered_map` and `QHash` are association lists read with
  `List.lookup`; `QHash::insert` replaces the value stored under a key;
* a failed `assert` makes the enclosing function return `none`;
* a thrown `CompileError` / `CodegenError` is the `Except.error` result;
* a number of the generated code is a vector of two lanes; the floating-point
  type of a lane and the LLVM instructions on it are parameters (`FloatOps`),
  and an ordered comparison `fcmp` is false on a NaN;
* an instruction whose operands have different LLVM types (a vector beside a
  scalar) is not well typed and has no value: what is computed from it is
  `none`.
-/

namespace SurfaceMir

/-! ## Data model read by the builder -/

/-- A `QUuid`; `0` is the null id. -/
abbrev QUuid := Nat

/-- The test `QUuid::isNull`. -/
def QUuid.isNull (u : QUuid) : Bool := u == 0

/-- Modelled from the spec: the enumeration `AxiomModel::Control::ControlType`
(its declaration, in `Control.h` of the model, is not among the sources); the
builder names `NUM_SCALAR`, `NUM_EXTRACT`, `MIDI_EXTRACT`, `NUM_PORTAL` and
`MIDI_PORTAL`, the spec's data model adds the MIDI and graph kinds. -/
inductive ControlType
  | NUM_SCALAR
  | MIDI_SCALAR
  | NUM_EXTRACT
  | MIDI_EXTRACT
  | NUM_PORTAL
  | MIDI_PORTAL
  | GRAPH
  deriving DecidableEq, Repr

/-- One floating-point lane of a `NumValue`, by IEEE-754 class: a finite lane
has a sign and a magnitude (a non-negative rational), so `+0.0` and `-0.0` are
the two finite lanes of magnitude `0`. -/
inductive Lane
  | finite (negative : Bool) (magnitude : ℚ)
  | infinite (negative : Bool)
  | nan
  deriving DecidableEq

/-- The comparison `x != 0` of C++ on a lane: false exactly for `+0.0` and
`-0.0`; a NaN compares unequal to everything, so it is true for NaN. -/
def Lane.neZero : Lane → Bool
  | .finite _ m => m != 0
  | .infinite _ => true
  | .nan => true

/-- The test `std::isnan`. -/
def Lane.isNaN : Lane → Bool
  | .nan => true
  | _ => false

/-- The lane holding the integer `n`. -/
def Lane.ofNat (n : Nat) : Lane := .finite false n

/-- The model's `NumValue`: two lanes and the form, the form kept as the
integer value of its enumerator (the builder reads it as `(int) numVal.form`). -/
structure NumValue where
  left : Lane
  right : Lane
  form : Nat
  deriving DecidableEq

/-- Modelled from the spec: the enumerator `LINEAR` of the form enumeration
(declared in `Value.h` of the model, not among the sources), which the spec
names as the default form, the one the builder compares with `0`. -/
def FormType.LINEAR : Nat := 0

/-- What the builder reads of an `AxiomModel::Control`: `uuid()`,
`controlType()`, `connectedControls().sequence()`, `exposerUuid()`, the three
fields of `compileMeta()` and, for a `NumControl`, `value()`. -/
structure Control where
  uuid : QUuid
  controlType : ControlType
  connectedControls : List QUuid
  exposerUuid : QUuid
  writtenTo : Bool
  readFrom : Bool
  index : Nat
  value : NumValue
  deriving DecidableEq

/-- An entry of `GroupSurfaceCompileMeta::portals`. -/
structure GroupSurfacePortal where
  externalControls : List QUuid
  valueWritten : Bool
  valueRead : Bool
  isExtractor : Bool
  deriving DecidableEq

/-- The dynamic class of a node: a `CustomNode` with its `hasValidBlock()`, a
`GroupNode` with the portals of its inner surface's compile meta, or any other
node (a portal node). -/
inductive NodeKind
  | custom (hasValidBlock : Bool)
  | group (portals : List GroupSurfacePortal)
  | other
  deriving DecidableEq

/-- A node of the surface: its class, its runtime id and the controls of its
control surface, in sequence order. -/
structure Node where
  kind : NodeKind
  runtimeId : Nat
  controls : List Control
  deriving DecidableEq

/-- A `NodeSurface`: whether it is the `RootSurface` and its node sequence. -/
structure Surface where
  isRoot : Bool
  nodes : List Node
  deriving DecidableEq

/-- The test of lines 72-73 and 172-173: the node is a `CustomNode` whose block
is not valid. -/
def Node.skipped (n : Node) : Bool :=
  match n.kind with
  | .custom valid => !valid
  | _ => false

/-! ## Association lists standing for `QHash` and `std::unordered_map` -/

/-- `QHash::insert`: store `v` under `k`, replacing an earlier value. -/
def hashInsert {β : Type} (k : Nat) (v : β) (m : List (Nat × β)) : List (Nat × β) :=
  (k, v) :: m.filter (fun p => p.1 != k)

/-- `std::unordered_map::erase` by key. -/
def mapErase {β : Type} (k : Nat) (m : List (Nat × β)) : List (Nat × β) :=
  m.filter (fun p => p.1 != k)

/-! ## The union phase (lines 67-121) -/

/-- The two tables of `build` and the allocation counter: `groups` maps a
group's address to the member list (`ValueGroup::controls`) it owns,
`controlGroups` maps a control id to a group's address. -/
structure GroupState where
  groups : List (Nat × List QUuid)
  controlGroups : List (QUuid × Nat)
  nextGroup : Nat

/-- The tables before the first node. -/
def GroupState.empty : GroupState := ⟨[], [], 0⟩

/-- The member list behind a group's address. -/
def GroupState.controlsOf (st : GroupState) (g : Nat) : List QUuid :=
  (st.groups.lookup g).getD []

/-- Lines 81-84 and 89-93: a fresh group holding `u` alone, entered in both
tables; the result is the new address and the new tables. -/
def newGroup (st : GroupState) (u : QUuid) : Nat × GroupState :=
  (st.nextGroup,
   { groups := (st.nextGroup, [u]) :: st.groups
     controlGroups := hashInsert u st.nextGroup st.controlGroups
     nextGroup := st.nextGroup + 1 })

/-- The statement `target->controls.insert(target->controls.end(), ...)`, also
`push_back` for a single id: append `ms` to the member list of `target`. -/
def appendControls (target : Nat) (ms : List QUuid) (groups : List (Nat × List QUuid)) :
    List (Nat × List QUuid) :=
  groups.map (fun p => if p.1 = target then (p.1, p.2 ++ ms) else p)

/-- Lines 107-116 and 145-151: point every member of `source` at `target`, append
the member list of `source` to that of `target` (`ValueGroup::mergeInto`) and
erase `source` from `groups`. -/
def mergeGroups (st : GroupState) (source target : Nat) : GroupState :=
  let members := st.controlsOf source
  { groups := mapErase source (appendControls target members st.groups)
    controlGroups := members.foldl (fun cg c => hashInsert c target cg) st.controlGroups
    nextGroup := st.nextGroup }

/-- The body of the loop of line 98 for one connected control. -/
def connectStep (myGroup : Nat) (st : GroupState) (connectedControl : QUuid) : GroupState :=
  match st.controlGroups.lookup connectedControl with
  | none =>
    { groups := appendControls myGroup [connectedControl] st.groups
      controlGroups := hashInsert connectedControl myGroup st.controlGroups
      nextGroup := st.nextGroup }
  | some connectedGroup =>
    if connectedGroup ≠ myGroup then mergeGroups st connectedGroup myGroup else st

/-- The body of the loop of line 78 for one control. -/
def controlStep (st : GroupState) (control : Control) : GroupState :=
  if control.connectedControls.isEmpty then
    (newGroup st control.uuid).2
  else
    let start : Nat × GroupState :=
      match st.controlGroups.lookup control.uuid with
      | none => newGroup st control.uuid
      | some g => (g, st)
    control.connectedControls.foldl (connectStep start.1) start.2

/-- The body of the loop of line 70 for one node: a custom node without a valid
block is skipped. -/
def nodeStep (st : GroupState) (node : Node) : GroupState :=
  if node.skipped then st else node.controls.foldl controlStep st

/-- The union phase: the loop of lines 70-121 over the node sequence. -/
def unionPhase (s : Surface) : GroupState :=
  s.nodes.foldl nodeStep GroupState.empty

/-! ## Consistency of the two tables and the relation they represent -/

/-- The two tables agree: the addresses in `groups` are distinct and below the
allocation counter, `controlGroups` maps `u` to `g` exactly when `g` is in
`groups` and lists `u`, and a member list is non-empty and names no id twice. -/
structure GroupState.Inv (st : GroupState) : Prop where
  fresh : ∀ k ∈ st.groups.map Prod.fst, k < st.nextGroup
  keysNodup : (st.groups.map Prod.fst).Nodup
  consistent : ∀ u h, st.controlGroups.lookup u = some h ↔
    ∃ ms, st.groups.lookup h = some ms ∧ u ∈ ms
  membersNodup : ∀ h ms, st.groups.lookup h = some ms → ms.Nodup
  membersNonempty : ∀ h ms, st.groups.lookup h = some ms → ms ≠ []

/-- Two ids are mapped by `controlGroups` to the same `ValueGroup`. -/
def GroupState.sameGroup (st : GroupState) (u v : QUuid) : Prop :=
  ∃ g, st.controlGroups.lookup u = some g ∧ st.controlGroups.lookup v = some g

/-- The map `f` from ids to group addresses represents the graph with vertex
set `D` and edge set `E`: its keys are `D`, and two keys have the same image
exactly when the edges link them. -/
structure Tracks (f : QUuid → Option Nat) (D : QUuid → Prop) (E : QUuid → QUuid → Prop) :
    Prop where
  dom : ∀ u, (∃ g, f u = some g) ↔ D u
  rel : ∀ u v, (∃ g, f u = some g ∧ f v = some g) ↔ D u ∧ D v ∧ Relation.EqvGen E u v
  edges : ∀ a b, E a b → D a ∧ D b

/-! ## The graph of a surface -/

/-- Every control of the surface, node by node. -/
def Surface.allControls (s : Surface) : List Control :=
  s.nodes.flatMap (fun n => n.controls)

/-- The controls the union phase walks: those of the nodes it does not skip. -/
def Surface.groupedControls (s : Surface) : List Control :=
  (s.nodes.filter (fun n => !n.skipped)).flatMap (fun n => n.controls)

/-- The graph snapshot is well formed: no two controls share an id, and every
connection is a symmetric edge between two controls of the surface (a connected
id is the id of a control of the surface that lists the control back). -/
def Surface.WellFormed (s : Surface) : Prop :=
  (s.allControls.map (fun c => c.uuid)).Nodup ∧
  ∀ c ∈ s.allControls, ∀ d ∈ c.connectedControls,
    ∃ c' ∈ s.allControls, c'.uuid = d ∧ c.uuid ∈ c'.connectedControls

instance (s : Surface) : Decidable s.WellFormed := by
  unfold Surface.WellFormed
  infer_instance

/-- The ids the controls `cs` touch: their own and those they are connected to. -/
def touched (cs : List Control) (x : QUuid) : Prop :=
  ∃ c ∈ cs, x = c.uuid ∨ x ∈ c.connectedControls

/-- The connections the controls `cs` start: `a` is one of them and lists `b`. -/
def walked (cs : List Control) (a b : QUuid) : Prop :=
  ∃ c ∈ cs, a = c.uuid ∧ b ∈ c.connectedControls

/-- A direct connection of the surface: `a` is a control and lists `b`. -/
def Surface.directlyConnected (s : Surface) (a b : QUuid) : Prop :=
  walked s.allControls a b

/-- The tables represent the graph with vertex set `D` and edge set `E`: they
are consistent, `controlGroups` tracks the graph, and the first member of every
group satisfies `P`. -/
structure Represents (P : QUuid → Prop) (st : GroupState) (D : QUuid → Prop)
    (E : QUuid → QUuid → Prop) : Prop where
  inv : st.Inv
  tracks : Tracks (fun x => st.controlGroups.lookup x) D E
  heads : ∀ h ms, st.groups.lookup h = some ms → ∃ u, ms.head? = some u ∧ P u

/-! ## The cross-boundary merge phase (lines 123-154) -/

/-- The portals of the inner surface of a `GroupNode`; other nodes have none. -/
def Node.portals (n : Node) : List GroupSurfacePortal :=
  match n.kind with
  | .group portals => portals
  | _ => []

/-- The body of the loop of line 137 for `externalControls[i]`, `i ≥ 1`: the
control must be in `controlGroups` (the `assert` of line 140); its group, when
it is not the target already, is merged into the target. -/
def mergeExternal (targetControlGroup : Nat) (st : GroupState) (controlUuid : QUuid) :
    Option GroupState :=
  match st.controlGroups.lookup controlUuid with
  | none => none
  | some controlGroup =>
    if controlGroup = targetControlGroup then some st
    else some (mergeGroups st controlGroup targetControlGroup)

/-- The body of the loop of line 130 for one portal: the list of external
controls is not empty and its first entry is in `controlGroups` (the `assert`s
of lines 131 and 134); the groups of the others are merged into its group. -/
def mergePortal (st : GroupState) (group : GroupSurfacePortal) : Option GroupState :=
  match group.externalControls with
  | [] => none
  | first :: rest =>
    match st.controlGroups.lookup first with
    | none => none
    | some targetControlGroup => rest.foldlM (mergeExternal targetControlGroup) st

/-- The body of the loop of line 124 for one node: only a `GroupNode` is looked
at. -/
def mergeNode (st : GroupState) (node : Node) : Option GroupState :=
  match node.kind with
  | .group portals => portals.foldlM mergePortal st
  | _ => some st

/-- The merge phase: the loop of lines 124-154. -/
def mergePhase (s : Surface) (st : GroupState) : Option GroupState :=
  s.nodes.foldlM mergeNode st

/-- The tables of `build` after both phases (lines 67-154). -/
def buildGroups (s : Surface) : Option GroupState :=
  mergePhase s (unionPhase s)

/-- Every portal of the surface, node by node. -/
def Surface.portals (s : Surface) : List GroupSurfacePortal :=
  s.nodes.flatMap (fun n => n.portals)

/-- The portals of the group nodes name controls of this surface: every portal
has an external control and each of them is a control of a node the union phase
walks (in the editor they are controls of the group node itself). -/
def Surface.PortalsResolved (s : Surface) : Prop :=
  ∀ p ∈ s.portals, p.externalControls ≠ [] ∧
    ∀ u ∈ p.externalControls, ∃ c ∈ s.groupedControls, c.uuid = u

instance (s : Surface) : Decidable s.PortalsResolved := by
  unfold Surface.PortalsResolved
  infer_instance

/-- The links the merge phase adds for the portals `ps`: the first external
control of a portal with each of the others. -/
def portalLinks (ps : List GroupSurfacePortal) (a b : QUuid) : Prop :=
  ∃ p ∈ ps, ∃ rest, p.externalControls = a :: rest ∧ b ∈ rest

/-! ## Reorderings of a surface -/

/-- The control `c'` is `c` with its connected controls listed in another order. -/
def Control.Reordered (c c' : Control) : Prop :=
  ∃ l, l.Perm c.connectedControls ∧ c' = { c with connectedControls := l }

/-- The node `n'` is `n` with its controls, and the connected controls of each,
listed in another order. -/
def Node.Reordered (n n' : Node) : Prop :=
  n'.kind = n.kind ∧ n'.runtimeId = n.runtimeId ∧
    ∃ l, l.Perm n.controls ∧ List.Forall₂ Control.Reordered l n'.controls

/-- The surface `s'` is `s` with its node sequence, the control sequence of each
node and the connected-control sequence of each control reordered. -/
def Surface.Reordered (s s' : Surface) : Prop :=
  s'.isRoot = s.isRoot ∧ ∃ l, l.Perm s.nodes ∧ List.Forall₂ Node.Reordered l s'.nodes

/-! ## Classification, node wiring and metadata (lines 156-319) -/

/-- The argument `ValueGroupSource` of `addValueGroup`. -/
inductive ValueGroupSource
  | none
  | socket (index : Nat)
  | default_val (value : NumValue)
  deriving DecidableEq

/-- One call `mir.addValueGroup(vartype, source)`; the `VarType` is the one of
the group's control type. -/
structure MirValueGroup where
  vartype : ControlType
  source : ValueGroupSource
  deriving DecidableEq

/-- One call `mirNode.addValueSocket(groupIndex, written, read, isExtractor)`. -/
structure ValueSocket where
  groupIndex : Nat
  valueWritten : Bool
  valueRead : Bool
  isExtractor : Bool
  deriving DecidableEq

/-- One call `mir.addCustomNode(id)` (`isGroup = false`) or `mir.addGroupNode(id)`
(`isGroup = true`) with the value sockets added to the node builder. -/
structure MirNode where
  isGroup : Bool
  runtimeId : Nat
  sockets : List ValueSocket
  deriving DecidableEq

/-- `find(surface->root()->controls().sequence(), id)` together with the node
owning the control (`control->surface()->node()`); the pool is searched through
the controls of this surface, where every id of a member list lies. -/
def Surface.findControl (s : Surface) (u : QUuid) : Option (Node × Control) :=
  (s.nodes.flatMap (fun n => n.controls.map (fun c => (n, c)))).find?
    (fun p => p.2.uuid == u)

/-- `AxiomModel::findMap(ids, pool)`: the controls behind the ids, in order. -/
def Surface.findMap (s : Surface) (ids : List QUuid) : List (Node × Control) :=
  ids.filterMap s.findControl

/-- Lines 168-174: the controls of a member list, those on a `CustomNode` that
could not be compiled filtered out. -/
def Surface.controlPointers (s : Surface) (ids : List QUuid) : List Control :=
  ((s.findMap ids).filter (fun p => !p.1.skipped)).map (fun p => p.2)

/-- The function `areAnyExposed` (lines 24-31). -/
def areAnyExposed (controls : List Control) : Bool :=
  controls.any (fun control => !control.exposerUuid.isNull)

/-- The function `findPortal` (lines 33-43). -/
def findPortal (controls : List Control) : Option Control :=
  controls.find? (fun control =>
    control.controlType = .NUM_PORTAL || control.controlType = .MIDI_PORTAL)

/-- The function `getGroupType` (lines 45-54); `none` is the failed
`assert(!controls.empty())`. -/
def getGroupType (controls : List Control) : Option ControlType :=
  match controls with
  | [] => none
  | first :: _ =>
    match controls.find? (fun control =>
        control.controlType = .NUM_EXTRACT || control.controlType = .MIDI_EXTRACT) with
    | some control => some control.controlType
    | none => some first.controlType

/-- The test of lines 211-212 on the value of the first control. -/
def isConstantValue (numVal : NumValue) : Bool :=
  (numVal.left.neZero || numVal.right.neZero || numVal.form != 0) &&
    !numVal.left.isNaN && !numVal.right.isNaN

/-- Lines 196-203: some control of the group is written to. -/
def isWrittenTo (controls : List Control) : Bool :=
  controls.any (fun control => control.writtenTo)

/-- Lines 189-220, for a group that is not a root portal: the source the group is
added with, `socketIndex` being `sockets.size()`. -/
def groupSource (controlPointers : List Control) (groupType : ControlType)
    (socketIndex : Nat) : ValueGroupSource :=
  if areAnyExposed controlPointers then .socket socketIndex
  else if groupType = .NUM_SCALAR then
    if !isWrittenTo controlPointers then
      match controlPointers with
      | numControl :: _ =>
        if isConstantValue numControl.value then .default_val numControl.value else .none
      | [] => .none
    else .none
  else .none

/-- The variables of the loop of lines 164-221: the groups added to the MIR, the
map `valueGroupIndices`, the vectors `valueGroups`, `sockets` and `rootPortals`
(a portal control with the group's type) and the counter `index`. -/
structure ClassifyState where
  mirGroups : List MirValueGroup
  valueGroupIndices : List (Nat × Nat)
  valueGroups : List Nat
  sockets : List Nat
  rootPortals : List (Control × ControlType)
  index : Nat

/-- The variables before the first group. -/
def ClassifyState.empty : ClassifyState := ⟨[], [], [], [], [], 0⟩

/-- The body of the loop of line 164 for one entry of `groups`. -/
def classifyStep (s : Surface) (cs : ClassifyState) (pair : Nat × List QUuid) :
    Option ClassifyState :=
  let currentIndex := cs.index
  let controlPointers := s.controlPointers pair.2
  match getGroupType controlPointers with
  | none => none
  | some groupType =>
    let socketIndex := cs.sockets.length
    match (if s.isRoot then findPortal controlPointers else none) with
    | some portal =>
      some { mirGroups := cs.mirGroups ++ [⟨groupType, .socket socketIndex⟩]
             valueGroupIndices := cs.valueGroupIndices ++ [(pair.1, currentIndex)]
             valueGroups := cs.valueGroups ++ [pair.1]
             sockets := cs.sockets ++ [currentIndex]
             rootPortals := cs.rootPortals ++ [(portal, groupType)]
             index := cs.index + 1 }
    | none =>
      let source := groupSource controlPointers groupType socketIndex
      some { mirGroups := cs.mirGroups ++ [⟨groupType, source⟩]
             valueGroupIndices := cs.valueGroupIndices ++ [(pair.1, currentIndex)]
             valueGroups := cs.valueGroups ++ [pair.1]
             sockets :=
               if areAnyExposed controlPointers then cs.sockets ++ [currentIndex]
               else cs.sockets
             rootPortals := cs.rootPortals
             index := cs.index + 1 }

/-- The loop of lines 164-221 over `groups`. -/
def classifyGroups (s : Surface) (groups : List (Nat × List QUuid)) : Option ClassifyState :=
  groups.foldlM (classifyStep s) ClassifyState.empty

/-- The test of lines 249-250 and 309-310. -/
def Control.isExtract (c : Control) : Bool :=
  c.controlType = .NUM_EXTRACT || c.controlType = .MIDI_EXTRACT

/-- Lines 241-251: the value socket of one control of a custom node; `none` is a
failed `assert` of line 243 or 245. -/
def controlSocket (st : GroupState) (cs : ClassifyState) (control : Control) :
    Option ValueSocket :=
  match st.controlGroups.lookup control.uuid with
  | none => none
  | some controlGroup =>
    match cs.valueGroupIndices.lookup controlGroup with
    | none => none
    | some groupIndex =>
      some ⟨groupIndex, control.writtenTo, control.readFrom, control.isExtract⟩

/-- Lines 260-267: the value socket of one portal of a group node; `none` is a
missing first external control or a failed `assert` of line 262 or 264. -/
def portalSocket (st : GroupState) (cs : ClassifyState) (group : GroupSurfacePortal) :
    Option ValueSocket :=
  match group.externalControls with
  | [] => none
  | first :: _ =>
    match st.controlGroups.lookup first with
    | none => none
    | some controlGroup =>
      match cs.valueGroupIndices.lookup controlGroup with
      | none => none
      | some groupIndex =>
        some ⟨groupIndex, group.valueWritten, group.valueRead, group.isExtractor⟩

/-- The variables of the loop of lines 225-271: the node records added to the
MIR, the compile index written back to each node seen so far (`none` for a node
that gets no `setCompileMeta`) and the counter `nodeIndex`. -/
structure WireState where
  mirNodes : List MirNode
  compileIndices : List (Option Nat)
  nodeIndex : Nat

/-- The body of the loop of line 225 for one node; the controls of a custom node
are sorted by their compile index (line 237). -/
def wireNode (st : GroupState) (cs : ClassifyState) (ws : WireState) (node : Node) :
    Option WireState :=
  match node.kind with
  | .custom valid =>
    if !valid then
      some { ws with compileIndices := ws.compileIndices ++ [none] }
    else
      let sortedControls := node.controls.insertionSort (fun a b => a.index ≤ b.index)
      match sortedControls.mapM (controlSocket st cs) with
      | none => none
      | some sockets =>
        some { mirNodes := ws.mirNodes ++ [⟨false, node.runtimeId, sockets⟩]
               compileIndices := ws.compileIndices ++ [some ws.nodeIndex]
               nodeIndex := ws.nodeIndex + 1 }
  | .group portals =>
    match portals.mapM (portalSocket st cs) with
    | none => none
    | some sockets =>
      some { mirNodes := ws.mirNodes ++ [⟨true, node.runtimeId, sockets⟩]
             compileIndices := ws.compileIndices ++ [some ws.nodeIndex]
             nodeIndex := ws.nodeIndex + 1 }
  | .other => some { ws with compileIndices := ws.compileIndices ++ [none] }

/-- The loop of lines 225-271 over the node sequence. -/
def wireNodes (s : Surface) (st : GroupState) (cs : ClassifyState) : Option WireState :=
  s.nodes.foldlM (wireNode st cs) ⟨[], [], 0⟩

/-- Lines 293-316: the portal record of one socket of a group surface, from
the unfiltered controls of its value group. -/
def socketPortal (s : Surface) (st : GroupState) (cs : ClassifyState) (socketGroup : Nat) :
    Option GroupSurfacePortal :=
  match cs.valueGroups.get? socketGroup with
  | none => none
  | some valueGroup =>
    let controlPointers := (s.findMap (st.controlsOf valueGroup)).map (fun p => p.2)
    some { externalControls :=
             (controlPointers.filter (fun c => !c.exposerUuid.isNull)).map
               (fun c => c.exposerUuid)
           valueWritten := controlPointers.any (fun c => c.writtenTo)
           valueRead := controlPointers.any (fun c => c.readFrom)
           isExtractor := controlPointers.any (fun c => c.isExtract) }

/-- What one run of `build` produces: the calls on the MIR builder
(`addValueGroup`, `addCustomNode` / `addGroupNode` with their value sockets, and
`addSocket` on the root), the compile metadata written back to the model, and
the two tables of the grouping, kept for reference. -/
structure BuildResult where
  tables : GroupState
  valueGroupIndices : List (Nat × Nat)
  sockets : List Nat
  valueGroups : List MirValueGroup
  nodes : List MirNode
  compileIndices : List (Option Nat)
  rootSockets : List ControlType
  rootPortals : List QUuid
  groupPortals : List GroupSurfacePortal

/-- The function `SurfaceMirBuilder::build` (lines 61-320) on a surface whose
root has a runtime (past the guard of line 62); `none` is a failed `assert`. -/
def build (s : Surface) : Option BuildResult :=
  match buildGroups s with
  | none => none
  | some st =>
    match classifyGroups s st.groups with
    | none => none
    | some cs =>
      match wireNodes s st cs with
      | none => none
      | some ws =>
        if s.isRoot then
          some { tables := st
                 valueGroupIndices := cs.valueGroupIndices
                 sockets := cs.sockets
                 valueGroups := cs.mirGroups
                 nodes := ws.mirNodes
                 compileIndices := ws.compileIndices
                 rootSockets := cs.rootPortals.map (fun p => p.2)
                 rootPortals := cs.rootPortals.map (fun p => p.1.uuid)
                 groupPortals := [] }
        else
          match cs.sockets.mapM (socketPortal s st cs) with
          | none => none
          | some portals =>
            some { tables := st
                   valueGroupIndices := cs.valueGroupIndices
                   sockets := cs.sockets
                   valueGroups := cs.mirGroups
                   nodes := ws.mirNodes
                   compileIndices := ws.compileIndices
                   rootSockets := []
                   rootPortals := []
                   groupPortals := portals }

/-- The record `g` is what the classification loop adds for the entry `p` of
`groups` on the surface `s`: its type is the group type of the filtered
controls, and its source is a socket when the surface is the root and a portal
is among them, and the source of `groupSource` otherwise. -/
def EmittedFor (s : Surface) (p : Nat × List QUuid) (g : MirValueGroup) : Prop :=
  getGroupType (s.controlPointers p.2) = some g.vartype ∧
  ∃ socketIndex,
    g.source =
      if s.isRoot = true ∧ (findPortal (s.controlPointers p.2)).isSome = true then
        .socket socketIndex
      else groupSource (s.controlPointers p.2) g.vartype socketIndex

/-- The variables of the classification loop after the groups with the
addresses `keys`, in this order, have been classified. -/
structure ClassifyState.Ok (keys : List Nat) (cs : ClassifyState) : Prop where
  length_mir : cs.mirGroups.length = keys.length
  index_eq : cs.index = keys.length
  valueGroups_eq : cs.valueGroups = keys
  indices_eq : cs.valueGroupIndices = keys.zip (List.range keys.length)
  sockets_lt : ∀ k ∈ cs.sockets, k < keys.length

/-- The node gets a record in the MIR (lines 226-230 and 254): it is a custom
node with a valid block or a group node. -/
def Node.isWired (n : Node) : Bool :=
  match n.kind with
  | .custom valid => valid
  | .group _ => true
  | .other => false

/-- What identifies a node record: the builder call and the runtime id. -/
def MirNode.key (m : MirNode) : Bool × Nat := (m.isGroup, m.runtimeId)

/-- The record key a wired node is added with. -/
def Node.recordKey (n : Node) : Bool × Nat :=
  (match n.kind with
   | .group _ => true
   | _ => false, n.runtimeId)

/-! ## Taking a node out of a surface -/

/-- The control with the ids `removed` taken out of its connected controls. -/
def Control.disconnect (removed : List QUuid) (c : Control) : Control :=
  { c with connectedControls := c.connectedControls.filter (fun d => decide (d ∉ removed)) }

/-- The node with the ids `removed` taken out of the connected controls of each
of its controls. -/
def Node.disconnect (removed : List QUuid) (n : Node) : Node :=
  { n with controls := n.controls.map (Control.disconnect removed) }

/-- The surface with node sequence `pre ++ N :: post` after `N` is removed: the
node is taken out of the sequence and every connection touching one of its
controls is dropped. -/
def surfaceWithout (isRoot : Bool) (pre : List Node) (N : Node) (post : List Node) : Surface :=
  { isRoot := isRoot
    nodes := (pre ++ post).map (Node.disconnect (N.controls.map (fun c => c.uuid))) }

/-- Two controls walked by the union phase are both connected to one control of
the node `N`. -/
def bridged (s : Surface) (N : Node) (x y : QUuid) : Prop :=
  ∃ d ∈ N.controls, ∃ cx ∈ s.groupedControls, ∃ cy ∈ s.groupedControls,
    cx.uuid = x ∧ cy.uuid = y ∧
      d.uuid ∈ cx.connectedControls ∧ d.uuid ∈ cy.connectedControls

/-! ## Example surfaces -/

/-- A number control holding `{1, 0, LINEAR}` that is neither exposed nor
written to. -/
def numberControl (uuid : QUuid) (connected : List QUuid) : Control :=
  { uuid := uuid
    controlType := .NUM_SCALAR
    connectedControls := connected
    exposerUuid := 0
    writtenTo := false
    readFrom := false
    index := 0
    value := ⟨.ofNat 1, .ofNat 0, FormType.LINEAR⟩ }

/-- A group surface of two compiled custom nodes: the controls 1, 2 and 3 are
connected in a chain, the control 4 has no connection. -/
def chainSurface : Surface :=
  { isRoot := false
    nodes := [⟨.custom true, 10, [numberControl 1 [2], numberControl 2 [1, 3]]⟩,
              ⟨.custom true, 11, [numberControl 3 [2], numberControl 4 []]⟩] }

/-- The surface `chainSurface` with its two nodes swapped, the controls of each
node swapped and the connected controls of control 2 swapped. -/
def chainSurfaceReordered : Surface :=
  { isRoot := false
    nodes := [⟨.custom true, 11, [numberControl 4 [], numberControl 3 [2]]⟩,
              ⟨.custom true, 10, [numberControl 2 [3, 1], numberControl 1 [2]]⟩] }

/-- A root surface with a group node whose inner surface merged the controls 5
and 6 into one portal, a compiled custom node whose control 1 is connected to
control 5, and a custom node that failed to compile. -/
def portalSurface : Surface :=
  { isRoot := true
    nodes := [⟨.group [⟨[5, 6], false, true, false⟩], 20,
                [numberControl 5 [1], numberControl 6 []]⟩,
              ⟨.custom true, 10, [numberControl 1 [5]]⟩,
              ⟨.custom false, 11, [numberControl 7 []]⟩] }

/-- A custom node that failed to compile; its control 2 is connected to the
controls 1 and 3. -/
def failedNode : Node := ⟨.custom false, 11, [numberControl 2 [1, 3]]⟩

/-- A group surface where the controls 1 and 3 of two compiled nodes are both
connected to control 2 of `failedNode`, and not to each other. -/
def bridgedSurface : Surface :=
  { isRoot := false
    nodes := [⟨.custom true, 10, [numberControl 1 [2]]⟩] ++
      failedNode :: [⟨.custom true, 12, [numberControl 3 [2]]⟩] }

/-- A group surface where control 1 of a compiled node is connected to control 2
of a node that failed to compile, and control 2 is exposed (exposer id 7). -/
def exposedOnFailedNode : Surface :=
  { isRoot := false
    nodes := [⟨.custom true, 10, [numberControl 1 [2]]⟩,
              ⟨.custom false, 11, [{ numberControl 2 [1] with exposerUuid := 7 }]⟩] }

/-- A group surface where control 1 of a compiled node is connected to control 2
of a node that failed to compile, and control 2 has its `writtenTo` flag set. -/
def writtenOnFailedNode : Surface :=
  { isRoot := false
    nodes := [⟨.custom true, 10, [numberControl 1 [2]]⟩,
              ⟨.custom false, 11, [{ numberControl 2 [1] with writtenTo := true }]⟩] }

/-- A group surface with one group: the exposed control 1 (exposer id 7) and the
control 2, an unwritten number control holding `{1, 0, LINEAR}`. -/
def exposedScalars : Surface :=
  { isRoot := false
    nodes := [⟨.custom true, 10,
      [{ numberControl 1 [2] with exposerUuid := 7 }, numberControl 2 [1]]⟩] }

/-- A group surface with the single unwritten control 1 holding `{1, 0, LINEAR}`. -/
def oneSurface : Surface :=
  { isRoot := false, nodes := [⟨.custom true, 10, [numberControl 1 []]⟩] }

/-- A group surface with the single unwritten control 1 holding `{0, 0, LINEAR}`. -/
def zeroSurface : Surface :=
  { isRoot := false
    nodes := [⟨.custom true, 10,
      [{ numberControl 1 [] with value := ⟨.ofNat 0, .ofNat 0, FormType.LINEAR⟩ }]⟩] }

end SurfaceMir

namespace MaximCodegen

/-! ## `MaximContext::callOperator` (`src/compiler/codegen/MaximContext.cpp`) -/

/-- A `SourcePos`: line and column. -/
structure SourcePos where
  line : Int
  column : Int
  deriving DecidableEq

/-- A `MaximCommon::CompileError`: the message and the span it carries. -/
structure CompileError where
  message : String
  start : SourcePos
  finish : SourcePos
  deriving DecidableEq

/-- The operator kinds `setLibModule` registers (lines 232-268). -/
inductive OperatorType
  | ADD
  | SUBTRACT
  | MULTIPLY
  | DIVIDE
  | MODULO
  | POWER
  | BITWISE_AND
  | BITWISE_OR
  | BITWISE_XOR
  | LOGICAL_AND
  | LOGICAL_OR
  | LOGICAL_EQUAL
  | LOGICAL_NOT_EQUAL
  | LOGICAL_GT
  | LOGICAL_LT
  | LOGICAL_GTE
  | LOGICAL_LTE
  deriving DecidableEq

/-- What `callOperator` uses of the classes `Value` and `Tuple`, whose headers
are not among the sources, over the values `V` and the types `T` (a `Type *`):
`Value::type()`, the cast `dynamic_cast<Tuple *>` together with the elements
`atIndex(0)`, ..., `atIndex(size - 1)` of a tuple (`size` is
`type()->types().size()`), and `Tuple::create`. -/
structure ValueModel (V T : Type) where
  type : V → T
  asTuple : V → Option (List V)
  createTuple : List V → V

/-- An `Operator`: its key `type()`, `leftType()`, `rightType()` and its
`call` on two operands, which returns a value or throws. -/
structure Operator (V T : Type) where
  type : OperatorType
  leftType : T
  rightType : T
  call : V → V → SourcePos → SourcePos → Except CompileError V

/-- The part of `MaximContext` the operator lookup reads: `operatorMap`, as the
list of the operators it holds, each under the key made of its three fields. -/
structure MaximContext (V T : Type) where
  operatorMap : List (Operator V T)

/-- The function `MaximContext::getOperator` (lines 308-313). -/
def MaximContext.getOperator {V T : Type} [DecidableEq T] (ctx : MaximContext V T)
    (type : OperatorType) (leftType rightType : T) : Option (Operator V T) :=
  ctx.operatorMap.find? (fun op =>
    decide (op.type = type) && decide (op.leftType = leftType) &&
      decide (op.rightType = rightType))

/-- The function `MaximContext::registerOperator` (lines 289-292):
`operatorMap.emplace` keeps an operator already stored under the key. -/
def MaximContext.registerOperator {V T : Type} [DecidableEq T] (ctx : MaximContext V T)
    (op : Operator V T) : MaximContext V T :=
  match ctx.getOperator op.type op.leftType op.rightType with
  | some _ => ctx
  | none => { operatorMap := ctx.operatorMap ++ [op] }

/-- The function `MaximContext::alwaysGetOperator` (lines 461-470). -/
def MaximContext.alwaysGetOperator {V T : Type} [DecidableEq T] (ctx : MaximContext V T)
    (type : OperatorType) (leftType rightType : T) (startPos endPos : SourcePos) :
    Except CompileError (Operator V T) :=
  match ctx.getOperator type leftType rightType with
  | none =>
    .error ⟨"WHAT IS THIS??!?! This operator doesn't work on these types of values.",
      startPos, endPos⟩
  | some op => .ok op

/-- One application of an element operator: the operator and its two operands. -/
structure Application (V T : Type) where
  op : Operator V T
  left : V
  right : V

/-- The message of the error of lines 330-334; `verb` is
`MaximCommon::operatorType2Verb(type)`. -/
def arityMessage (verb : String) (leftSize rightSize : Nat) : String :=
  "OOOOOOOOOOOOOOOOOOOOOOYYYYYY!!!!1! You're trying to " ++ verb ++ " " ++
    toString leftSize ++ " values to " ++ toString rightSize ++ " ones!"

/-- The loops of lines 337-342, 350-354 and 362-366 over the operand pairs, in
index order: the operator is looked up for the types of the pair and applied,
the results are collected; the first throw ends the loop. The second component
lists the applications made. -/
def callEach {V T : Type} [DecidableEq T] (vm : ValueModel V T) (ctx : MaximContext V T)
    (type : OperatorType) (startPos endPos : SourcePos) :
    List (V × V) → Except CompileError (List V) × List (Application V T)
  | [] => (.ok [], [])
  | (leftVal, rightVal) :: rest =>
    match ctx.alwaysGetOperator type (vm.type leftVal) (vm.type rightVal) startPos endPos with
    | .error e => (.error e, [])
    | .ok op =>
      match op.call leftVal rightVal startPos endPos with
      | .error e => (.error e, [⟨op, leftVal, rightVal⟩])
      | .ok v =>
        match callEach vm ctx type startPos endPos rest with
        | (.error e, applied) => (.error e, ⟨op, leftVal, rightVal⟩ :: applied)
        | (.ok vs, applied) => (.ok (v :: vs), ⟨op, leftVal, rightVal⟩ :: applied)

/-- The call `Tuple::create` on the collected results. -/
def tupleOf {V T : Type} (vm : ValueModel V T)
    (r : Except CompileError (List V) × List (Application V T)) :
    Except CompileError V × List (Application V T) :=
  match r with
  | (.error e, applied) => (.error e, applied)
  | (.ok vs, applied) => (.ok (vm.createTuple vs), applied)

/-- The function `MaximContext::callOperator` (lines 315-374); the function
`operatorType2Verb` of `MaximCommon`, which is not among the sources, is a
parameter. The result is the returned value or the thrown error, and the list of
the element operators applied on the way. -/
def MaximContext.callOperator {V T : Type} [DecidableEq T] (vm : ValueModel V T)
    (operatorType2Verb : OperatorType → String) (ctx : MaximContext V T)
    (type : OperatorType) (leftVal rightVal : V) (startPos endPos : SourcePos) :
    Except CompileError V × List (Application V T) :=
  match vm.asTuple leftVal, vm.asTuple rightVal with
  | some leftItems, some rightItems =>
    if leftItems.length ≠ rightItems.length then
      (.error ⟨arityMessage (operatorType2Verb type) leftItems.length rightItems.length,
        startPos, endPos⟩, [])
    else
      tupleOf vm (callEach vm ctx type startPos endPos (leftItems.zip rightItems))
  | some leftItems, none =>
    tupleOf vm (callEach vm ctx type startPos endPos
      (leftItems.map (fun leftTupleVal => (leftTupleVal, rightVal))))
  | none, some rightItems =>
    tupleOf vm (callEach vm ctx type startPos endPos
      (rightItems.map (fun rightTupleVal => (leftVal, rightTupleVal))))
  | none, none =>
    match ctx.alwaysGetOperator type (vm.type leftVal) (vm.type rightVal) startPos endPos with
    | .error e => (.error e, [])
    | .ok op => (op.call leftVal rightVal startPos endPos, [⟨op, leftVal, rightVal⟩])

/-! ## An example context -/

/-- Example values: integers and tuples. -/
inductive SampleValue
  | num (n : Int)
  | tuple (items : List SampleValue)

/-- The value model of the example values; the type of a value is `false` for
a number and `true` for a tuple. -/
def sampleModel : ValueModel SampleValue Bool :=
  { type := fun v =>
      match v with
      | .num _ => false
      | .tuple _ => true
    asTuple := fun v =>
      match v with
      | .num _ => none
      | .tuple items => some items
    createTuple := fun items => .tuple items }

/-- The example operator: addition of two numbers. -/
def sampleAdd : Operator SampleValue Bool :=
  { type := .ADD
    leftType := false
    rightType := false
    call := fun l r startPos endPos =>
      match l, r with
      | .num a, .num b => .ok (.num (a + b))
      | _, _ => .error ⟨"not a number", startPos, endPos⟩ }

/-- The example context: `sampleAdd` registered in an empty context. -/
def sampleContext : MaximContext SampleValue Bool :=
  (MaximContext.mk []).registerOperator sampleAdd

/-- The example verbs: `add` for every operator. -/
def sampleVerb : OperatorType → String := fun _ => "add"

end MaximCodegen

namespace ExpressionGenerator

open MaximCodegen (SourcePos)

/-! ## `ExpressionGenerator::generateAssign` (`src/compiler/codegen/ExpressionGenerator.cpp`) -/

/-- A `CodegenError`: the message and the span it carries. -/
structure CodegenError where
  message : String
  start : SourcePos
  finish : SourcePos
  deriving DecidableEq

/-- The enumeration `MaximAst::AssignExpression::Type`, as `generateSingleAssign`
names its members. -/
inductive AssignType
  | ASSIGN
  | ADD
  | SUBTRACT
  | MULTIPLY
  | DIVIDE
  | MODULO
  | POWER
  deriving DecidableEq

/-- What an `llvm::Value` of the generated code stands for, by the kind
`Context::llToValue` tells apart: a number (its vector of lanes, of type `Vec`,
and its form), a MIDI event, or a tuple of such values. -/
inductive LLValue (Vec : Type)
  | num (vec : Vec) (form : Nat)
  | midi (event : Nat)
  | tuple (items : List (LLValue Vec))

/-- A `Value` of the generator: `isConst()` and `value()`; it is a `NumValue`,
a `MidiValue` or a `TupleValue` after the kind of its `llvm::Value`. -/
structure Value (Vec : Type) where
  isConst : Bool
  value : LLValue Vec

/-- The `Scope`: the variables, read by `findValue` and bound by `setValue`, and
the controls of the node, kept in a store of type `Controls`. -/
structure Scope (Vec Controls : Type) where
  values : List (String × Value Vec)
  controls : Controls

/-- The call `scope->findValue(name)`. -/
def Scope.findValue {Vec Controls : Type} (scope : Scope Vec Controls) (name : String) :
    Option (Value Vec) :=
  scope.values.lookup name

/-- The call `scope->setValue(name, value)`: the variable is bound anew. -/
def Scope.setValue {Vec Controls : Type} (scope : Scope Vec Controls) (name : String)
    (value : Value Vec) : Scope Vec Controls :=
  { scope with values := (name, value) :: scope.values.filter (fun p => p.1 != name) }

/-- An `AssignableExpression`: a `VariableExpression` or a `ControlExpression`
(its name, control type and property), with its span. -/
inductive Assignable
  | variable (name : String) (startPos endPos : SourcePos)
  | control (name : String) (type : Nat) (prop : String) (startPos endPos : SourcePos)
  deriving DecidableEq

/-- The span of an assignable expression. -/
def Assignable.span : Assignable → SourcePos × SourcePos
  | .variable _ s e => (s, e)
  | .control _ _ _ s e => (s, e)

/-- An `AssignExpression`: the targets `left->assignments`, the operator, the
right-hand expression (of the expression type `Expr`) and the span. -/
structure AssignExpression (Expr : Type) where
  left : List Assignable
  type : AssignType
  right : Expr
  startPos : SourcePos
  endPos : SourcePos

/-- What the assignment code uses and the sources do not hold, or reaches
through the recursion of `generateExpr`:
* `generateExpr`, the generator on the right-hand expression, which returns a
  value or throws and may change the scope on the way;
* `span`, the `startPos` and `endPos` of an expression;
* `checkPtrTypeError`, the error `Context::checkPtrType` throws for a value
  that is not a number;
* `fadd`, ..., `frem`, the vectors the instructions `CreateFAdd`, ..., `CreateFRem`
  compute, and `uninitialized`, the vector a pointer that was never assigned
  stands for;
* `readProperty`, for `scope->getControl(name, type)` followed by
  `setMode(INPUT)` and `getProperty(prop)`, and `writeProperty`, for
  `scope->getControl(name, type)` followed by `setMode(OUTPUT)` and
  `setProperty(prop, value)`. -/
structure Env (Vec Controls Expr : Type) where
  generateExpr : Expr → Scope Vec Controls → Except CodegenError (Value Vec) × Scope Vec Controls
  span : Expr → SourcePos × SourcePos
  checkPtrTypeError : LLValue Vec → SourcePos → SourcePos → CodegenError
  fadd : Vec → Vec → Vec
  fsub : Vec → Vec → Vec
  fmul : Vec → Vec → Vec
  fdiv : Vec → Vec → Vec
  frem : Vec → Vec → Vec
  uninitialized : Vec
  readProperty : Controls → String → Nat → String → Controls × Option (Value Vec)
  writeProperty : Controls → String → Nat → String → Value Vec → Controls × Bool

/-- The function `generateVariable` (lines 165-173). -/
def generateVariable {Vec Controls : Type} (name : String) (startPos endPos : SourcePos)
    (scope : Scope Vec Controls) : Except CodegenError (Value Vec) × Scope Vec Controls :=
  match scope.findValue name with
  | none =>
    (.error ⟨"Ah hekkers mah dude! This variable hasn't been set yet!", startPos, endPos⟩,
      scope)
  | some val => (.ok val, scope)

/-- The function `generateControl` (lines 150-163). -/
def generateControl {Vec Controls Expr : Type} (env : Env Vec Controls Expr) (name : String)
    (type : Nat) (prop : String) (startPos endPos : SourcePos) (scope : Scope Vec Controls) :
    Except CodegenError (Value Vec) × Scope Vec Controls :=
  match env.readProperty scope.controls name type prop with
  | (controls, none) =>
    (.error ⟨"My longest ye boi ever: before you tried to read the " ++ prop ++
        " property which doesn't freakin exist!", startPos, endPos⟩,
      { scope with controls := controls })
  | (controls, some val) => (.ok val, { scope with controls := controls })

/-- The dispatch of `generateExpr` (lines 39-40) on an assignable expression. -/
def generateAssignable {Vec Controls Expr : Type} (env : Env Vec Controls Expr)
    (leftExpr : Assignable) (scope : Scope Vec Controls) :
    Except CodegenError (Value Vec) × Scope Vec Controls :=
  match leftExpr with
  | .variable name s e => generateVariable name s e scope
  | .control name type prop s e => generateControl env name type prop s e scope

/-- The function `generateVariableAssign` (lines 449-452). -/
def generateVariableAssign {Vec Controls : Type} (name : String) (rightValue : Value Vec)
    (scope : Scope Vec Controls) : Except CodegenError Unit × Scope Vec Controls :=
  (.ok (), scope.setValue name rightValue)

/-- The function `generateControlAssign` (lines 454-464). -/
def generateControlAssign {Vec Controls Expr : Type} (env : Env Vec Controls Expr)
    (name : String) (type : Nat) (prop : String) (startPos endPos : SourcePos)
    (rightValue : Value Vec) (scope : Scope Vec Controls) :
    Except CodegenError Unit × Scope Vec Controls :=
  match env.writeProperty scope.controls name type prop rightValue with
  | (controls, true) => (.ok (), { scope with controls := controls })
  | (controls, false) =>
    (.error ⟨"A wise man once said, you can't bake your cake and eat it too. " ++
        "On a completely unrelated topic, " ++ prop ++ " ISN\"T A VALID PROPERTY HERE!! D:",
        startPos, endPos⟩,
      { scope with controls := controls })

/-- The function `generateBasicAssign` (lines 438-447). -/
def generateBasicAssign {Vec Controls Expr : Type} (env : Env Vec Controls Expr)
    (leftExpr : Assignable) (rightValue : Value Vec) (scope : Scope Vec Controls) :
    Except CodegenError Unit × Scope Vec Controls :=
  match leftExpr with
  | .variable name _ _ => generateVariableAssign name rightValue scope
  | .control name type prop s e => generateControlAssign env name type prop s e rightValue scope

/-- The `switch` of lines 407-428: the vector of the combined value; no case
assigns `newRight` for `POWER`. -/
def combine {Vec Controls Expr : Type} (env : Env Vec Controls Expr) (type : AssignType)
    (leftVal rightVal : Vec) : Vec :=
  match type with
  | .ADD => env.fadd leftVal rightVal
  | .SUBTRACT => env.fsub leftVal rightVal
  | .MULTIPLY => env.fmul leftVal rightVal
  | .DIVIDE => env.fdiv leftVal rightVal
  | .MODULO => env.frem leftVal rightVal
  | .POWER => env.uninitialized
  | .ASSIGN => env.uninitialized

/-- The function `generateSingleAssign` (lines 385-436). -/
def generateSingleAssign {Vec Controls Expr : Type} (env : Env Vec Controls Expr)
    (leftExpr : Assignable) (rightValue : Value Vec) (type : AssignType)
    (rightStart rightEnd : SourcePos) (scope : Scope Vec Controls) :
    Except CodegenError Unit × Scope Vec Controls :=
  if type = .ASSIGN then generateBasicAssign env leftExpr rightValue scope
  else
    match generateAssignable env leftExpr scope with
    | (.error e, scope1) => (.error e, scope1)
    | (.ok leftValue, scope1) =>
      match leftValue.value with
      | .num leftVal leftForm =>
        match rightValue.value with
        | .num rightVal _ =>
          generateBasicAssign env leftExpr
            ⟨leftValue.isConst && rightValue.isConst,
              .num (combine env type leftVal rightVal) leftForm⟩ scope1
        | other => (.error (env.checkPtrTypeError other rightStart rightEnd), scope1)
      | other =>
        (.error (env.checkPtrTypeError other leftExpr.span.1 leftExpr.span.2), scope1)

/-- The loops of lines 362-370 and 373-376: the targets are assigned in order,
each from the value paired with it; the first throw ends the loop. -/
def assignEach {Vec Controls Expr : Type} (env : Env Vec Controls Expr) (type : AssignType)
    (rightStart rightEnd : SourcePos) :
    List (Assignable × Value Vec) → Scope Vec Controls →
      Except CodegenError Unit × Scope Vec Controls
  | [], scope => (.ok (), scope)
  | (leftAssignable, rightValue) :: rest, scope =>
    match generateSingleAssign env leftAssignable rightValue type rightStart rightEnd scope with
    | (.error e, scope1) => (.error e, scope1)
    | (.ok _, scope1) => assignEach env type rightStart rightEnd rest scope1

/-- The message of the error of lines 355-359. -/
def assignArityMessage (leftSize rightSize : Nat) : String :=
  "OOOOOOOOOOOOOOOOOOOOOOYYYYYY!!!!1! You're trying to assign " ++ toString rightSize ++
    " values to " ++ toString leftSize ++ " ones!"

/-- The function `generateAssign` (lines 344-383): the right-hand side is
generated; a tuple on both sides is assigned item by item (`llToValue` gives the
item the constant flag of the tuple), a single value is assigned to every
target, or to the only one. The result is the right-hand value or the thrown
error, and the scope as the call leaves it. -/
def generateAssign {Vec Controls Expr : Type} (env : Env Vec Controls Expr)
    (expr : AssignExpression Expr) (scope : Scope Vec Controls) :
    Except CodegenError (Value Vec) × Scope Vec Controls :=
  match env.generateExpr expr.right scope with
  | (.error e, scope1) => (.error e, scope1)
  | (.ok rightExpr, scope1) =>
    let rightStart := (env.span expr.right).1
    let rightEnd := (env.span expr.right).2
    let assigned : Except CodegenError Unit × Scope Vec Controls :=
      if expr.left.length > 1 then
        match rightExpr.value with
        | .tuple items =>
          if expr.left.length ≠ items.length then
            (.error ⟨assignArityMessage expr.left.length items.length,
              expr.startPos, expr.endPos⟩, scope1)
          else
            assignEach env expr.type rightStart rightEnd
              (expr.left.zip (items.map (fun item => ⟨rightExpr.isConst, item⟩))) scope1
        | _ =>
          assignEach env expr.type rightStart rightEnd
            (expr.left.map (fun assignment => (assignment, rightExpr))) scope1
      else
        match expr.left with
        | first :: _ =>
          generateSingleAssign env first rightExpr expr.type rightStart rightEnd scope1
        | [] => (.ok (), scope1)
    match assigned with
    | (.error e, scope2) => (.error e, scope2)
    | (.ok _, scope2) => (.ok rightExpr, scope2)

/-! ## An example assignment -/

/-- An example environment: vectors are integers, expressions are values that
generate themselves, and the node has no control property. -/
def sampleEnv : Env Int Unit (Value Int) :=
  { generateExpr := fun e scope => (.ok e, scope)
    span := fun _ => (⟨0, 0⟩, ⟨0, 1⟩)
    checkPtrTypeError := fun _ s e => ⟨"not a number", s, e⟩
    fadd := fun a b => a + b
    fsub := fun a b => a - b
    fmul := fun a b => a * b
    fdiv := fun a b => a / b
    frem := fun a b => a % b
    uninitialized := 0
    readProperty := fun c _ _ _ => (c, none)
    writeProperty := fun c _ _ _ _ => (c, false) }

/-- The assignment `(a, b) = (1, 2)`. -/
def sampleAssign : AssignExpression (Value Int) :=
  { left := [.variable "a" ⟨0, 0⟩ ⟨0, 1⟩, .variable "b" ⟨0, 3⟩ ⟨0, 4⟩]
    type := .ASSIGN
    right := ⟨true, .tuple [.num 1 0, .num 2 0]⟩
    startPos := ⟨0, 0⟩
    endPos := ⟨0, 12⟩ }

/-- A scope without variables. -/
def emptyScope : Scope Int Unit := ⟨[], ()⟩

end ExpressionGenerator

namespace Builder

/-! ## The LLVM instructions the code generators emit

A number is a vector of two floating-point lanes, of LLVM type `<2 x float>`.
The floating-point type and what the instructions compute on one lane are
parameters; a vector instruction acts on the two lanes separately. -/

/-- The predicates of `fcmp` the generators use: the ordered comparisons. -/
inductive Predicate
  | FCMP_OEQ
  | FCMP_ONE
  | FCMP_OGT
  | FCMP_OLT
  | FCMP_OGE
  | FCMP_OLE
  deriving DecidableEq

/-- What the LLVM instructions compute on one lane of type `F`: the five
arithmetic instructions, the intrinsic `llvm.pow`, the float `ofInt n` holding
the integer `n` (the value of `sitofp` and `uitofp` on the integer `n` and of the
constants `getConstantFloat(n)` and `constFloat(n)`), the integers `fptosi` and
`fptoui` convert a float to, and what an ordered comparison is made of: whether
a float is a NaN, and the equality `feq` and the order `flt` of two floats that
are not. -/
structure FloatOps (F : Type) where
  fadd : F → F → F
  fsub : F → F → F
  fmul : F → F → F
  fdiv : F → F → F
  frem : F → F → F
  pow : F → F → F
  ofInt : Int → F
  fptosi : F → Int
  fptoui : F → Int
  isNaN : F → Bool
  feq : F → F → Bool
  flt : F → F → Bool

/-- The instruction `fcmp` with an ordered predicate on one lane, as the LLVM
reference defines it: false when an operand is a NaN, and the comparison the
predicate names otherwise. -/
def FloatOps.fcmp {F : Type} (ops : FloatOps F) (p : Predicate) (a b : F) : Bool :=
  !ops.isNaN a && !ops.isNaN b &&
    match p with
    | .FCMP_OEQ => ops.feq a b
    | .FCMP_ONE => !ops.feq a b
    | .FCMP_OGT => ops.flt b a
    | .FCMP_OLT => ops.flt a b
    | .FCMP_OGE => ops.flt b a || ops.feq a b
    | .FCMP_OLE => ops.flt a b || ops.feq a b

/-- The members of `llvm::Instruction::BinaryOps` the integer and the logical
operators are created with. -/
inductive BinaryOps
  | And
  | Or
  | Xor
  deriving DecidableEq

/-- An operand of a floating-point instruction with its LLVM type: a vector of
type `<2 x float>`, or a scalar of type `float`. -/
inductive Operand (F : Type)
  | vector (lanes : F × F)
  | scalar (x : F)

/-- The operand as the second operand of `fadd`, `fsub`, `fmul` or `fcmp` whose
first operand has the type `<2 x float>`: LLVM takes two operands of one and the
same type (the builder asserts it and the verifier rejects the instruction
otherwise), so only a vector gives lanes to operate with; `none` is the
instruction that is not well typed, which has no value. -/
def Operand.lanes {F : Type} : Operand F → Option (F × F)
  | .vector v => some v
  | .scalar _ => none

/-- A value of an integer type of one bit with its LLVM type: a scalar of type
`i1`, or a vector of type `<2 x i1>`. -/
inductive Bits
  | bit (b : Bool)
  | lanes (v : Bool × Bool)
  deriving DecidableEq

/-- The instruction `CreateAnd` on two such values: on two scalars and, lane by
lane, on two vectors; `none` is the instruction on a scalar and a vector, which
is not well typed and has no value. -/
def CreateAndBits : Bits → Bits → Option Bits
  | .bit a, .bit b => some (.bit (a && b))
  | .lanes a, .lanes b => some (.lanes (a.1 && b.1, a.2 && b.2))
  | _, _ => none

/-- The instruction `fadd` on two vectors. -/
def CreateFAdd {F : Type} (ops : FloatOps F) (a b : F × F) : F × F :=
  (ops.fadd a.1 b.1, ops.fadd a.2 b.2)

/-- The instruction `fsub` on two vectors. -/
def CreateFSub {F : Type} (ops : FloatOps F) (a b : F × F) : F × F :=
  (ops.fsub a.1 b.1, ops.fsub a.2 b.2)

/-- The instruction `fmul` on two vectors. -/
def CreateFMul {F : Type} (ops : FloatOps F) (a b : F × F) : F × F :=
  (ops.fmul a.1 b.1, ops.fmul a.2 b.2)

/-- The instruction `fdiv` on two vectors. -/
def CreateFDiv {F : Type} (ops : FloatOps F) (a b : F × F) : F × F :=
  (ops.fdiv a.1 b.1, ops.fdiv a.2 b.2)

/-- The instruction `frem` on two vectors. -/
def CreateFRem {F : Type} (ops : FloatOps F) (a b : F × F) : F × F :=
  (ops.frem a.1 b.1, ops.frem a.2 b.2)

/-- The instruction `fptosi` from `<2 x float>` to `<2 x i32>`; an `i32` is kept
as the integer it stands for (signed after `fptosi`, unsigned after `fptoui`),
which the bitwise instructions on two's complement integers respect. -/
def CreateFPToSI {F : Type} (ops : FloatOps F) (a : F × F) : Int × Int :=
  (ops.fptosi a.1, ops.fptosi a.2)

/-- The instruction `fptoui` from `<2 x float>` to `<2 x i32>`. -/
def CreateFPToUI {F : Type} (ops : FloatOps F) (a : F × F) : Int × Int :=
  (ops.fptoui a.1, ops.fptoui a.2)

/-- The instruction `sitofp` from `<2 x i32>` to `<2 x float>`, on the signed
integers the lanes stand for. -/
def CreateSIToFP {F : Type} (ops : FloatOps F) (a : Int × Int) : F × F :=
  (ops.ofInt a.1, ops.ofInt a.2)

/-- The instruction `uitofp` from `<2 x i32>` to `<2 x float>`, on the unsigned
integers the lanes stand for. -/
def CreateUIToFP {F : Type} (ops : FloatOps F) (a : Int × Int) : F × F :=
  (ops.ofInt a.1, ops.ofInt a.2)

/-- A bitwise instruction on two integers (in two's complement). -/
def intBinOp (op : BinaryOps) (x y : Int) : Int :=
  match op with
  | .And => Int.land x y
  | .Or => Int.lor x y
  | .Xor => Int.xor x y

/-- The instruction `CreateBinOp`, `CreateAnd`, `CreateOr` or `CreateXor` on two
vectors of type `<2 x i32>`. -/
def CreateBinOp (op : BinaryOps) (a b : Int × Int) : Int × Int :=
  (intBinOp op a.1 b.1, intBinOp op a.2 b.2)

/-- A bitwise instruction on two values of type `i1`. -/
def boolBinOp (op : BinaryOps) (x y : Bool) : Bool :=
  match op with
  | .And => x && y
  | .Or => x || y
  | .Xor => xor x y

/-- The instruction `CreateBinOp`, `CreateAnd` or `CreateOr` on two vectors of
type `<2 x i1>`. -/
def CreateBinOpI1 (op : BinaryOps) (a b : Bool × Bool) : Bool × Bool :=
  (boolBinOp op a.1 b.1, boolBinOp op a.2 b.2)

/-- The instruction `fcmp` on two vectors: a vector of type `<2 x i1>`. -/
def CreateFCmp {F : Type} (ops : FloatOps F) (p : Predicate) (a b : F × F) : Bool × Bool :=
  (ops.fcmp p a.1 b.1, ops.fcmp p a.2 b.2)

/-- The instruction `sitofp` on a vector of type `<2 x i1>`: it reads a lane as
a signed integer, and the one-bit integer `true` is `-1` as a signed integer. -/
def CreateSIToFPI1 {F : Type} (ops : FloatOps F) (a : Bool × Bool) : F × F :=
  (ops.ofInt (if a.1 then -1 else 0), ops.ofInt (if a.2 then -1 else 0))

/-- The instruction `uitofp` on a vector of type `<2 x i1>`: it reads a lane as
an unsigned integer, and `true` is `1`. -/
def CreateUIToFPI1 {F : Type} (ops : FloatOps F) (a : Bool × Bool) : F × F :=
  (ops.ofInt (if a.1 then 1 else 0), ops.ofInt (if a.2 then 1 else 0))

/-- An example of lane operations: the lanes are integers, standing for the
floats that hold them exactly; division and remainder are those of the integers
(rounded towards zero), and no lane is a NaN. -/
def sampleOps : FloatOps Int :=
  { fadd := fun a b => a + b
    fsub := fun a b => a - b
    fmul := fun a b => a * b
    fdiv := fun a b => Int.tdiv a b
    frem := fun a b => Int.tmod a b
    pow := fun a b => a ^ b.toNat
    ofInt := fun n => n
    fptosi := fun a => a
    fptoui := fun a => a
    isNaN := fun _ => false
    feq := fun a b => a == b
    flt := fun a b => decide (a < b) }

/-- The lane operation of two integers on lanes that may be a NaN: a NaN operand
gives a NaN. -/
def nanLift (f : Int → Int → Int) : Option Int → Option Int → Option Int
  | some a, some b => some (f a b)
  | _, _ => none

/-- An example of lane operations with a NaN: a lane is `none`, the NaN, or an
integer, standing for the float that holds it exactly; in this example the
conversion to an integer reads a NaN as 0. -/
def nanOps : FloatOps (Option Int) :=
  { fadd := nanLift (fun a b => a + b)
    fsub := nanLift (fun a b => a - b)
    fmul := nanLift (fun a b => a * b)
    fdiv := nanLift Int.tdiv
    frem := nanLift Int.tmod
    pow := nanLift (fun a b => a ^ b.toNat)
    ofInt := fun n => some n
    fptosi := fun a => a.getD 0
    fptoui := fun a => a.getD 0
    isNaN := fun a => a.isNone
    feq := fun a b => a == b
    flt := fun a b =>
      match a, b with
      | some x, some y => decide (x < y)
      | _, _ => false }

end Builder

namespace MaximCodegen

open Builder

/-! ## Function overloads (`MaximContext::getFunction`, lines 376-387) -/

/-- What the lookup uses of a `Function`: `name()` and `acceptsParameters`. -/
structure Function (T : Type) where
  name : String
  acceptsParameters : List T → Bool

/-- The member `functionMap`: the overloads registered under a name, in the
order of their registration. -/
abbrev FunctionMap (T : Type) := List (String × List (Function T))

/-- The function `MaximContext::getOrCreateFunctionList` (lines 444-451): an
absent name gets an empty list. -/
def getOrCreateFunctionList {T : Type} (functionMap : FunctionMap T) (name : String) :
    FunctionMap T :=
  match functionMap.lookup name with
  | none => functionMap ++ [(name, [])]
  | some _ => functionMap

/-- The call `push_back(func)` on the list stored under `name`. -/
def pushBack {T : Type} (functionMap : FunctionMap T) (name : String) (func : Function T) :
    FunctionMap T :=
  functionMap.map (fun p => if p.1 = name then (p.1, p.2 ++ [func]) else p)

/-- The function `MaximContext::registerFunction` (lines 294-297). -/
def registerFunction {T : Type} (functionMap : FunctionMap T) (func : Function T) :
    FunctionMap T :=
  pushBack (getOrCreateFunctionList functionMap func.name) func.name func

/-- The function `MaximContext::getFunction` (lines 376-387). -/
def getFunction {T : Type} (functionMap : FunctionMap T) (name : String) (types : List T) :
    Option (Function T) :=
  match functionMap.lookup name with
  | none => none
  | some [] => none
  | some (first :: rest) =>
    match (first :: rest).find? (fun func => func.acceptsParameters types) with
    | some func => some func
    | none => some first

/-! ## Converters (`MaximContext::callConverter`, lines 407-420) -/

/-- What the lookup uses of a `Converter` on the numbers `N`: `toType()`, the
form it converts to, and `call`, which returns a number or throws. -/
structure Converter (N : Type) where
  toType : Nat
  call : N → SourcePos → SourcePos → Except CompileError N

/-- The function `MaximContext::getConverter` (lines 407-411) on the member
`converterMap`, kept as the list of the converters it holds, each under the key
`toType()`. -/
def getConverter {N : Type} (converterMap : List (Converter N)) (destType : Nat) :
    Option (Converter N) :=
  converterMap.find? (fun con => con.toType == destType)

/-- The function `MaximContext::registerConverter` (lines 299-302):
`converterMap.emplace` keeps a converter already stored under the key. -/
def registerConverter {N : Type} (converterMap : List (Converter N)) (con : Converter N) :
    List (Converter N) :=
  match getConverter converterMap con.toType with
  | some _ => converterMap
  | none => converterMap ++ [con]

/-- The function `MaximContext::callConverter` (lines 413-420); `none` is the
failed `assert(con)`. -/
def callConverter {N : Type} (converterMap : List (Converter N)) (destType : Nat) (value : N)
    (startPos endPos : SourcePos) : Option (Except CompileError N) :=
  match getConverter converterMap destType with
  | none => none
  | some con => some (con.call value startPos endPos)

/-! ## Operators on numbers (`NumIntOperator.cpp`, `NumLogicalOperator.cpp`) -/

/-- Modelled from the spec: the enumeration `ActiveMode` (declared in
`NumOperator.h`, not among the sources), the operator-specific rule that
combines the active flags of the operands. -/
inductive ActiveMode
  | ANY_INPUT
  | ALL_INPUTS
  | FIRST_INPUT
  deriving DecidableEq

/-- What the operators read and write of a `Num`: `vec`, the two lanes, `form`
(the integer value of its enumerator) and `active`, the one boolean flag of the
number (`Num.h` is not among the sources; the flag is the boolean of the data
model of the spec, a value of type `i1`). -/
structure Num (F : Type) where
  vec : F × F
  form : Nat
  active : Bool
  deriving DecidableEq

/-- Modelled from the spec: the function `NumOperator::getActive`
(`NumOperator.cpp` is not among the sources). With `ANY_INPUT` the result is
active if either operand is active, with `ALL_INPUTS` only if all operands are
active, and with `FIRST_INPUT` it mirrors the first operand. -/
def getActive {F : Type} (activeMode : ActiveMode) (numLeft numRight : Num F) : Bool :=
  match activeMode with
  | .ANY_INPUT => numLeft.active || numRight.active
  | .ALL_INPUTS => numLeft.active && numRight.active
  | .FIRST_INPUT => numLeft.active

/-- A `NumIntOperator`: the arguments of its constructor (lines 9-12). -/
structure NumIntOperator where
  type : OperatorType
  activeMode : ActiveMode
  op : BinaryOps
  isSigned : Bool
  deriving DecidableEq

/-- The function `NumIntOperator::call` (lines 20-44). -/
def NumIntOperator.call {F : Type} (ops : FloatOps F) (o : NumIntOperator)
    (numLeft numRight : Num F) : Num F :=
  let operatedInt :=
    CreateBinOp o.op
      (if o.isSigned then CreateFPToSI ops numLeft.vec else CreateFPToUI ops numLeft.vec)
      (if o.isSigned then CreateFPToSI ops numRight.vec else CreateFPToUI ops numRight.vec)
  let isActive := getActive o.activeMode numLeft numRight
  let operatedFloat :=
    if o.isSigned then CreateSIToFP ops operatedInt else CreateUIToFP ops operatedInt
  { vec := operatedFloat, form := numLeft.form, active := isActive }

/-- A `NumLogicalOperator`: the arguments of its constructor (lines 9-12). -/
structure NumLogicalOperator where
  type : OperatorType
  activeMode : ActiveMode
  op : BinaryOps
  deriving DecidableEq

/-- The `Num` that `NumLogicalOperator::call` creates and fills in (lines
34-37): the operands of `setVec`, `setForm` and `setActive`. The operand of
`setActive` is the result of the instruction of line 30, `none` when this
instruction is not well typed. -/
structure LogicalNum (F : Type) where
  vec : F × F
  form : Nat
  active : Option Bits

/-- The function `NumLogicalOperator::call` (lines 19-39). The flag that
`getActive` returns is the boolean of the number, of type `i1`, and
`operatedInt` is the vector of type `<2 x i1>` that the two `fcmp` on vectors
give: line 30 passes both to `CreateAnd`. -/
def NumLogicalOperator.call {F : Type} (ops : FloatOps F) (o : NumLogicalOperator)
    (numLeft numRight : Num F) : LogicalNum F :=
  let zeroVec := (ops.ofInt 0, ops.ofInt 0)
  let operatedInt :=
    CreateBinOpI1 o.op
      (CreateFCmp ops .FCMP_ONE numLeft.vec zeroVec)
      (CreateFCmp ops .FCMP_ONE numRight.vec zeroVec)
  let isActive :=
    CreateAndBits (.bit (getActive o.activeMode numLeft numRight)) (.lanes operatedInt)
  let operatedFloat := CreateUIToFPI1 ops operatedInt
  { vec := operatedFloat, form := numLeft.form, active := isActive }

/-- A `NumFloatOperator`: the arguments of its constructor as `setLibModule`
passes them (lines 233-242); `op` is the lane operation of the member of
`llvm::Instruction::BinaryOps` it is created with. -/
structure NumFloatOperator (F : Type) where
  type : OperatorType
  activeMode : ActiveMode
  op : FloatOps F → F → F → F

/-- Modelled from the spec: the function `NumFloatOperator::call`
(`NumFloatOperator.cpp` is not among the sources): a direct floating-lane binary
operation, the form of the result is the form of the left operand, and the
active flags are combined by the operator's mode. -/
def NumFloatOperator.call {F : Type} (ops : FloatOps F) (o : NumFloatOperator F)
    (numLeft numRight : Num F) : Num F :=
  { vec := (o.op ops numLeft.vec.1 numRight.vec.1, o.op ops numLeft.vec.2 numRight.vec.2)
    form := numLeft.form
    active := getActive o.activeMode numLeft numRight }

/-- A `NumIntrinsicOperator`: the arguments of its constructor as `setLibModule`
passes them (lines 243-244); `op` is the lane operation of the intrinsic it is
created with. -/
structure NumIntrinsicOperator (F : Type) where
  type : OperatorType
  activeMode : ActiveMode
  op : FloatOps F → F → F → F

/-- Modelled from the spec: the function `NumIntrinsicOperator::call`
(`NumIntrinsicOperator.cpp` is not among the sources): an operator returns a new
value with the active flags combined by its mode; the lanes are those of the
intrinsic, and the form is the one of the left operand. -/
def NumIntrinsicOperator.call {F : Type} (ops : FloatOps F) (o : NumIntrinsicOperator F)
    (numLeft numRight : Num F) : Num F :=
  { vec := (o.op ops numLeft.vec.1 numRight.vec.1, o.op ops numLeft.vec.2 numRight.vec.2)
    form := numLeft.form
    active := getActive o.activeMode numLeft numRight }

/-- A `NumComparisonOperator`: the arguments of its constructor as `setLibModule`
passes them (lines 251-264). -/
structure NumComparisonOperator where
  type : OperatorType
  activeMode : ActiveMode
  predicate : Predicate
  deriving DecidableEq

/-- Modelled from the spec: the function `NumComparisonOperator::call`
(`NumComparisonOperator.cpp` is not among the sources): a per-lane floating
compare with the predicate of the operator, producing a 0/1 float; the form is
the one of the left operand, and the active flags are combined by the
operator's mode. -/
def NumComparisonOperator.call {F : Type} (ops : FloatOps F) (o : NumComparisonOperator)
    (numLeft numRight : Num F) : Num F :=
  { vec := CreateUIToFPI1 ops (CreateFCmp ops o.predicate numLeft.vec numRight.vec)
    form := numLeft.form
    active := getActive o.activeMode numLeft numRight }

/-- The float operators `setLibModule` registers (lines 233-242). -/
def floatOperators (F : Type) : List (NumFloatOperator F) :=
  [⟨.ADD, .ANY_INPUT, fun ops => ops.fadd⟩,
   ⟨.SUBTRACT, .ANY_INPUT, fun ops => ops.fsub⟩,
   ⟨.MULTIPLY, .ALL_INPUTS, fun ops => ops.fmul⟩,
   ⟨.DIVIDE, .ALL_INPUTS, fun ops => ops.fdiv⟩,
   ⟨.MODULO, .ALL_INPUTS, fun ops => ops.frem⟩]

/-- The intrinsic operator `setLibModule` registers (lines 243-244). -/
def intrinsicOperators (F : Type) : List (NumIntrinsicOperator F) :=
  [⟨.POWER, .FIRST_INPUT, fun ops => ops.pow⟩]

/-- The integer operators `setLibModule` registers (lines 245-250). -/
def intOperators : List NumIntOperator :=
  [⟨.BITWISE_AND, .ANY_INPUT, .And, true⟩,
   ⟨.BITWISE_OR, .ANY_INPUT, .Or, true⟩,
   ⟨.BITWISE_XOR, .ANY_INPUT, .Xor, true⟩]

/-- The comparison operators `setLibModule` registers (lines 251-264). -/
def comparisonOperators : List NumComparisonOperator :=
  [⟨.LOGICAL_EQUAL, .ANY_INPUT, .FCMP_OEQ⟩,
   ⟨.LOGICAL_NOT_EQUAL, .ANY_INPUT, .FCMP_ONE⟩,
   ⟨.LOGICAL_GT, .ANY_INPUT, .FCMP_OGT⟩,
   ⟨.LOGICAL_LT, .ANY_INPUT, .FCMP_OLT⟩,
   ⟨.LOGICAL_GTE, .ANY_INPUT, .FCMP_OGE⟩,
   ⟨.LOGICAL_LTE, .ANY_INPUT, .FCMP_OLE⟩]

/-- The logical operators `setLibModule` registers (lines 265-268). -/
def logicalOperators : List NumLogicalOperator :=
  [⟨.LOGICAL_AND, .ALL_INPUTS, .And⟩,
   ⟨.LOGICAL_OR, .ANY_INPUT, .Or⟩]

/-- An operator on numbers that `setLibModule` registers, by its class. -/
inductive NumOperator (F : Type)
  | float (o : NumFloatOperator F)
  | intrinsic (o : NumIntrinsicOperator F)
  | int (o : NumIntOperator)
  | comparison (o : NumComparisonOperator)
  | logical (o : NumLogicalOperator)

/-- The operators on numbers in the order `setLibModule` registers them (lines
233-268). -/
def numOperators (F : Type) : List (NumOperator F) :=
  (floatOperators F).map .float ++ (intrinsicOperators F).map .intrinsic ++
    intOperators.map .int ++ comparisonOperators.map .comparison ++
    logicalOperators.map .logical

/-- The operator kind an operator is registered for. -/
def NumOperator.type {F : Type} : NumOperator F → OperatorType
  | .float o => o.type
  | .intrinsic o => o.type
  | .int o => o.type
  | .comparison o => o.type
  | .logical o => o.type

/-- The mode an operator is created with. -/
def NumOperator.activeMode {F : Type} : NumOperator F → ActiveMode
  | .float o => o.activeMode
  | .intrinsic o => o.activeMode
  | .int o => o.activeMode
  | .comparison o => o.activeMode
  | .logical o => o.activeMode

/-- Whether the operator is a `NumLogicalOperator`. -/
def NumOperator.isLogical {F : Type} : NumOperator F → Bool
  | .logical _ => true
  | _ => false

/-- The operand of `setActive` in the `call` of the operator: the flag of the
result, of type `i1`, or `none` when the instruction that computes it is not
well typed. -/
def NumOperator.resultActive {F : Type} (ops : FloatOps F) (o : NumOperator F)
    (numLeft numRight : Num F) : Option Bits :=
  match o with
  | .float o => some (.bit (o.call ops numLeft numRight).active)
  | .intrinsic o => some (.bit (o.call ops numLeft numRight).active)
  | .int o => some (.bit (o.call ops numLeft numRight).active)
  | .comparison o => some (.bit (o.call ops numLeft numRight).active)
  | .logical o => (o.call ops numLeft numRight).active

/-! ## Example registrations -/

/-- Example functions, with parameter types kept as numbers: `min` with two
parameters, the variadic `min`, and `sin` with one parameter. -/
def sampleFunctions : List (Function Nat) :=
  [⟨"min", fun types => types.length == 2⟩,
   ⟨"min", fun _ => true⟩,
   ⟨"sin", fun types => types.length == 1⟩]

/-- An example converter on integers, to the form 1: it doubles the value. -/
def sampleConverter : Converter Int :=
  ⟨1, fun value _ _ => .ok (2 * value)⟩

end MaximCodegen

namespace ExpressionGenerator

open MaximCodegen (SourcePos)
open Builder

/-! ## Math, unary and postfix expressions (`ExpressionGenerator.cpp`) -/

/-- The enumeration `MaximAst::MathExpression::Type`, as `generateFloatIntCompMath`,
`generateIntCompMath` and `generateCompareMath` name its members. -/
inductive MathType
  | ADD
  | SUBTRACT
  | MULTIPLY
  | DIVIDE
  | MODULO
  | POWER
  | BITWISE_AND
  | BITWISE_OR
  | BITWISE_XOR
  | LOGICAL_AND
  | LOGICAL_OR
  | LOGICAL_EQUAL
  | LOGICAL_NOT_EQUAL
  | LOGICAL_GT
  | LOGICAL_LT
  | LOGICAL_GTE
  | LOGICAL_LTE
  deriving DecidableEq

/-- A `MathExpression`: the operator and the two operand expressions. -/
structure MathExpression (Expr : Type) where
  type : MathType
  left : Expr
  right : Expr

/-- The enumeration `MaximAst::UnaryExpression::Type`. -/
inductive UnaryType
  | POSITIVE
  | NEGATIVE
  | NOT
  deriving DecidableEq

/-- A `UnaryExpression`: the operator and the operand expression. -/
structure UnaryExpression (Expr : Type) where
  type : UnaryType
  expr : Expr

/-- The enumeration `MaximAst::PostfixExpression::Type`. -/
inductive PostfixType
  | INCREMENT
  | DECREMENT
  deriving DecidableEq

/-- A `PostfixExpression`: the targets `left->assignments` and the operator. -/
structure PostfixExpression where
  left : List Assignable
  type : PostfixType

/-- The function `generateCompareMath` (lines 253-301); `none` is the
`assert(false)` of the `default` case. Both comparisons of `LOGICAL_AND` and of
`LOGICAL_OR` read `leftVal`. -/
def generateCompareMath {F : Type} (ops : FloatOps F) (type : MathType)
    (leftVal rightVal : F × F) : Option (F × F) :=
  let zeroVec := (ops.ofInt 0, ops.ofInt 0)
  let result : Option (Bool × Bool) :=
    match type with
    | .LOGICAL_AND =>
      some (CreateBinOpI1 .And (CreateFCmp ops .FCMP_ONE leftVal zeroVec)
        (CreateFCmp ops .FCMP_ONE leftVal zeroVec))
    | .LOGICAL_OR =>
      some (CreateBinOpI1 .Or (CreateFCmp ops .FCMP_ONE leftVal zeroVec)
        (CreateFCmp ops .FCMP_ONE leftVal zeroVec))
    | .LOGICAL_EQUAL => some (CreateFCmp ops .FCMP_OEQ leftVal rightVal)
    | .LOGICAL_NOT_EQUAL => some (CreateFCmp ops .FCMP_ONE leftVal rightVal)
    | .LOGICAL_GT => some (CreateFCmp ops .FCMP_OGT leftVal rightVal)
    | .LOGICAL_LT => some (CreateFCmp ops .FCMP_OLT leftVal rightVal)
    | .LOGICAL_GTE => some (CreateFCmp ops .FCMP_OGE leftVal rightVal)
    | .LOGICAL_LTE => some (CreateFCmp ops .FCMP_OLE leftVal rightVal)
    | _ => none
  result.map (CreateSIToFPI1 ops)

/-- The function `generateIntCompMath` (lines 226-251). -/
def generateIntCompMath {F : Type} (ops : FloatOps F) (type : MathType)
    (leftVal rightVal : F × F) : Option (F × F) :=
  let intLeft := CreateFPToSI ops leftVal
  let intRight := CreateFPToSI ops rightVal
  match type with
  | .BITWISE_AND => some (CreateSIToFP ops (CreateBinOp .And intLeft intRight))
  | .BITWISE_OR => some (CreateSIToFP ops (CreateBinOp .Or intLeft intRight))
  | .BITWISE_XOR => some (CreateSIToFP ops (CreateBinOp .Xor intLeft intRight))
  | _ => generateCompareMath ops type leftVal rightVal

/-- The function `generateFloatIntCompMath` (lines 203-224); `none` is the
`assert(false)` of the case `POWER`. -/
def generateFloatIntCompMath {F : Type} (ops : FloatOps F) (type : MathType)
    (leftVal rightVal : F × F) : Option (F × F) :=
  match type with
  | .ADD => some (CreateFAdd ops leftVal rightVal)
  | .SUBTRACT => some (CreateFSub ops leftVal rightVal)
  | .MULTIPLY => some (CreateFMul ops leftVal rightVal)
  | .DIVIDE => some (CreateFDiv ops leftVal rightVal)
  | .MODULO => some (CreateFRem ops leftVal rightVal)
  | .POWER => none
  | _ => generateIntCompMath ops type leftVal rightVal

/-- The function `generateMath` (lines 175-201): both operands are generated,
the left one first, then both are checked to be numbers; `none` is a failed
`assert`, and `evaluateConstVal` returns its argument. -/
def generateMath {F Controls Expr : Type} (ops : FloatOps F) (env : Env (F × F) Controls Expr)
    (expr : MathExpression Expr) (scope : Scope (F × F) Controls) :
    Option (Except CodegenError (Value (F × F)) × Scope (F × F) Controls) :=
  match env.generateExpr expr.left scope with
  | (.error e, scope1) => some (.error e, scope1)
  | (.ok leftExpr, scope1) =>
    match env.generateExpr expr.right scope1 with
    | (.error e, scope2) => some (.error e, scope2)
    | (.ok rightExpr, scope2) =>
      match leftExpr.value with
      | .num leftVal leftForm =>
        match rightExpr.value with
        | .num rightVal _ =>
          match generateFloatIntCompMath ops expr.type leftVal rightVal with
          | none => none
          | some newVal =>
            some (.ok ⟨leftExpr.isConst && rightExpr.isConst, .num newVal leftForm⟩, scope2)
        | other =>
          some (.error (env.checkPtrTypeError other (env.span expr.right).1
            (env.span expr.right).2), scope2)
      | other =>
        some (.error (env.checkPtrTypeError other (env.span expr.left).1
          (env.span expr.left).2), scope2)

/-- The constant `getConstantFloat(n)` as the operand of an instruction: a
scalar of type `float`. The function is declared in `Context.h`, which is not
among the sources; lines 52-53, 62-63 and 257-258 make a vector of type
`<2 x float>` out of two such constants with `llvm::ConstantVector::get`, whose
elements are scalars. -/
def getConstantFloat {F : Type} (ops : FloatOps F) (n : Int) : Operand F :=
  .scalar (ops.ofInt n)

/-- The `switch` of lines 315-333 of `generateUnary`. The operand `readVal` is
the vector loaded from the number; the second operand of `CreateFMul` and of
`CreateFCmpOEQ` is the constant `getConstantFloat(-1)` or `getConstantFloat(0)`
itself, which no line puts into a vector; `none` is an instruction that is not
well typed. -/
def unaryResult {F : Type} (ops : FloatOps F) (type : UnaryType) (readVal : F × F) :
    Option (F × F) :=
  match type with
  | .POSITIVE => some readVal
  | .NEGATIVE => (getConstantFloat ops (-1)).lanes.map (CreateFMul ops readVal)
  | .NOT =>
    (getConstantFloat ops 0).lanes.map
      (fun zero => CreateSIToFPI1 ops (CreateFCmp ops .FCMP_OEQ readVal zero))

/-- The function `generateUnary` (lines 303-342); `none` is an instruction that
is not well typed, and `evaluateConstVal` returns its argument. -/
def generateUnary {F Controls Expr : Type} (ops : FloatOps F) (env : Env (F × F) Controls Expr)
    (expr : UnaryExpression Expr) (scope : Scope (F × F) Controls) :
    Option (Except CodegenError (Value (F × F)) × Scope (F × F) Controls) :=
  match env.generateExpr expr.expr scope with
  | (.error e, scope1) => some (.error e, scope1)
  | (.ok valExpr, scope1) =>
    match valExpr.value with
    | .num readVal form =>
      match unaryResult ops expr.type readVal with
      | none => none
      | some result => some (.ok ⟨valExpr.isConst, .num result form⟩, scope1)
    | other =>
      some (.error (env.checkPtrTypeError other (env.span expr.expr).1 (env.span expr.expr).2),
        scope1)

/-- The `switch` of lines 480-495 of `generatePostfix`. The operand `leftVal` is
the vector loaded from the number; the second operand of `CreateFAdd` and of
`CreateFSub` is the constant `getConstantFloat(1)` itself, which no line puts
into a vector; `none` is an instruction that is not well typed. -/
def postfixResult {F : Type} (ops : FloatOps F) (type : PostfixType) (leftVal : F × F) :
    Option (F × F) :=
  match type with
  | .INCREMENT => (getConstantFloat ops 1).lanes.map (CreateFAdd ops leftVal)
  | .DECREMENT => (getConstantFloat ops 1).lanes.map (CreateFSub ops leftVal)

/-- The loop of lines 472-506 of `generatePostfix` over the targets: the result
is the constant flag and the collected values, or the first error thrown;
`none` is an instruction that is not well typed. -/
def postfixEach {F Controls Expr : Type} (ops : FloatOps F) (env : Env (F × F) Controls Expr)
    (type : PostfixType) :
    List Assignable → Scope (F × F) Controls →
      Option (Except CodegenError (Bool × List (LLValue (F × F))) × Scope (F × F) Controls)
  | [], scope => some (.ok (true, []), scope)
  | var :: rest, scope =>
    match generateAssignable env var scope with
    | (.error e, scope1) => some (.error e, scope1)
    | (.ok leftValue, scope1) =>
      match leftValue.value with
      | .num leftVal form =>
        match postfixResult ops type leftVal with
        | none => none
        | some newRight =>
          let rightVal : Value (F × F) := ⟨leftValue.isConst, .num newRight form⟩
          match generateBasicAssign env var rightVal scope1 with
          | (.error e, scope2) => some (.error e, scope2)
          | (.ok _, scope2) =>
            match postfixEach ops env type rest scope2 with
            | none => none
            | some (.error e, scope3) => some (.error e, scope3)
            | some (.ok (isResultConst, resultValues), scope3) =>
              some (.ok (leftValue.isConst && isResultConst, rightVal.value :: resultValues),
                scope3)
      | other => some (.error (env.checkPtrTypeError other var.span.1 var.span.2), scope1)

/-- The function `generatePostfix` (lines 466-509). -/
def generatePostfix {F Controls Expr : Type} (ops : FloatOps F)
    (env : Env (F × F) Controls Expr) (expr : PostfixExpression)
    (scope : Scope (F × F) Controls) :
    Option (Except CodegenError (Value (F × F)) × Scope (F × F) Controls) :=
  match postfixEach ops env expr.type expr.left scope with
  | none => none
  | some (.error e, scope1) => some (.error e, scope1)
  | some (.ok (isResultConst, resultValues), scope1) =>
    some (.ok ⟨isResultConst, .tuple resultValues⟩, scope1)

/-- The scope after `generateBasicAssign` of the value `v` to the target `t`: a
variable is bound anew, a control property is written. -/
def assignTarget {Vec Controls Expr : Type} (env : Env Vec Controls Expr) (v : Value Vec)
    (scope : Scope Vec Controls) (t : Assignable) : Scope Vec Controls :=
  (generateBasicAssign env t v scope).2

/-- A variable target together with the number it is bound to: its name and
span, and the constant flag, the lanes and the form of the number. -/
structure BoundVariable (F : Type) where
  name : String
  startPos : SourcePos
  endPos : SourcePos
  isConst : Bool
  vec : F × F
  form : Nat

/-- The target expression of a bound variable. -/
def BoundVariable.target {F : Type} (b : BoundVariable F) : Assignable :=
  .variable b.name b.startPos b.endPos

/-- The value a bound variable holds. -/
def BoundVariable.value {F : Type} (b : BoundVariable F) : Value (F × F) :=
  ⟨b.isConst, .num b.vec b.form⟩

/-! ## Example expressions -/

/-- An example environment on vectors of two integer lanes: expressions are
values that generate themselves, the arithmetic instructions are those of
`sampleOps`, and the node has no control property. -/
def sampleLaneEnv : Env (Int × Int) Unit (Value (Int × Int)) :=
  { generateExpr := fun e scope => (.ok e, scope)
    span := fun _ => (⟨0, 0⟩, ⟨0, 1⟩)
    checkPtrTypeError := fun _ s e => ⟨"not a number", s, e⟩
    fadd := CreateFAdd sampleOps
    fsub := CreateFSub sampleOps
    fmul := CreateFMul sampleOps
    fdiv := CreateFDiv sampleOps
    frem := CreateFRem sampleOps
    uninitialized := (0, 0)
    readProperty := fun c _ _ _ => (c, none)
    writeProperty := fun c _ _ _ _ => (c, false) }

/-- The assignment `(a, b) = 1`. -/
def sampleBroadcast : AssignExpression (Value Int) :=
  { left := [.variable "a" ⟨0, 0⟩ ⟨0, 1⟩, .variable "b" ⟨0, 3⟩ ⟨0, 4⟩]
    type := .ASSIGN
    right := ⟨true, .num 1 0⟩
    startPos := ⟨0, 0⟩
    endPos := ⟨0, 8⟩ }

/-- The assignment `(a, knob:value) = 1`, whose second target is a control
property. -/
def rejectedBroadcast : AssignExpression (Value Int) :=
  { left := [.variable "a" ⟨0, 0⟩ ⟨0, 1⟩, .control "knob" 0 "value" ⟨0, 3⟩ ⟨0, 13⟩]
    type := .ASSIGN
    right := ⟨true, .num 1 0⟩
    startPos := ⟨0, 0⟩
    endPos := ⟨0, 17⟩ }

/-- The variable `a` bound to the constant number with lanes `(2, 2)` and the
form 0, which stands for `LINEAR`. -/
def sampleVariable : BoundVariable Int :=
  ⟨"a", ⟨0, 0⟩, ⟨0, 1⟩, true, (2, 2), 0⟩

/-- A scope where `a` is bound as `sampleVariable` says. -/
def sampleScope : Scope (Int × Int) Unit :=
  ⟨[("a", sampleVariable.value)], ()⟩

/-- The expression `1 == 1` on constant numbers with equal lanes. -/
def sampleEqual : MathExpression (Value (Int × Int)) :=
  ⟨.LOGICAL_EQUAL, ⟨true, .num (1, 1) 0⟩, ⟨true, .num (1, 1) 0⟩⟩

end ExpressionGenerator

namespace SurfaceMir

/-! ## Portal members and wiring records -/

/-- The test of lines 35-36: the kind of the control is `NUM_PORTAL` or
`MIDI_PORTAL`. -/
def Control.isPortal (c : Control) : Bool :=
  c.controlType = .NUM_PORTAL || c.controlType = .MIDI_PORTAL

/-- The first portal member of a member list, as the specification words it:
the first id of the list, in list order, that is the id of a control of kind
`NUM_PORTAL` or `MIDI_PORTAL`. -/
def Surface.firstPortalMember (s : Surface) (ids : List QUuid) : Option Control :=
  ((s.findMap ids).map (fun p => p.2)).find? (fun c => c.isPortal)

/-- A portal control is the control of a portal node: no control of kind
`NUM_PORTAL` or `MIDI_PORTAL` is on a custom node whose block is not valid. -/
def Surface.PortalControlsKept (s : Surface) : Prop :=
  ∀ n ∈ s.nodes, ∀ c ∈ n.controls, c.isPortal = true → n.skipped = false

instance (s : Surface) : Decidable s.PortalControlsKept := by
  unfold Surface.PortalControlsKept
  infer_instance

/-- The value group emitted `i`-th (the `i`-th entry of `groups`, which
`addValueGroup` gives the index `i`) holds the id `u` in its member list. -/
def GroupState.emittedHolds (st : GroupState) (i : Nat) (u : QUuid) : Prop :=
  ∃ p, st.groups.get? i = some p ∧ u ∈ p.2

/-- The value socket `v` is the wiring record of the control `c`: the index of
the emitted group that holds the control, and its three flags. -/
def ControlRecord (st : GroupState) (c : Control) (v : ValueSocket) : Prop :=
  st.emittedHolds v.groupIndex c.uuid ∧ v.valueWritten = c.writtenTo ∧
    v.valueRead = c.readFrom ∧ v.isExtractor = c.isExtract

/-- The value socket `v` is the wiring record of the portal `p` of an inner
surface: the index of the emitted group that holds the first external control
of the portal, and the three flags of the portal. -/
def PortalRecord (st : GroupState) (p : GroupSurfacePortal) (v : ValueSocket) : Prop :=
  (∃ first, p.externalControls.head? = some first ∧ st.emittedHolds v.groupIndex first) ∧
    v.valueWritten = p.valueWritten ∧ v.valueRead = p.valueRead ∧
    v.isExtractor = p.isExtractor

/-- The node record `m` is the one of the wired node `n`: for a custom node, one
wiring record for each control, the controls taken in a non-decreasing order of
their compile index; for a group node, one wiring record for each portal of the
inner surface, in the order of the portals. -/
def NodeRecord (st : GroupState) (n : Node) (m : MirNode) : Prop :=
  m.runtimeId = n.runtimeId ∧
  match n.kind with
  | .custom _ =>
    m.isGroup = false ∧
    ∃ sorted : List Control, sorted.Perm n.controls ∧
      sorted.Sorted (fun a b => a.index ≤ b.index) ∧
      List.Forall₂ (ControlRecord st) sorted m.sockets
  | .group portals => m.isGroup = true ∧ List.Forall₂ (PortalRecord st) portals m.sockets
  | .other => False

/-- A portal control of kind `NUM_PORTAL`, exposed by nothing and not written
to, holding `{1, 0, LINEAR}`. -/
def portalControl (uuid : QUuid) (connected : List QUuid) : Control :=
  { numberControl uuid connected with controlType := .NUM_PORTAL }

/-- A root surface with a portal node, whose portal control 1 is connected to
the control 2 of a compiled custom node; the control 2 is exposed (exposer id 7)
and holds `{1, 0, LINEAR}`, and the control 3 of that node has no connection. -/
def rootPortalSurface : Surface :=
  { isRoot := true
    nodes := [⟨.custom true, 10,
                [{ numberControl 2 [1] with exposerUuid := 7 }, numberControl 3 []]⟩,
              ⟨.other, 30, [portalControl 1 [2]]⟩] }

/-- A group surface with a portal node, whose portal control 1 is connected to
the control 2 of a compiled custom node; no control is exposed. -/
def innerPortalSurface : Surface :=
  { isRoot := false
    nodes := [⟨.custom true, 10, [numberControl 2 [1], numberControl 3 []]⟩,
              ⟨.other, 30, [portalControl 1 [2]]⟩] }

/-- A member list of three number controls, the second of kind `NUM_EXTRACT`. -/
def extractMembers : List Control :=
  [numberControl 1 [], { numberControl 2 [] with controlType := .NUM_EXTRACT },
    numberControl 3 []]

end SurfaceMir

namespace MaximCodegen

/-! ## Function calls and type assertions (`MaximContext.cpp`, lines 71-127 and 389-405) -/

/-- The function `MaximContext::callFunction` (lines 389-405); `type` is
`Value::type()` and `call` is `Function::call`, of classes whose sources are
not among the files. -/
def callFunction {V T : Type} (type : V → T)
    (call : Function T → List V → SourcePos → SourcePos → Except CompileError V)
    (functionMap : FunctionMap T) (name : String) (values : List V)
    (startPos endPos : SourcePos) : Except CompileError V :=
  let types := values.map type
  match getFunction functionMap name types with
  | none =>
    .error ⟨"WHAT IS THIS??!?! " ++ name ++ " is def not a valid function :(", startPos, endPos⟩
  | some func => call func values startPos endPos

/-- What the type assertions use of the classes `Value` and `Type`, whose
headers are not among the sources, over the values `V` and the types `T`:
`Value::type()`, the public members `startPos` and `endPos`, whether the casts
`dynamic_cast<Num *>`, `dynamic_cast<Midi *>`, `dynamic_cast<Tuple *>` and
`dynamic_cast<Array *>` succeed, `Type::name()`, and the types `numType()` and
`midiType()` of the context. -/
structure TypeChecks (V T : Type) where
  type : V → T
  startPos : V → SourcePos
  endPos : V → SourcePos
  isNum : V → Bool
  isMidi : V → Bool
  isTuple : V → Bool
  isArray : V → Bool
  name : T → String
  numType : T
  midiType : T

/-- The function `MaximContext::typeAssertFailed` (lines 453-459). -/
def typeAssertFailed {V T : Type} (tc : TypeChecks V T) (expectedType receivedType : T)
    (startPos endPos : SourcePos) : CompileError :=
  ⟨"Oyyyy m80, I need a " ++ tc.name expectedType ++ " here, not this bad boi " ++
    tc.name receivedType, startPos, endPos⟩

/-- The function `MaximContext::assertType` (lines 71-75). -/
def assertType {V T : Type} [DecidableEq T] (tc : TypeChecks V T) (val : V) (type : T) :
    Except CompileError Unit :=
  if tc.type val ≠ type then
    .error (typeAssertFailed tc type (tc.type val) (tc.startPos val) (tc.endPos val))
  else .ok ()

/-- The function `MaximContext::assertNum` (lines 77-86): the value itself, seen
as a `Num`, or the thrown error. -/
def assertNum {V T : Type} (tc : TypeChecks V T) (val : V) : Except CompileError V :=
  if tc.isNum val then .ok val
  else
    .error (typeAssertFailed tc tc.numType (tc.type val) (tc.startPos val) (tc.endPos val))

/-- The function `MaximContext::assertMidi` (lines 88-97). -/
def assertMidi {V T : Type} (tc : TypeChecks V T) (val : V) : Except CompileError V :=
  if tc.isMidi val then .ok val
  else
    .error (typeAssertFailed tc tc.midiType (tc.type val) (tc.startPos val) (tc.endPos val))

/-- The function `MaximContext::assertTuple` (lines 99-112). -/
def assertTuple {V T : Type} [DecidableEq T] (tc : TypeChecks V T) (val : V) (type : T) :
    Except CompileError V :=
  if tc.type val = type then
    if tc.isTuple val then .ok val
    else .error (typeAssertFailed tc type (tc.type val) (tc.startPos val) (tc.endPos val))
  else .error (typeAssertFailed tc type (tc.type val) (tc.startPos val) (tc.endPos val))

/-- The function `MaximContext::assertArray` (lines 114-127). -/
def assertArray {V T : Type} [DecidableEq T] (tc : TypeChecks V T) (val : V) (type : T) :
    Except CompileError V :=
  if tc.type val = type then
    if tc.isArray val then .ok val
    else .error (typeAssertFailed tc type (tc.type val) (tc.startPos val) (tc.endPos val))
  else .error (typeAssertFailed tc type (tc.type val) (tc.startPos val) (tc.endPos val))

/-- The class of an example value. -/
inductive SampleClass
  | num
  | midi
  | tuple
  | array
  deriving DecidableEq

/-- An example value: its class, the name of its type and its span. -/
structure SampleTyped where
  cls : SampleClass
  type : String
  startPos : SourcePos
  endPos : SourcePos
  deriving DecidableEq

/-- The type checks of the example values: a type is its own name, the type of
numbers is `num` and the type of MIDI values is `midi`. -/
def sampleChecks : TypeChecks SampleTyped String :=
  { type := fun v => v.type
    startPos := fun v => v.startPos
    endPos := fun v => v.endPos
    isNum := fun v => v.cls == .num
    isMidi := fun v => v.cls == .midi
    isTuple := fun v => v.cls == .tuple
    isArray := fun v => v.cls == .array
    name := fun t => t
    numType := "num"
    midiType := "midi" }

/-- An example number, at the span from `(1, 2)` to `(1, 5)`. -/
def sampleNum : SampleTyped := ⟨.num, "num", ⟨1, 2⟩, ⟨1, 5⟩⟩

/-- An example tuple of the type `(num, num)`, at the span from `(2, 0)` to
`(2, 6)`. -/
def samplePair : SampleTyped := ⟨.tuple, "(num, num)", ⟨2, 0⟩, ⟨2, 6⟩⟩

/-- An example `Function::call`: the function returns its first argument, or
`0` without arguments. -/
def sampleCall : Function Nat → List Int → SourcePos → SourcePos → Except CompileError Int :=
  fun _ values _ _ => .ok (values.headD 0)

end MaximCodegen

namespace ExpressionGenerator

open MaximCodegen (SourcePos)
open Builder

/-! ## Call and cast expressions (`ExpressionGenerator.cpp`, lines 84-148) -/

/-- A `CallExpression`: the name of the function, the argument expressions and
the span. -/
structure CallExpression (Expr : Type) where
  name : String
  arguments : List Expr
  startPos : SourcePos
  endPos : SourcePos

/-- The loop of lines 96-102 of `generateCall`: the arguments are generated in
order, each kept with its span; the first throw ends the loop. -/
def generateArguments {Vec Controls Expr : Type} (env : Env Vec Controls Expr) :
    List Expr → Scope Vec Controls →
      Except CodegenError (List (Value Vec × SourcePos × SourcePos)) × Scope Vec Controls
  | [], scope => (.ok [], scope)
  | arg :: rest, scope =>
    match env.generateExpr arg scope with
    | (.error e, scope1) => (.error e, scope1)
    | (.ok val, scope1) =>
      match generateArguments env rest scope1 with
      | (.error e, scope2) => (.error e, scope2)
      | (.ok params, scope2) =>
        (.ok ((val, (env.span arg).1, (env.span arg).2) :: params), scope2)

/-- The function `generateCall` (lines 84-104); the lookup
`Context::getFunction` and the call `Function::generateCall`, of classes whose
sources are not among the files, are parameters, over the functions `Fn`. -/
def generateCall {Vec Controls Expr Fn : Type} (env : Env Vec Controls Expr)
    (getFunction : String → Option Fn)
    (call : Fn → List (Value Vec × SourcePos × SourcePos) → SourcePos → SourcePos →
      Except CodegenError (Value Vec))
    (expr : CallExpression Expr) (scope : Scope Vec Controls) :
    Except CodegenError (Value Vec) × Scope Vec Controls :=
  match getFunction expr.name with
  | none =>
    (.error ⟨"WHAT IS THIS??!?! def not a valid function name :(", expr.startPos, expr.endPos⟩,
      scope)
  | some func =>
    match generateArguments env expr.arguments scope with
    | (.error e, scope1) => (.error e, scope1)
    | (.ok params, scope1) => (call func params expr.startPos expr.endPos, scope1)

/-- A `Form` of the parsed program, the target of a cast: the form type (the
integer value of its enumerator) and the argument expressions. -/
structure Form (Expr : Type) where
  type : Nat
  arguments : List Expr

/-- A `CastExpression`: the target form, the base expression and whether the
cast converts. -/
structure CastExpression (Expr : Type) where
  target : Form Expr
  expr : Expr
  isConvert : Bool

/-- The message of the error of lines 116-121. -/
def castArityMessage (formParamCount : Nat) : String :=
  "Oy, you doin me a bamboozle. I only want " ++ toString formParamCount ++
    " parameters here."

/-- The loop of lines 126-133 of `generateCast` over the arguments of the form:
each is generated and checked to be a number; the result is whether all of them
are constant and their loaded vectors, in order, or the first error thrown. -/
def castArguments {Vec Controls Expr : Type} (env : Env Vec Controls Expr) :
    List Expr → Scope Vec Controls →
      Except CodegenError (Bool × List Vec) × Scope Vec Controls
  | [], scope => (.ok (true, []), scope)
  | arg :: rest, scope =>
    match env.generateExpr arg scope with
    | (.error e, scope1) => (.error e, scope1)
    | (.ok argExpr, scope1) =>
      match argExpr.value with
      | .num argVec _ =>
        match castArguments env rest scope1 with
        | (.error e, scope2) => (.error e, scope2)
        | (.ok (allConst, params), scope2) =>
          (.ok (argExpr.isConst && allConst, argVec :: params), scope2)
      | other =>
        (.error (env.checkPtrTypeError other (env.span arg).1 (env.span arg).2), scope1)

/-- The array `FormValue::ParamArr params = {}` after the loop: the loaded
arguments in its first entries, the other entries of the `formParamCount` left
null. -/
def paramArr {Vec : Type} (formParamCount : Nat) (params : List Vec) : List (Option Vec) :=
  params.map some ++ List.replicate (formParamCount - params.length) none

/-- The function `generateCast` (lines 106-148). The constant
`Context::formParamCount` and the constructor `FormValue(type, params, ...)`,
as `formValue`, which gives the form of the new number, are parameters (their
header is not among the sources). The result `none` is the `assert(false)` of a
converting cast; it also stands for the read of `arguments[0]` of an empty
list, which the test of line 115 excludes. -/
def generateCast {Vec Controls Expr : Type} (env : Env Vec Controls Expr)
    (formParamCount : Nat) (formValue : Nat → List (Option Vec) → Nat)
    (expr : CastExpression Expr) (scope : Scope Vec Controls) :
    Option (Except CodegenError (Value Vec) × Scope Vec Controls) :=
  match env.generateExpr expr.expr scope with
  | (.error e, scope1) => some (.error e, scope1)
  | (.ok exprValue, scope1) =>
    match exprValue.value with
    | .num numVec _ =>
      if expr.target.arguments.length > formParamCount then
        match expr.target.arguments.head?, expr.target.arguments.getLast? with
        | some first, some last =>
          some (.error ⟨castArityMessage formParamCount, (env.span first).1,
            (env.span last).2⟩, scope1)
        | _, _ => none
      else
        match castArguments env expr.target.arguments scope1 with
        | (.error e, scope2) => some (.error e, scope2)
        | (.ok (allConst, params), scope2) =>
          if expr.isConvert then none
          else
            some (.ok ⟨exprValue.isConst && allConst,
              .num numVec (formValue expr.target.type (paramArr formParamCount params))⟩,
              scope2)
    | other =>
      some (.error (env.checkPtrTypeError other (env.span expr.expr).1
        (env.span expr.expr).2), scope1)

/-- The expressions `args`, generated in order from the scope `scope`, give the
numbers `nums` (the constant flag, the lanes and the form of each) and leave the
scope `final`. -/
def GeneratesNumbers {Vec Controls Expr : Type} (env : Env Vec Controls Expr) :
    List Expr → Scope Vec Controls → List (Bool × Vec × Nat) → Scope Vec Controls → Prop
  | [], scope, nums, final => nums = [] ∧ final = scope
  | arg :: rest, scope, nums, final =>
    ∃ isConst vec form scope1 tail,
      env.generateExpr arg scope = (.ok ⟨isConst, .num vec form⟩, scope1) ∧
        nums = (isConst, vec, form) :: tail ∧ GeneratesNumbers env rest scope1 tail final

/-! ## More example expressions -/

/-- The expression `1 && 0` on constant numbers. -/
def sampleAnd : MathExpression (Value (Int × Int)) :=
  ⟨.LOGICAL_AND, ⟨true, .num (1, 1) 0⟩, ⟨true, .num (0, 0) 0⟩⟩

/-- The expression `0 || 1` on constant numbers. -/
def sampleOr : MathExpression (Value (Int × Int)) :=
  ⟨.LOGICAL_OR, ⟨true, .num (0, 0) 0⟩, ⟨true, .num (1, 1) 0⟩⟩

/-- The call `foo(1)`. -/
def sampleCallExpression : CallExpression (Value (Int × Int)) :=
  ⟨"foo", [⟨true, .num (1, 1) 0⟩], ⟨3, 0⟩, ⟨3, 6⟩⟩

/-- An example `Context::getFunction`: the only function is `sin`. -/
def sampleGetFunction : String → Option Unit :=
  fun name => if name = "sin" then some () else none

/-- An example `Function::generateCall`: the function returns the number zero. -/
def sampleGenerateCall : Unit → List (Value (Int × Int) × SourcePos × SourcePos) →
    SourcePos → SourcePos → Except CodegenError (Value (Int × Int)) :=
  fun _ _ _ _ => .ok ⟨true, .num (0, 0) 0⟩

/-- An example form constructor: the form of a type without parameters is the
type, and a parameter adds ten. -/
def sampleFormValue : Nat → List (Option (Int × Int)) → Nat :=
  fun type params => type + 10 * (params.filter (fun p => p.isSome)).length

/-- The cast `5 -> form 3 (2)` of the constant `5`, with one argument that is
not constant. -/
def sampleCast : CastExpression (Value (Int × Int)) :=
  ⟨⟨3, [⟨false, .num (2, 2) 0⟩]⟩, ⟨true, .num (5, 5) 0⟩, false⟩

/-- The assignment `a = {7, 7}`. -/
def samplePlainAssign : AssignExpression (Value (Int × Int)) :=
  { left := [.variable "a" ⟨0, 0⟩ ⟨0, 1⟩]
    type := .ASSIGN
    right := ⟨true, .num (7, 7) 0⟩
    startPos := ⟨0, 0⟩
    endPos := ⟨0, 5⟩ }

end ExpressionGenerator

namespace SurfaceMir

/-! ## Sockets, group metadata and compile indices -/

/-- The controls behind the ids of a member list, in order: the vector
`controlPointers` of line 300, which is not filtered. -/
def Surface.members (s : Surface) (ids : List QUuid) : List Control :=
  (s.findMap ids).map (fun p => p.2)

/-- The sockets handed out by the classification loop agree with the sources of
the groups added: the counter `index` is the number of groups added, a group
added with the source `socket(k)` is the group `sockets[k]`, every entry of
`sockets` is the index of such a group, and `sockets` is increasing. -/
structure ClassifyState.SocketsOk (cs : ClassifyState) : Prop where
  length_eq : cs.index = cs.mirGroups.length
  socket_of_source : ∀ i g k, cs.mirGroups.get? i = some g →
    g.source = ValueGroupSource.socket k → cs.sockets.get? k = some i
  source_of_socket : ∀ k i, cs.sockets.get? k = some i →
    ∃ g, cs.mirGroups.get? i = some g ∧ g.source = ValueGroupSource.socket k
  increasing : cs.sockets.Pairwise (fun a b => a < b)
  bound : ∀ i ∈ cs.sockets, i < cs.index

/-- The well-formedness of the portals as the specification words it: every
external control listed by a portal of the inner surface of a group node is a
control of this group node, and a portal lists at least one (a portal record
written back by `build` is never empty). -/
def Surface.PortalsOnGroupNodes (s : Surface) : Prop :=
  ∀ n ∈ s.nodes, ∀ p ∈ n.portals, p.externalControls ≠ [] ∧
    ∀ u ∈ p.externalControls, ∃ c ∈ n.controls, c.uuid = u

instance (s : Surface) : Decidable s.PortalsOnGroupNodes := by
  unfold Surface.PortalsOnGroupNodes
  infer_instance

/-- The compile indices as the specification words them: the nodes that get a
record, numbered `start`, `start + 1`, ... in node order; a node without a
record has no index and does not consume one. -/
def numberWired (start : Nat) : List Node → List (Option Nat)
  | [] => []
  | n :: nodes =>
    if n.isWired then some start :: numberWired (start + 1) nodes
    else none :: numberWired start nodes

/-- A group surface of a compiled custom node with four controls: the exposed
control 1 (exposer id 7) is connected to the control 2, which is written to;
the control 3 has no connection, and the extract control 4 is exposed (exposer
id 8). -/
def socketSurface : Surface :=
  { isRoot := false
    nodes := [⟨.custom true, 10,
      [{ numberControl 1 [2] with exposerUuid := 7 },
       { numberControl 2 [1] with writtenTo := true },
       numberControl 3 [],
       { numberControl 4 [] with exposerUuid := 8, controlType := .NUM_EXTRACT }]⟩] }

end SurfaceMir

namespace MaximCodegen

open Builder

/-! ## Example numbers -/

/-- The active number with the lanes `(5, 5)` and the form 0. -/
def sampleFive : Num Int := ⟨(5, 5), 0, true⟩

/-- The number that is not active, with the lanes `(3, 3)` and the form 0. -/
def sampleThree : Num Int := ⟨(3, 3), 0, false⟩

/-- The active number with the lanes `(0, 0)` and the form 0. -/
def sampleZero : Num Int := ⟨(0, 0), 0, true⟩

end MaximCodegen

namespace ExpressionGenerator

open MaximCodegen (SourcePos)
open Builder

/-! ## Example unary and compound expressions -/

/-- The expression `!0` on the constant number with the lanes `(0, 0)`. -/
def sampleNot : UnaryExpression (Value (Int × Int)) :=
  ⟨.NOT, ⟨true, .num (0, 0) 0⟩⟩

/-- The assignment `a += {3, 3}`. -/
def sampleCompound : AssignExpression (Value (Int × Int)) :=
  { left := [.variable "a" ⟨0, 0⟩ ⟨0, 1⟩]
    type := .ADD
    right := ⟨true, .num (3, 3) 0⟩
    startPos := ⟨0, 0⟩
    endPos := ⟨0, 6⟩ }

end ExpressionGenerator

namespace AxiomModel

/-! ## `CompositeAction` (`src/editor/model/actions/CompositeAction.cpp`) -/

/-- What a `CompositeAction` uses of an `Action`, on the model state `S`: the
virtual functions `forward(first)` and `backward()`, which change the state. -/
structure Action (S : Type) where
  forward : Bool → S → S
  backward : S → S

/-- The function `CompositeAction::forward` (lines 13-17): the range-based loop
over `_actions`. -/
def CompositeAction.forward {S : Type} (actions : List (Action S)) (first : Bool) (state : S) :
    S :=
  actions.foldl (fun st action => action.forward first st) state

/-- The loop of lines 20-22 with the iterator `i` at the position `pos - 1`
(an iterator into a vector that is not empty is kept as its position, so that
`i >= _actions.begin()` is `pos - 1 >= 0`): the action at `i` is called and `i`
is decremented. The loop starts inside the vector and never reads a position
past its end. -/
def CompositeAction.backwardFrom {S : Type} (actions : List (Action S)) : Nat → S → S
  | 0, state => state
  | pos + 1, state =>
    match actions.get? pos with
    | some action => CompositeAction.backwardFrom actions pos (action.backward state)
    | none => CompositeAction.backwardFrom actions pos state

/-- The function `CompositeAction::backward` (lines 19-23): the loop starts at
`_actions.end() - 1`, the last position of a vector that is not empty. For an
empty vector `_actions.end() - 1` is no position of the vector (forming it is
undefined, and with a null `begin()` the loop would read through it): `none`. -/
def CompositeAction.backward {S : Type} (actions : List (Action S)) (state : S) : Option S :=
  if actions.isEmpty then none
  else some (CompositeAction.backwardFrom actions actions.length state)

/-- A call received by a sub-action: which sub-action, which function, and the
flag passed to `forward`. -/
inductive Call
  | forward (action : Nat) (first : Bool)
  | backward (action : Nat)
  deriving DecidableEq

/-- The sub-action number `i` on the state that is the list of the calls made
so far: each of its functions records its call. -/
def recorder (i : Nat) : Action (List Call) :=
  { forward := fun first calls => calls ++ [Call.forward i first]
    backward := fun calls => calls ++ [Call.backward i] }

/-- An example action on an integer state: `forward` adds `n`, whatever the
flag is, and `backward` subtracts `n`. -/
def addAction (n : Int) : Action Int :=
  { forward := fun _ state => state + n
    backward := fun state => state - n }

end AxiomModel

namespace SurfaceMir

/-! ## A surface with several groups -/

/-- A group surface of a compiled custom node and a group node. The custom node
has the controls 1 (compile index 2, written to), 2 (compile index 0, read
from, connected to the control 4) and 3 (compile index 1, of kind
`NUM_EXTRACT`, written to and read from). The group node has the controls 4,
5, 6 and 7, and its inner surface has two portals: one on the control 5, written
to, and one on the controls 6 and 7, read from and an extractor. -/
def wiredSurface : Surface :=
  { isRoot := false
    nodes := [⟨.custom true, 10,
                [{ numberControl 1 [] with index := 2, writtenTo := true },
                 { numberControl 2 [4] with index := 0, readFrom := true },
                 { numberControl 3 [] with
                     index := 1, controlType := .NUM_EXTRACT, writtenTo := true,
                     readFrom := true }]⟩,
              ⟨.group [⟨[5], true, false, false⟩, ⟨[6, 7], false, true, true⟩], 20,
                [numberControl 4 [2], numberControl 5 [], numberControl 6 [],
                  numberControl 7 []]⟩] }

end SurfaceMir

namespace ExpressionGenerator

open MaximCodegen (SourcePos)
open Builder

/-! ## Targets that receive a value, and example control stores -/

/-- The scope in which the target `t` has received the value `v`, as the
specification words an assignment: a variable target is bound to `v`, and the
property of a control target is written with `v`, the controls being those the
call of `setProperty` leaves. -/
def Scope.receive {Vec Controls Expr : Type} (scope : Scope Vec Controls)
    (env : Env Vec Controls Expr) (t : Assignable) (v : Value Vec) : Scope Vec Controls :=
  match t with
  | .variable name _ _ => scope.setValue name v
  | .control name type prop _ _ =>
    { scope with controls := (env.writeProperty scope.controls name type prop v).1 }

/-- Whether the target `t` takes the value `v` in the scope: a variable target
always does, a control target does when `setProperty` accepts the property. -/
def Scope.accepts {Vec Controls Expr : Type} (scope : Scope Vec Controls)
    (env : Env Vec Controls Expr) (t : Assignable) (v : Value Vec) : Bool :=
  match t with
  | .variable _ _ _ => true
  | .control name type prop _ _ => (env.writeProperty scope.controls name type prop v).2

/-- The scope after the targets of the pairs have received their values, in
order. -/
def Scope.receiveAll {Vec Controls Expr : Type} (scope : Scope Vec Controls)
    (env : Env Vec Controls Expr) (pairs : List (Assignable × Value Vec)) :
    Scope Vec Controls :=
  pairs.foldl (fun sc p => sc.receive env p.1 p.2) scope

/-- The error of lines 459-462 for the property `prop` of a control expression
with the span from `startPos` to `endPos`. -/
def propertyRejected (prop : String) (startPos endPos : SourcePos) : CodegenError :=
  ⟨"A wise man once said, you can't bake your cake and eat it too. " ++
    "On a completely unrelated topic, " ++ prop ++ " ISN\"T A VALID PROPERTY HERE!! D:",
    startPos, endPos⟩

/-- An example environment whose node has controls with the one property
`value`. The store lists the calls of `setProperty`, the newest first: the name
of the control with the value written, or with `none` when the property was
rejected. Expressions are values that generate themselves, and the arithmetic
is the one of `env`. -/
def knobEnv {Vec : Type} (env : Env Vec Unit (Value Vec)) :
    Env Vec (List (String × Option (Value Vec))) (Value Vec) :=
  { generateExpr := fun e scope => (.ok e, scope)
    span := env.span
    checkPtrTypeError := env.checkPtrTypeError
    fadd := env.fadd
    fsub := env.fsub
    fmul := env.fmul
    fdiv := env.fdiv
    frem := env.frem
    uninitialized := env.uninitialized
    readProperty := fun c name _ prop =>
      (c, if prop = "value" then c.findSome? (fun p => if p.1 = name then p.2 else none)
        else none)
    writeProperty := fun c name _ prop v =>
      if prop = "value" then ((name, some v) :: c, true) else ((name, none) :: c, false) }

/-- The assignment `(knob:value, a, dial:value) = 1` of one value to three
targets, two of them control properties. -/
def knobBroadcast : AssignExpression (Value Int) :=
  { left := [.control "knob" 0 "value" ⟨0, 1⟩ ⟨0, 11⟩, .variable "a" ⟨0, 13⟩ ⟨0, 14⟩,
      .control "dial" 0 "value" ⟨0, 16⟩ ⟨0, 26⟩]
    type := .ASSIGN
    right := ⟨true, .num 1 0⟩
    startPos := ⟨0, 0⟩
    endPos := ⟨0, 31⟩ }

/-- The assignment `(knob:value, dial:colour, a) = 1` of one value to three
targets: the second is a property the control does not have. -/
def colourBroadcast : AssignExpression (Value Int) :=
  { left := [.control "knob" 0 "value" ⟨0, 1⟩ ⟨0, 11⟩,
      .control "dial" 0 "colour" ⟨0, 13⟩ ⟨0, 24⟩, .variable "a" ⟨0, 26⟩ ⟨0, 27⟩]
    type := .ASSIGN
    right := ⟨true, .num 1 0⟩
    startPos := ⟨0, 0⟩
    endPos := ⟨0, 32⟩ }

/-- A scope without variables whose control `knob` holds the constant number
with the lanes `(2, 2)` and the form 4. -/
def knobScope : Scope (Int × Int) (List (String × Option (Value (Int × Int)))) :=
  ⟨[], [("knob", some ⟨true, .num (2, 2) 4⟩)]⟩

/-- The expression `{1, 1} + {2, 2}` whose left operand has the form 3 and whose
right operand has the form 7 and is not constant. -/
def sampleForms : MathExpression (Value (Int × Int)) :=
  ⟨.ADD, ⟨true, .num (1, 1) 3⟩, ⟨false, .num (2, 2) 7⟩⟩

/-- The expression `+{1, 2}` on a number of the form 3. -/
def samplePositive : UnaryExpression (Value (Int × Int)) :=
  ⟨.POSITIVE, ⟨true, .num (1, 2) 3⟩⟩

/-- The expression `-{1, 2}` on a number of the form 3. -/
def sampleNegative : UnaryExpression (Value (Int × Int)) :=
  ⟨.NEGATIVE, ⟨true, .num (1, 2) 3⟩⟩

end ExpressionGenerator

namespace MaximCodegen

open Builder

/-! ## Example numbers with a NaN lane -/

/-- The active number of the form 3 whose left lane is a NaN and whose right
lane is 5. -/
def sampleNaN : Num (Option Int) := ⟨(none, some 5), 3, true⟩

/-- The number of the form 7 that is not active, with the lanes `(0, 0)`. -/
def sampleInactiveZero : Num (Option Int) := ⟨(some 0, some 0), 7, false⟩

end MaximCodegen

/-! # Theorems -/

namespace SurfaceMir

/-! ## Association lists -/

theorem lookup_filter_ne {β : Type} (k x : Nat) (m : List (Nat × β)) :
    (m.filter (fun p => p.1 != k)).lookup x = if x = k then none else m.lookup x := by
  induction m with
  | nil => simp
  | cons p m ih =>
    obtain ⟨a, b⟩ := p
    by_cases hak : a = k
    · subst hak
      by_cases hx : x = a
      · subst hx; simp [ih]
      · have : (x == a) = false := by simpa using hx
        simp [List.filter_cons, ih, List.lookup_cons, this, hx]
    · have h1 : (a != k) = true := by simpa using hak
      simp only [List.filter_cons, h1, if_true, List.lookup_cons, ih]
      by_cases hx : x = a
      · subst hx; simp [hak]
      · have : (x == a) = false := by simpa using hx
        simp [this]

theorem lookup_hashInsert {β : Type} (k x : Nat) (v : β) (m : List (Nat × β)) :
    (hashInsert k v m).lookup x = if x = k then some v else m.lookup x := by
  unfold hashInsert
  by_cases hx : x = k
  · subst hx; simp [List.lookup_cons]
  · have : (x == k) = false := by simpa using hx
    simp [List.lookup_cons, this, lookup_filter_ne, hx]

theorem lookup_mapErase {β : Type} (k x : Nat) (m : List (Nat × β)) :
    (mapErase k m).lookup x = if x = k then none else m.lookup x :=
  lookup_filter_ne k x m

theorem lookup_appendControls (t h : Nat) (ms : List QUuid) (g : List (Nat × List QUuid)) :
    (appendControls t ms g).lookup h
      = if h = t then (g.lookup t).map (fun l => l ++ ms) else g.lookup h := by
  unfold appendControls
  induction g with
  | nil => simp
  | cons p g ih =>
    obtain ⟨a, b⟩ := p
    by_cases hat : a = t
    · subst hat
      by_cases hx : h = a
      · subst hx; simp [List.lookup_cons]
      · have : (h == a) = false := by simpa using hx
        simp [List.lookup_cons, this, hx, ih]
    · by_cases hx : h = a
      · subst hx
        simp [List.lookup_cons, hat]
      · have : (h == a) = false := by simpa using hx
        simp only [List.map_cons, hat, if_false, List.lookup_cons, this, ih]
        by_cases ht : h = t
        · subst ht
          have : (h == a) = false := by simpa using hx
          simp [this]
        · simp [ht]

theorem lookup_foldl_hashInsert (t x : Nat) (ms : List QUuid) (cg : List (QUuid × Nat)) :
    (ms.foldl (fun cg c => hashInsert c t cg) cg).lookup x
      = if x ∈ ms then some t else cg.lookup x := by
  induction ms generalizing cg with
  | nil => simp
  | cons m ms ih =>
    simp only [List.foldl_cons, ih, lookup_hashInsert, List.mem_cons]
    by_cases h1 : x ∈ ms
    · simp [h1]
    · by_cases h2 : x = m <;> simp [h1, h2]

theorem keys_appendControls (t : Nat) (ms : List QUuid) (g : List (Nat × List QUuid)) :
    (appendControls t ms g).map Prod.fst = g.map Prod.fst := by
  unfold appendControls
  induction g with
  | nil => rfl
  | cons p g ih =>
    simp only [List.map_cons, ih]
    by_cases h : p.1 = t <;> simp [h]

theorem mem_of_lookup {β : Type} {k : Nat} {v : β} {m : List (Nat × β)}
    (h : m.lookup k = some v) : (k, v) ∈ m := by
  induction m with
  | nil => simp at h
  | cons p m ih =>
    obtain ⟨a, b⟩ := p
    by_cases hk : k = a
    · subst hk
      simp [List.lookup_cons] at h
      simp [h]
    · have : (k == a) = false := by simpa using hk
      simp only [List.lookup_cons, this] at h
      exact List.mem_cons_of_mem _ (ih h)

theorem key_mem_of_lookup {β : Type} {k : Nat} {v : β} {m : List (Nat × β)}
    (h : m.lookup k = some v) : k ∈ m.map Prod.fst :=
  List.mem_map.2 ⟨(k, v), mem_of_lookup h, rfl⟩

/-- In an association list with distinct keys, an entry of the list is what
`lookup` returns for its key. -/
theorem lookup_of_mem {β : Type} {k : Nat} {v : β} {m : List (Nat × β)}
    (hn : (m.map Prod.fst).Nodup) (h : (k, v) ∈ m) : m.lookup k = some v := by
  induction m with
  | nil => simp at h
  | cons p m ih =>
    obtain ⟨a, b⟩ := p
    simp only [List.map_cons, List.nodup_cons] at hn
    rcases List.mem_cons.1 h with h1 | h1
    · injection h1 with h1 h2
      subst h1; subst h2
      simp [List.lookup_cons]
    · have hk : k ≠ a := by
        intro hka
        exact hn.1 (List.mem_map.2 ⟨(k, v), h1, hka⟩)
      have : (k == a) = false := by simpa using hk
      simp only [List.lookup_cons, this]
      exact ih hn.2 h1

/-! ## The invariant of the grouping tables -/

theorem GroupState.Inv.inv_empty : GroupState.empty.Inv where
  fresh := by simp [GroupState.empty]
  keysNodup := by simp [GroupState.empty]
  consistent := by simp [GroupState.empty]
  membersNodup := by simp [GroupState.empty]
  membersNonempty := by simp [GroupState.empty]

theorem GroupState.Inv.lt_of_lookup {st : GroupState} (hI : st.Inv) {u : QUuid} {h : Nat}
    (hu : st.controlGroups.lookup u = some h) : h < st.nextGroup := by
  obtain ⟨ms, hms, _⟩ := (hI.consistent u h).1 hu
  exact hI.fresh h (key_mem_of_lookup hms)

theorem newGroup_lookup (st : GroupState) (u x : QUuid) :
    (newGroup st u).2.controlGroups.lookup x
      = if x = u then some st.nextGroup else st.controlGroups.lookup x := by
  simp [newGroup, lookup_hashInsert]

theorem newGroup_groups_lookup (st : GroupState) (u : QUuid) (h : Nat) :
    (newGroup st u).2.groups.lookup h
      = if h = st.nextGroup then some [u] else st.groups.lookup h := by
  by_cases hh : h = st.nextGroup
  · subst hh; simp [newGroup, List.lookup_cons]
  · have : (h == st.nextGroup) = false := by simpa using hh
    simp [newGroup, List.lookup_cons, this, hh]

/-- A fresh group for an id without a group keeps the tables consistent. -/
theorem GroupState.Inv.inv_newGroup {st : GroupState} (hI : st.Inv) {u : QUuid}
    (hu : st.controlGroups.lookup u = none) : (newGroup st u).2.Inv where
  fresh := by
    intro k hk
    simp only [SurfaceMir.newGroup, List.map_cons, List.mem_cons] at hk
    rcases hk with rfl | hk
    · exact Nat.lt_succ_self _
    · exact Nat.lt_succ_of_lt (hI.fresh k hk)
  keysNodup := by
    simp only [SurfaceMir.newGroup, List.map_cons, List.nodup_cons]
    exact ⟨fun h => Nat.lt_irrefl _ (hI.fresh _ h), hI.keysNodup⟩
  consistent := by
    intro x h
    rw [newGroup_lookup]
    constructor
    · intro hx
      by_cases hxu : x = u
      · rw [if_pos hxu] at hx
        injection hx with hx
        subst hx
        exact ⟨[u], by simp [newGroup_groups_lookup], by simp [hxu]⟩
      · rw [if_neg hxu] at hx
        obtain ⟨ms, hms, hmem⟩ := (hI.consistent x h).1 hx
        have hne : h ≠ st.nextGroup := Nat.ne_of_lt (hI.lt_of_lookup hx)
        exact ⟨ms, by simp [newGroup_groups_lookup, hne, hms], hmem⟩
    · rintro ⟨ms, hms, hmem⟩
      rw [newGroup_groups_lookup] at hms
      by_cases hh : h = st.nextGroup
      · rw [if_pos hh] at hms
        injection hms with hms
        subst hms
        have : x = u := by simpa using hmem
        simp [this, hh]
      · rw [if_neg hh] at hms
        have hx := (hI.consistent x h).2 ⟨ms, hms, hmem⟩
        have hxu : x ≠ u := by
          rintro rfl
          rw [hu] at hx
          exact Option.noConfusion hx
        simp [hxu, hx]
  membersNodup := by
    intro h ms hms
    rw [newGroup_groups_lookup] at hms
    by_cases hh : h = st.nextGroup
    · rw [if_pos hh] at hms
      injection hms with hms
      subst hms
      simp
    · rw [if_neg hh] at hms
      exact hI.membersNodup h ms hms
  membersNonempty := by
    intro h ms hms
    rw [newGroup_groups_lookup] at hms
    by_cases hh : h = st.nextGroup
    · rw [if_pos hh] at hms
      injection hms with hms
      subst hms
      simp
    · rw [if_neg hh] at hms
      exact hI.membersNonempty h ms hms

theorem mergeGroups_groups_lookup {st : GroupState} {src tgt : Nat} {msS msT : List QUuid}
    (hS : st.groups.lookup src = some msS) (hT : st.groups.lookup tgt = some msT) (h : Nat) :
    (mergeGroups st src tgt).groups.lookup h
      = if h = src then none else if h = tgt then some (msT ++ msS) else st.groups.lookup h := by
  simp only [mergeGroups, GroupState.controlsOf, hS, Option.getD_some, lookup_mapErase,
    lookup_appendControls, hT, Option.map_some']

theorem mergeGroups_lookup {st : GroupState} (hI : st.Inv) {src tgt : Nat} {msS : List QUuid}
    (hS : st.groups.lookup src = some msS) (x : QUuid) :
    (mergeGroups st src tgt).controlGroups.lookup x
      = if st.controlGroups.lookup x = some src then some tgt else st.controlGroups.lookup x := by
  simp only [mergeGroups, GroupState.controlsOf, hS, Option.getD_some, lookup_foldl_hashInsert]
  by_cases hx : x ∈ msS
  · have := (hI.consistent x src).2 ⟨msS, hS, hx⟩
    simp [hx, this]
  · have : st.controlGroups.lookup x ≠ some src := by
      intro hc
      obtain ⟨ms, hms, hmem⟩ := (hI.consistent x src).1 hc
      rw [hS] at hms
      injection hms with hms
      subst hms
      exact hx hmem
    simp [hx, this]

/-- Merging a group into another one keeps the tables consistent. -/
theorem GroupState.Inv.inv_mergeGroups {st : GroupState} (hI : st.Inv) {src tgt : Nat}
    {msS msT : List QUuid} (hS : st.groups.lookup src = some msS)
    (hT : st.groups.lookup tgt = some msT) (hne : src ≠ tgt) :
    (SurfaceMir.mergeGroups st src tgt).Inv where
  fresh := by
    intro k hk
    apply hI.fresh
    have hsub : (mapErase src (appendControls tgt (st.controlsOf src) st.groups)).map Prod.fst
        ⊆ (appendControls tgt (st.controlsOf src) st.groups).map Prod.fst :=
      List.map_subset _ (List.filter_sublist _).subset
    have := hsub hk
    rwa [keys_appendControls] at this
  keysNodup := by
    have hsub : ((mapErase src (appendControls tgt (st.controlsOf src) st.groups)).map Prod.fst).Sublist
        ((appendControls tgt (st.controlsOf src) st.groups).map Prod.fst) :=
      List.Sublist.map _ (List.filter_sublist _)
    rw [keys_appendControls] at hsub
    exact hsub.nodup hI.keysNodup
  consistent := by
    intro x h
    rw [mergeGroups_lookup hI hS, mergeGroups_groups_lookup hS hT]
    constructor
    · intro hx
      by_cases hxs : st.controlGroups.lookup x = some src
      · rw [if_pos hxs] at hx
        injection hx with hx
        subst hx
        obtain ⟨ms, hms, hmem⟩ := (hI.consistent x src).1 hxs
        rw [hS] at hms
        injection hms with hms
        subst hms
        refine ⟨msT ++ msS, ?_, List.mem_append_right _ hmem⟩
        simp [Ne.symm hne]
      · rw [if_neg hxs] at hx
        have hhs : h ≠ src := by
          rintro rfl
          exact hxs hx
        obtain ⟨ms, hms, hmem⟩ := (hI.consistent x h).1 hx
        by_cases hht : h = tgt
        · subst hht
          rw [hT] at hms
          injection hms with hms
          subst hms
          exact ⟨msT ++ msS, by simp [hhs], List.mem_append_left _ hmem⟩
        · exact ⟨ms, by simp [hhs, hht, hms], hmem⟩
    · rintro ⟨ms, hms, hmem⟩
      by_cases hhs : h = src
      · simp [hhs] at hms
      · rw [if_neg hhs] at hms
        by_cases hht : h = tgt
        · rw [if_pos hht] at hms
          injection hms with hms
          subst hms
          subst hht
          rcases List.mem_append.1 hmem with hm | hm
          · have hx := (hI.consistent x h).2 ⟨msT, hT, hm⟩
            have : st.controlGroups.lookup x ≠ some src := by
              rw [hx]
              intro hc
              injection hc with hc
              exact hne hc.symm
            rw [if_neg this]
            exact hx
          · have hx := (hI.consistent x src).2 ⟨msS, hS, hm⟩
            rw [if_pos hx]
        · rw [if_neg hht] at hms
          have hx := (hI.consistent x h).2 ⟨ms, hms, hmem⟩
          have : st.controlGroups.lookup x ≠ some src := by
            rw [hx]
            intro hc
            injection hc with hc
            exact hhs hc
          rw [if_neg this]
          exact hx
  membersNodup := by
    intro h ms hms
    rw [mergeGroups_groups_lookup hS hT] at hms
    by_cases hhs : h = src
    · simp [hhs] at hms
    · rw [if_neg hhs] at hms
      by_cases hht : h = tgt
      · rw [if_pos hht] at hms
        injection hms with hms
        subst hms
        refine List.Nodup.append (hI.membersNodup _ _ hT) (hI.membersNodup _ _ hS) ?_
        intro x hx1 hx2
        have h1 := (hI.consistent x tgt).2 ⟨msT, hT, hx1⟩
        have h2 := (hI.consistent x src).2 ⟨msS, hS, hx2⟩
        rw [h1] at h2
        injection h2 with h2
        exact hne h2.symm
      · rw [if_neg hht] at hms
        exact hI.membersNodup h ms hms
  membersNonempty := by
    intro h ms hms
    rw [mergeGroups_groups_lookup hS hT] at hms
    by_cases hhs : h = src
    · simp [hhs] at hms
    · rw [if_neg hhs] at hms
      by_cases hht : h = tgt
      · rw [if_pos hht] at hms
        injection hms with hms
        subst hms
        intro hc
        exact hI.membersNonempty _ _ hT (List.append_eq_nil.1 hc).1
      · rw [if_neg hht] at hms
        exact hI.membersNonempty h ms hms

theorem connectStep_none {st : GroupState} {g : Nat} {d : QUuid}
    (hd : st.controlGroups.lookup d = none) :
    connectStep g st d =
      { groups := appendControls g [d] st.groups
        controlGroups := hashInsert d g st.controlGroups
        nextGroup := st.nextGroup } := by
  simp [connectStep, hd]

theorem connectStep_some {st : GroupState} {g h : Nat} {d : QUuid}
    (hd : st.controlGroups.lookup d = some h) :
    connectStep g st d = if h ≠ g then mergeGroups st h g else st := by
  simp [connectStep, hd]

/-- Adding an id that has no group to a group keeps the tables consistent. -/
theorem GroupState.Inv.inv_push {st : GroupState} (hI : st.Inv) {g : Nat} {ms0 : List QUuid}
    (hg : st.groups.lookup g = some ms0) {d : QUuid}
    (hd : st.controlGroups.lookup d = none) :
    GroupState.Inv { groups := appendControls g [d] st.groups
                     controlGroups := hashInsert d g st.controlGroups
                     nextGroup := st.nextGroup } where
  fresh := by
    intro k hk
    simp only [keys_appendControls] at hk
    exact hI.fresh k hk
  keysNodup := by
    simp only [keys_appendControls]
    exact hI.keysNodup
  consistent := by
    intro x h
    simp only [lookup_hashInsert, lookup_appendControls, hg, Option.map_some']
    constructor
    · intro hx
      by_cases hxd : x = d
      · rw [if_pos hxd] at hx
        injection hx with hx
        subst hx
        exact ⟨ms0 ++ [d], by simp, by simp [hxd]⟩
      · rw [if_neg hxd] at hx
        obtain ⟨ms, hms, hmem⟩ := (hI.consistent x h).1 hx
        by_cases hhg : h = g
        · subst hhg
          rw [hg] at hms
          injection hms with hms
          subst hms
          exact ⟨ms0 ++ [d], by simp, List.mem_append_left _ hmem⟩
        · exact ⟨ms, by simp [hhg, hms], hmem⟩
    · rintro ⟨ms, hms, hmem⟩
      by_cases hxd : x = d
      · subst hxd
        rw [if_pos rfl]
        by_cases hhg : h = g
        · rw [hhg]
        · rw [if_neg hhg] at hms
          have := (hI.consistent x h).2 ⟨ms, hms, hmem⟩
          rw [hd] at this
          exact Option.noConfusion this
      · rw [if_neg hxd]
        by_cases hhg : h = g
        · rw [if_pos hhg] at hms
          injection hms with hms
          subst hms
          subst hhg
          rcases List.mem_append.1 hmem with hm | hm
          · exact (hI.consistent x h).2 ⟨ms0, hg, hm⟩
          · exact absurd (by simpa using hm) hxd
        · rw [if_neg hhg] at hms
          exact (hI.consistent x h).2 ⟨ms, hms, hmem⟩
  membersNodup := by
    intro h ms hms
    simp only [lookup_appendControls, hg, Option.map_some'] at hms
    by_cases hhg : h = g
    · rw [if_pos hhg] at hms
      injection hms with hms
      subst hms
      refine List.Nodup.append (hI.membersNodup _ _ hg) (List.nodup_singleton d) ?_
      intro x hx1 hx2
      have hxd : x = d := by simpa using hx2
      subst hxd
      have := (hI.consistent x g).2 ⟨ms0, hg, hx1⟩
      rw [hd] at this
      exact Option.noConfusion this
    · rw [if_neg hhg] at hms
      exact hI.membersNodup h ms hms
  membersNonempty := by
    intro h ms hms
    simp only [lookup_appendControls, hg, Option.map_some'] at hms
    by_cases hhg : h = g
    · rw [if_pos hhg] at hms
      injection hms with hms
      subst hms
      simp
    · rw [if_neg hhg] at hms
      exact hI.membersNonempty h ms hms

/-- One step of the loop over the connected controls keeps the tables
consistent, only extends member lists, keeps the group `g`, moves `d` and the
ids grouped with it into `g`, and leaves every other id where it was. -/
theorem connectStep_spec {st : GroupState} (hI : st.Inv) {g : Nat} {ms0 : List QUuid}
    (hg : st.groups.lookup g = some ms0) (d : QUuid) :
    (connectStep g st d).Inv ∧
    (connectStep g st d).nextGroup = st.nextGroup ∧
    (∀ h ms', (connectStep g st d).groups.lookup h = some ms' →
       ∃ ms, st.groups.lookup h = some ms ∧ ms <+: ms') ∧
    (∃ ms, (connectStep g st d).groups.lookup g = some ms) ∧
    (∀ x, (x = d ∨ ∃ h, st.controlGroups.lookup d = some h ∧
            st.controlGroups.lookup x = some h) →
       (connectStep g st d).controlGroups.lookup x = some g) ∧
    (∀ x, ¬ (x = d ∨ ∃ h, st.controlGroups.lookup d = some h ∧
            st.controlGroups.lookup x = some h) →
       (connectStep g st d).controlGroups.lookup x = st.controlGroups.lookup x) := by
  cases hd : st.controlGroups.lookup d with
  | none =>
    rw [connectStep_none hd]
    refine ⟨hI.inv_push hg hd, rfl, ?_, ?_, ?_, ?_⟩
    · intro h ms' hms'
      simp only [lookup_appendControls, hg, Option.map_some'] at hms'
      by_cases hhg : h = g
      · rw [if_pos hhg] at hms'
        injection hms' with hms'
        subst hms'
        subst hhg
        exact ⟨ms0, hg, List.prefix_append _ _⟩
      · rw [if_neg hhg] at hms'
        exact ⟨ms', hms', List.prefix_refl _⟩
    · exact ⟨ms0 ++ [d], by simp [lookup_appendControls, hg]⟩
    · intro x hx
      have hxd : x = d := by
        rcases hx with hx | ⟨h, hh, _⟩
        · exact hx
        · exact Option.noConfusion hh
      simp [lookup_hashInsert, hxd]
    · intro x hx
      have hxd : x ≠ d := fun hc => hx (Or.inl hc)
      simp [lookup_hashInsert, hxd]
  | some h0 =>
    rw [connectStep_some hd]
    by_cases hne : h0 = g
    · subst hne
      rw [if_neg (by simp)]
      refine ⟨hI, rfl, ?_, ⟨ms0, hg⟩, ?_, ?_⟩
      · intro h ms' hms'
        exact ⟨ms', hms', List.prefix_refl _⟩
      · intro x hx
        rcases hx with hx | ⟨h, hh, hxh⟩
        · rw [hx, hd]
        · injection hh with hh
          subst hh
          exact hxh
      · intro x _
        rfl
    · rw [if_pos hne]
      obtain ⟨msS, hS, hdS⟩ := (hI.consistent d h0).1 hd
      refine ⟨hI.inv_mergeGroups hS hg hne, rfl, ?_, ?_, ?_, ?_⟩
      · intro h ms' hms'
        rw [mergeGroups_groups_lookup hS hg] at hms'
        by_cases hhs : h = h0
        · simp [hhs] at hms'
        · rw [if_neg hhs] at hms'
          by_cases hht : h = g
          · rw [if_pos hht] at hms'
            injection hms' with hms'
            subst hms'
            subst hht
            exact ⟨ms0, hg, List.prefix_append _ _⟩
          · rw [if_neg hht] at hms'
            exact ⟨ms', hms', List.prefix_refl _⟩
      · refine ⟨ms0 ++ msS, ?_⟩
        rw [mergeGroups_groups_lookup hS hg]
        simp [Ne.symm hne]
      · intro x hx
        rw [mergeGroups_lookup hI hS]
        have : st.controlGroups.lookup x = some h0 := by
          rcases hx with hx | ⟨h, hh, hxh⟩
          · rw [hx, hd]
          · injection hh with hh
            subst hh
            exact hxh
        rw [if_pos this]
      · intro x hx
        rw [mergeGroups_lookup hI hS]
        have : st.controlGroups.lookup x ≠ some h0 := fun hc => hx (Or.inr ⟨h0, rfl, hc⟩)
        rw [if_neg this]

/-! ## Tracking the connection graph -/

theorem eqvGen_dom {D : QUuid → Prop} {E : QUuid → QUuid → Prop}
    (hE : ∀ a b, E a b → D a ∧ D b) {a b : QUuid} (h : Relation.EqvGen E a b) :
    a = b ∨ (D a ∧ D b) := by
  induction h with
  | rel x y hxy => exact Or.inr (hE x y hxy)
  | refl x => exact Or.inl rfl
  | symm x y _ ih =>
    rcases ih with ih | ih
    · exact Or.inl ih.symm
    · exact Or.inr ⟨ih.2, ih.1⟩
  | trans x y z _ _ ih1 ih2 =>
    rcases ih1 with ih1 | ih1
    · subst ih1; exact ih2
    · rcases ih2 with ih2 | ih2
      · subst ih2; exact Or.inr ih1
      · exact Or.inr ⟨ih1.1, ih2.2⟩

theorem Tracks.tracks_empty : Tracks (fun _ => none) (fun _ => False) (fun _ _ => False) where
  dom := by simp
  rel := by simp
  edges := by simp

theorem Tracks.tracks_congr {f f' : QUuid → Option Nat} {D D' : QUuid → Prop}
    {E E' : QUuid → QUuid → Prop} (h : Tracks f D E) (hf : ∀ x, f' x = f x)
    (hD : ∀ x, D' x ↔ D x) (hE : ∀ a b, E' a b ↔ E a b) : Tracks f' D' E' := by
  have hf' : f' = f := funext hf
  have hD' : D' = D := funext fun x => propext (hD x)
  have hE' : E' = E := funext fun a => funext fun b => propext (hE a b)
  rw [hf', hD', hE']
  exact h

/-- A map that tracks a graph still does when a new vertex without edges gets
a group of its own. -/
theorem Tracks.tracks_single {f f' : QUuid → Option Nat} {D : QUuid → Prop}
    {E : QUuid → QUuid → Prop} (h : Tracks f D E) {u : QUuid} {n : Nat} (hu : ¬ D u)
    (hf : ∀ x, f' x = if x = u then some n else f x) (hn : ∀ x, f x ≠ some n) :
    Tracks f' (fun x => D x ∨ x = u) E where
  dom := by
    intro x
    rw [hf]
    by_cases hx : x = u
    · simp [hx]
    · simp only [if_neg hx, hx, or_false]
      exact h.dom x
  rel := by
    intro a b
    constructor
    · rintro ⟨g, ha, hb⟩
      rw [hf] at ha hb
      by_cases hau : a = u
      · have hbu : b = u := by
          by_contra hbu
          rw [if_pos hau] at ha
          rw [if_neg hbu] at hb
          rw [← ha] at hb
          exact hn b hb
        rw [hau, hbu]
        exact ⟨Or.inr rfl, Or.inr rfl, Relation.EqvGen.refl _⟩
      · have hbu : b ≠ u := by
          intro hbu
          rw [if_neg hau] at ha
          rw [if_pos hbu] at hb
          rw [← hb] at ha
          exact hn a ha
        rw [if_neg hau] at ha
        rw [if_neg hbu] at hb
        obtain ⟨h1, h2, h3⟩ := (h.rel a b).1 ⟨g, ha, hb⟩
        exact ⟨Or.inl h1, Or.inl h2, h3⟩
    · rintro ⟨ha, hb, hab⟩
      rcases eqvGen_dom h.edges hab with heq | ⟨hDa, hDb⟩
      · subst heq
        rw [hf]
        by_cases hau : a = u
        · exact ⟨n, by simp [hau], by simp [hau]⟩
        · have hDa : D a := ha.resolve_right hau
          obtain ⟨g, hg⟩ := (h.dom a).2 hDa
          exact ⟨g, by simp [hau, hg], by simp [hau, hg]⟩
      · have hau : a ≠ u := fun hc => hu (hc ▸ hDa)
        have hbu : b ≠ u := fun hc => hu (hc ▸ hDb)
        obtain ⟨g, h1, h2⟩ := (h.rel a b).2 ⟨hDa, hDb, hab⟩
        exact ⟨g, by simp [hf, hau, h1], by simp [hf, hbu, h2]⟩
  edges := by
    intro a b hab
    obtain ⟨h1, h2⟩ := h.edges a b hab
    exact ⟨Or.inl h1, Or.inl h2⟩

/-- Moving `d` and the vertices grouped with it into the group of `c` tracks
the graph with the vertex `d` and the edge from `c` to `d` added. -/
theorem Tracks.tracks_join {f f' : QUuid → Option Nat} {D : QUuid → Prop}
    {E : QUuid → QUuid → Prop} (h : Tracks f D E) {c d : QUuid} {g : Nat}
    (hc : f c = some g)
    (h1 : ∀ x, (x = d ∨ ∃ k, f d = some k ∧ f x = some k) → f' x = some g)
    (h2 : ∀ x, ¬ (x = d ∨ ∃ k, f d = some k ∧ f x = some k) → f' x = f x) :
    Tracks f' (fun x => D x ∨ x = d) (fun a b => E a b ∨ (a = c ∧ b = d)) := by
  have hdom : ∀ x, (∃ k, f' x = some k) ↔ (D x ∨ x = d) := by
    intro x
    by_cases hx : (x = d ∨ ∃ k, f d = some k ∧ f x = some k)
    · rw [h1 x hx]
      constructor
      · intro _
        rcases hx with hx | ⟨k, _, hk⟩
        · exact Or.inr hx
        · exact Or.inl ((h.dom x).1 ⟨k, hk⟩)
      · intro _
        exact ⟨g, rfl⟩
    · rw [h2 x hx]
      have hxd : x ≠ d := fun hc => hx (Or.inl hc)
      simp only [hxd, or_false]
      exact h.dom x
  have hcoarse : ∀ u v k, f u = some k → f v = some k → ∃ k', f' u = some k' ∧ f' v = some k' := by
    intro u v k hu hv
    by_cases hx : (u = d ∨ ∃ k, f d = some k ∧ f u = some k)
    · have hy : (v = d ∨ ∃ k, f d = some k ∧ f v = some k) := by
        rcases hx with hx | ⟨k0, hk0, hk1⟩
        · subst hx
          exact Or.inr ⟨k, hu, hv⟩
        · rw [hu] at hk1
          injection hk1 with hk1
          subst hk1
          exact Or.inr ⟨k, hk0, hv⟩
      exact ⟨g, h1 u hx, h1 v hy⟩
    · have hy : ¬ (v = d ∨ ∃ k, f d = some k ∧ f v = some k) := by
        intro hy
        apply hx
        rcases hy with hy | ⟨k0, hk0, hk1⟩
        · subst hy
          exact Or.inr ⟨k, hv, hu⟩
        · rw [hv] at hk1
          injection hk1 with hk1
          subst hk1
          exact Or.inr ⟨k, hk0, hu⟩
      exact ⟨k, by rw [h2 u hx, hu], by rw [h2 v hy, hv]⟩
  have hmono : ∀ a b, Relation.EqvGen E a b →
      Relation.EqvGen (fun a b => E a b ∨ (a = c ∧ b = d)) a b := by
    intro a b hab
    exact Relation.EqvGen.mono (fun x y hxy => Or.inl hxy) hab
  have hcd : Relation.EqvGen (fun a b => E a b ∨ (a = c ∧ b = d)) c d :=
    Relation.EqvGen.rel _ _ (Or.inr ⟨rfl, rfl⟩)
  have hK : ∀ x, f' x = some g → Relation.EqvGen (fun a b => E a b ∨ (a = c ∧ b = d)) x c := by
    intro x hx
    by_cases hcx : (x = d ∨ ∃ k, f d = some k ∧ f x = some k)
    · rcases hcx with hcx | ⟨k, hk0, hk1⟩
      · rw [hcx]
        exact Relation.EqvGen.symm _ _ hcd
      · have := ((h.rel x d).1 ⟨k, hk1, hk0⟩).2.2
        exact Relation.EqvGen.trans _ _ _ (hmono _ _ this) (Relation.EqvGen.symm _ _ hcd)
    · rw [h2 x hcx] at hx
      exact hmono _ _ ((h.rel x c).1 ⟨g, hx, hc⟩).2.2
  have hfc : f' c = some g := by
    by_cases hcc : (c = d ∨ ∃ k, f d = some k ∧ f c = some k)
    · exact h1 c hcc
    · rw [h2 c hcc, hc]
  refine ⟨hdom, ?_, ?_⟩
  · intro u v
    constructor
    · rintro ⟨k, hu, hv⟩
      refine ⟨(hdom u).1 ⟨k, hu⟩, (hdom v).1 ⟨k, hv⟩, ?_⟩
      by_cases hkg : k = g
      · subst hkg
        exact Relation.EqvGen.trans _ _ _ (hK u hu) (Relation.EqvGen.symm _ _ (hK v hv))
      · have hcu : ¬ (u = d ∨ ∃ k, f d = some k ∧ f u = some k) := by
          intro hcu
          rw [h1 u hcu] at hu
          injection hu with hu
          exact hkg hu.symm
        have hcv : ¬ (v = d ∨ ∃ k, f d = some k ∧ f v = some k) := by
          intro hcv
          rw [h1 v hcv] at hv
          injection hv with hv
          exact hkg hv.symm
        rw [h2 u hcu] at hu
        rw [h2 v hcv] at hv
        exact hmono _ _ ((h.rel u v).1 ⟨k, hu, hv⟩).2.2
    · rintro ⟨hu, _, huv⟩
      have key : ∀ a b, Relation.EqvGen (fun a b => E a b ∨ (a = c ∧ b = d)) a b →
          ((D a ∨ a = d) ↔ (D b ∨ b = d)) ∧
          ((D a ∨ a = d) → ∃ k, f' a = some k ∧ f' b = some k) := by
        intro a b hab
        induction hab with
        | rel x y hxy =>
          rcases hxy with hxy | ⟨rfl, rfl⟩
          · obtain ⟨hx, hy⟩ := h.edges x y hxy
            refine ⟨⟨fun _ => Or.inl hy, fun _ => Or.inl hx⟩, fun _ => ?_⟩
            obtain ⟨k, hk1, hk2⟩ := (h.rel x y).2 ⟨hx, hy, Relation.EqvGen.rel _ _ hxy⟩
            exact hcoarse x y k hk1 hk2
          · refine ⟨⟨fun _ => Or.inr rfl, fun _ => Or.inl ((h.dom _).1 ⟨g, hc⟩)⟩, fun _ => ?_⟩
            exact ⟨g, hfc, h1 _ (Or.inl rfl)⟩
        | refl x => exact ⟨Iff.rfl, fun hx => by
            obtain ⟨k, hk⟩ := (hdom x).2 hx
            exact ⟨k, hk, hk⟩⟩
        | symm x y _ ih =>
          refine ⟨ih.1.symm, fun hy => ?_⟩
          obtain ⟨k, hk1, hk2⟩ := ih.2 (ih.1.2 hy)
          exact ⟨k, hk2, hk1⟩
        | trans x y z _ _ ih1 ih2 =>
          refine ⟨ih1.1.trans ih2.1, fun hx => ?_⟩
          obtain ⟨k, hk1, hk2⟩ := ih1.2 hx
          obtain ⟨k', hk3, hk4⟩ := ih2.2 (ih1.1.1 hx)
          rw [hk2] at hk3
          injection hk3 with hk3
          subst hk3
          exact ⟨k, hk1, hk4⟩
      exact (key u v huv).2 hu
  · intro a b hab
    rcases hab with hab | ⟨rfl, rfl⟩
    · obtain ⟨ha, hb⟩ := h.edges a b hab
      exact ⟨Or.inl ha, Or.inl hb⟩
    · exact ⟨Or.inl ((h.dom _).1 ⟨g, hc⟩), Or.inr rfl⟩

theorem head?_of_prefix {ms ms' : List QUuid} {u : QUuid} (h : ms <+: ms')
    (hu : ms.head? = some u) : ms'.head? = some u := by
  obtain ⟨t, rfl⟩ := h
  cases ms with
  | nil => simp at hu
  | cons a l => simpa using hu

/-! ## The union phase -/

theorem Represents.rep_empty (P : QUuid → Prop) :
    Represents P GroupState.empty (fun _ => False) (fun _ _ => False) where
  inv := GroupState.Inv.inv_empty
  tracks := Tracks.tracks_empty.tracks_congr (by simp [GroupState.empty]) (by simp) (by simp)
  heads := by simp [GroupState.empty]

theorem Represents.rep_congr {P : QUuid → Prop} {st : GroupState} {D D' : QUuid → Prop}
    {E E' : QUuid → QUuid → Prop} (h : Represents P st D E)
    (hD : ∀ x, D' x ↔ D x) (hE : ∀ a b, E' a b ↔ E a b) : Represents P st D' E' where
  inv := h.inv
  tracks := h.tracks.tracks_congr (fun _ => rfl) hD hE
  heads := h.heads

theorem Represents.rep_connectStep {P : QUuid → Prop} {st : GroupState} {D : QUuid → Prop}
    {E : QUuid → QUuid → Prop} (h : Represents P st D E) {c : QUuid} {g : Nat}
    (hc : st.controlGroups.lookup c = some g) (d : QUuid) :
    Represents P (SurfaceMir.connectStep g st d) (fun x => D x ∨ x = d)
      (fun a b => E a b ∨ (a = c ∧ b = d)) ∧
    (SurfaceMir.connectStep g st d).controlGroups.lookup c = some g := by
  obtain ⟨ms0, hg, _⟩ := (h.inv.consistent c g).1 hc
  obtain ⟨hI, _, hpre, _, h1, h2⟩ := connectStep_spec h.inv hg d
  refine ⟨⟨hI, h.tracks.tracks_join hc h1 h2, ?_⟩, ?_⟩
  · intro k ms' hms'
    obtain ⟨ms, hms, hp⟩ := hpre k ms' hms'
    obtain ⟨u, hu, hP⟩ := h.heads k ms hms
    exact ⟨u, head?_of_prefix hp hu, hP⟩
  · by_cases hcc : (c = d ∨ ∃ k, st.controlGroups.lookup d = some k ∧
        st.controlGroups.lookup c = some k)
    · exact h1 c hcc
    · rw [h2 c hcc, hc]

theorem Represents.rep_connectLoop {P : QUuid → Prop} {c : QUuid} {g : Nat} (ds : List QUuid) :
    ∀ {st : GroupState} {D : QUuid → Prop} {E : QUuid → QUuid → Prop},
    Represents P st D E → st.controlGroups.lookup c = some g →
    Represents P (ds.foldl (SurfaceMir.connectStep g) st) (fun x => D x ∨ x ∈ ds)
      (fun a b => E a b ∨ (a = c ∧ b ∈ ds)) := by
  induction ds with
  | nil =>
    intro st D E h _
    exact h.rep_congr (by simp) (by simp)
  | cons d ds ih =>
    intro st D E h hc
    obtain ⟨h1, hc1⟩ := h.rep_connectStep hc d
    have := ih h1 hc1
    simp only [List.foldl_cons]
    refine this.rep_congr ?_ ?_
    · intro x
      simp only [List.mem_cons, or_assoc]
    · intro a b
      simp only [List.mem_cons]
      tauto

theorem Represents.rep_newGroup {P : QUuid → Prop} {st : GroupState} {D : QUuid → Prop}
    {E : QUuid → QUuid → Prop} (h : Represents P st D E) {u : QUuid} (hP : P u)
    (hu : ¬ D u) :
    Represents P (SurfaceMir.newGroup st u).2 (fun x => D x ∨ x = u) E ∧
    (SurfaceMir.newGroup st u).2.controlGroups.lookup u = some st.nextGroup := by
  have hnone : st.controlGroups.lookup u = none := by
    cases hl : st.controlGroups.lookup u with
    | none => rfl
    | some k => exact absurd ((h.tracks.dom u).1 ⟨k, hl⟩) hu
  refine ⟨⟨h.inv.inv_newGroup hnone, ?_, ?_⟩, by simp [newGroup_lookup]⟩
  · refine h.tracks.tracks_single hu (fun x => newGroup_lookup st u x) ?_
    intro x hx
    exact Nat.lt_irrefl _ (h.inv.lt_of_lookup hx)
  · intro k ms hms
    rw [newGroup_groups_lookup] at hms
    by_cases hk : k = st.nextGroup
    · rw [if_pos hk] at hms
      injection hms with hms
      subst hms
      exact ⟨u, rfl, hP⟩
    · rw [if_neg hk] at hms
      exact h.heads k ms hms

theorem Represents.rep_controlStep {P : QUuid → Prop} {st : GroupState} {D : QUuid → Prop}
    {E : QUuid → QUuid → Prop} (h : Represents P st D E) (c : Control) (hP : P c.uuid)
    (hiso : c.connectedControls = [] → ¬ D c.uuid) :
    Represents P (SurfaceMir.controlStep st c)
      (fun x => D x ∨ x = c.uuid ∨ x ∈ c.connectedControls)
      (fun a b => E a b ∨ (a = c.uuid ∧ b ∈ c.connectedControls)) := by
  unfold SurfaceMir.controlStep
  by_cases hemp : c.connectedControls = []
  · simp only [hemp, List.isEmpty_nil, if_true]
    refine (h.rep_newGroup hP (hiso hemp)).1.rep_congr ?_ ?_
    · intro x; simp
    · intro a b; simp
  · have hne : c.connectedControls.isEmpty = false := by
      cases hcc : c.connectedControls with
      | nil => exact absurd hcc hemp
      | cons a l => rfl
    simp only [hne, Bool.false_eq_true, if_false]
    cases hl : st.controlGroups.lookup c.uuid with
    | none =>
      have hu : ¬ D c.uuid := by
        intro hD
        obtain ⟨k, hk⟩ := (h.tracks.dom c.uuid).2 hD
        rw [hl] at hk
        exact Option.noConfusion hk
      obtain ⟨h1, hc1⟩ := h.rep_newGroup hP hu
      refine (h1.rep_connectLoop c.connectedControls hc1).rep_congr ?_ ?_
      · intro x; simp only [or_assoc]
      · intro a b; rfl
    | some g =>
      have hD : D c.uuid := (h.tracks.dom c.uuid).1 ⟨g, hl⟩
      refine (h.rep_connectLoop c.connectedControls hl).rep_congr ?_ ?_
      · intro x
        constructor
        · rintro (hx | hx | hx)
          · exact Or.inl hx
          · exact Or.inl (hx ▸ hD)
          · exact Or.inr hx
        · rintro (hx | hx)
          · exact Or.inl hx
          · exact Or.inr (Or.inr hx)
      · intro a b; rfl

/-- The loop over the controls of the walked nodes: once the controls
`finished ++ todo` are done the tables represent the graph of the ids these
controls touch and of the connections they start. -/
theorem Represents.rep_controlLoop {P : QUuid → Prop} (todo : List Control) :
    ∀ (finished : List Control) {st : GroupState},
    Represents P st (touched finished) (walked finished) →
    (∀ c ∈ todo, P c.uuid) →
    ((finished ++ todo).map (fun c => c.uuid)).Nodup →
    (∀ c ∈ finished ++ todo, ∀ c' ∈ finished ++ todo,
      c.connectedControls = [] → c.uuid ∉ c'.connectedControls) →
    Represents P (todo.foldl SurfaceMir.controlStep st) (touched (finished ++ todo))
      (walked (finished ++ todo)) := by
  induction todo with
  | nil =>
    intro finished st h _ _ _
    simpa using h
  | cons c todo ih =>
    intro finished st h hP hnd hiso
    have hstep := h.rep_controlStep c (hP c (List.mem_cons_self _ _)) (by
      intro hemp
      rintro ⟨c', hc', hx | hx⟩
      · rw [List.map_append, List.nodup_append] at hnd
        exact hnd.2.2 (List.mem_map.2 ⟨c', hc', hx.symm⟩)
          (List.mem_map.2 ⟨c, List.mem_cons_self _ _, rfl⟩)
      · exact hiso c (List.mem_append_right _ (List.mem_cons_self _ _)) c'
          (List.mem_append_left _ hc') hemp hx)
    have hstep' : Represents P (SurfaceMir.controlStep st c) (touched (finished ++ [c]))
        (walked (finished ++ [c])) := by
      refine hstep.rep_congr ?_ ?_
      · intro x
        simp only [touched, List.mem_append, List.mem_singleton]
        constructor
        · rintro ⟨c', hc' | hc', hx⟩
          · exact Or.inl ⟨c', hc', hx⟩
          · subst hc'
            exact Or.inr hx
        · rintro (⟨c', hc', hx⟩ | hx)
          · exact ⟨c', Or.inl hc', hx⟩
          · exact ⟨c, Or.inr rfl, hx⟩
      · intro a b
        simp only [walked, List.mem_append, List.mem_singleton]
        constructor
        · rintro ⟨c', hc' | hc', hx⟩
          · exact Or.inl ⟨c', hc', hx⟩
          · subst hc'
            exact Or.inr hx
        · rintro (⟨c', hc', hx⟩ | hx)
          · exact ⟨c', Or.inl hc', hx⟩
          · exact ⟨c, Or.inr rfl, hx⟩
    have hassoc : finished ++ [c] ++ todo = finished ++ c :: todo := by simp
    have := ih (finished ++ [c]) hstep' (fun c' hc' => hP c' (List.mem_cons_of_mem _ hc'))
      (by rw [hassoc]; exact hnd) (by rw [hassoc]; exact hiso)
    rw [hassoc] at this
    simpa using this

theorem foldl_nodeStep (nodes : List Node) :
    ∀ st : GroupState, nodes.foldl nodeStep st
      = ((nodes.filter (fun n => !n.skipped)).flatMap (fun n => n.controls)).foldl
          controlStep st := by
  induction nodes with
  | nil => intro st; rfl
  | cons n nodes ih =>
    intro st
    simp only [List.foldl_cons, List.filter_cons]
    by_cases hs : n.skipped = true
    · simp only [nodeStep, hs, if_true, Bool.not_true, Bool.false_eq_true, if_false]
      exact ih st
    · have hs' : n.skipped = false := by simpa using hs
      simp only [nodeStep, hs', Bool.false_eq_true, if_false, Bool.not_false, if_true,
        List.flatMap_cons, List.foldl_append]
      exact ih _

theorem unionPhase_eq (s : Surface) :
    unionPhase s = s.groupedControls.foldl controlStep GroupState.empty :=
  foldl_nodeStep s.nodes GroupState.empty

theorem groupedControls_sublist (s : Surface) : s.groupedControls.Sublist s.allControls := by
  unfold Surface.groupedControls Surface.allControls
  induction s.nodes with
  | nil => exact List.Sublist.refl _
  | cons n nodes ih =>
    simp only [List.filter_cons, List.flatMap_cons]
    by_cases hs : n.skipped = true
    · simp only [hs, Bool.not_true, Bool.false_eq_true, if_false]
      exact ih.trans (List.sublist_append_right _ _)
    · have hs' : n.skipped = false := by simpa using hs
      simp only [hs', Bool.not_false, if_true, List.flatMap_cons]
      exact List.Sublist.append (List.Sublist.refl _) ih

theorem Surface.WellFormed.isolated {s : Surface} (h : s.WellFormed) :
    ∀ c ∈ s.allControls, ∀ c' ∈ s.allControls,
      c.connectedControls = [] → c.uuid ∉ c'.connectedControls := by
  intro c hc c' hc' hemp hmem
  obtain ⟨c'', hc'', hu, hback⟩ := h.2 c' hc' c.uuid hmem
  have : c'' = c := List.inj_on_of_nodup_map h.1 hc'' hc hu
  subst this
  rw [hemp] at hback
  exact List.not_mem_nil _ hback

/-- After the union phase the tables represent the graph of the walked
controls and their connections. -/
theorem unionPhase_represents {s : Surface} (h : s.WellFormed) :
    Represents (fun u => ∃ c ∈ s.groupedControls, c.uuid = u) (unionPhase s)
      (touched s.groupedControls) (walked s.groupedControls) := by
  rw [unionPhase_eq]
  have hsub := groupedControls_sublist s
  have := @Represents.rep_controlLoop (fun u => ∃ c ∈ s.groupedControls, c.uuid = u)
    s.groupedControls [] GroupState.empty
    ((Represents.rep_empty _).rep_congr (by simp [touched]) (by simp [walked]))
    (fun c hc => ⟨c, hc, rfl⟩)
    (by simpa using (hsub.map _).nodup h.1)
    (by
      intro c hc c' hc'
      simp only [List.nil_append] at hc hc'
      exact h.isolated c (hsub.subset hc) c' (hsub.subset hc'))
  simpa using this

/-! ## The merge phase -/

theorem mergeExternal_eq {st : GroupState} {target g : Nat} {u : QUuid}
    (hu : st.controlGroups.lookup u = some g) :
    mergeExternal target st u = some (connectStep target st u) := by
  unfold mergeExternal connectStep
  simp only [hu]
  by_cases hg : g = target <;> simp [hg]

theorem Represents.rep_mergeLoop {P : QUuid → Prop} {first : QUuid} {target : Nat}
    (rest : List QUuid) :
    ∀ {st : GroupState} {D : QUuid → Prop} {E : QUuid → QUuid → Prop},
    Represents P st D E → st.controlGroups.lookup first = some target →
    (∀ u ∈ rest, D u) →
    ∃ st', rest.foldlM (mergeExternal target) st = some st' ∧
      Represents P st' D (fun a b => E a b ∨ (a = first ∧ b ∈ rest)) := by
  induction rest with
  | nil =>
    intro st D E h _ _
    exact ⟨st, rfl, h.rep_congr (fun _ => Iff.rfl) (by simp)⟩
  | cons u rest ih =>
    intro st D E h hc hD
    obtain ⟨g, hg⟩ := (h.tracks.dom u).2 (hD u (List.mem_cons_self _ _))
    obtain ⟨h1, hc1⟩ := h.rep_connectStep hc u
    have h1' : Represents P (SurfaceMir.connectStep target st u) D
        (fun a b => E a b ∨ (a = first ∧ b = u)) := by
      refine h1.rep_congr ?_ (fun _ _ => Iff.rfl)
      intro x
      constructor
      · exact Or.inl
      · rintro (hx | hx)
        · exact hx
        · exact hx ▸ hD u (List.mem_cons_self _ _)
    obtain ⟨st', hst', hrep⟩ := ih h1' hc1 (fun x hx => hD x (List.mem_cons_of_mem _ hx))
    refine ⟨st', ?_, hrep.rep_congr (fun _ => Iff.rfl) ?_⟩
    · simp only [List.foldlM_cons, mergeExternal_eq hg]
      exact hst'
    · intro a b
      simp only [List.mem_cons]
      tauto

theorem Represents.rep_mergePortal {P : QUuid → Prop} {st : GroupState} {D : QUuid → Prop}
    {E : QUuid → QUuid → Prop} (h : Represents P st D E) (p : GroupSurfacePortal)
    (hne : p.externalControls ≠ []) (hD : ∀ u ∈ p.externalControls, D u) :
    ∃ st', SurfaceMir.mergePortal st p = some st' ∧
      Represents P st' D (fun a b => E a b ∨ portalLinks [p] a b) := by
  unfold SurfaceMir.mergePortal
  cases hext : p.externalControls with
  | nil => exact absurd hext hne
  | cons first rest =>
    rw [hext] at hD
    obtain ⟨target, ht⟩ := (h.tracks.dom first).2 (hD first (List.mem_cons_self _ _))
    obtain ⟨st', hst', hrep⟩ := h.rep_mergeLoop rest ht (fun u hu => hD u (List.mem_cons_of_mem _ hu))
    refine ⟨st', by simpa [ht] using hst', hrep.rep_congr (fun _ => Iff.rfl) ?_⟩
    intro a b
    simp only [portalLinks, List.mem_singleton, exists_eq_left, hext]
    constructor
    · rintro (hab | ⟨r, hr, hb⟩)
      · exact Or.inl hab
      · injection hr with h1 h2
        subst h1; subst h2
        exact Or.inr ⟨rfl, hb⟩
    · rintro (hab | ⟨rfl, hb⟩)
      · exact Or.inl hab
      · exact Or.inr ⟨rest, rfl, hb⟩

theorem Represents.rep_portalLoop {P : QUuid → Prop} {D : QUuid → Prop} (todo : List GroupSurfacePortal) :
    ∀ (finished : List GroupSurfacePortal) {st : GroupState} {E : QUuid → QUuid → Prop},
    Represents P st D (fun a b => E a b ∨ portalLinks finished a b) →
    (∀ p ∈ todo, p.externalControls ≠ [] ∧ ∀ u ∈ p.externalControls, D u) →
    ∃ st', todo.foldlM SurfaceMir.mergePortal st = some st' ∧
      Represents P st' D (fun a b => E a b ∨ portalLinks (finished ++ todo) a b) := by
  induction todo with
  | nil =>
    intro finished st E h _
    exact ⟨st, rfl, by simpa using h⟩
  | cons p todo ih =>
    intro finished st E h hp
    obtain ⟨hne, hD⟩ := hp p (List.mem_cons_self _ _)
    obtain ⟨st1, hst1, h1⟩ := h.rep_mergePortal p hne hD
    have h1' : Represents P st1 D (fun a b => E a b ∨ portalLinks (finished ++ [p]) a b) := by
      refine h1.rep_congr (fun _ => Iff.rfl) ?_
      intro a b
      simp only [portalLinks, List.mem_append, List.mem_singleton, exists_eq_left]
      constructor
      · rintro (hab | ⟨q, hq | hq, hx⟩)
        · exact Or.inl (Or.inl hab)
        · exact Or.inl (Or.inr ⟨q, hq, hx⟩)
        · subst hq
          exact Or.inr hx
      · rintro ((hab | ⟨q, hq, hx⟩) | hx)
        · exact Or.inl hab
        · exact Or.inr ⟨q, Or.inl hq, hx⟩
        · exact Or.inr ⟨p, Or.inr rfl, hx⟩
    obtain ⟨st', hst', hrep⟩ := ih (finished ++ [p]) h1'
      (fun q hq => hp q (List.mem_cons_of_mem _ hq))
    refine ⟨st', ?_, ?_⟩
    · simp only [List.foldlM_cons, hst1]
      exact hst'
    · have hassoc : finished ++ [p] ++ todo = finished ++ p :: todo := by simp
      rw [hassoc] at hrep
      exact hrep

theorem mergeNode_eq (st : GroupState) (n : Node) :
    mergeNode st n = n.portals.foldlM mergePortal st := by
  unfold mergeNode Node.portals
  cases n.kind <;> rfl

theorem mergePhase_eq (s : Surface) (st : GroupState) :
    mergePhase s st = s.portals.foldlM mergePortal st := by
  unfold mergePhase Surface.portals
  induction s.nodes generalizing st with
  | nil => rfl
  | cons n nodes ih =>
    simp only [List.foldlM_cons, List.flatMap_cons, List.foldlM_append, mergeNode_eq]
    cases hn : n.portals.foldlM mergePortal st with
    | none => rfl
    | some st1 => exact ih st1

/-- Both phases succeed on a well-formed surface with resolved portals, and
the tables then represent the graph of the walked controls with the links made
by the portals added. -/
theorem buildGroups_represents {s : Surface} (h : s.WellFormed) (hp : s.PortalsResolved) :
    ∃ st, buildGroups s = some st ∧
      Represents (fun u => ∃ c ∈ s.groupedControls, c.uuid = u) st
        (touched s.groupedControls)
        (fun a b => walked s.groupedControls a b ∨ portalLinks s.portals a b) := by
  have h0 := unionPhase_represents h
  have h0' : Represents (fun u => ∃ c ∈ s.groupedControls, c.uuid = u) (unionPhase s)
      (touched s.groupedControls)
      (fun a b => walked s.groupedControls a b ∨ portalLinks [] a b) :=
    h0.rep_congr (fun _ => Iff.rfl) (by simp [portalLinks])
  obtain ⟨st', hst', hrep⟩ := h0'.rep_portalLoop s.portals [] (by
    intro p hp'
    obtain ⟨hne, hD⟩ := hp p hp'
    refine ⟨hne, fun u hu => ?_⟩
    obtain ⟨c, hc, hcu⟩ := hD u hu
    exact ⟨c, hc, Or.inl hcu.symm⟩)
  refine ⟨st', ?_, by simpa using hrep⟩
  unfold buildGroups
  rw [mergePhase_eq]
  exact hst'

/-! ## Groups are connected components -/

theorem eqvGen_iff_reflTransGen {r : QUuid → QUuid → Prop} (hs : ∀ a b, r a b → r b a)
    (a b : QUuid) : Relation.EqvGen r a b ↔ Relation.ReflTransGen r a b := by
  constructor
  · intro h
    induction h with
    | rel x y hxy => exact Relation.ReflTransGen.single hxy
    | refl x => exact Relation.ReflTransGen.refl
    | symm x y _ ih => exact Relation.ReflTransGen.symmetric hs ih
    | trans x y z _ _ ih1 ih2 => exact ih1.trans ih2
  · intro h
    induction h with
    | refl => exact Relation.EqvGen.refl _
    | tail _ hyz ih => exact Relation.EqvGen.trans _ _ _ ih (Relation.EqvGen.rel _ _ hyz)

theorem eqvGen_isolated {E : QUuid → QUuid → Prop} {u : QUuid}
    (hu : ∀ a b, E a b → a ≠ u ∧ b ≠ u) {a b : QUuid} (h : Relation.EqvGen E a b) :
    a = u ↔ b = u := by
  induction h with
  | rel x y hxy =>
    obtain ⟨h1, h2⟩ := hu x y hxy
    exact ⟨fun h => absurd h h1, fun h => absurd h h2⟩
  | refl x => exact Iff.rfl
  | symm x y _ ih => exact ih.symm
  | trans x y z _ _ ih1 ih2 => exact ih1.trans ih2

theorem Surface.WellFormed.symm {s : Surface} (h : s.WellFormed) (a b : QUuid)
    (hab : s.directlyConnected a b) : s.directlyConnected b a := by
  obtain ⟨c, hc, rfl, hb⟩ := hab
  obtain ⟨c', hc', hu, hback⟩ := h.2 c hc b hb
  exact ⟨c', hc', hu.symm, hback⟩

theorem groupedControls_eq_all {s : Surface} (hv : ∀ n ∈ s.nodes, n.skipped = false) :
    s.groupedControls = s.allControls := by
  unfold Surface.groupedControls Surface.allControls
  rw [List.filter_eq_self.2]
  intro n hn
  simp [hv n hn]

theorem eq_singleton_of_nodup {ms : List QUuid} {u : QUuid} (hn : ms.Nodup) (hu : u ∈ ms)
    (hall : ∀ x ∈ ms, x = u) : ms = [u] := by
  cases ms with
  | nil => simp at hu
  | cons a l =>
    have ha : a = u := hall a (List.mem_cons_self _ _)
    subst ha
    cases l with
    | nil => rfl
    | cons b l' =>
      have hb : b = a := hall b (List.mem_cons_of_mem _ (List.mem_cons_self _ _))
      subst hb
      simp at hn

theorem GroupState.Inv.flat_nodup {st : GroupState} (hI : st.Inv) :
    (st.groups.flatMap (fun p => p.2)).Nodup := by
  rw [List.nodup_flatMap]
  refine ⟨fun p hp => hI.membersNodup p.1 p.2 (lookup_of_mem hI.keysNodup hp), ?_⟩
  have hk := hI.keysNodup
  rw [List.Nodup, List.pairwise_map] at hk
  refine hk.imp_of_mem ?_
  intro p q hp hq hne x hx1 hx2
  have h1 := (hI.consistent x p.1).2 ⟨p.2, lookup_of_mem hI.keysNodup hp, hx1⟩
  have h2 := (hI.consistent x q.1).2 ⟨q.2, lookup_of_mem hI.keysNodup hq, hx2⟩
  rw [h1] at h2
  injection h2 with h2
  exact hne h2

/-- C1. On a well-formed surface in which no node is skipped (every custom
node has a valid block), after the union phase two controls of the surface are
mapped by `controlGroups` to the same group if and only if a path of direct
connections links them, and a control without connections is the only member of
its group. -/
theorem union_groups_are_connected_components (s : Surface)
    (hv : ∀ n ∈ s.nodes, n.skipped = false) (hw : s.WellFormed) :
    (∀ a ∈ s.allControls, ∀ b ∈ s.allControls,
      (unionPhase s).sameGroup a.uuid b.uuid ↔
        Relation.ReflTransGen s.directlyConnected a.uuid b.uuid) ∧
    (∀ c ∈ s.allControls, c.connectedControls = [] →
      ∃ g, (unionPhase s).controlGroups.lookup c.uuid = some g ∧
        (unionPhase s).groups.lookup g = some [c.uuid]) := by
  have hrep := unionPhase_represents hw
  rw [groupedControls_eq_all hv] at hrep
  constructor
  · intro a ha b hb
    rw [← eqvGen_iff_reflTransGen hw.symm]
    have := hrep.tracks.rel a.uuid b.uuid
    unfold GroupState.sameGroup
    rw [this]
    constructor
    · exact fun h => h.2.2
    · exact fun h => ⟨⟨a, ha, Or.inl rfl⟩, ⟨b, hb, Or.inl rfl⟩, h⟩
  · intro c hc hemp
    obtain ⟨g, hg⟩ := (hrep.tracks.dom c.uuid).2 ⟨c, hc, Or.inl rfl⟩
    obtain ⟨ms, hms, hmem⟩ := (hrep.inv.consistent c.uuid g).1 hg
    refine ⟨g, hg, ?_⟩
    rw [hms, eq_singleton_of_nodup (hrep.inv.membersNodup g ms hms) hmem]
    intro x hx
    have hxg := (hrep.inv.consistent x g).2 ⟨ms, hms, hx⟩
    have hEq := ((hrep.tracks.rel x c.uuid).1 ⟨g, hxg, hg⟩).2.2
    refine (eqvGen_isolated ?_ hEq).2 rfl
    rintro a b ⟨c', hc', rfl, hb⟩
    constructor
    · intro hcu
      have : c' = c := List.inj_on_of_nodup_map hw.1 hc' hc hcu
      subst this
      rw [hemp] at hb
      exact List.not_mem_nil _ hb
    · rintro rfl
      exact hw.isolated c hc c' hc' hemp hb

/-- The surface `chainSurface` has no skipped node and is well formed, so its
groups after the union phase are its connected components. -/
theorem union_groups_witness :
    (∀ n ∈ chainSurface.nodes, n.skipped = false) ∧ chainSurface.WellFormed ∧
    ((∀ a ∈ chainSurface.allControls, ∀ b ∈ chainSurface.allControls,
      (unionPhase chainSurface).sameGroup a.uuid b.uuid ↔
        Relation.ReflTransGen chainSurface.directlyConnected a.uuid b.uuid) ∧
    (∀ c ∈ chainSurface.allControls, c.connectedControls = [] →
      ∃ g, (unionPhase chainSurface).controlGroups.lookup c.uuid = some g ∧
        (unionPhase chainSurface).groups.lookup g = some [c.uuid])) :=
  ⟨by decide, by decide,
    union_groups_are_connected_components chainSurface (by decide) (by decide)⟩

/-! ## Reordered surfaces -/

theorem forall₂_mem_right {α β : Type} {R : α → β → Prop} {l : List α} {l' : List β}
    (h : List.Forall₂ R l l') : ∀ y ∈ l', ∃ x ∈ l, R x y := by
  induction h with
  | nil => intro y hy; simp at hy
  | cons hab _ ih =>
    intro y hy
    rcases List.mem_cons.1 hy with rfl | hy
    · exact ⟨_, List.mem_cons_self _ _, hab⟩
    · obtain ⟨x, hx, hr⟩ := ih y hy
      exact ⟨x, List.mem_cons_of_mem _ hx, hr⟩

theorem forall₂_mem_left {α β : Type} {R : α → β → Prop} {l : List α} {l' : List β}
    (h : List.Forall₂ R l l') : ∀ x ∈ l, ∃ y ∈ l', R x y := by
  induction h with
  | nil => intro y hy; simp at hy
  | cons hab _ ih =>
    intro x hx
    rcases List.mem_cons.1 hx with rfl | hx
    · exact ⟨_, List.mem_cons_self _ _, hab⟩
    · obtain ⟨y, hy, hr⟩ := ih x hx
      exact ⟨y, List.mem_cons_of_mem _ hy, hr⟩

theorem forall₂_flatMap_perm {α β γ : Type} {R : α → β → Prop} {f : α → List γ}
    {g : β → List γ} (hfg : ∀ x y, R x y → (f x).Perm (g y)) {l : List α} {l' : List β}
    (h : List.Forall₂ R l l') : (l.flatMap f).Perm (l'.flatMap g) := by
  induction h with
  | nil => exact List.Perm.refl _
  | cons hab _ ih =>
    simp only [List.flatMap_cons]
    exact List.Perm.append (hfg _ _ hab) ih

theorem Control.Reordered.uuid_eq {c c' : Control} (h : c.Reordered c') : c'.uuid = c.uuid := by
  obtain ⟨l, _, rfl⟩ := h
  rfl

theorem Control.Reordered.mem_iff {c c' : Control} (h : c.Reordered c') (d : QUuid) :
    d ∈ c'.connectedControls ↔ d ∈ c.connectedControls := by
  obtain ⟨l, hl, rfl⟩ := h
  exact hl.mem_iff

theorem forall₂_uuid_eq {l l' : List Control} (h : List.Forall₂ Control.Reordered l l') :
    l.map (fun c => c.uuid) = l'.map (fun c => c.uuid) := by
  induction h with
  | nil => rfl
  | cons hab _ ih =>
    simp only [List.map_cons, ih, hab.uuid_eq]

theorem Node.Reordered.skipped_eq {n n' : Node} (h : n.Reordered n') :
    n'.skipped = n.skipped := by
  unfold Node.skipped
  rw [h.1]

theorem Node.Reordered.portals_eq {n n' : Node} (h : n.Reordered n') :
    n'.portals = n.portals := by
  unfold Node.portals
  rw [h.1]

theorem Node.Reordered.controls_right {n n' : Node} (h : n.Reordered n') :
    ∀ c' ∈ n'.controls, ∃ c ∈ n.controls, c.Reordered c' := by
  obtain ⟨_, _, l, hl, hf⟩ := h
  intro c' hc'
  obtain ⟨c, hc, hr⟩ := forall₂_mem_right hf c' hc'
  exact ⟨c, hl.mem_iff.1 hc, hr⟩

theorem Node.Reordered.controls_left {n n' : Node} (h : n.Reordered n') :
    ∀ c ∈ n.controls, ∃ c' ∈ n'.controls, c.Reordered c' := by
  obtain ⟨_, _, l, hl, hf⟩ := h
  intro c hc
  exact forall₂_mem_left hf c (hl.mem_iff.2 hc)

theorem Node.Reordered.node_uuids_perm {n n' : Node} (h : n.Reordered n') :
    (n.controls.map (fun c => c.uuid)).Perm (n'.controls.map (fun c => c.uuid)) := by
  obtain ⟨_, _, l, hl, hf⟩ := h
  refine (hl.symm.map _).trans ?_
  rw [forall₂_uuid_eq hf]

theorem mem_groupedControls {s : Surface} {c : Control} :
    c ∈ s.groupedControls ↔ ∃ n ∈ s.nodes, n.skipped = false ∧ c ∈ n.controls := by
  unfold Surface.groupedControls
  simp only [List.mem_flatMap, List.mem_filter, Bool.not_eq_true']
  constructor
  · rintro ⟨n, ⟨hn, hs⟩, hc⟩
    exact ⟨n, hn, hs, hc⟩
  · rintro ⟨n, hn, hs, hc⟩
    exact ⟨n, ⟨hn, hs⟩, hc⟩

theorem mem_allControls {s : Surface} {c : Control} :
    c ∈ s.allControls ↔ ∃ n ∈ s.nodes, c ∈ n.controls := by
  unfold Surface.allControls
  simp only [List.mem_flatMap]

theorem Surface.Reordered.nodes_right {s s' : Surface} (h : s.Reordered s') :
    ∀ n' ∈ s'.nodes, ∃ n ∈ s.nodes, n.Reordered n' := by
  obtain ⟨_, l, hl, hf⟩ := h
  intro n' hn'
  obtain ⟨n, hn, hr⟩ := forall₂_mem_right hf n' hn'
  exact ⟨n, hl.mem_iff.1 hn, hr⟩

theorem Surface.Reordered.nodes_left {s s' : Surface} (h : s.Reordered s') :
    ∀ n ∈ s.nodes, ∃ n' ∈ s'.nodes, n.Reordered n' := by
  obtain ⟨_, l, hl, hf⟩ := h
  intro n hn
  exact forall₂_mem_left hf n (hl.mem_iff.2 hn)

theorem Surface.Reordered.grouped_right {s s' : Surface} (h : s.Reordered s') :
    ∀ c' ∈ s'.groupedControls, ∃ c ∈ s.groupedControls, c.Reordered c' := by
  intro c' hc'
  obtain ⟨n', hn', hs, hc⟩ := mem_groupedControls.1 hc'
  obtain ⟨n, hn, hr⟩ := h.nodes_right n' hn'
  obtain ⟨c, hcn, hcr⟩ := hr.controls_right c' hc
  exact ⟨c, mem_groupedControls.2 ⟨n, hn, by rw [← hr.skipped_eq]; exact hs, hcn⟩, hcr⟩

theorem Surface.Reordered.grouped_left {s s' : Surface} (h : s.Reordered s') :
    ∀ c ∈ s.groupedControls, ∃ c' ∈ s'.groupedControls, c.Reordered c' := by
  intro c hc
  obtain ⟨n, hn, hs, hcn⟩ := mem_groupedControls.1 hc
  obtain ⟨n', hn', hr⟩ := h.nodes_left n hn
  obtain ⟨c', hc', hcr⟩ := hr.controls_left c hcn
  exact ⟨c', mem_groupedControls.2 ⟨n', hn', by rw [hr.skipped_eq]; exact hs, hc'⟩, hcr⟩

theorem Surface.Reordered.all_right {s s' : Surface} (h : s.Reordered s') :
    ∀ c' ∈ s'.allControls, ∃ c ∈ s.allControls, c.Reordered c' := by
  intro c' hc'
  obtain ⟨n', hn', hc⟩ := mem_allControls.1 hc'
  obtain ⟨n, hn, hr⟩ := h.nodes_right n' hn'
  obtain ⟨c, hcn, hcr⟩ := hr.controls_right c' hc
  exact ⟨c, mem_allControls.2 ⟨n, hn, hcn⟩, hcr⟩

theorem Surface.Reordered.all_left {s s' : Surface} (h : s.Reordered s') :
    ∀ c ∈ s.allControls, ∃ c' ∈ s'.allControls, c.Reordered c' := by
  intro c hc
  obtain ⟨n, hn, hcn⟩ := mem_allControls.1 hc
  obtain ⟨n', hn', hr⟩ := h.nodes_left n hn
  obtain ⟨c', hc', hcr⟩ := hr.controls_left c hcn
  exact ⟨c', mem_allControls.2 ⟨n', hn', hc'⟩, hcr⟩

theorem Surface.Reordered.surface_uuids_perm {s s' : Surface} (h : s.Reordered s') :
    (s.allControls.map (fun c => c.uuid)).Perm (s'.allControls.map (fun c => c.uuid)) := by
  obtain ⟨_, l, hl, hf⟩ := h
  unfold Surface.allControls
  rw [List.map_flatMap, List.map_flatMap]
  refine (List.Perm.flatMap_right _ hl.symm).trans ?_
  exact forall₂_flatMap_perm (fun n n' hr => hr.node_uuids_perm) hf

theorem Surface.Reordered.wellFormed {s s' : Surface} (h : s.Reordered s')
    (hw : s.WellFormed) : s'.WellFormed := by
  refine ⟨h.surface_uuids_perm.nodup_iff.1 hw.1, ?_⟩
  intro c' hc' d hd
  obtain ⟨c, hc, hr⟩ := h.all_right c' hc'
  obtain ⟨c2, hc2, hu2, hback⟩ := hw.2 c hc d ((hr.mem_iff d).1 hd)
  obtain ⟨c2', hc2', hr2⟩ := h.all_left c2 hc2
  refine ⟨c2', hc2', by rw [hr2.uuid_eq, hu2], ?_⟩
  rw [hr2.mem_iff, hr.uuid_eq]
  exact hback

theorem Surface.Reordered.touched_iff {s s' : Surface} (h : s.Reordered s') (x : QUuid) :
    touched s'.groupedControls x ↔ touched s.groupedControls x := by
  constructor
  · rintro ⟨c', hc', hx⟩
    obtain ⟨c, hc, hr⟩ := h.grouped_right c' hc'
    refine ⟨c, hc, ?_⟩
    rw [hr.uuid_eq, hr.mem_iff] at hx
    exact hx
  · rintro ⟨c, hc, hx⟩
    obtain ⟨c', hc', hr⟩ := h.grouped_left c hc
    refine ⟨c', hc', ?_⟩
    rw [hr.uuid_eq, hr.mem_iff]
    exact hx

theorem Surface.Reordered.walked_iff {s s' : Surface} (h : s.Reordered s') (a b : QUuid) :
    walked s'.groupedControls a b ↔ walked s.groupedControls a b := by
  constructor
  · rintro ⟨c', hc', hx⟩
    obtain ⟨c, hc, hr⟩ := h.grouped_right c' hc'
    refine ⟨c, hc, ?_⟩
    rw [hr.uuid_eq, hr.mem_iff] at hx
    exact hx
  · rintro ⟨c, hc, hx⟩
    obtain ⟨c', hc', hr⟩ := h.grouped_left c hc
    refine ⟨c', hc', ?_⟩
    rw [hr.uuid_eq, hr.mem_iff]
    exact hx

/-- Two consistent pairs of tables that track the same graph hold the same
member sets. -/
theorem groups_match {st st' : GroupState} {D : QUuid → Prop} {E : QUuid → QUuid → Prop}
    (hI : st.Inv) (hI' : st'.Inv)
    (hT : Tracks (fun x => st.controlGroups.lookup x) D E)
    (hT' : Tracks (fun x => st'.controlGroups.lookup x) D E) :
    ∀ p ∈ st.groups, ∃ p' ∈ st'.groups, p.2.Perm p'.2 := by
  intro p hp
  have hl := lookup_of_mem hI.keysNodup hp
  have hne := hI.membersNonempty p.1 p.2 hl
  obtain ⟨u, hu⟩ := List.exists_mem_of_ne_nil _ hne
  have hug := (hI.consistent u p.1).2 ⟨p.2, hl, hu⟩
  obtain ⟨g', hg'⟩ := (hT'.dom u).2 ((hT.dom u).1 ⟨p.1, hug⟩)
  obtain ⟨ms', hms', _⟩ := (hI'.consistent u g').1 hg'
  refine ⟨(g', ms'), mem_of_lookup hms', ?_⟩
  rw [List.perm_ext_iff_of_nodup (hI.membersNodup _ _ hl) (hI'.membersNodup _ _ hms')]
  intro x
  constructor
  · intro hx
    have hxg := (hI.consistent x p.1).2 ⟨p.2, hl, hx⟩
    obtain ⟨k, hk1, hk2⟩ := (hT'.rel x u).2 ((hT.rel x u).1 ⟨p.1, hxg, hug⟩)
    rw [hg'] at hk2
    injection hk2 with hk2
    subst hk2
    obtain ⟨ms2, hms2, hmem⟩ := (hI'.consistent x g').1 hk1
    rw [hms'] at hms2
    injection hms2 with hms2
    subst hms2
    exact hmem
  · intro hx
    have hxg := (hI'.consistent x g').2 ⟨ms', hms', hx⟩
    obtain ⟨k, hk1, hk2⟩ := (hT.rel x u).2 ((hT'.rel x u).1 ⟨g', hxg, hg'⟩)
    rw [hug] at hk2
    injection hk2 with hk2
    subst hk2
    obtain ⟨ms2, hms2, hmem⟩ := (hI.consistent x p.1).1 hk1
    rw [hl] at hms2
    injection hms2 with hms2
    subst hms2
    exact hmem

/-- C2. On a well-formed surface, the union phase run on a reordering of the
node sequence, of the control sequence of each node and of the
connected-control sequence of each control yields the same collection of
member sets: every group of one run has a group of the other run with the same
members, up to the order inside the member list. -/
theorem union_groups_order_independent (s s' : Surface) (hw : s.WellFormed)
    (hr : s.Reordered s') :
    (∀ p ∈ (unionPhase s).groups, ∃ p' ∈ (unionPhase s').groups, p.2.Perm p'.2) ∧
    (∀ p' ∈ (unionPhase s').groups, ∃ p ∈ (unionPhase s).groups, p'.2.Perm p.2) := by
  have h1 := unionPhase_represents hw
  have h2 := unionPhase_represents (hr.wellFormed hw)
  have h2' : Tracks (fun x => (unionPhase s').controlGroups.lookup x)
      (touched s.groupedControls) (walked s.groupedControls) :=
    h2.tracks.tracks_congr (fun _ => rfl) (fun x => (hr.touched_iff x).symm)
      (fun a b => (hr.walked_iff a b).symm)
  exact ⟨groups_match h1.inv h2.inv h1.tracks h2', groups_match h2.inv h1.inv h2' h1.tracks⟩

/-- The surface `chainSurfaceReordered` is a reordering of `chainSurface`. -/
theorem chainSurface_reordered : chainSurface.Reordered chainSurfaceReordered :=
  ⟨rfl, [⟨.custom true, 11, [numberControl 3 [2], numberControl 4 []]⟩,
      ⟨.custom true, 10, [numberControl 1 [2], numberControl 2 [1, 3]]⟩],
    List.Perm.swap _ _ [],
    List.Forall₂.cons
      ⟨rfl, rfl, [numberControl 4 [], numberControl 3 [2]], List.Perm.swap _ _ [],
        List.Forall₂.cons ⟨[], List.Perm.refl _, rfl⟩
          (List.Forall₂.cons ⟨[2], List.Perm.refl _, rfl⟩ List.Forall₂.nil)⟩
      (List.Forall₂.cons
        ⟨rfl, rfl, [numberControl 2 [1, 3], numberControl 1 [2]], List.Perm.swap _ _ [],
          List.Forall₂.cons ⟨[3, 1], List.Perm.swap _ _ [], rfl⟩
            (List.Forall₂.cons ⟨[2], List.Perm.refl _, rfl⟩ List.Forall₂.nil)⟩
        List.Forall₂.nil)⟩

/-- The union phase gives `chainSurface` and its reordering the same member
sets. -/
theorem union_order_witness :
    chainSurface.WellFormed ∧ chainSurface.Reordered chainSurfaceReordered ∧
    ((∀ p ∈ (unionPhase chainSurface).groups,
        ∃ p' ∈ (unionPhase chainSurfaceReordered).groups, p.2.Perm p'.2) ∧
      (∀ p' ∈ (unionPhase chainSurfaceReordered).groups,
        ∃ p ∈ (unionPhase chainSurface).groups, p'.2.Perm p.2)) :=
  ⟨by decide, chainSurface_reordered,
    union_groups_order_independent chainSurface chainSurfaceReordered (by decide)
      chainSurface_reordered⟩

/-- C3. On a well-formed surface whose portals name controls of the surface,
the union phase and the merge phase succeed, and afterwards every control of a
node that is not skipped is mapped by `controlGroups` to a group that is in
`groups` and lists it, no other group lists it, and its id occurs exactly once
across all member lists; no member list names an id twice and none is empty. -/
theorem every_control_in_exactly_one_group (s : Surface) (hw : s.WellFormed)
    (hp : s.PortalsResolved) :
    ∃ st, buildGroups s = some st ∧
      (∀ c ∈ s.groupedControls, ∃ g ms,
        st.controlGroups.lookup c.uuid = some g ∧ (g, ms) ∈ st.groups ∧ c.uuid ∈ ms ∧
        (∀ p ∈ st.groups, c.uuid ∈ p.2 → p = (g, ms)) ∧
        (st.groups.flatMap (fun p => p.2)).count c.uuid = 1) ∧
      (st.groups.flatMap (fun p => p.2)).Nodup ∧
      (∀ p ∈ st.groups, p.2.Nodup) ∧
      (∀ p ∈ st.groups, p.2 ≠ []) := by
  obtain ⟨st, hst, hrep⟩ := buildGroups_represents hw hp
  refine ⟨st, hst, ?_, hrep.inv.flat_nodup, ?_, ?_⟩
  · intro c hc
    obtain ⟨g, hg⟩ := (hrep.tracks.dom c.uuid).2 ⟨c, hc, Or.inl rfl⟩
    obtain ⟨ms, hms, hmem⟩ := (hrep.inv.consistent c.uuid g).1 hg
    refine ⟨g, ms, hg, mem_of_lookup hms, hmem, ?_, ?_⟩
    · intro p hp' hcp
      have hl := lookup_of_mem hrep.inv.keysNodup hp'
      have := (hrep.inv.consistent c.uuid p.1).2 ⟨p.2, hl, hcp⟩
      rw [hg] at this
      injection this with this
      rw [← this, hms] at hl
      injection hl with hl
      exact Prod.ext this.symm hl.symm
    · refine List.count_eq_one_of_mem hrep.inv.flat_nodup ?_
      exact List.mem_flatMap.2 ⟨(g, ms), mem_of_lookup hms, hmem⟩
  · intro p hp'
    exact hrep.inv.membersNodup p.1 p.2 (lookup_of_mem hrep.inv.keysNodup hp')
  · intro p hp'
    exact hrep.inv.membersNonempty p.1 p.2 (lookup_of_mem hrep.inv.keysNodup hp')

/-- The surface `portalSurface`, with a group node, a compiled node and a
failed node, is well formed with resolved portals, and every walked control of
it is in exactly one group. -/
theorem every_control_witness :
    portalSurface.WellFormed ∧ portalSurface.PortalsResolved ∧
    ∃ st, buildGroups portalSurface = some st ∧
      (∀ c ∈ portalSurface.groupedControls, ∃ g ms,
        st.controlGroups.lookup c.uuid = some g ∧ (g, ms) ∈ st.groups ∧ c.uuid ∈ ms ∧
        (∀ p ∈ st.groups, c.uuid ∈ p.2 → p = (g, ms)) ∧
        (st.groups.flatMap (fun p => p.2)).count c.uuid = 1) ∧
      (st.groups.flatMap (fun p => p.2)).Nodup ∧
      (∀ p ∈ st.groups, p.2.Nodup) ∧
      (∀ p ∈ st.groups, p.2 ≠ []) :=
  ⟨by decide, by decide, every_control_in_exactly_one_group portalSurface (by decide) (by decide)⟩

/-! ## Classification and wiring -/

theorem pairs_uuid (nodes : List Node) :
    (nodes.flatMap (fun n => n.controls.map (fun c => (n, c)))).map (fun p => p.2.uuid)
      = (nodes.flatMap (fun n => n.controls)).map (fun c => c.uuid) := by
  induction nodes with
  | nil => rfl
  | cons n nodes ih =>
    simp only [List.flatMap_cons, List.map_append, ih, List.map_map]
    rfl

theorem mem_pairs {nodes : List Node} {n : Node} {c : Control} :
    (n, c) ∈ nodes.flatMap (fun n => n.controls.map (fun c => (n, c))) ↔
      n ∈ nodes ∧ c ∈ n.controls := by
  simp only [List.mem_flatMap, List.mem_map, Prod.mk.injEq]
  constructor
  · rintro ⟨n', hn', c', hc', rfl, rfl⟩
    exact ⟨hn', hc'⟩
  · rintro ⟨hn, hc⟩
    exact ⟨n, hn, c, hc, rfl, rfl⟩

theorem findControl_eq {s : Surface} (hw : s.WellFormed) {n : Node} {c : Control}
    (hn : n ∈ s.nodes) (hc : c ∈ n.controls) : s.findControl c.uuid = some (n, c) := by
  unfold Surface.findControl
  have hmem : (n, c) ∈ s.nodes.flatMap (fun n => n.controls.map (fun c => (n, c))) :=
    mem_pairs.2 ⟨hn, hc⟩
  have hnd : ((s.nodes.flatMap (fun n => n.controls.map (fun c => (n, c)))).map
      (fun p => p.2.uuid)).Nodup := by
    rw [pairs_uuid]
    exact hw.1
  cases hf : (s.nodes.flatMap (fun n => n.controls.map (fun c => (n, c)))).find?
      (fun p => p.2.uuid == c.uuid) with
  | none =>
    have := List.find?_eq_none.1 hf (n, c) hmem
    simp at this
  | some q =>
    have hq := List.mem_of_find?_eq_some hf
    have hqu : q.2.uuid = c.uuid := by
      have := List.find?_some hf
      simpa using this
    have : q = (n, c) := List.inj_on_of_nodup_map hnd hq hmem hqu
    rw [this]

theorem findControl_some {s : Surface} {u : QUuid} {q : Node × Control}
    (h : s.findControl u = some q) : q.1 ∈ s.nodes ∧ q.2 ∈ q.1.controls ∧ q.2.uuid = u := by
  unfold Surface.findControl at h
  have hq := List.mem_of_find?_eq_some h
  have hqu : q.2.uuid = u := by
    have := List.find?_some h
    simpa using this
  obtain ⟨n, c⟩ := q
  exact ⟨(mem_pairs.1 hq).1, (mem_pairs.1 hq).2, hqu⟩

theorem controlPointers_ne_nil {s : Surface} (hw : s.WellFormed) {ms : List QUuid} {u : QUuid}
    (hu : ms.head? = some u) (hP : ∃ c ∈ s.groupedControls, c.uuid = u) :
    s.controlPointers ms ≠ [] := by
  obtain ⟨c, hc, rfl⟩ := hP
  obtain ⟨n, hn, hs, hcn⟩ := mem_groupedControls.1 hc
  cases ms with
  | nil => simp at hu
  | cons a l =>
    have ha : a = c.uuid := by simpa using hu
    subst ha
    simp [Surface.controlPointers, Surface.findMap, List.filterMap_cons,
      findControl_eq hw hn hcn, List.filter_cons, hs]

theorem exists_lookup_of_key_mem {β : Type} {m : List (Nat × β)} {k : Nat}
    (h : k ∈ m.map Prod.fst) : ∃ v, m.lookup k = some v := by
  induction m with
  | nil => simp at h
  | cons p m ih =>
    obtain ⟨a, b⟩ := p
    by_cases hk : k = a
    · subst hk
      exact ⟨b, by simp [List.lookup_cons]⟩
    · have hk' : (k == a) = false := by simpa using hk
      simp only [List.map_cons, List.mem_cons] at h
      obtain ⟨v, hv⟩ := ih (h.resolve_left hk)
      exact ⟨v, by simp [List.lookup_cons, hk', hv]⟩

theorem mapM_option_some {α β : Type} {f : α → Option β} {l : List α}
    (h : ∀ x ∈ l, ∃ y, f x = some y) : ∃ ys, List.mapM f l = some ys := by
  induction l with
  | nil => exact ⟨[], rfl⟩
  | cons a l ih =>
    obtain ⟨y, hy⟩ := h a (List.mem_cons_self _ _)
    obtain ⟨ys, hys⟩ := ih (fun x hx => h x (List.mem_cons_of_mem _ hx))
    refine ⟨y :: ys, ?_⟩
    rw [List.mapM_cons, hy, hys]
    rfl

theorem getGroupType_isSome {cp : List Control} (h : cp ≠ []) :
    ∃ gt, getGroupType cp = some gt := by
  cases cp with
  | nil => exact absurd rfl h
  | cons c l =>
    unfold getGroupType
    cases List.find? (fun control =>
        decide (control.controlType = .NUM_EXTRACT) || decide (control.controlType = .MIDI_EXTRACT))
        (c :: l) with
    | none => exact ⟨_, rfl⟩
    | some c' => exact ⟨_, rfl⟩

theorem classifyStep_spec (s : Surface) (cs : ClassifyState) (p : Nat × List QUuid)
    (hne : s.controlPointers p.2 ≠ []) :
    ∃ cs' g, classifyStep s cs p = some cs' ∧ EmittedFor s p g ∧
      cs'.mirGroups = cs.mirGroups ++ [g] ∧
      cs'.index = cs.index + 1 ∧
      cs'.valueGroups = cs.valueGroups ++ [p.1] ∧
      cs'.valueGroupIndices = cs.valueGroupIndices ++ [(p.1, cs.index)] ∧
      (∀ k ∈ cs'.sockets, k ∈ cs.sockets ∨ k = cs.index) := by
  obtain ⟨gt, hgt⟩ := getGroupType_isSome hne
  unfold classifyStep
  simp only [hgt]
  by_cases hroot : s.isRoot = true
  · cases hfp : findPortal (s.controlPointers p.2) with
    | some portal =>
      simp only [hroot, if_true, hfp]
      refine ⟨_, ⟨gt, .socket cs.sockets.length⟩, rfl, ⟨hgt, cs.sockets.length, ?_⟩,
        rfl, rfl, rfl, rfl, ?_⟩
      · simp [hroot, hfp]
      · intro k hk
        simpa using hk
    | none =>
      simp only [hroot, if_true, hfp]
      refine ⟨_, ⟨gt, groupSource (s.controlPointers p.2) gt cs.sockets.length⟩, rfl,
        ⟨hgt, cs.sockets.length, ?_⟩, rfl, rfl, rfl, rfl, ?_⟩
      · simp [hfp]
      · intro k hk
        by_cases he : areAnyExposed (s.controlPointers p.2) = true
        · simpa [he] using hk
        · simp only [he, if_false] at hk
          exact Or.inl hk
  · simp only [hroot, if_false]
    refine ⟨_, ⟨gt, groupSource (s.controlPointers p.2) gt cs.sockets.length⟩, rfl,
      ⟨hgt, cs.sockets.length, ?_⟩, rfl, rfl, rfl, rfl, ?_⟩
    · simp [hroot]
    · intro k hk
      by_cases he : areAnyExposed (s.controlPointers p.2) = true
      · simpa [he] using hk
      · simp only [he, if_false] at hk
        exact Or.inl hk

theorem ClassifyState.Ok.ok_empty : ClassifyState.Ok [] ClassifyState.empty where
  length_mir := rfl
  index_eq := rfl
  valueGroups_eq := rfl
  indices_eq := rfl
  sockets_lt := by simp [ClassifyState.empty]

theorem classifyLoop_spec (s : Surface) (groups : List (Nat × List QUuid)) :
    ∀ (keys : List Nat) (cs : ClassifyState), cs.Ok keys →
    (∀ p ∈ groups, s.controlPointers p.2 ≠ []) →
    ∃ cs' emitted, groups.foldlM (classifyStep s) cs = some cs' ∧
      cs'.Ok (keys ++ groups.map Prod.fst) ∧
      cs'.mirGroups = cs.mirGroups ++ emitted ∧
      List.Forall₂ (EmittedFor s) groups emitted := by
  induction groups with
  | nil =>
    intro keys cs hok _
    exact ⟨cs, [], rfl, by simpa using hok, by simp, List.Forall₂.nil⟩
  | cons p groups ih =>
    intro keys cs hok hne
    obtain ⟨cs1, g, hstep, hem, h1, h2, h3, h4, h5⟩ :=
      classifyStep_spec s cs p (hne p (List.mem_cons_self _ _))
    have hok1 : cs1.Ok (keys ++ [p.1]) := by
      refine ⟨?_, ?_, ?_, ?_, ?_⟩
      · rw [h1, List.length_append, List.length_append, hok.length_mir]
        rfl
      · rw [h2, hok.index_eq, List.length_append]
        rfl
      · rw [h3, hok.valueGroups_eq]
      · rw [h4, hok.indices_eq, hok.index_eq, List.length_append, List.length_singleton,
          List.range_succ, List.zip_append (by simp)]
        rfl
      · intro k hk
        rw [List.length_append, List.length_singleton]
        rcases h5 k hk with hk | hk
        · exact Nat.lt_succ_of_lt (hok.sockets_lt k hk)
        · rw [hk, hok.index_eq]
          exact Nat.lt_succ_self _
    obtain ⟨cs', emitted, hfold, hok', hmir, hfa⟩ :=
      ih (keys ++ [p.1]) cs1 hok1 (fun q hq => hne q (List.mem_cons_of_mem _ hq))
    refine ⟨cs', g :: emitted, ?_, ?_, ?_, List.Forall₂.cons hem hfa⟩
    · simp only [List.foldlM_cons, hstep]
      exact hfold
    · simpa using hok'
    · rw [hmir, h1]
      simp

/-- The classification succeeds when every group has a filtered control, and
adds the groups in order, each with the kind and the source computed from its
filtered controls. -/
theorem classifyGroups_spec (s : Surface) (groups : List (Nat × List QUuid))
    (hne : ∀ p ∈ groups, s.controlPointers p.2 ≠ []) :
    ∃ cs, classifyGroups s groups = some cs ∧ cs.Ok (groups.map Prod.fst) ∧
      List.Forall₂ (EmittedFor s) groups cs.mirGroups := by
  obtain ⟨cs, emitted, hfold, hok, hmir, hfa⟩ :=
    classifyLoop_spec s groups [] ClassifyState.empty ClassifyState.Ok.ok_empty hne
  refine ⟨cs, hfold, by simpa using hok, ?_⟩
  rw [hmir]
  simpa [ClassifyState.empty] using hfa

theorem ClassifyState.Ok.ok_lookup {keys : List Nat} {cs : ClassifyState} (h : cs.Ok keys)
    {k : Nat} (hk : k ∈ keys) : ∃ i, cs.valueGroupIndices.lookup k = some i := by
  apply exists_lookup_of_key_mem
  rw [h.indices_eq, List.map_fst_zip]
  · exact hk
  · simp

theorem controlSocket_isSome {P : QUuid → Prop} {st : GroupState} {D : QUuid → Prop}
    {E : QUuid → QUuid → Prop} (hrep : Represents P st D E) {cs : ClassifyState}
    (hok : cs.Ok (st.groups.map Prod.fst)) {c : Control} (hc : D c.uuid) :
    ∃ v, controlSocket st cs c = some v := by
  obtain ⟨g, hg⟩ := (hrep.tracks.dom c.uuid).2 hc
  obtain ⟨ms, hms, _⟩ := (hrep.inv.consistent c.uuid g).1 hg
  obtain ⟨i, hi⟩ := hok.ok_lookup (key_mem_of_lookup hms)
  exact ⟨⟨i, c.writtenTo, c.readFrom, c.isExtract⟩, by simp [controlSocket, hg, hi]⟩

theorem portalSocket_isSome {P : QUuid → Prop} {st : GroupState} {D : QUuid → Prop}
    {E : QUuid → QUuid → Prop} (hrep : Represents P st D E) {cs : ClassifyState}
    (hok : cs.Ok (st.groups.map Prod.fst)) {p : GroupSurfacePortal}
    (hne : p.externalControls ≠ []) (hD : ∀ u ∈ p.externalControls, D u) :
    ∃ v, portalSocket st cs p = some v := by
  cases hext : p.externalControls with
  | nil => exact absurd hext hne
  | cons first rest =>
    rw [hext] at hD
    obtain ⟨g, hg⟩ := (hrep.tracks.dom first).2 (hD first (List.mem_cons_self _ _))
    obtain ⟨ms, hms, _⟩ := (hrep.inv.consistent first g).1 hg
    obtain ⟨i, hi⟩ := hok.ok_lookup (key_mem_of_lookup hms)
    exact ⟨⟨i, p.valueWritten, p.valueRead, p.isExtractor⟩,
      by simp [portalSocket, hext, hg, hi]⟩

theorem wireNode_spec {P : QUuid → Prop} {st : GroupState} {D : QUuid → Prop}
    {E : QUuid → QUuid → Prop} (hrep : Represents P st D E) {cs : ClassifyState}
    (hok : cs.Ok (st.groups.map Prod.fst)) (ws : WireState) (n : Node)
    (hc : n.skipped = false → ∀ c ∈ n.controls, D c.uuid)
    (hp : ∀ p ∈ n.portals, p.externalControls ≠ [] ∧ ∀ u ∈ p.externalControls, D u) :
    ∃ ws', wireNode st cs ws n = some ws' ∧
      ws'.mirNodes.map MirNode.key
        = ws.mirNodes.map MirNode.key ++ ([n].filter Node.isWired).map Node.recordKey := by
  unfold wireNode
  cases hk : n.kind with
  | custom valid =>
    cases valid with
    | false =>
      exact ⟨_, rfl, by simp [Node.isWired, hk]⟩
    | true =>
      have hs : n.skipped = false := by simp [Node.skipped, hk]
      obtain ⟨sockets, hsockets⟩ := mapM_option_some
        (f := controlSocket st cs)
        (l := n.controls.insertionSort (fun a b => a.index ≤ b.index))
        (fun c hc' => controlSocket_isSome hrep hok
          (hc hs c ((List.perm_insertionSort _ _).mem_iff.1 hc')))
      simp only [Bool.not_true, Bool.false_eq_true, if_false, hsockets]
      exact ⟨_, rfl, by simp [Node.isWired, hk, MirNode.key, Node.recordKey]⟩
  | group portals =>
    have hpn : n.portals = portals := by simp [Node.portals, hk]
    obtain ⟨sockets, hsockets⟩ := mapM_option_some
      (f := portalSocket st cs) (l := portals)
      (fun p hp' => portalSocket_isSome hrep hok (hp p (hpn ▸ hp')).1 (hp p (hpn ▸ hp')).2)
    simp only [hsockets]
    exact ⟨_, rfl, by simp [Node.isWired, hk, MirNode.key, Node.recordKey]⟩
  | other =>
    exact ⟨_, rfl, by simp [Node.isWired, hk]⟩

/-- The wiring loop succeeds and adds one record for every compiled custom
node and every group node, in node order. -/
theorem wireLoop_spec {P : QUuid → Prop} {st : GroupState} {D : QUuid → Prop}
    {E : QUuid → QUuid → Prop} (hrep : Represents P st D E) {cs : ClassifyState}
    (hok : cs.Ok (st.groups.map Prod.fst)) (nodes : List Node) :
    ∀ (ws : WireState),
    (∀ n ∈ nodes, n.skipped = false → ∀ c ∈ n.controls, D c.uuid) →
    (∀ n ∈ nodes, ∀ p ∈ n.portals, p.externalControls ≠ [] ∧ ∀ u ∈ p.externalControls, D u) →
    ∃ ws', nodes.foldlM (wireNode st cs) ws = some ws' ∧
      ws'.mirNodes.map MirNode.key
        = ws.mirNodes.map MirNode.key ++ (nodes.filter Node.isWired).map Node.recordKey := by
  induction nodes with
  | nil =>
    intro ws _ _
    exact ⟨ws, rfl, by simp⟩
  | cons n nodes ih =>
    intro ws hc hp
    obtain ⟨ws1, h1, hk1⟩ := wireNode_spec hrep hok ws n (hc n (List.mem_cons_self _ _))
      (hp n (List.mem_cons_self _ _))
    obtain ⟨ws', h', hk'⟩ := ih ws1 (fun m hm => hc m (List.mem_cons_of_mem _ hm))
      (fun m hm => hp m (List.mem_cons_of_mem _ hm))
    refine ⟨ws', ?_, ?_⟩
    · simp only [List.foldlM_cons, h1]
      exact h'
    · rw [hk', hk1, List.append_assoc, ← List.map_append, ← List.filter_append]
      rfl

theorem socketPortal_isSome (s : Surface) (st : GroupState) {keys : List Nat}
    {cs : ClassifyState} (hok : cs.Ok keys) {k : Nat} (hk : k ∈ cs.sockets) :
    ∃ v, socketPortal s st cs k = some v := by
  have hlt : k < cs.valueGroups.length := by
    rw [hok.valueGroups_eq]
    exact hok.sockets_lt k hk
  unfold socketPortal
  rw [List.get?_eq_get hlt]
  exact ⟨_, rfl⟩

/-- On a well-formed surface with resolved portals `build` succeeds: its
tables are those of the two grouping phases and represent the graph, every
group has a filtered control, the value groups are the classified groups in
order, and the node records are those of the wired nodes in order. -/
theorem build_spec {s : Surface} (hw : s.WellFormed) (hp : s.PortalsResolved) :
    ∃ st r, buildGroups s = some st ∧ build s = some r ∧ r.tables = st ∧
      Represents (fun u => ∃ c ∈ s.groupedControls, c.uuid = u) st
        (touched s.groupedControls)
        (fun a b => walked s.groupedControls a b ∨ portalLinks s.portals a b) ∧
      (∀ p ∈ st.groups, s.controlPointers p.2 ≠ []) ∧
      List.Forall₂ (EmittedFor s) st.groups r.valueGroups ∧
      r.nodes.map MirNode.key = (s.nodes.filter Node.isWired).map Node.recordKey := by
  obtain ⟨st, hst, hrep⟩ := buildGroups_represents hw hp
  have hne : ∀ p ∈ st.groups, s.controlPointers p.2 ≠ [] := by
    intro p hp'
    obtain ⟨u, hu, hP⟩ := hrep.heads p.1 p.2 (lookup_of_mem hrep.inv.keysNodup hp')
    exact controlPointers_ne_nil hw hu hP
  obtain ⟨cs, hcs, hok, hfa⟩ := classifyGroups_spec s st.groups hne
  obtain ⟨ws, hws, hkeys⟩ := wireLoop_spec hrep hok s.nodes ⟨[], [], 0⟩
    (by
      intro n hn hs c hc
      exact ⟨c, mem_groupedControls.2 ⟨n, hn, hs, hc⟩, Or.inl rfl⟩)
    (by
      intro n hn p hpn
      have hps : p ∈ s.portals := List.mem_flatMap.2 ⟨n, hn, hpn⟩
      obtain ⟨h1, h2⟩ := hp p hps
      refine ⟨h1, fun u hu => ?_⟩
      obtain ⟨c, hc, hcu⟩ := h2 u hu
      exact ⟨c, hc, Or.inl hcu.symm⟩)
  have hws' : wireNodes s st cs = some ws := hws
  by_cases hroot : s.isRoot = true
  · refine ⟨st, BuildResult.mk st cs.valueGroupIndices cs.sockets cs.mirGroups ws.mirNodes
      ws.compileIndices (cs.rootPortals.map (fun p => p.2))
      (cs.rootPortals.map (fun p => p.1.uuid)) [], hst, ?_, rfl, hrep, hne, hfa,
      by simpa using hkeys⟩
    simp only [build, hst, hcs, hws', hroot, if_true]
  · obtain ⟨portals, hportals⟩ := mapM_option_some (f := socketPortal s st cs)
      (l := cs.sockets) (fun k hk => socketPortal_isSome s st hok hk)
    refine ⟨st, BuildResult.mk st cs.valueGroupIndices cs.sockets cs.mirGroups ws.mirNodes
      ws.compileIndices [] [] portals, hst, ?_, rfl, hrep, hne, hfa,
      by simpa using hkeys⟩
    simp only [build, hst, hcs, hws', hroot, if_false, hportals]
    rfl

theorem mem_controlPointers {s : Surface} {ms : List QUuid} {c : Control} :
    c ∈ s.controlPointers ms ↔
      ∃ u ∈ ms, ∃ n, s.findControl u = some (n, c) ∧ n.skipped = false := by
  unfold Surface.controlPointers Surface.findMap
  simp only [List.mem_map, List.mem_filter, List.mem_filterMap, Bool.not_eq_true',
    Prod.exists, exists_and_right, exists_eq_right]
  constructor
  · rintro ⟨n, ⟨u, hu, hf⟩, hs⟩
    exact ⟨u, hu, n, hf, hs⟩
  · rintro ⟨u, hu, n, hf, hs⟩
    exact ⟨n, ⟨u, hu, hf⟩, hs⟩

theorem areAnyExposed_iff {cp : List Control} :
    areAnyExposed cp = true ↔ ∃ c ∈ cp, c.exposerUuid.isNull = false := by
  unfold areAnyExposed
  simp [List.any_eq_true]

theorem isWrittenTo_eq_false {cp : List Control} :
    isWrittenTo cp = false ↔ ∀ c ∈ cp, c.writtenTo = false := by
  unfold isWrittenTo
  simp [List.any_eq_false]

theorem isConstantValue_iff (v : NumValue) :
    isConstantValue v = true ↔
      (v.left.neZero = true ∨ v.right.neZero = true ∨ v.form ≠ FormType.LINEAR) ∧
        v.left.isNaN = false ∧ v.right.isNaN = false := by
  unfold isConstantValue
  simp [and_assoc, or_assoc, FormType.LINEAR]

theorem forall₂_imp_of_mem {α β : Type} {R S : α → β → Prop} {l : List α} {l' : List β}
    (h : List.Forall₂ R l l') (himp : ∀ a ∈ l, ∀ b, R a b → S a b) : List.Forall₂ S l l' := by
  induction h with
  | nil => exact List.Forall₂.nil
  | cons hab _ ih =>
    exact List.Forall₂.cons (himp _ (List.mem_cons_self _ _) _ hab)
      (ih (fun a ha b hr => himp a (List.mem_cons_of_mem _ ha) b hr))

/-- C4, amended. On a well-formed surface `build` succeeds, and every group
that has a member with a non-null exposer id on a node that is not skipped is
added with a socket source, whatever the kinds, values and written flags of its
members are; so the group of the exposed control 1 and the unwritten number
control 2 holding `{1, 0, LINEAR}` is the socket 0. -/
theorem exposed_member_makes_socket (s : Surface) (hw : s.WellFormed)
    (hp : s.PortalsResolved) :
    (∃ r, build s = some r ∧
      List.Forall₂ (fun p g =>
        (∃ u ∈ p.2, ∃ q, s.findControl u = some q ∧ q.1.skipped = false ∧
            q.2.exposerUuid.isNull = false) →
          ∃ k, g.source = ValueGroupSource.socket k) r.tables.groups r.valueGroups) ∧
    (build exposedScalars).map (fun r => r.valueGroups)
      = some [⟨ControlType.NUM_SCALAR, ValueGroupSource.socket 0⟩] := by
  refine ⟨?_, by decide⟩
  obtain ⟨st, r, _, hr, ht, _, _, hfa, _⟩ := build_spec hw hp
  refine ⟨r, hr, ?_⟩
  rw [ht]
  refine forall₂_imp_of_mem hfa ?_
  rintro p _ g ⟨_, k, hk⟩ ⟨u, hu, ⟨n, c⟩, hf, hs, he⟩
  have hexp : areAnyExposed (s.controlPointers p.2) = true :=
    areAnyExposed_iff.2 ⟨c, mem_controlPointers.2 ⟨u, hu, n, hf, hs⟩, he⟩
  by_cases hroot : s.isRoot = true ∧ (findPortal (s.controlPointers p.2)).isSome = true
  · exact ⟨k, by rw [hk, if_pos hroot]⟩
  · exact ⟨k, by rw [hk, if_neg hroot]; unfold groupSource; rw [if_pos hexp]⟩

/-- The surface `exposedScalars` is well formed, and its groups with an
exposed member on a compiled node are sockets. -/
theorem exposed_member_witness :
    exposedScalars.WellFormed ∧ exposedScalars.PortalsResolved ∧
    ∃ r, build exposedScalars = some r ∧
      List.Forall₂ (fun p g =>
        (∃ u ∈ p.2, ∃ q, exposedScalars.findControl u = some q ∧ q.1.skipped = false ∧
            q.2.exposerUuid.isNull = false) →
          ∃ k, g.source = ValueGroupSource.socket k) r.tables.groups r.valueGroups :=
  ⟨by decide, by decide,
    (exposed_member_makes_socket exposedScalars (by decide) (by decide)).1⟩

/-- On `exposedOnFailedNode` the one group has the members 1 and 2, the member
2 has the non-null exposer id 7 and is on a custom node whose block is invalid,
and the group is added with the source `default_val {1, 0, LINEAR}`, not with a
socket source. -/
theorem exposed_member_on_failed_node_not_socket :
    exposedOnFailedNode.WellFormed ∧ exposedOnFailedNode.PortalsResolved ∧
    (exposedOnFailedNode.findControl 2).map (fun q => (q.1.skipped, q.2.exposerUuid))
      = some (true, 7) ∧
    (build exposedOnFailedNode).map (fun r => (r.tables.groups, r.valueGroups))
      = some ([(0, [1, 2])],
          [⟨ControlType.NUM_SCALAR,
            ValueGroupSource.default_val ⟨Lane.ofNat 1, Lane.ofNat 0, FormType.LINEAR⟩⟩]) := by
  decide

/-- C5, amended. On a well-formed surface `build` succeeds, and a group that
is not a root portal socket and has no exposed member on a node that is not
skipped is added with the source `default_val v` if and only if its kind is
`NUM_SCALAR`, none of its members on a node that is not skipped has `writtenTo`
set, and `v`, the value of the first of these members, has a non-zero lane or a
form other than the default one and no NaN lane; in every other case its source
is `none`. So `{0, 0, LINEAR}` gives a private group and `{1, 0, LINEAR}` the
constant `{1, 0, LINEAR}`. -/
theorem constant_default_classification (s : Surface) (hw : s.WellFormed)
    (hp : s.PortalsResolved) :
    (∃ r, build s = some r ∧
      List.Forall₂ (fun p g =>
        ¬ (s.isRoot = true ∧ (findPortal (s.controlPointers p.2)).isSome = true) →
        (∀ c ∈ s.controlPointers p.2, c.exposerUuid.isNull = true) →
          (∀ v, g.source = ValueGroupSource.default_val v ↔
            (getGroupType (s.controlPointers p.2) = some ControlType.NUM_SCALAR ∧
              (∀ c ∈ s.controlPointers p.2, c.writtenTo = false) ∧
              (∃ c, (s.controlPointers p.2).head? = some c ∧ c.value = v) ∧
              (v.left.neZero = true ∨ v.right.neZero = true ∨ v.form ≠ FormType.LINEAR) ∧
              v.left.isNaN = false ∧ v.right.isNaN = false)) ∧
          ((∀ v, g.source ≠ ValueGroupSource.default_val v) →
            g.source = ValueGroupSource.none)) r.tables.groups r.valueGroups) ∧
    (build zeroSurface).map (fun r => r.valueGroups)
      = some [⟨ControlType.NUM_SCALAR, ValueGroupSource.none⟩] ∧
    (build oneSurface).map (fun r => r.valueGroups)
      = some [⟨ControlType.NUM_SCALAR,
          ValueGroupSource.default_val ⟨Lane.ofNat 1, Lane.ofNat 0, FormType.LINEAR⟩⟩] := by
  refine ⟨?_, by decide, by decide⟩
  obtain ⟨st, r, _, hr, ht, _, hne, hfa, _⟩ := build_spec hw hp
  refine ⟨r, hr, ?_⟩
  rw [ht]
  refine forall₂_imp_of_mem hfa ?_
  rintro p hp' g ⟨hgt, k, hk⟩ hroot hnex
  have hexp : areAnyExposed (s.controlPointers p.2) = false := by
    cases he : areAnyExposed (s.controlPointers p.2) with
    | false => rfl
    | true =>
      obtain ⟨c, hc, hcn⟩ := areAnyExposed_iff.1 he
      rw [hnex c hc] at hcn
      exact Bool.noConfusion hcn
  rw [if_neg hroot] at hk
  have hcp := hne p hp'
  cases hcpe : s.controlPointers p.2 with
  | nil => exact absurd hcpe hcp
  | cons c0 rest =>
    rw [hcpe] at hk hgt hexp
    rw [hgt]
    simp only [groupSource, hexp, Bool.false_eq_true, if_false] at hk
    by_cases hvt : g.vartype = ControlType.NUM_SCALAR
    · by_cases hwr : isWrittenTo (c0 :: rest) = true
      · have hsrc : g.source = ValueGroupSource.none := by simp [hk, hvt, hwr]
        refine ⟨fun v => ⟨fun h => ?_, fun h => ?_⟩, fun _ => hsrc⟩
        · rw [hsrc] at h
          exact ValueGroupSource.noConfusion h
        · have := isWrittenTo_eq_false.2 h.2.1
          rw [this] at hwr
          exact Bool.noConfusion hwr
      · have hwr' : isWrittenTo (c0 :: rest) = false := by simpa using hwr
        by_cases hcv : isConstantValue c0.value = true
        · have hsrc : g.source = ValueGroupSource.default_val c0.value := by
            simp [hk, hvt, hwr', hcv]
          refine ⟨fun v => ⟨fun h => ?_, fun h => ?_⟩, fun h => absurd hsrc (h _)⟩
          · rw [hsrc] at h
            injection h with h
            subst h
            exact ⟨by rw [hvt], isWrittenTo_eq_false.1 hwr', ⟨c0, rfl, rfl⟩,
              (isConstantValue_iff _).1 hcv⟩
          · obtain ⟨_, _, ⟨c, hc, hcv'⟩, _⟩ := h
            simp only [List.head?_cons, Option.some.injEq] at hc
            rw [hsrc, ← hcv', ← hc]
        · have hsrc : g.source = ValueGroupSource.none := by
            simp [hk, hvt, hwr', hcv]
          refine ⟨fun v => ⟨fun h => ?_, fun h => ?_⟩, fun _ => hsrc⟩
          · rw [hsrc] at h
            exact ValueGroupSource.noConfusion h
          · obtain ⟨_, _, ⟨c, hc, hcv'⟩, hconst⟩ := h
            simp only [List.head?_cons, Option.some.injEq] at hc
            subst hc
            subst hcv'
            exact absurd ((isConstantValue_iff _).2 hconst) hcv
    · have hsrc : g.source = ValueGroupSource.none := by simp [hk, hvt]
      refine ⟨fun v => ⟨fun h => ?_, fun h => ?_⟩, fun _ => hsrc⟩
      · rw [hsrc] at h
        exact ValueGroupSource.noConfusion h
      · exact absurd (Option.some.inj h.1) hvt

/-- The surface `oneSurface` is well formed, and its groups are classified as
constants as described. -/
theorem constant_default_witness :
    oneSurface.WellFormed ∧ oneSurface.PortalsResolved ∧
    ∃ r, build oneSurface = some r ∧
      List.Forall₂ (fun p g =>
        ¬ (oneSurface.isRoot = true ∧
            (findPortal (oneSurface.controlPointers p.2)).isSome = true) →
        (∀ c ∈ oneSurface.controlPointers p.2, c.exposerUuid.isNull = true) →
          (∀ v, g.source = ValueGroupSource.default_val v ↔
            (getGroupType (oneSurface.controlPointers p.2) = some ControlType.NUM_SCALAR ∧
              (∀ c ∈ oneSurface.controlPointers p.2, c.writtenTo = false) ∧
              (∃ c, (oneSurface.controlPointers p.2).head? = some c ∧ c.value = v) ∧
              (v.left.neZero = true ∨ v.right.neZero = true ∨ v.form ≠ FormType.LINEAR) ∧
              v.left.isNaN = false ∧ v.right.isNaN = false)) ∧
          ((∀ v, g.source ≠ ValueGroupSource.default_val v) →
            g.source = ValueGroupSource.none)) r.tables.groups r.valueGroups :=
  ⟨by decide, by decide,
    (constant_default_classification oneSurface (by decide) (by decide)).1⟩

/-- On `writtenOnFailedNode`, a group surface without exposed controls, the
one group has the members 1 and 2, the member 2 (on a custom node whose block
is invalid) has `writtenTo` set, and the group is still added with the source
`default_val {1, 0, LINEAR}`. -/
theorem written_member_on_failed_node_still_constant :
    writtenOnFailedNode.WellFormed ∧ writtenOnFailedNode.PortalsResolved ∧
    writtenOnFailedNode.isRoot = false ∧
    (writtenOnFailedNode.allControls.map
      (fun c => (c.uuid, c.exposerUuid.isNull, c.writtenTo)))
      = [(1, true, false), (2, true, true)] ∧
    (build writtenOnFailedNode).map (fun r => (r.tables.groups, r.valueGroups))
      = some ([(0, [1, 2])],
          [⟨ControlType.NUM_SCALAR,
            ValueGroupSource.default_val ⟨Lane.ofNat 1, Lane.ofNat 0, FormType.LINEAR⟩⟩]) := by
  decide

/-! ## A custom node that failed to compile -/

theorem not_grouped_of_skipped {s : Surface} (hw : s.WellFormed) {N : Node} (hN : N ∈ s.nodes)
    (hs : N.skipped = true) {c : Control} (hc : c ∈ N.controls) {c' : Control}
    (hc' : c' ∈ s.groupedControls) : c'.uuid ≠ c.uuid := by
  intro hu
  obtain ⟨n, hn, hns, hcn⟩ := mem_groupedControls.1 hc'
  have h1 := findControl_eq hw hn hcn
  have h2 := findControl_eq hw hN hc
  rw [hu, h2] at h1
  injection h1 with h1
  injection h1 with h1 _
  rw [h1, hns] at hs
  exact Bool.noConfusion hs

/-- What the code does for C6: on a well-formed surface with a custom node `N`
whose block is invalid, `build` succeeds; `N` gets no node record (the records
are those of the compiled custom nodes and of the group nodes, in order, so none
carries the runtime id of `N` when that id is its own) and with it no value
socket; no control of `N` is among the filtered controls a group is classified
from, and every group has such a control. But the union phase adds the
connected ids of the controls it walks without looking at their node (the skip
that the comment of line 99 announces is not there): a control id of `N` is a
key of `controlGroups`, and is in the member list of a group, exactly when a
control of a node that is not skipped lists it as connected. -/
theorem failed_node_contributes_nothing (s : Surface) (hw : s.WellFormed)
    (hp : s.PortalsResolved) (N : Node) (hN : N ∈ s.nodes) (hs : N.skipped = true) :
    ∃ r, build s = some r ∧
      N.isWired = false ∧
      r.nodes.map MirNode.key = (s.nodes.filter Node.isWired).map Node.recordKey ∧
      ((∀ n ∈ s.nodes, n.isWired = true → n.runtimeId ≠ N.runtimeId) →
        ∀ m ∈ r.nodes, m.runtimeId ≠ N.runtimeId) ∧
      (∀ p ∈ r.tables.groups, s.controlPointers p.2 ≠ [] ∧
        ∀ c ∈ s.controlPointers p.2, c ∉ N.controls) ∧
      (∀ c ∈ N.controls,
        ((∃ g, r.tables.controlGroups.lookup c.uuid = some g) ↔
          ∃ c' ∈ s.groupedControls, c.uuid ∈ c'.connectedControls) ∧
        ((∃ p ∈ r.tables.groups, c.uuid ∈ p.2) ↔
          ∃ c' ∈ s.groupedControls, c.uuid ∈ c'.connectedControls)) := by
  obtain ⟨st, r, _, hr, ht, hrep, hne, _, hkeys⟩ := build_spec hw hp
  have hwired : N.isWired = false := by
    unfold Node.skipped at hs
    unfold Node.isWired
    cases hk : N.kind with
    | custom valid =>
      rw [hk] at hs
      simpa using hs
    | group portals =>
      rw [hk] at hs
      exact Bool.noConfusion hs
    | other =>
      rfl
  have hdom : ∀ c ∈ N.controls, ((∃ g, st.controlGroups.lookup c.uuid = some g) ↔
      ∃ c' ∈ s.groupedControls, c.uuid ∈ c'.connectedControls) := by
    intro c hc
    rw [hrep.tracks.dom c.uuid]
    constructor
    · rintro ⟨c', hc', hx | hx⟩
      · exact absurd hx.symm (not_grouped_of_skipped hw hN hs hc hc')
      · exact ⟨c', hc', hx⟩
    · rintro ⟨c', hc', hx⟩
      exact ⟨c', hc', Or.inr hx⟩
  refine ⟨r, hr, hwired, hkeys, ?_, ?_, ?_⟩
  · intro huniq m hm hmr
    have hmk : m.key ∈ r.nodes.map MirNode.key := List.mem_map.2 ⟨m, hm, rfl⟩
    rw [hkeys] at hmk
    obtain ⟨n, hn, hnk⟩ := List.mem_map.1 hmk
    obtain ⟨hn1, hn2⟩ := List.mem_filter.1 hn
    apply huniq n hn1 hn2
    have : n.recordKey.2 = m.key.2 := by rw [hnk]
    exact this.trans hmr
  · rw [ht]
    intro p hp'
    refine ⟨hne p hp', ?_⟩
    intro c hc hcN
    obtain ⟨u, _, n, hf, hns⟩ := mem_controlPointers.1 hc
    have h1 := findControl_eq hw hN hcN
    rw [(findControl_some hf).2.2] at h1
    rw [hf] at h1
    injection h1 with h1
    injection h1 with h1 _
    rw [h1, hs] at hns
    exact Bool.noConfusion hns
  · rw [ht]
    intro c hc
    refine ⟨hdom c hc, ?_⟩
    rw [← hdom c hc]
    constructor
    · rintro ⟨p, hp', hcp⟩
      exact ⟨p.1, (hrep.inv.consistent c.uuid p.1).2
        ⟨p.2, lookup_of_mem hrep.inv.keysNodup hp', hcp⟩⟩
    · rintro ⟨g, hg⟩
      obtain ⟨ms, hms, hmem⟩ := (hrep.inv.consistent c.uuid g).1 hg
      exact ⟨(g, ms), mem_of_lookup hms, hmem⟩

/-- The surface `bridgedSurface` is well formed and holds the failed node
`failedNode`, which gets no node record and no classified control; its control
2, which the controls 1 and 3 of the compiled nodes list as connected, is in the
member list of the one group and is a key of `controlGroups`. -/
theorem failed_node_witness :
    (bridgedSurface.WellFormed ∧ bridgedSurface.PortalsResolved ∧
      failedNode ∈ bridgedSurface.nodes ∧ failedNode.skipped = true) ∧
    (∃ r, build bridgedSurface = some r ∧
      failedNode.isWired = false ∧
      r.nodes.map MirNode.key
        = (bridgedSurface.nodes.filter Node.isWired).map Node.recordKey ∧
      ((∀ n ∈ bridgedSurface.nodes, n.isWired = true → n.runtimeId ≠ failedNode.runtimeId) →
        ∀ m ∈ r.nodes, m.runtimeId ≠ failedNode.runtimeId) ∧
      (∀ p ∈ r.tables.groups, bridgedSurface.controlPointers p.2 ≠ [] ∧
        ∀ c ∈ bridgedSurface.controlPointers p.2, c ∉ failedNode.controls) ∧
      (∀ c ∈ failedNode.controls,
        ((∃ g, r.tables.controlGroups.lookup c.uuid = some g) ↔
          ∃ c' ∈ bridgedSurface.groupedControls, c.uuid ∈ c'.connectedControls) ∧
        ((∃ p ∈ r.tables.groups, c.uuid ∈ p.2) ↔
          ∃ c' ∈ bridgedSurface.groupedControls, c.uuid ∈ c'.connectedControls))) ∧
    failedNode.controls.map (fun c => c.uuid) = [2] ∧
    (build bridgedSurface).map (fun r => (r.tables.groups, r.tables.controlGroups))
      = some ([(1, [3, 1, 2])], [(2, 1), (1, 1), (3, 1)]) :=
  ⟨⟨by decide, by decide, by decide, by decide⟩,
    failed_node_contributes_nothing bridgedSurface (by decide) (by decide) failedNode
      (by decide) (by decide),
    by decide, by decide⟩

/-! ## The surface without the failed node -/

theorem Node.disconnect_kind (ids : List QUuid) (n : Node) : (n.disconnect ids).kind = n.kind :=
  rfl

theorem Node.disconnect_skipped (ids : List QUuid) (n : Node) :
    (n.disconnect ids).skipped = n.skipped := rfl

theorem Node.disconnect_portals (ids : List QUuid) (n : Node) :
    (n.disconnect ids).portals = n.portals := rfl

theorem Node.disconnect_isWired (ids : List QUuid) (n : Node) :
    (n.disconnect ids).isWired = n.isWired := rfl

theorem Node.disconnect_recordKey (ids : List QUuid) (n : Node) :
    (n.disconnect ids).recordKey = n.recordKey := rfl

theorem Control.disconnect_uuid (ids : List QUuid) (c : Control) :
    (c.disconnect ids).uuid = c.uuid := rfl

theorem Control.mem_disconnect {ids : List QUuid} {c : Control} {d : QUuid} :
    d ∈ (c.disconnect ids).connectedControls ↔ d ∈ c.connectedControls ∧ d ∉ ids := by
  simp [Control.disconnect, List.mem_filter]

theorem grouped_disconnect (isRoot : Bool) (ids : List QUuid) (l : List Node) :
    (Surface.mk isRoot (l.map (Node.disconnect ids))).groupedControls
      = (Surface.mk isRoot l).groupedControls.map (Control.disconnect ids) := by
  unfold Surface.groupedControls
  simp only
  induction l with
  | nil => rfl
  | cons n l ih =>
    simp only [List.map_cons, List.filter_cons, Node.disconnect_skipped]
    by_cases hs : n.skipped = true
    · simp only [hs, Bool.not_true, Bool.false_eq_true, if_false]
      exact ih
    · have hs' : n.skipped = false := by simpa using hs
      simp only [hs', Bool.not_false, if_true, List.flatMap_cons, List.map_append, ih]
      rfl

theorem all_disconnect (isRoot : Bool) (ids : List QUuid) (l : List Node) :
    (Surface.mk isRoot (l.map (Node.disconnect ids))).allControls
      = (Surface.mk isRoot l).allControls.map (Control.disconnect ids) := by
  unfold Surface.allControls
  simp only
  induction l with
  | nil => rfl
  | cons n l ih =>
    simp only [List.map_cons, List.flatMap_cons, List.map_append, ih]
    rfl

theorem portals_disconnect (isRoot : Bool) (ids : List QUuid) (l : List Node) :
    (Surface.mk isRoot (l.map (Node.disconnect ids))).portals = (Surface.mk isRoot l).portals := by
  unfold Surface.portals
  simp only
  induction l with
  | nil => rfl
  | cons n l ih =>
    simp only [List.map_cons, List.flatMap_cons, ih, Node.disconnect_portals]

theorem grouped_skip (isRoot : Bool) (pre post : List Node) {N : Node} (hs : N.skipped = true) :
    (Surface.mk isRoot (pre ++ N :: post)).groupedControls
      = (Surface.mk isRoot (pre ++ post)).groupedControls := by
  unfold Surface.groupedControls
  simp [List.filter_append, List.filter_cons, hs]

theorem portals_skip (isRoot : Bool) (pre post : List Node) {N : Node} (hs : N.skipped = true) :
    (Surface.mk isRoot (pre ++ N :: post)).portals = (Surface.mk isRoot (pre ++ post)).portals := by
  have hN : N.portals = [] := by
    unfold Node.skipped at hs
    unfold Node.portals
    cases hk : N.kind with
    | custom valid => rfl
    | group portals =>
      rw [hk] at hs
      exact Bool.noConfusion hs
    | other => rfl
  unfold Surface.portals
  simp [List.flatMap_append, List.flatMap_cons, hN]

theorem wired_skip (pre post : List Node) {N : Node} (hs : N.skipped = true) :
    (pre ++ N :: post).filter Node.isWired = (pre ++ post).filter Node.isWired := by
  have hN : N.isWired = false := by
    unfold Node.skipped at hs
    unfold Node.isWired
    cases hk : N.kind with
    | custom valid =>
      rw [hk] at hs
      simpa using hs
    | group portals =>
      rw [hk] at hs
      exact Bool.noConfusion hs
    | other => rfl
  simp [List.filter_append, List.filter_cons, hN]

theorem grouped_without (isRoot : Bool) (pre post : List Node) {N : Node}
    (hs : N.skipped = true) :
    (surfaceWithout isRoot pre N post).groupedControls
      = (Surface.mk isRoot (pre ++ N :: post)).groupedControls.map
          (Control.disconnect (N.controls.map (fun c => c.uuid))) := by
  rw [grouped_skip isRoot pre post hs]
  exact grouped_disconnect isRoot _ _

theorem portals_without (isRoot : Bool) (pre post : List Node) {N : Node}
    (hs : N.skipped = true) :
    (surfaceWithout isRoot pre N post).portals
      = (Surface.mk isRoot (pre ++ N :: post)).portals := by
  rw [portals_skip isRoot pre post hs]
  exact portals_disconnect isRoot _ _

theorem all_split (isRoot : Bool) (pre post : List Node) (N : Node) :
    (Surface.mk isRoot (pre ++ N :: post)).allControls
      = (Surface.mk isRoot pre).allControls ++ (N.controls ++ (Surface.mk isRoot post).allControls) := by
  unfold Surface.allControls
  simp [List.flatMap_append, List.flatMap_cons]

theorem all_split' (isRoot : Bool) (pre post : List Node) :
    (Surface.mk isRoot (pre ++ post)).allControls
      = (Surface.mk isRoot pre).allControls ++ (Surface.mk isRoot post).allControls := by
  unfold Surface.allControls
  simp [List.flatMap_append]

theorem without_wellFormed (isRoot : Bool) (pre post : List Node) (N : Node)
    (hw : (Surface.mk isRoot (pre ++ N :: post)).WellFormed) :
    (surfaceWithout isRoot pre N post).WellFormed := by
  have hnd := hw.1
  rw [all_split, List.map_append, List.map_append] at hnd
  have hnd2 := List.nodup_append.1 hnd
  have hnd3 := List.nodup_append.1 hnd2.2.1
  have hrest : ∀ c ∈ (Surface.mk isRoot (pre ++ post)).allControls,
      c ∈ (Surface.mk isRoot (pre ++ N :: post)).allControls ∧
        c.uuid ∉ N.controls.map (fun c => c.uuid) := by
    intro c hc
    rw [all_split'] at hc
    rw [all_split]
    rcases List.mem_append.1 hc with hc | hc
    · refine ⟨List.mem_append_left _ hc, fun hmem => ?_⟩
      exact hnd2.2.2 (List.mem_map.2 ⟨c, hc, rfl⟩)
        (List.mem_append_left _ hmem)
    · refine ⟨List.mem_append_right _ (List.mem_append_right _ hc), fun hmem => ?_⟩
      exact hnd3.2.2 hmem (List.mem_map.2 ⟨c, hc, rfl⟩)
  have hmem_rest : ∀ c ∈ (Surface.mk isRoot (pre ++ N :: post)).allControls,
      c.uuid ∉ N.controls.map (fun c => c.uuid) →
        c ∈ (Surface.mk isRoot (pre ++ post)).allControls := by
    intro c hc hnot
    rw [all_split] at hc
    rw [all_split']
    rcases List.mem_append.1 hc with hc | hc
    · exact List.mem_append_left _ hc
    · rcases List.mem_append.1 hc with hc | hc
      · exact absurd (List.mem_map.2 ⟨c, hc, rfl⟩) hnot
      · exact List.mem_append_right _ hc
  constructor
  · unfold surfaceWithout
    rw [all_disconnect, List.map_map]
    have : ((fun c => c.uuid) ∘ Control.disconnect (N.controls.map (fun c => c.uuid)))
        = (fun c : Control => c.uuid) := rfl
    rw [this, all_split', List.map_append]
    exact List.Nodup.append hnd2.1 hnd3.2.1 (fun x hx1 hx2 =>
      hnd2.2.2 hx1 (List.mem_append_right _ hx2))
  · intro c' hc' d hd
    unfold surfaceWithout at hc'
    rw [all_disconnect] at hc'
    obtain ⟨c, hc, rfl⟩ := List.mem_map.1 hc'
    obtain ⟨hd1, hd2⟩ := Control.mem_disconnect.1 hd
    obtain ⟨hcs, hcn⟩ := hrest c hc
    obtain ⟨c2, hc2, hu2, hback⟩ := hw.2 c hcs d hd1
    have hc2r := hmem_rest c2 hc2 (by rw [hu2]; exact hd2)
    refine ⟨c2.disconnect (N.controls.map (fun c => c.uuid)), ?_, hu2, ?_⟩
    · unfold surfaceWithout
      rw [all_disconnect]
      exact List.mem_map.2 ⟨c2, hc2r, rfl⟩
    · exact Control.mem_disconnect.2 ⟨hback, hcn⟩

theorem without_portalsResolved (isRoot : Bool) (pre post : List Node) {N : Node}
    (hs : N.skipped = true)
    (hp : (Surface.mk isRoot (pre ++ N :: post)).PortalsResolved) :
    (surfaceWithout isRoot pre N post).PortalsResolved := by
  intro p hp'
  rw [portals_without isRoot pre post hs] at hp'
  obtain ⟨h1, h2⟩ := hp p hp'
  refine ⟨h1, fun u hu => ?_⟩
  obtain ⟨c, hc, hcu⟩ := h2 u hu
  refine ⟨c.disconnect (N.controls.map (fun c => c.uuid)), ?_, hcu⟩
  rw [grouped_without isRoot pre post hs]
  exact List.mem_map.2 ⟨c, hc, rfl⟩

theorem eqvGen_of_subset {r r' : QUuid → QUuid → Prop}
    (h : ∀ x y, r x y → Relation.EqvGen r' x y) {a b : QUuid} (hab : Relation.EqvGen r a b) :
    Relation.EqvGen r' a b := by
  induction hab with
  | rel x y hxy => exact h x y hxy
  | refl x => exact Relation.EqvGen.refl _
  | symm x y _ ih => exact Relation.EqvGen.symm _ _ ih
  | trans x y z _ _ ih1 ih2 => exact Relation.EqvGen.trans _ _ _ ih1 ih2

theorem walked_disconnect {G : List Control} {ids : List QUuid} {a b : QUuid} :
    walked (G.map (Control.disconnect ids)) a b ↔ walked G a b ∧ b ∉ ids := by
  unfold walked
  constructor
  · rintro ⟨c', hc', ha, hb⟩
    obtain ⟨c, hc, rfl⟩ := List.mem_map.1 hc'
    obtain ⟨hb1, hb2⟩ := Control.mem_disconnect.1 hb
    exact ⟨⟨c, hc, ha, hb1⟩, hb2⟩
  · rintro ⟨⟨c, hc, ha, hb⟩, hb2⟩
    exact ⟨c.disconnect ids, List.mem_map.2 ⟨c, hc, rfl⟩, ha, Control.mem_disconnect.2 ⟨hb, hb2⟩⟩

/-- Paths of the whole graph are paths of the graph without the node `N`, up to
the links its controls make between the controls connected to them. -/
theorem bridge_paths {s : Surface} {N : Node}
    (hG : ∀ c ∈ s.groupedControls, c.uuid ∉ N.controls.map (fun c => c.uuid))
    (hp : s.PortalsResolved) {u v : QUuid}
    (huv : Relation.EqvGen
      (fun a b => walked s.groupedControls a b ∨ portalLinks s.portals a b) u v) :
    ((∃ a, (u ∉ N.controls.map (fun c => c.uuid) ∧ a = u) ∨
          (u ∈ N.controls.map (fun c => c.uuid) ∧
            ∃ c ∈ s.groupedControls, c.uuid = a ∧ u ∈ c.connectedControls)) ↔
      (∃ a, (v ∉ N.controls.map (fun c => c.uuid) ∧ a = v) ∨
          (v ∈ N.controls.map (fun c => c.uuid) ∧
            ∃ c ∈ s.groupedControls, c.uuid = a ∧ v ∈ c.connectedControls))) ∧
    (∀ a b,
      ((u ∉ N.controls.map (fun c => c.uuid) ∧ a = u) ∨
          (u ∈ N.controls.map (fun c => c.uuid) ∧
            ∃ c ∈ s.groupedControls, c.uuid = a ∧ u ∈ c.connectedControls)) →
      ((v ∉ N.controls.map (fun c => c.uuid) ∧ b = v) ∨
          (v ∈ N.controls.map (fun c => c.uuid) ∧
            ∃ c ∈ s.groupedControls, c.uuid = b ∧ v ∈ c.connectedControls)) →
      Relation.EqvGen
        (fun x y =>
          (walked (s.groupedControls.map
              (Control.disconnect (N.controls.map (fun c => c.uuid)))) x y ∨
            portalLinks s.portals x y) ∨ bridged s N x y) a b) := by
  induction huv with
  | rel x y hxy =>
    rcases hxy with ⟨c, hc, rfl, hy⟩ | ⟨p, hp', rest, hext, hy⟩
    · have hcn := hG c hc
      constructor
      · constructor
        · intro _
          by_cases hyn : y ∈ N.controls.map (fun c => c.uuid)
          · exact ⟨c.uuid, Or.inr ⟨hyn, c, hc, rfl, hy⟩⟩
          · exact ⟨y, Or.inl ⟨hyn, rfl⟩⟩
        · intro _
          exact ⟨c.uuid, Or.inl ⟨hcn, rfl⟩⟩
      · intro a b ha hb
        have hac : a = c.uuid := by
          rcases ha with ⟨_, ha⟩ | ⟨ha, _⟩
          · exact ha
          · exact absurd ha hcn
        subst hac
        rcases hb with ⟨hyn, rfl⟩ | ⟨hyn, c2, hc2, rfl, hy2⟩
        · exact Relation.EqvGen.rel _ _
            (Or.inl (Or.inl (walked_disconnect.2 ⟨⟨c, hc, rfl, hy⟩, hyn⟩)))
        · obtain ⟨d, hd, hdu⟩ := List.mem_map.1 hyn
          exact Relation.EqvGen.rel _ _
            (Or.inr ⟨d, hd, c, hc, c2, hc2, rfl, rfl, by rw [hdu]; exact hy,
              by rw [hdu]; exact hy2⟩)
    · obtain ⟨_, hres⟩ := hp p hp'
      obtain ⟨cx, hcx, hcxu⟩ := hres x (by rw [hext]; exact List.mem_cons_self _ _)
      obtain ⟨cy, hcy, hcyu⟩ := hres y (by rw [hext]; exact List.mem_cons_of_mem _ hy)
      have hxn : x ∉ N.controls.map (fun c => c.uuid) := hcxu ▸ hG cx hcx
      have hyn : y ∉ N.controls.map (fun c => c.uuid) := hcyu ▸ hG cy hcy
      constructor
      · exact ⟨fun _ => ⟨y, Or.inl ⟨hyn, rfl⟩⟩, fun _ => ⟨x, Or.inl ⟨hxn, rfl⟩⟩⟩
      · intro a b ha hb
        have hax : a = x := by
          rcases ha with ⟨_, ha⟩ | ⟨ha, _⟩
          · exact ha
          · exact absurd ha hxn
        have hby : b = y := by
          rcases hb with ⟨_, hb⟩ | ⟨hb, _⟩
          · exact hb
          · exact absurd hb hyn
        subst hax; subst hby
        exact Relation.EqvGen.rel _ _ (Or.inl (Or.inr ⟨p, hp', rest, hext, hy⟩))
  | refl x =>
    refine ⟨Iff.rfl, ?_⟩
    intro a b ha hb
    rcases ha with ⟨hxn, rfl⟩ | ⟨hxn, ca, hca, rfl, hxa⟩
    · rcases hb with ⟨_, rfl⟩ | ⟨hb, _⟩
      · exact Relation.EqvGen.refl _
      · exact absurd hb hxn
    · rcases hb with ⟨hb, _⟩ | ⟨_, cb, hcb, rfl, hxb⟩
      · exact absurd hxn hb
      · obtain ⟨d, hd, hdu⟩ := List.mem_map.1 hxn
        exact Relation.EqvGen.rel _ _
          (Or.inr ⟨d, hd, ca, hca, cb, hcb, rfl, rfl, by rw [hdu]; exact hxa,
            by rw [hdu]; exact hxb⟩)
  | symm x y _ ih =>
    exact ⟨ih.1.symm, fun a b ha hb => Relation.EqvGen.symm _ _ (ih.2 b a hb ha)⟩
  | trans x y z _ _ ih1 ih2 =>
    refine ⟨ih1.1.trans ih2.1, fun a b ha hb => ?_⟩
    obtain ⟨c, hc⟩ := ih1.1.1 ⟨a, ha⟩
    exact Relation.EqvGen.trans _ _ _ (ih1.2 a c ha hc) (ih2.2 c b hc hb)

/-- What the code does for C7: on a well-formed surface with a custom node `N`
whose block is invalid, `build` succeeds on the surface and on the surface with
`N` and every connection touching its controls removed, and both emit node
records for the same nodes, in the same order. The groups are not the same: two
controls of the other nodes that are walked share a group on the surface if and
only if they are linked by a chain of steps, each between two ids that share a
group on the surface without `N` or between two controls that are both
connected to one control of `N`. The union phase adds the connected ids of the
controls it walks without looking at their node (the skip that the comment of
line 99 announces is not there), so a control of `N` joins the groups of the
controls connected to it. -/
theorem failed_node_only_bridges (isRoot : Bool) (pre post : List Node) (N : Node)
    (hs : N.skipped = true)
    (hw : (Surface.mk isRoot (pre ++ N :: post)).WellFormed)
    (hp : (Surface.mk isRoot (pre ++ N :: post)).PortalsResolved) :
    ∃ r r', build (Surface.mk isRoot (pre ++ N :: post)) = some r ∧
      build (surfaceWithout isRoot pre N post) = some r' ∧
      (∀ a ∈ (Surface.mk isRoot (pre ++ N :: post)).groupedControls,
        ∀ b ∈ (Surface.mk isRoot (pre ++ N :: post)).groupedControls,
          (r.tables.sameGroup a.uuid b.uuid ↔
            Relation.EqvGen
              (fun x y => r'.tables.sameGroup x y ∨
                bridged (Surface.mk isRoot (pre ++ N :: post)) N x y) a.uuid b.uuid)) ∧
      r.nodes.map MirNode.key = r'.nodes.map MirNode.key := by
  obtain ⟨st, r, _, hr, ht, hrep, _, _, hkeys⟩ := build_spec hw hp
  obtain ⟨st', r', _, hr', ht', hrep', _, _, hkeys'⟩ :=
    build_spec (without_wellFormed isRoot pre post N hw)
      (without_portalsResolved isRoot pre post hs hp)
  rw [grouped_without isRoot pre post hs, portals_without isRoot pre post hs] at hrep'
  have hN : N ∈ (Surface.mk isRoot (pre ++ N :: post)).nodes :=
    List.mem_append_right _ (List.mem_cons_self _ _)
  have hG : ∀ c ∈ (Surface.mk isRoot (pre ++ N :: post)).groupedControls,
      c.uuid ∉ N.controls.map (fun c => c.uuid) := by
    intro c hc hmem
    obtain ⟨d, hd, hdu⟩ := List.mem_map.1 hmem
    exact not_grouped_of_skipped hw hN hs hd hc hdu.symm
  refine ⟨r, r', hr, hr', ?_, ?_⟩
  · rw [ht, ht']
    intro a ha b hb
    constructor
    · intro hab
      have hE := ((hrep.tracks.rel a.uuid b.uuid).1 hab).2.2
      have hpath := (bridge_paths hG hp hE).2 a.uuid b.uuid
        (Or.inl ⟨hG a ha, rfl⟩) (Or.inl ⟨hG b hb, rfl⟩)
      refine Relation.EqvGen.mono ?_ hpath
      rintro x y (hxy | hxy)
      · obtain ⟨hx, hy⟩ := hrep'.tracks.edges x y hxy
        exact Or.inl ((hrep'.tracks.rel x y).2 ⟨hx, hy, Relation.EqvGen.rel _ _ hxy⟩)
      · exact Or.inr hxy
    · intro hab
      refine (hrep.tracks.rel a.uuid b.uuid).2 ⟨⟨a, ha, Or.inl rfl⟩, ⟨b, hb, Or.inl rfl⟩, ?_⟩
      refine eqvGen_of_subset ?_ hab
      rintro x y (hxy | hxy)
      · have hE' := ((hrep'.tracks.rel x y).1 hxy).2.2
        refine Relation.EqvGen.mono ?_ hE'
        rintro x' y' (h1 | h1)
        · exact Or.inl (walked_disconnect.1 h1).1
        · exact Or.inr h1
      · obtain ⟨d, _, cx, hcx, cy, hcy, rfl, rfl, hdx, hdy⟩ := hxy
        exact Relation.EqvGen.trans _ _ _
          (Relation.EqvGen.rel _ _ (Or.inl ⟨cx, hcx, rfl, hdx⟩))
          (Relation.EqvGen.symm _ _ (Relation.EqvGen.rel _ _ (Or.inl ⟨cy, hcy, rfl, hdy⟩)))
  · rw [hkeys, hkeys']
    unfold surfaceWithout
    simp only
    rw [wired_skip pre post hs]
    induction (pre ++ post) with
    | nil => rfl
    | cons n l ih =>
      simp only [List.map_cons, List.filter_cons, Node.disconnect_isWired]
      by_cases hwn : n.isWired = true
      · simp only [hwn, if_true, List.map_cons, Node.disconnect_recordKey, ih]
      · have hwn' : n.isWired = false := by simpa using hwn
        simp only [hwn', Bool.false_eq_true, if_false, ih]

/-- The surface `bridgedSurface` is well formed, and its groups are those of
the surface without `failedNode`, joined along the controls connected to a
common control of `failedNode`: on `bridgedSurface` the controls 1 and 3 of the
compiled nodes share the one group, while on the surface without `failedNode`
they are in two groups, and the value sockets of the two node records name one
group on the first surface and two groups on the second. -/
theorem failed_node_bridges_witness :
    (failedNode.skipped = true ∧
      (Surface.mk false ([⟨.custom true, 10, [numberControl 1 [2]]⟩] ++
        failedNode :: [⟨.custom true, 12, [numberControl 3 [2]]⟩])).WellFormed ∧
      (Surface.mk false ([⟨.custom true, 10, [numberControl 1 [2]]⟩] ++
        failedNode :: [⟨.custom true, 12, [numberControl 3 [2]]⟩])).PortalsResolved) ∧
    (∃ r r', build bridgedSurface = some r ∧
      build (surfaceWithout false [⟨.custom true, 10, [numberControl 1 [2]]⟩] failedNode
        [⟨.custom true, 12, [numberControl 3 [2]]⟩]) = some r' ∧
      (∀ a ∈ bridgedSurface.groupedControls, ∀ b ∈ bridgedSurface.groupedControls,
          (r.tables.sameGroup a.uuid b.uuid ↔
            Relation.EqvGen
              (fun x y => r'.tables.sameGroup x y ∨ bridged bridgedSurface failedNode x y)
              a.uuid b.uuid)) ∧
      r.nodes.map MirNode.key = r'.nodes.map MirNode.key) ∧
    (build bridgedSurface).map (fun r => (r.tables.groups, r.nodes))
      = some ([(1, [3, 1, 2])],
          [⟨false, 10, [⟨0, false, false, false⟩]⟩, ⟨false, 12, [⟨0, false, false, false⟩]⟩]) ∧
    (build (surfaceWithout false [⟨.custom true, 10, [numberControl 1 [2]]⟩] failedNode
        [⟨.custom true, 12, [numberControl 3 [2]]⟩])).map (fun r => (r.tables.groups, r.nodes))
      = some ([(1, [3]), (0, [1])],
          [⟨false, 10, [⟨1, false, false, false⟩]⟩, ⟨false, 12, [⟨0, false, false, false⟩]⟩]) :=
  ⟨⟨by decide, by decide, by decide⟩,
    failed_node_only_bridges false [⟨.custom true, 10, [numberControl 1 [2]]⟩]
      [⟨.custom true, 12, [numberControl 3 [2]]⟩] failedNode (by decide) (by decide)
      (by decide),
    by decide, by decide⟩

end SurfaceMir

namespace MaximCodegen

/-! ## Operators on tuples -/

theorem forall₂_of_index {α β : Type} {R : α → β → Prop} :
    ∀ (l : List α) (l' : List β), l.length = l'.length →
      (∀ (i : Nat) a, l[i]? = some a → ∃ b, l'[i]? = some b ∧ R a b) → List.Forall₂ R l l' := by
  intro l
  induction l with
  | nil =>
    intro l' hlen _
    cases l' with
    | nil => exact List.Forall₂.nil
    | cons b l' => simp at hlen
  | cons a l ih =>
    intro l' hlen h
    cases l' with
    | nil => simp at hlen
    | cons b l' =>
      obtain ⟨b', hb', hR⟩ := h 0 a (by simp)
      simp only [List.getElem?_cons_zero, Option.some.injEq] at hb'
      subst hb'
      refine List.Forall₂.cons hR (ih l' (by simpa using hlen) ?_)
      intro i x hx
      have := h (i + 1) x (by simpa using hx)
      simpa using this

/-- When every pair has a registered operator whose call returns, the loop
over the pairs returns the results in order. -/
theorem callEach_ok {V T : Type} [DecidableEq T] (vm : ValueModel V T) (ctx : MaximContext V T)
    (type : OperatorType) (startPos endPos : SourcePos) {pairs : List (V × V)} {vs : List V}
    (h : List.Forall₂ (fun p v => ∃ op, ctx.getOperator type (vm.type p.1) (vm.type p.2) = some op ∧
      op.call p.1 p.2 startPos endPos = .ok v) pairs vs) :
    (callEach vm ctx type startPos endPos pairs).1 = .ok vs := by
  induction h with
  | nil => rfl
  | cons hpv _ ih =>
    rename_i p v pairs vs _
    obtain ⟨op, hop, hcall⟩ := hpv
    obtain ⟨l, r⟩ := p
    simp only at hop hcall
    cases hrest : callEach vm ctx type startPos endPos pairs with
    | mk res applied =>
      rw [hrest] at ih
      simp only at ih
      subst ih
      simp [callEach, MaximContext.alwaysGetOperator, hop, hcall, hrest]

theorem tupleOf_fst {V T : Type} (vm : ValueModel V T)
    {r : Except CompileError (List V) × List (Application V T)} {vs : List V}
    (h : r.1 = .ok vs) : (tupleOf vm r).1 = .ok (vm.createTuple vs) := by
  obtain ⟨res, applied⟩ := r
  simp only at h
  subst h
  rfl

/-- C8. For every operator kind and two tuple operands: when the arities
differ `callOperator` throws the compile error whose message holds the verb of
the operator and both arities, with the given span, and no element operator has
been applied; when both arities equal `n` and, for every index, the operator
registered for the types of the two elements applied to them gives the value
`vs[i]`, it returns the tuple of the `n` values `vs`. Tuples of arity 2 and 3
throw the arity error. -/
theorem callOperator_two_tuples {V T : Type} [DecidableEq T] (vm : ValueModel V T)
    (operatorType2Verb : OperatorType → String) (ctx : MaximContext V T)
    (type : OperatorType) (leftVal rightVal : V) (leftItems rightItems : List V)
    (startPos endPos : SourcePos)
    (hl : vm.asTuple leftVal = some leftItems) (hr : vm.asTuple rightVal = some rightItems) :
    (leftItems.length ≠ rightItems.length →
      ctx.callOperator vm operatorType2Verb type leftVal rightVal startPos endPos =
        (.error ⟨"OOOOOOOOOOOOOOOOOOOOOOYYYYYY!!!!1! You're trying to " ++
            operatorType2Verb type ++ " " ++ toString leftItems.length ++ " values to " ++
            toString rightItems.length ++ " ones!", startPos, endPos⟩, [])) ∧
    (leftItems.length = rightItems.length →
      ∀ vs : List V, vs.length = leftItems.length →
        (∀ (i : Nat) l r, leftItems[i]? = some l → rightItems[i]? = some r →
          ∃ op v, ctx.getOperator type (vm.type l) (vm.type r) = some op ∧
            op.call l r startPos endPos = .ok v ∧ vs[i]? = some v) →
        (ctx.callOperator vm operatorType2Verb type leftVal rightVal startPos endPos).1 =
          .ok (vm.createTuple vs)) ∧
    (leftItems.length = 2 → rightItems.length = 3 →
      ctx.callOperator vm operatorType2Verb type leftVal rightVal startPos endPos =
        (.error ⟨"OOOOOOOOOOOOOOOOOOOOOOYYYYYY!!!!1! You're trying to " ++
            operatorType2Verb type ++ " " ++ "2" ++ " values to " ++ "3" ++ " ones!",
          startPos, endPos⟩, [])) := by
  refine ⟨?_, ?_, ?_⟩
  · intro hne
    simp only [MaximContext.callOperator, hl, hr, ne_eq, hne, not_false_eq_true, if_true,
      arityMessage]
  · intro heq vs hvs hall
    have hne : ¬ leftItems.length ≠ rightItems.length := fun h => h heq
    simp only [MaximContext.callOperator, hl, hr, hne, if_false]
    apply tupleOf_fst
    apply callEach_ok
    apply forall₂_of_index
    · rw [List.length_zip, ← heq, Nat.min_self, hvs]
    · rintro i ⟨l, r⟩ hp
      obtain ⟨h1, h2⟩ := List.getElem?_zip_eq_some.1 hp
      obtain ⟨op, v, hop, hcall, hv⟩ := hall i l r h1 h2
      exact ⟨v, hv, op, hop, hcall⟩
  · intro h2 h3
    have hne : leftItems.length ≠ rightItems.length := by rw [h2, h3]; decide
    have h23 : toString (2 : Nat) = "2" ∧ toString (3 : Nat) = "3" := by decide
    simp only [MaximContext.callOperator, hl, hr, ne_eq, hne, not_false_eq_true, if_true,
      arityMessage]
    rw [h2, h3, h23.1, h23.2]

/-- In the example context, adding the tuples `(1, 2)` and `(3, 4)` gives the
tuple `(4, 6)`. -/
theorem callOperator_two_tuples_witness :
    sampleModel.asTuple (.tuple [.num 1, .num 2]) = some [.num 1, .num 2] ∧
    sampleModel.asTuple (.tuple [.num 3, .num 4]) = some [.num 3, .num 4] ∧
    (sampleContext.callOperator sampleModel sampleVerb .ADD (.tuple [.num 1, .num 2])
        (.tuple [.num 3, .num 4]) ⟨0, 0⟩ ⟨0, 9⟩).1 = .ok (.tuple [.num 4, .num 6]) :=
  ⟨rfl, rfl,
    (callOperator_two_tuples sampleModel sampleVerb sampleContext .ADD
      (.tuple [.num 1, .num 2]) (.tuple [.num 3, .num 4]) [.num 1, .num 2] [.num 3, .num 4]
      ⟨0, 0⟩ ⟨0, 9⟩ rfl rfl).2.1 rfl [.num 4, .num 6] rfl
      (fun i l r h1 h2 =>
        match i, h1, h2 with
        | 0, h1, h2 => by
          cases h1; cases h2
          exact ⟨sampleAdd, .num 4, rfl, rfl, rfl⟩
        | 1, h1, h2 => by
          cases h1; cases h2
          exact ⟨sampleAdd, .num 6, rfl, rfl, rfl⟩
        | _ + 2, h1, _ => by cases h1)⟩

/-- C9. For every operator kind, when exactly one operand is a tuple of arity
`n`, and for every index the operator registered for the types of the element
and of the other operand, applied with the operand sides kept (`(left[i],
scalar)` for a tuple on the left, `(scalar, right[i])` for a tuple on the
right), gives the value `vs[i]`, `callOperator` returns the tuple of the `n`
values `vs`. -/
theorem callOperator_tuple_and_scalar {V T : Type} [DecidableEq T] (vm : ValueModel V T)
    (operatorType2Verb : OperatorType → String) (ctx : MaximContext V T)
    (type : OperatorType) (leftVal rightVal : V) (items vs : List V)
    (startPos endPos : SourcePos) (hvs : vs.length = items.length) :
    (vm.asTuple leftVal = some items → vm.asTuple rightVal = none →
      (∀ (i : Nat) l, items[i]? = some l →
        ∃ op v, ctx.getOperator type (vm.type l) (vm.type rightVal) = some op ∧
          op.call l rightVal startPos endPos = .ok v ∧ vs[i]? = some v) →
      (ctx.callOperator vm operatorType2Verb type leftVal rightVal startPos endPos).1 =
        .ok (vm.createTuple vs)) ∧
    (vm.asTuple leftVal = none → vm.asTuple rightVal = some items →
      (∀ (i : Nat) r, items[i]? = some r →
        ∃ op v, ctx.getOperator type (vm.type leftVal) (vm.type r) = some op ∧
          op.call leftVal r startPos endPos = .ok v ∧ vs[i]? = some v) →
      (ctx.callOperator vm operatorType2Verb type leftVal rightVal startPos endPos).1 =
        .ok (vm.createTuple vs)) := by
  constructor
  · intro hl hr hall
    simp only [MaximContext.callOperator, hl, hr]
    apply tupleOf_fst
    apply callEach_ok
    apply forall₂_of_index
    · rw [List.length_map, hvs]
    · rintro i ⟨l, r⟩ hp
      rw [List.getElem?_map] at hp
      cases hi : items[i]? with
      | none => rw [hi] at hp; simp at hp
      | some l' =>
        rw [hi] at hp
        simp only [Option.map_some', Option.some.injEq, Prod.mk.injEq] at hp
        obtain ⟨rfl, rfl⟩ := hp
        obtain ⟨op, v, hop, hcall, hv⟩ := hall i l' hi
        exact ⟨v, hv, op, hop, hcall⟩
  · intro hl hr hall
    simp only [MaximContext.callOperator, hl, hr]
    apply tupleOf_fst
    apply callEach_ok
    apply forall₂_of_index
    · rw [List.length_map, hvs]
    · rintro i ⟨l, r⟩ hp
      rw [List.getElem?_map] at hp
      cases hi : items[i]? with
      | none => rw [hi] at hp; simp at hp
      | some r' =>
        rw [hi] at hp
        simp only [Option.map_some', Option.some.injEq, Prod.mk.injEq] at hp
        obtain ⟨rfl, rfl⟩ := hp
        obtain ⟨op, v, hop, hcall, hv⟩ := hall i r' hi
        exact ⟨v, hv, op, hop, hcall⟩

/-- In the example context, adding the scalar `10` to the tuple `(1, 2, 3)`
gives the tuple `(11, 12, 13)`. -/
theorem callOperator_tuple_and_scalar_witness :
    ([SampleValue.num 11, .num 12, .num 13].length = [SampleValue.num 1, .num 2, .num 3].length) ∧
    (sampleContext.callOperator sampleModel sampleVerb .ADD (.tuple [.num 1, .num 2, .num 3])
        (.num 10) ⟨0, 0⟩ ⟨0, 9⟩).1 = .ok (.tuple [.num 11, .num 12, .num 13]) :=
  ⟨rfl,
    (callOperator_tuple_and_scalar sampleModel sampleVerb sampleContext .ADD
      (.tuple [.num 1, .num 2, .num 3]) (.num 10) [.num 1, .num 2, .num 3]
      [.num 11, .num 12, .num 13] ⟨0, 0⟩ ⟨0, 9⟩ rfl).1 rfl rfl
      (fun i l h1 =>
        match i, h1 with
        | 0, h1 => by
          cases h1
          exact ⟨sampleAdd, .num 11, rfl, rfl, rfl⟩
        | 1, h1 => by
          cases h1
          exact ⟨sampleAdd, .num 12, rfl, rfl, rfl⟩
        | 2, h1 => by
          cases h1
          exact ⟨sampleAdd, .num 13, rfl, rfl, rfl⟩
        | _ + 3, h1 => by cases h1)⟩

end MaximCodegen

namespace ExpressionGenerator

open MaximCodegen (SourcePos)

/-! ## Destructuring assignment -/

theorem lookup_filter_bne {α β : Type} [DecidableEq α] (k x : α) (m : List (α × β)) :
    (m.filter (fun p => p.1 != k)).lookup x = if x = k then none else m.lookup x := by
  induction m with
  | nil => simp
  | cons p m ih =>
    obtain ⟨a, b⟩ := p
    by_cases hak : a = k
    · subst hak
      by_cases hx : x = a
      · subst hx; simp [ih]
      · have : (x == a) = false := by simpa using hx
        simp [List.filter_cons, ih, List.lookup_cons, this, hx]
    · have h1 : (a != k) = true := by simpa using hak
      simp only [List.filter_cons, h1, if_true, List.lookup_cons, ih]
      by_cases hx : x = a
      · subst hx; simp [hak]
      · have : (x == a) = false := by simpa using hx
        simp [this]

theorem findValue_setValue {Vec Controls : Type} (scope : Scope Vec Controls) (x y : String)
    (v : Value Vec) :
    (scope.setValue x v).findValue y = if y = x then some v else scope.findValue y := by
  unfold Scope.setValue Scope.findValue
  by_cases hy : y = x
  · subst hy; simp [List.lookup_cons]
  · have : (y == x) = false := by simpa using hy
    simp [List.lookup_cons, this, lookup_filter_bne, hy]

/-- A plain assignment to a target that takes the value gives the scope in
which the target has received it. -/
theorem generateSingleAssign_accepted {Vec Controls Expr : Type} (env : Env Vec Controls Expr)
    (t : Assignable) (v : Value Vec) (rightStart rightEnd : SourcePos)
    (scope : Scope Vec Controls) (h : scope.accepts env t v = true) :
    generateSingleAssign env t v AssignType.ASSIGN rightStart rightEnd scope
      = (.ok (), scope.receive env t v) := by
  rcases t with ⟨x, s, e⟩ | ⟨name, type, prop, s, e⟩
  · simp only [generateSingleAssign, if_true, generateBasicAssign, generateVariableAssign,
      Scope.receive]
  · simp only [Scope.accepts] at h
    cases hwp : env.writeProperty scope.controls name type prop v with
    | mk controls accepted =>
      rw [hwp] at h
      simp only at h
      subst h
      simp only [generateSingleAssign, if_true, generateBasicAssign, generateControlAssign,
        hwp, Scope.receive]

/-- A plain assignment to a control property that `setProperty` rejects throws
the error of the property, in the scope with the controls the call leaves. -/
theorem generateSingleAssign_rejected {Vec Controls Expr : Type} (env : Env Vec Controls Expr)
    (name : String) (type : Nat) (prop : String) (s e : SourcePos) (v : Value Vec)
    (rightStart rightEnd : SourcePos) (scope : Scope Vec Controls)
    (h : (env.writeProperty scope.controls name type prop v).2 = false) :
    generateSingleAssign env (Assignable.control name type prop s e) v AssignType.ASSIGN
        rightStart rightEnd scope
      = (.error (propertyRejected prop s e),
          scope.receive env (Assignable.control name type prop s e) v) := by
  cases hwp : env.writeProperty scope.controls name type prop v with
  | mk controls accepted =>
    rw [hwp] at h
    simp only at h
    subst h
    simp only [generateSingleAssign, if_true, generateBasicAssign, generateControlAssign,
      hwp, Scope.receive, propertyRejected]

theorem receiveAll_cons {Vec Controls Expr : Type} (env : Env Vec Controls Expr)
    (scope : Scope Vec Controls) (p : Assignable × Value Vec)
    (pairs : List (Assignable × Value Vec)) :
    scope.receiveAll env (p :: pairs) = (scope.receive env p.1 p.2).receiveAll env pairs :=
  rfl

/-- The scope after the first `i + 1` targets is the scope after the first `i`
targets in which the target `i` has received its value. -/
theorem receiveAll_take_succ {Vec Controls Expr : Type} (env : Env Vec Controls Expr) :
    ∀ (pairs : List (Assignable × Value Vec)) (scope : Scope Vec Controls) (i : Nat)
      (p : Assignable × Value Vec), pairs[i]? = some p →
    scope.receiveAll env (pairs.take (i + 1))
      = (scope.receiveAll env (pairs.take i)).receive env p.1 p.2 := by
  intro pairs
  induction pairs with
  | nil => intro scope i p h; simp at h
  | cons q pairs ih =>
    intro scope i p h
    cases i with
    | zero =>
      simp only [List.getElem?_cons_zero, Option.some.injEq] at h
      subst h
      rfl
    | succ i =>
      simp only [List.getElem?_cons_succ] at h
      simp only [List.take_succ_cons, receiveAll_cons]
      exact ih _ i p h

/-- A plain assignment whose targets all take their values runs through all
targets: every target receives its value, in order. -/
theorem assignEach_accepted {Vec Controls Expr : Type} (env : Env Vec Controls Expr)
    (rightStart rightEnd : SourcePos) :
    ∀ (pairs : List (Assignable × Value Vec)) (scope : Scope Vec Controls),
    (∀ (i : Nat) p, pairs[i]? = some p →
      (scope.receiveAll env (pairs.take i)).accepts env p.1 p.2 = true) →
    assignEach env AssignType.ASSIGN rightStart rightEnd pairs scope
      = (.ok (), scope.receiveAll env pairs) := by
  intro pairs
  induction pairs with
  | nil => intro scope _; rfl
  | cons p pairs ih =>
    intro scope hacc
    obtain ⟨t, v⟩ := p
    have h0 : scope.accepts env t v = true := hacc 0 (t, v) (List.getElem?_cons_zero ..)
    simp only [assignEach, generateSingleAssign_accepted env t v rightStart rightEnd scope h0,
      receiveAll_cons]
    apply ih
    intro i q hq
    have := hacc (i + 1) q (by simpa using hq)
    simpa only [List.take_succ_cons, receiveAll_cons] using this

/-- A plain assignment stops at the first control target whose property is
rejected: it throws the error of this property, after the earlier targets have
received their values. -/
theorem assignEach_rejected {Vec Controls Expr : Type} (env : Env Vec Controls Expr)
    (rightStart rightEnd : SourcePos) :
    ∀ (i : Nat) (pairs : List (Assignable × Value Vec)) (scope : Scope Vec Controls)
      (name : String) (type : Nat) (prop : String) (s e : SourcePos) (v : Value Vec),
    pairs[i]? = some (Assignable.control name type prop s e, v) →
    (∀ (j : Nat) p, j < i → pairs[j]? = some p →
      (scope.receiveAll env (pairs.take j)).accepts env p.1 p.2 = true) →
    (env.writeProperty (scope.receiveAll env (pairs.take i)).controls name type prop v).2
      = false →
    assignEach env AssignType.ASSIGN rightStart rightEnd pairs scope
      = (.error (propertyRejected prop s e),
          (scope.receiveAll env (pairs.take i)).receive env
            (Assignable.control name type prop s e) v) := by
  intro i
  induction i with
  | zero =>
    intro pairs scope name type prop s e v hi _ hrej
    cases pairs with
    | nil => simp at hi
    | cons p pairs =>
      simp only [List.getElem?_cons_zero, Option.some.injEq] at hi
      subst hi
      simp only [List.take_zero] at hrej ⊢
      simp only [assignEach,
        generateSingleAssign_rejected env name type prop s e v rightStart rightEnd scope hrej]
      rfl
  | succ i ih =>
    intro pairs scope name type prop s e v hi hacc hrej
    cases pairs with
    | nil => simp at hi
    | cons p pairs =>
      obtain ⟨t, w⟩ := p
      have h0 : scope.accepts env t w = true :=
        hacc 0 (t, w) (Nat.succ_pos _) (List.getElem?_cons_zero ..)
      simp only [List.getElem?_cons_succ] at hi
      simp only [List.take_succ_cons, receiveAll_cons] at hrej ⊢
      simp only [assignEach, generateSingleAssign_accepted env t w rightStart rightEnd scope h0]
      apply ih pairs _ name type prop s e v hi _ hrej
      intro j q hj hq
      have := hacc (j + 1) q (Nat.succ_lt_succ hj) (by simpa using hq)
      simpa only [List.take_succ_cons, receiveAll_cons] using this

/-- An error of a plain assignment is the error of the first control target
whose property is rejected. -/
theorem assignEach_error {Vec Controls Expr : Type} (env : Env Vec Controls Expr)
    (rightStart rightEnd : SourcePos) :
    ∀ (pairs : List (Assignable × Value Vec)) (scope final : Scope Vec Controls)
      (err : CodegenError),
    assignEach env AssignType.ASSIGN rightStart rightEnd pairs scope = (.error err, final) →
    ∃ (i : Nat) (name : String) (type : Nat) (prop : String) (s e : SourcePos) (v : Value Vec),
      pairs[i]? = some (Assignable.control name type prop s e, v) ∧
      (∀ (j : Nat) p, j < i → pairs[j]? = some p →
        (scope.receiveAll env (pairs.take j)).accepts env p.1 p.2 = true) ∧
      (env.writeProperty (scope.receiveAll env (pairs.take i)).controls name type prop v).2
        = false ∧
      err = propertyRejected prop s e ∧
      final = (scope.receiveAll env (pairs.take i)).receive env
        (Assignable.control name type prop s e) v := by
  intro pairs
  induction pairs with
  | nil =>
    intro scope final err h
    simp [assignEach] at h
  | cons p pairs ih =>
    intro scope final err h
    obtain ⟨t, w⟩ := p
    by_cases h0 : scope.accepts env t w = true
    · simp only [assignEach,
        generateSingleAssign_accepted env t w rightStart rightEnd scope h0] at h
      obtain ⟨i, name, type, prop, s, e, v, hi, hacc, hrej, herr, hfin⟩ := ih _ _ _ h
      refine ⟨i + 1, name, type, prop, s, e, v, by simpa using hi, ?_, ?_, herr, ?_⟩
      · intro j q hj hq
        cases j with
        | zero =>
          simp only [List.getElem?_cons_zero, Option.some.injEq] at hq
          subst hq
          exact h0
        | succ j =>
          simp only [List.take_succ_cons, receiveAll_cons]
          exact hacc j q (Nat.lt_of_succ_lt_succ hj) (by simpa using hq)
      · simpa only [List.take_succ_cons, receiveAll_cons] using hrej
      · simpa only [List.take_succ_cons, receiveAll_cons] using hfin
    · rcases t with ⟨x, s, e⟩ | ⟨name, type, prop, s, e⟩
      · exact absurd rfl h0
      · have hrej : (env.writeProperty scope.controls name type prop w).2 = false := by
          simpa [Scope.accepts] using h0
        simp only [assignEach,
          generateSingleAssign_rejected env name type prop s e w rightStart rightEnd scope hrej,
          Prod.mk.injEq, Except.error.injEq] at h
        refine ⟨0, name, type, prop, s, e, w, List.getElem?_cons_zero .., ?_, hrej, h.1.symm,
          h.2.symm⟩
        intro j q hj
        exact absurd hj (Nat.not_lt_zero _)

end ExpressionGenerator

namespace MaximCodegen

open Builder

/-! ## Function overloads -/

theorem lookup_pushBack {T : Type} (m : FunctionMap T) (name x : String) (f : Function T) :
    (pushBack m name f).lookup x
      = (m.lookup x).map (fun fs => if x = name then fs ++ [f] else fs) := by
  induction m with
  | nil => rfl
  | cons p m ih =>
    obtain ⟨k, fs⟩ := p
    unfold pushBack at ih ⊢
    by_cases hxk : x = k
    · subst hxk
      by_cases hxn : x = name
      · simp [List.lookup_cons, hxn]
      · simp [List.lookup_cons, hxn]
    · have hb : (x == k) = false := by simpa using hxk
      by_cases hkn : k = name
      · simp only [List.map_cons, hkn, if_true, List.lookup_cons]
        rw [← hkn, hb]
        simpa [hkn] using ih
      · simp only [List.map_cons, hkn, if_false, List.lookup_cons, hb]
        exact ih

theorem lookup_append_single {β : Type} (m : List (String × β)) (k x : String) (v : β) :
    (m ++ [(k, v)]).lookup x
      = match m.lookup x with
        | some w => some w
        | none => if x = k then some v else none := by
  induction m with
  | nil =>
    by_cases h : x = k
    · subst h; simp [List.lookup_cons]
    · have hb : (x == k) = false := by simpa using h
      simp [List.lookup_cons, hb, h]
  | cons p m ih =>
    obtain ⟨a, b⟩ := p
    by_cases h : x = a
    · subst h; simp [List.lookup_cons]
    · have hb : (x == a) = false := by simpa using h
      simp only [List.cons_append, List.lookup_cons, hb]
      exact ih

theorem lookup_registerFunction {T : Type} (m : FunctionMap T) (f : Function T) (x : String) :
    (registerFunction m f).lookup x
      = if x = f.name then some ((m.lookup x).getD [] ++ [f]) else m.lookup x := by
  unfold registerFunction getOrCreateFunctionList
  rw [lookup_pushBack]
  cases hm : m.lookup f.name with
  | none =>
    simp only
    rw [lookup_append_single]
    by_cases hx : x = f.name
    · subst hx
      simp [hm]
    · simp only [hx, if_false]
      cases m.lookup x <;> simp
  | some fs =>
    simp only
    by_cases hx : x = f.name
    · subst hx
      simp [hm]
    · simp only [hx, if_false]
      cases m.lookup x <;> simp

/-- The list stored under a name after a sequence of registrations: the
overloads registered under the name, in the order of their registration. -/
theorem lookup_registerAll {T : Type} (funcs : List (Function T)) (x : String) :
    ∀ m : FunctionMap T,
    (funcs.foldl registerFunction m).lookup x
      = if (funcs.filter (fun f => decide (f.name = x))).isEmpty then m.lookup x
        else some ((m.lookup x).getD [] ++ funcs.filter (fun f => decide (f.name = x))) := by
  induction funcs with
  | nil => intro m; simp
  | cons f funcs ih =>
    intro m
    rw [List.foldl_cons, ih, lookup_registerFunction]
    by_cases hx : x = f.name
    · subst hx
      simp only [if_true, List.filter_cons, decide_True, Option.getD_some]
      cases hr : funcs.filter (fun g => decide (g.name = f.name)) with
      | nil => simp
      | cons g gs => simp [List.append_assoc]
    · have hx' : ¬ f.name = x := fun h => hx h.symm
      simp [hx, hx', List.filter_cons]

/-- C15. After the functions `funcs` have been registered, in this order, in an
empty map, `getFunction name types` returns nothing if and only if no function
of `funcs` has the name `name`; otherwise it returns the earliest function of
`funcs` with this name that accepts `types` when there is one, and the earliest
function of `funcs` with this name when none accepts. -/
theorem getFunction_registered {T : Type} (funcs : List (Function T)) (name : String)
    (types : List T) :
    (getFunction (funcs.foldl registerFunction []) name types = none ↔
      ∀ f ∈ funcs, f.name ≠ name) ∧
    (∀ f, (funcs.filter (fun f => decide (f.name = name))).find?
        (fun f => f.acceptsParameters types) = some f →
      getFunction (funcs.foldl registerFunction []) name types = some f) ∧
    ((funcs.filter (fun f => decide (f.name = name))).find?
        (fun f => f.acceptsParameters types) = none →
      getFunction (funcs.foldl registerFunction []) name types
        = (funcs.filter (fun f => decide (f.name = name))).head?) := by
  have hl := lookup_registerAll funcs name []
  simp only [List.lookup_nil, Option.getD_none, List.nil_append] at hl
  cases hfl : funcs.filter (fun f => decide (f.name = name)) with
  | nil =>
    rw [hfl] at hl
    simp only [List.isEmpty_nil, if_true] at hl
    have hnone : getFunction (funcs.foldl registerFunction []) name types = none := by
      unfold getFunction
      rw [hl]
    refine ⟨⟨fun _ f hf hname => ?_, fun _ => hnone⟩, ?_, ?_⟩
    · have : f ∈ funcs.filter (fun f => decide (f.name = name)) :=
        List.mem_filter.2 ⟨hf, by simpa using hname⟩
      rw [hfl] at this
      exact List.not_mem_nil _ this
    · intro f hf
      simp at hf
    · intro _
      rw [hnone]
      rfl
  | cons first rest =>
    rw [hfl] at hl
    simp only [List.isEmpty_cons, Bool.false_eq_true, if_false] at hl
    have hmem : first ∈ funcs.filter (fun f => decide (f.name = name)) := by
      rw [hfl]; exact List.mem_cons_self _ _
    obtain ⟨hfirst, hname⟩ := List.mem_filter.1 hmem
    refine ⟨⟨fun h => ?_, fun h => ?_⟩, ?_, ?_⟩
    · unfold getFunction at h
      rw [hl] at h
      simp only at h
      cases hfind : (first :: rest).find? (fun func => func.acceptsParameters types) with
      | none => rw [hfind] at h; simp at h
      | some g => rw [hfind] at h; simp at h
    · exact absurd (by simpa using hname) (h first hfirst)
    · intro f hf
      unfold getFunction
      rw [hl]
      simp only
      rw [hf]
    · intro hf
      unfold getFunction
      rw [hl]
      simp only
      rw [hf]
      rfl

/-- With the example functions registered, `min` on three arguments is the
variadic overload, `sin` on two arguments is its only overload, which does not
accept them, and `cos` is not found. -/
theorem getFunction_registered_witness :
    getFunction (sampleFunctions.foldl registerFunction []) "min" [0, 0, 0]
      = some ⟨"min", fun _ => true⟩ ∧
    getFunction (sampleFunctions.foldl registerFunction []) "sin" [0, 0]
      = some ⟨"sin", fun types => types.length == 1⟩ ∧
    (getFunction (sampleFunctions.foldl registerFunction []) "cos" [0] = none ↔
      ∀ f ∈ sampleFunctions, f.name ≠ "cos") :=
  ⟨(getFunction_registered sampleFunctions "min" [0, 0, 0]).2.1 _ rfl,
    (getFunction_registered sampleFunctions "sin" [0, 0]).2.2 rfl,
    (getFunction_registered sampleFunctions "cos" [0]).1⟩

/-! ## Operator and converter lookup -/

theorem getOperator_registerOperator {V T : Type} [DecidableEq T] (ctx : MaximContext V T)
    (op : Operator V T) (type : OperatorType) (leftType rightType : T) :
    (ctx.registerOperator op).getOperator type leftType rightType
      = match ctx.getOperator type leftType rightType with
        | some found => some found
        | none =>
          if op.type = type ∧ op.leftType = leftType ∧ op.rightType = rightType then some op
          else none := by
  unfold MaximContext.registerOperator
  cases hop : ctx.getOperator op.type op.leftType op.rightType with
  | some found =>
    simp only
    cases hk : ctx.getOperator type leftType rightType with
    | some g => rfl
    | none =>
      simp only
      by_cases hkey : op.type = type ∧ op.leftType = leftType ∧ op.rightType = rightType
      · obtain ⟨h1, h2, h3⟩ := hkey
        rw [h1, h2, h3, hk] at hop
        exact absurd hop (by simp)
      · rw [if_neg hkey]
  | none =>
    simp only
    unfold MaximContext.getOperator
    simp only [List.find?_append]
    cases hk : ctx.operatorMap.find? (fun op => decide (op.type = type) &&
        decide (op.leftType = leftType) && decide (op.rightType = rightType)) with
    | some g => simp
    | none =>
      by_cases hkey : op.type = type ∧ op.leftType = leftType ∧ op.rightType = rightType
      · simp [hkey, List.find?_cons]
      · rw [if_neg hkey]
        have : (decide (op.type = type) && decide (op.leftType = leftType) &&
            decide (op.rightType = rightType)) = false := by
          simpa [and_assoc] using hkey
        simp [List.find?_cons, this]

/-- The operator found after a sequence of registrations: the one the context
held under the key, or else the earliest registered with the key. -/
theorem getOperator_registerAll {V T : Type} [DecidableEq T] (ops : List (Operator V T))
    (type : OperatorType) (leftType rightType : T) :
    ∀ ctx : MaximContext V T,
    (ops.foldl MaximContext.registerOperator ctx).getOperator type leftType rightType
      = match ctx.getOperator type leftType rightType with
        | some found => some found
        | none => ops.find? (fun op => decide (op.type = type) &&
            decide (op.leftType = leftType) && decide (op.rightType = rightType)) := by
  induction ops with
  | nil =>
    intro ctx
    simp only [List.foldl_nil]
    cases h : ctx.getOperator type leftType rightType with
    | some g => rfl
    | none =>
      have hn : ctx.operatorMap.find? (fun op => decide (op.type = type) &&
          decide (op.leftType = leftType) && decide (op.rightType = rightType)) = none := h
      simp
  | cons op ops ih =>
    intro ctx
    rw [List.foldl_cons, ih, getOperator_registerOperator]
    cases hk : ctx.getOperator type leftType rightType with
    | some g => rfl
    | none =>
      simp only
      by_cases hkey : op.type = type ∧ op.leftType = leftType ∧ op.rightType = rightType
      · rw [if_pos hkey]
        simp [List.find?_cons, hkey]
      · rw [if_neg hkey]
        have : (decide (op.type = type) && decide (op.leftType = leftType) &&
            decide (op.rightType = rightType)) = false := by
          simpa [and_assoc] using hkey
        simp [List.find?_cons, this]

/-- C16. For every operator kind, left type and right type: `alwaysGetOperator`
returns the operator `getOperator` finds when it finds one, and throws the
compile error with the given span exactly when `getOperator` finds none; an
operator `getOperator` returns is held by the context under exactly this kind,
left type and right type, and after the operators `ops` have been registered in
an empty context it is the earliest of `ops` with this key. -/
theorem alwaysGetOperator_spec {V T : Type} [DecidableEq T] (ctx : MaximContext V T)
    (type : OperatorType) (leftType rightType : T) (startPos endPos : SourcePos) :
    (∀ op, ctx.getOperator type leftType rightType = some op →
      ctx.alwaysGetOperator type leftType rightType startPos endPos = .ok op) ∧
    (ctx.getOperator type leftType rightType = none ↔
      ∃ e, ctx.alwaysGetOperator type leftType rightType startPos endPos = .error e) ∧
    (∀ e, ctx.alwaysGetOperator type leftType rightType startPos endPos = .error e →
      e = ⟨"WHAT IS THIS??!?! This operator doesn't work on these types of values.",
        startPos, endPos⟩) ∧
    (∀ op, ctx.getOperator type leftType rightType = some op →
      op ∈ ctx.operatorMap ∧ op.type = type ∧ op.leftType = leftType ∧
        op.rightType = rightType) ∧
    (∀ ops : List (Operator V T),
      (ops.foldl MaximContext.registerOperator (MaximContext.mk [])).getOperator
          type leftType rightType
        = ops.find? (fun op => decide (op.type = type) && decide (op.leftType = leftType) &&
            decide (op.rightType = rightType))) := by
  refine ⟨?_, ?_, ?_, ?_, ?_⟩
  · intro op h
    simp [MaximContext.alwaysGetOperator, h]
  · constructor
    · intro h
      exact ⟨⟨"WHAT IS THIS??!?! This operator doesn't work on these types of values.",
        startPos, endPos⟩, by simp only [MaximContext.alwaysGetOperator, h]⟩
    · rintro ⟨e, he⟩
      cases h : ctx.getOperator type leftType rightType with
      | none => rfl
      | some op => simp [MaximContext.alwaysGetOperator, h] at he
  · intro e he
    cases h : ctx.getOperator type leftType rightType with
    | none =>
      simp only [MaximContext.alwaysGetOperator, h] at he
      injection he with he
      exact he.symm
    | some op => simp [MaximContext.alwaysGetOperator, h] at he
  · intro op h
    unfold MaximContext.getOperator at h
    have hmem := List.mem_of_find?_eq_some h
    have hp := List.find?_some h
    simp only [Bool.and_eq_true, decide_eq_true_eq] at hp
    exact ⟨hmem, hp.1.1, hp.1.2, hp.2⟩
  · intro ops
    rw [getOperator_registerAll]
    rfl

/-- In the example context the addition of two numbers is found, and the
addition of two tuples throws. -/
theorem alwaysGetOperator_witness :
    sampleContext.getOperator .ADD false false = some sampleAdd ∧
    sampleContext.alwaysGetOperator .ADD false false ⟨0, 0⟩ ⟨0, 1⟩ = .ok sampleAdd ∧
    sampleContext.getOperator .ADD true true = none ∧
    ∃ e, sampleContext.alwaysGetOperator .ADD true true ⟨0, 0⟩ ⟨0, 1⟩ = .error e :=
  ⟨rfl, (alwaysGetOperator_spec sampleContext .ADD false false ⟨0, 0⟩ ⟨0, 1⟩).1 sampleAdd rfl,
    rfl, (alwaysGetOperator_spec sampleContext .ADD true true ⟨0, 0⟩ ⟨0, 1⟩).2.1.1 rfl⟩

theorem getConverter_registerAll {N : Type} (cons : List (Converter N)) (destType : Nat) :
    ∀ converterMap : List (Converter N),
    getConverter (cons.foldl registerConverter converterMap) destType
      = match getConverter converterMap destType with
        | some found => some found
        | none => cons.find? (fun con => con.toType == destType) := by
  induction cons with
  | nil =>
    intro m
    simp only [List.foldl_nil]
    cases h : getConverter m destType with
    | some g => rfl
    | none => simp
  | cons con cons ih =>
    intro m
    rw [List.foldl_cons, ih]
    unfold registerConverter
    cases hc : getConverter m con.toType with
    | some found => 
      simp only
      cases hk : getConverter m destType with
      | some g => rfl
      | none =>
        simp only
        by_cases hkey : con.toType = destType
        · rw [hkey, hk] at hc
          exact absurd hc (by simp)
        · have : (con.toType == destType) = false := by simpa using hkey
          simp [List.find?_cons, this]
    | none =>
      simp only
      unfold getConverter
      simp only [List.find?_append]
      cases hk : m.find? (fun con => con.toType == destType) with
      | some g => simp
      | none =>
        by_cases hkey : con.toType = destType
        · simp [List.find?_cons, hkey]
        · have : (con.toType == destType) = false := by simpa using hkey
          simp [List.find?_cons, this]

/-- C17, amended. For every value, whatever its form: when a converter is
registered for the destination form `callConverter` returns what this converter
returns (a number or the error it throws), so an error `callConverter` gives is
the error of a registered converter; when none is registered the
`assert` fails and no compile error is thrown. After the converters `cons` have
been registered in an empty map, the converter used is the earliest of `cons`
for the destination form. -/
theorem callConverter_spec {N : Type} (converterMap : List (Converter N)) (destType : Nat)
    (value : N) (startPos endPos : SourcePos) :
    (∀ con, getConverter converterMap destType = some con →
      callConverter converterMap destType value startPos endPos
        = some (con.call value startPos endPos)) ∧
    (callConverter converterMap destType value startPos endPos = none ↔
      getConverter converterMap destType = none) ∧
    (getConverter converterMap destType = none ↔
      ∀ con ∈ converterMap, con.toType ≠ destType) ∧
    (∀ e, callConverter converterMap destType value startPos endPos = some (.error e) →
      ∃ con ∈ converterMap, con.toType = destType ∧
        con.call value startPos endPos = .error e) ∧
    (∀ cons : List (Converter N),
      getConverter (cons.foldl registerConverter []) destType
        = cons.find? (fun con => con.toType == destType)) := by
  refine ⟨?_, ?_, ?_, ?_, ?_⟩
  · intro con h
    simp [callConverter, h]
  · cases h : getConverter converterMap destType with
    | none => simp [callConverter, h]
    | some con => simp [callConverter, h]
  · unfold getConverter
    rw [List.find?_eq_none]
    simp
  · intro e he
    cases h : getConverter converterMap destType with
    | none => simp [callConverter, h] at he
    | some con =>
      simp only [callConverter, h, Option.some.injEq] at he
      unfold getConverter at h
      have hmem := List.mem_of_find?_eq_some h
      have hp := List.find?_some h
      exact ⟨con, hmem, by simpa using hp, he⟩
  · intro cons
    rw [getConverter_registerAll]
    rfl

/-- With the example converter registered for the form 1, converting 5 to the
form 1 gives 10. -/
theorem callConverter_witness :
    getConverter [sampleConverter] 1 = some sampleConverter ∧
    callConverter [sampleConverter] 1 5 ⟨0, 0⟩ ⟨0, 1⟩ = some (.ok 10) :=
  ⟨rfl, (callConverter_spec [sampleConverter] 1 5 ⟨0, 0⟩ ⟨0, 1⟩).1 sampleConverter rfl⟩

/-- With no converter registered, `callConverter` does not return an error:
the `assert` fails. -/
theorem callConverter_unregistered_asserts :
    getConverter ([] : List (Converter Int)) 1 = none ∧
    callConverter ([] : List (Converter Int)) 1 5 ⟨0, 0⟩ ⟨0, 1⟩ = none ∧
    (callConverter ([] : List (Converter Int)) 1 5 ⟨0, 0⟩ ⟨0, 1⟩).isSome = false :=
  ⟨rfl, rfl, rfl⟩

/-- C12, amended. For operands with the active flags `l` and `r`, the result
of every operator on numbers that `setLibModule` registers, other than the two
logical operators, has the active flag `l or r` when the mode of the operator is
`ANY_INPUT`, `l and r` when it is `ALL_INPUTS` and `l` when it is `FIRST_INPUT`
(the `call` of an integer operator is the one of the source, which passes the
result of `getActive` on; the `call` of the float, intrinsic and comparison
operators is modelled from the spec). The modes are those of lines 233-268; so
for `l = true` and `r = false` the operators `MULTIPLY`, `DIVIDE` and `MODULO`
give `false`, the operators `ADD`, `SUBTRACT`, the three bitwise operators and
the six comparisons give `true`, and `POWER` gives `l`. -/
theorem operator_active_by_mode {F : Type} (ops : FloatOps F) (numLeft numRight : Num F) :
    (∀ o ∈ numOperators F, o.isLogical = false →
      o.resultActive ops numLeft numRight
        = some (.bit (match o.activeMode with
            | .ANY_INPUT => numLeft.active || numRight.active
            | .ALL_INPUTS => numLeft.active && numRight.active
            | .FIRST_INPUT => numLeft.active))) ∧
    (∀ o : NumIntOperator,
      (o.call ops numLeft numRight).active
        = match o.activeMode with
          | .ANY_INPUT => numLeft.active || numRight.active
          | .ALL_INPUTS => numLeft.active && numRight.active
          | .FIRST_INPUT => numLeft.active) ∧
    ((numOperators F).map (fun o => (o.type, o.activeMode, o.isLogical))
      = [(.ADD, .ANY_INPUT, false), (.SUBTRACT, .ANY_INPUT, false),
         (.MULTIPLY, .ALL_INPUTS, false), (.DIVIDE, .ALL_INPUTS, false),
         (.MODULO, .ALL_INPUTS, false), (.POWER, .FIRST_INPUT, false),
         (.BITWISE_AND, .ANY_INPUT, false), (.BITWISE_OR, .ANY_INPUT, false),
         (.BITWISE_XOR, .ANY_INPUT, false), (.LOGICAL_EQUAL, .ANY_INPUT, false),
         (.LOGICAL_NOT_EQUAL, .ANY_INPUT, false), (.LOGICAL_GT, .ANY_INPUT, false),
         (.LOGICAL_LT, .ANY_INPUT, false), (.LOGICAL_GTE, .ANY_INPUT, false),
         (.LOGICAL_LTE, .ANY_INPUT, false), (.LOGICAL_AND, .ALL_INPUTS, true),
         (.LOGICAL_OR, .ANY_INPUT, true)]) ∧
    (numLeft.active = true → numRight.active = false →
      ∀ o ∈ numOperators F,
        (o.type ∈ [OperatorType.MULTIPLY, OperatorType.DIVIDE, OperatorType.MODULO] →
          o.resultActive ops numLeft numRight = some (.bit false)) ∧
        (o.type ∈ [OperatorType.ADD, OperatorType.SUBTRACT, OperatorType.BITWISE_AND,
            OperatorType.BITWISE_OR, OperatorType.BITWISE_XOR, OperatorType.LOGICAL_EQUAL,
            OperatorType.LOGICAL_NOT_EQUAL, OperatorType.LOGICAL_GT, OperatorType.LOGICAL_LT,
            OperatorType.LOGICAL_GTE, OperatorType.LOGICAL_LTE] →
          o.resultActive ops numLeft numRight = some (.bit true)) ∧
        (o.type = OperatorType.POWER →
          o.resultActive ops numLeft numRight = some (.bit numLeft.active))) := by
  have hmem : ∀ o ∈ numOperators F,
      o = .float ⟨.ADD, .ANY_INPUT, fun ops => ops.fadd⟩ ∨
      o = .float ⟨.SUBTRACT, .ANY_INPUT, fun ops => ops.fsub⟩ ∨
      o = .float ⟨.MULTIPLY, .ALL_INPUTS, fun ops => ops.fmul⟩ ∨
      o = .float ⟨.DIVIDE, .ALL_INPUTS, fun ops => ops.fdiv⟩ ∨
      o = .float ⟨.MODULO, .ALL_INPUTS, fun ops => ops.frem⟩ ∨
      o = .intrinsic ⟨.POWER, .FIRST_INPUT, fun ops => ops.pow⟩ ∨
      o = .int ⟨.BITWISE_AND, .ANY_INPUT, .And, true⟩ ∨
      o = .int ⟨.BITWISE_OR, .ANY_INPUT, .Or, true⟩ ∨
      o = .int ⟨.BITWISE_XOR, .ANY_INPUT, .Xor, true⟩ ∨
      o = .comparison ⟨.LOGICAL_EQUAL, .ANY_INPUT, .FCMP_OEQ⟩ ∨
      o = .comparison ⟨.LOGICAL_NOT_EQUAL, .ANY_INPUT, .FCMP_ONE⟩ ∨
      o = .comparison ⟨.LOGICAL_GT, .ANY_INPUT, .FCMP_OGT⟩ ∨
      o = .comparison ⟨.LOGICAL_LT, .ANY_INPUT, .FCMP_OLT⟩ ∨
      o = .comparison ⟨.LOGICAL_GTE, .ANY_INPUT, .FCMP_OGE⟩ ∨
      o = .comparison ⟨.LOGICAL_LTE, .ANY_INPUT, .FCMP_OLE⟩ ∨
      o = .logical ⟨.LOGICAL_AND, .ALL_INPUTS, .And⟩ ∨
      o = .logical ⟨.LOGICAL_OR, .ANY_INPUT, .Or⟩ := by
    intro o ho
    simpa [numOperators, floatOperators, intrinsicOperators, intOperators,
      comparisonOperators, logicalOperators, or_assoc] using ho
  refine ⟨?_, ?_, rfl, ?_⟩
  · intro o ho hlog
    rcases hmem o ho with h | h | h | h | h | h | h | h | h | h | h | h | h | h | h | h | h <;>
      subst h <;>
      first
        | rfl
        | exact absurd hlog (by simp [NumOperator.isLogical])
  · intro o
    cases h : o.activeMode <;> simp only [NumIntOperator.call, getActive, h]
  · intro hl hr o ho
    rcases hmem o ho with h | h | h | h | h | h | h | h | h | h | h | h | h | h | h | h | h <;>
      subst h <;>
      simp [NumOperator.type, NumOperator.resultActive, NumFloatOperator.call,
        NumIntrinsicOperator.call, NumIntOperator.call, NumComparisonOperator.call, getActive,
        hl, hr]

/-- For a left operand that is active and a right operand that is not, the
registered `MULTIPLY` gives a result that is not active, the registered `ADD`,
`BITWISE_XOR` and `LOGICAL_GT` an active one, and `POWER` the flag of the left
operand. -/
theorem operator_active_witness :
    NumOperator.resultActive sampleOps (.float ⟨.MULTIPLY, .ALL_INPUTS, fun ops => ops.fmul⟩)
      ⟨(1, 1), 0, true⟩ ⟨(2, 2), 0, false⟩ = some (.bit false) ∧
    NumOperator.resultActive sampleOps (.float ⟨.ADD, .ANY_INPUT, fun ops => ops.fadd⟩)
      ⟨(1, 1), 0, true⟩ ⟨(2, 2), 0, false⟩ = some (.bit true) ∧
    NumOperator.resultActive sampleOps (.int ⟨.BITWISE_XOR, .ANY_INPUT, .Xor, true⟩)
      ⟨(1, 1), 0, true⟩ ⟨(2, 2), 0, false⟩ = some (.bit true) ∧
    NumOperator.resultActive sampleOps (.comparison ⟨.LOGICAL_GT, .ANY_INPUT, .FCMP_OGT⟩)
      ⟨(1, 1), 0, true⟩ ⟨(2, 2), 0, false⟩ = some (.bit true) ∧
    NumOperator.resultActive sampleOps (.intrinsic ⟨.POWER, .FIRST_INPUT, fun ops => ops.pow⟩)
      ⟨(1, 1), 0, true⟩ ⟨(2, 2), 0, false⟩ = some (.bit true) :=
  have h := (operator_active_by_mode sampleOps ⟨(1, 1), 0, true⟩ ⟨(2, 2), 0, false⟩).2.2.2
    rfl rfl
  ⟨(h _ (by simp [numOperators, floatOperators])).1 (by simp [NumOperator.type]),
    (h _ (by simp [numOperators, floatOperators])).2.1 (by simp [NumOperator.type]),
    (h _ (by simp [numOperators, intOperators])).2.1 (by simp [NumOperator.type]),
    (h _ (by simp [numOperators, comparisonOperators])).2.1 (by simp [NumOperator.type]),
    (h _ (by simp [numOperators, intrinsicOperators])).2.2 rfl⟩

/-- The registered operator `LOGICAL_OR` has the mode `ANY_INPUT`; on an active
left operand and a right operand that is not active, the operand of `setActive`
is not the flag `l or r`: line 30 passes the combination of the flags to
`CreateAnd` together with the logical result, a vector of type `<2 x i1>`; the
instruction has no value, and on a flag that were itself a vector it would
give `false` on the lanes where the logical result is false. -/
theorem logical_flag_not_by_mode :
    (⟨.LOGICAL_OR, .ANY_INPUT, .Or⟩ : NumLogicalOperator) ∈ logicalOperators ∧
    (NumOperator.logical ⟨.LOGICAL_OR, .ANY_INPUT, .Or⟩ : NumOperator Int).activeMode
      = .ANY_INPUT ∧
    (true || false) = true ∧
    NumOperator.resultActive sampleOps (.logical ⟨.LOGICAL_OR, .ANY_INPUT, .Or⟩)
      ⟨(0, 0), 0, true⟩ ⟨(0, 0), 0, false⟩ = none ∧
    NumOperator.resultActive sampleOps (.logical ⟨.LOGICAL_OR, .ANY_INPUT, .Or⟩)
      ⟨(0, 0), 0, true⟩ ⟨(0, 0), 0, false⟩ ≠ some (.bit (true || false)) ∧
    CreateAndBits (.lanes (true || false, true || false))
      (.lanes (CreateBinOpI1 .Or (CreateFCmp sampleOps .FCMP_ONE (0, 0) (0, 0))
        (CreateFCmp sampleOps .FCMP_ONE (0, 0) (0, 0)))) = some (.lanes (false, false)) := by
  decide

end MaximCodegen

namespace ExpressionGenerator

open MaximCodegen (SourcePos)
open Builder

/-! ## Broadcast assignment -/

theorem findValue_assignTarget_variable {Vec Controls Expr : Type}
    (env : Env Vec Controls Expr) (v : Value Vec) (scope : Scope Vec Controls)
    (y : String) (s e : SourcePos) (x : String) :
    (assignTarget env v scope (Assignable.variable y s e)).findValue x
      = if x = y then some v else scope.findValue x := by
  simp only [assignTarget, generateBasicAssign, generateVariableAssign, findValue_setValue]

theorem findValue_assignTarget_control {Vec Controls Expr : Type}
    (env : Env Vec Controls Expr) (v : Value Vec) (scope : Scope Vec Controls)
    (name : String) (type : Nat) (prop : String) (s e : SourcePos) (x : String) :
    (assignTarget env v scope (Assignable.control name type prop s e)).findValue x
      = scope.findValue x := by
  simp only [assignTarget, generateBasicAssign, generateControlAssign]
  cases env.writeProperty scope.controls name type prop v with
  | mk controls accepted =>
    cases accepted <;> rfl

/-- After one value has been assigned to every target, every variable among the
targets holds it. -/
theorem findValue_foldl_assignTarget {Vec Controls Expr : Type} (env : Env Vec Controls Expr)
    (v : Value Vec) (x : String) :
    ∀ (targets : List Assignable) (scope : Scope Vec Controls),
    (scope.findValue x = some v ∨ ∃ s e, Assignable.variable x s e ∈ targets) →
    (targets.foldl (assignTarget env v) scope).findValue x = some v := by
  intro targets
  induction targets with
  | nil =>
    intro scope h
    rcases h with h | ⟨s, e, h⟩
    · exact h
    · exact absurd h (List.not_mem_nil _)
  | cons t targets ih =>
    intro scope h
    rw [List.foldl_cons]
    apply ih
    rcases t with ⟨y, s0, e0⟩ | ⟨name, type, prop, s0, e0⟩
    · rw [findValue_assignTarget_variable]
      by_cases hxy : x = y
      · exact Or.inl (by rw [if_pos hxy])
      · rw [if_neg hxy]
        rcases h with h | ⟨s, e, h⟩
        · exact Or.inl h
        · rcases List.mem_cons.1 h with h | h
          · injection h with h1
            exact absurd h1 hxy
          · exact Or.inr ⟨s, e, h⟩
    · rw [findValue_assignTarget_control]
      rcases h with h | ⟨s, e, h⟩
      · exact Or.inl h
      · rcases List.mem_cons.1 h with h | h
        · cases h
        · exact Or.inr ⟨s, e, h⟩

theorem assignTarget_eq_receive {Vec Controls Expr : Type} (env : Env Vec Controls Expr)
    (v : Value Vec) (scope : Scope Vec Controls) (t : Assignable) :
    assignTarget env v scope t = scope.receive env t v := by
  rcases t with ⟨x, s, e⟩ | ⟨name, type, prop, s, e⟩
  · rfl
  · simp only [assignTarget, generateBasicAssign, generateControlAssign, Scope.receive]
    cases hwp : env.writeProperty scope.controls name type prop v with
    | mk controls accepted => cases accepted <;> rfl

theorem receiveAll_map {Vec Controls Expr : Type} (env : Env Vec Controls Expr)
    (v : Value Vec) :
    ∀ (targets : List Assignable) (scope : Scope Vec Controls),
    scope.receiveAll env (targets.map (fun a => (a, v)))
      = targets.foldl (assignTarget env v) scope := by
  intro targets
  induction targets with
  | nil => intro scope; rfl
  | cons t targets ih =>
    intro scope
    rw [List.map_cons, receiveAll_cons, List.foldl_cons, assignTarget_eq_receive]
    exact ih _

/-- Targets that are all variables leave the controls as they are. -/
theorem receiveAll_variables_controls {Vec Controls Expr : Type}
    (env : Env Vec Controls Expr) :
    ∀ (pairs : List (Assignable × Value Vec)) (scope : Scope Vec Controls),
    (∀ p ∈ pairs, ∃ x s e, p.1 = Assignable.variable x s e) →
    (scope.receiveAll env pairs).controls = scope.controls := by
  intro pairs
  induction pairs with
  | nil => intro scope _; rfl
  | cons p pairs ih =>
    intro scope h
    obtain ⟨x, s, e, hp⟩ := h p (List.mem_cons_self _ _)
    rw [receiveAll_cons, ih _ (fun q hq => h q (List.mem_cons_of_mem _ hq)), hp]
    rfl

theorem map_pair_get? {Vec : Type} (targets : List Assignable) (v : Value Vec) (i : Nat)
    (p : Assignable × Value Vec) (hp : (targets.map (fun a => (a, v)))[i]? = some p) :
    targets[i]? = some p.1 ∧ p.2 = v := by
  rw [List.getElem?_map] at hp
  cases ht : targets[i]? with
  | none => rw [ht] at hp; simp at hp
  | some t =>
    rw [ht] at hp
    simp only [Option.map_some', Option.some.injEq] at hp
    subst hp
    exact ⟨rfl, rfl⟩

/-- C11, amended. For a plain assignment with more than one target whose right
side generates a single value `v` that is not a tuple, the targets receive `v`
in order: a variable is bound to `v`, and the property of a control is written
with `v` through `setProperty`, the controls being those the call leaves. When
every target takes the value (in particular when all targets are variables)
`generateAssign` returns `v` in the scope in which all targets have received
it, and every variable among the targets is bound to `v`. The assignment stops
at the first control target whose property is rejected: it throws the error of
this property, with the span of this target, in the scope in which the earlier
targets have received `v` and the controls are those the rejected call leaves;
and this is the only error the assignment throws. -/
theorem generateAssign_broadcast {Vec Controls Expr : Type} (env : Env Vec Controls Expr)
    (expr : AssignExpression Expr) (scope scope1 : Scope Vec Controls) (v : Value Vec)
    (hright : env.generateExpr expr.right scope = (.ok v, scope1))
    (hn : expr.left.length > 1) (hv : ∀ items, v.value ≠ .tuple items)
    (ht : expr.type = AssignType.ASSIGN) :
    (∀ (i : Nat) t, expr.left[i]? = some t →
      scope1.receiveAll env ((expr.left.map (fun a => (a, v))).take (i + 1))
        = (scope1.receiveAll env ((expr.left.map (fun a => (a, v))).take i)).receive env t v) ∧
    ((∀ (i : Nat) t, expr.left[i]? = some t →
        (scope1.receiveAll env ((expr.left.map (fun a => (a, v))).take i)).accepts env t v
          = true) →
      generateAssign env expr scope
          = (.ok v, scope1.receiveAll env (expr.left.map (fun a => (a, v)))) ∧
        ∀ x s e, Assignable.variable x s e ∈ expr.left →
          (scope1.receiveAll env (expr.left.map (fun a => (a, v)))).findValue x = some v) ∧
    ((∀ t ∈ expr.left, ∃ x s e, t = Assignable.variable x s e) →
      generateAssign env expr scope
          = (.ok v, scope1.receiveAll env (expr.left.map (fun a => (a, v)))) ∧
        (scope1.receiveAll env (expr.left.map (fun a => (a, v)))).controls = scope1.controls ∧
        ∀ x s e, Assignable.variable x s e ∈ expr.left →
          (scope1.receiveAll env (expr.left.map (fun a => (a, v)))).findValue x = some v) ∧
    (∀ (i : Nat) name type prop s e,
      expr.left[i]? = some (Assignable.control name type prop s e) →
      (∀ (j : Nat) t, j < i → expr.left[j]? = some t →
        (scope1.receiveAll env ((expr.left.map (fun a => (a, v))).take j)).accepts env t v
          = true) →
      (env.writeProperty
        (scope1.receiveAll env ((expr.left.map (fun a => (a, v))).take i)).controls
        name type prop v).2 = false →
      generateAssign env expr scope
        = (.error ⟨"A wise man once said, you can't bake your cake and eat it too. " ++
              "On a completely unrelated topic, " ++ prop ++
              " ISN\"T A VALID PROPERTY HERE!! D:", s, e⟩,
            { scope1.receiveAll env ((expr.left.map (fun a => (a, v))).take i) with
              controls :=
                (env.writeProperty
                  (scope1.receiveAll env ((expr.left.map (fun a => (a, v))).take i)).controls
                  name type prop v).1 })) ∧
    (∀ err final, generateAssign env expr scope = (.error err, final) →
      ∃ (i : Nat) (name : String) (type : Nat) (prop : String) (s e : SourcePos),
        expr.left[i]? = some (Assignable.control name type prop s e) ∧
        (∀ (j : Nat) t, j < i → expr.left[j]? = some t →
          (scope1.receiveAll env ((expr.left.map (fun a => (a, v))).take j)).accepts env t v
            = true) ∧
        (env.writeProperty
          (scope1.receiveAll env ((expr.left.map (fun a => (a, v))).take i)).controls
          name type prop v).2 = false ∧
        err = ⟨"A wise man once said, you can't bake your cake and eat it too. " ++
          "On a completely unrelated topic, " ++ prop ++ " ISN\"T A VALID PROPERTY HERE!! D:",
          s, e⟩ ∧
        final = { scope1.receiveAll env ((expr.left.map (fun a => (a, v))).take i) with
          controls :=
            (env.writeProperty
              (scope1.receiveAll env ((expr.left.map (fun a => (a, v))).take i)).controls
              name type prop v).1 }) := by
  have hgen : generateAssign env expr scope
      = match assignEach env AssignType.ASSIGN (env.span expr.right).1 (env.span expr.right).2
          (expr.left.map (fun assignment => (assignment, v))) scope1 with
        | (.error e, scope2) => (.error e, scope2)
        | (.ok _, scope2) => (.ok v, scope2) := by
    cases hvv : v.value with
    | num vec form => simp only [generateAssign, hright, hn, if_true, ht, hvv]
    | midi event => simp only [generateAssign, hright, hn, if_true, ht, hvv]
    | tuple items => exact absurd hvv (hv items)
  have hpair : ∀ (i : Nat) t, expr.left[i]? = some t →
      (expr.left.map (fun a => (a, v)))[i]? = some (t, v) := by
    intro i t hi
    rw [List.getElem?_map, hi]
    rfl
  have hok : (∀ (i : Nat) t, expr.left[i]? = some t →
        (scope1.receiveAll env ((expr.left.map (fun a => (a, v))).take i)).accepts env t v
          = true) →
      generateAssign env expr scope
          = (.ok v, scope1.receiveAll env (expr.left.map (fun a => (a, v)))) ∧
        ∀ x s e, Assignable.variable x s e ∈ expr.left →
          (scope1.receiveAll env (expr.left.map (fun a => (a, v)))).findValue x = some v := by
    intro hacc
    constructor
    · rw [hgen, assignEach_accepted env _ _ (expr.left.map (fun a => (a, v))) scope1 (by
        intro i p hp
        obtain ⟨h1, h2⟩ := map_pair_get? expr.left v i p hp
        rw [h2]
        exact hacc i p.1 h1)]
    · intro x s e hx
      rw [receiveAll_map]
      exact findValue_foldl_assignTarget env v x _ _ (Or.inr ⟨s, e, hx⟩)
  refine ⟨?_, hok, ?_, ?_, ?_⟩
  · intro i t hi
    exact receiveAll_take_succ env _ scope1 i (t, v) (hpair i t hi)
  · intro hvars
    obtain ⟨h1, h2⟩ := hok (by
      intro i t hi
      obtain ⟨x, s, e, hx⟩ := hvars t (List.getElem?_mem hi)
      rw [hx]
      rfl)
    refine ⟨h1, ?_, h2⟩
    apply receiveAll_variables_controls
    intro p hp
    obtain ⟨t, ht', rfl⟩ := List.mem_map.1 hp
    exact hvars t ht'
  · intro i name type prop s e hi hacc hrej
    rw [hgen, assignEach_rejected env _ _ i (expr.left.map (fun a => (a, v))) scope1
      name type prop s e v (hpair i _ hi) (by
        intro j p hj hp
        obtain ⟨h1, h2⟩ := map_pair_get? expr.left v j p hp
        rw [h2]
        exact hacc j p.1 hj h1) hrej]
    rfl
  · intro err final h
    rw [hgen] at h
    cases hrun : assignEach env AssignType.ASSIGN (env.span expr.right).1 (env.span expr.right).2
        (expr.left.map (fun assignment => (assignment, v))) scope1 with
    | mk res scope2 =>
      rw [hrun] at h
      cases res with
      | error e0 =>
        simp only [Prod.mk.injEq, Except.error.injEq] at h
        obtain ⟨rfl, rfl⟩ := h
        obtain ⟨i, name, type, prop, s, e, w, hi, hacc, hrej, herr, hfin⟩ :=
          assignEach_error env _ _ _ _ _ _ hrun
        obtain ⟨h1, h2⟩ := map_pair_get? expr.left v i _ hi
        simp only at h1 h2
        subst h2
        refine ⟨i, name, type, prop, s, e, h1, ?_, hrej, herr, hfin⟩
        intro j t hj htj
        exact hacc j (t, w) hj (hpair j t htj)
      | ok u =>
        simp at h

/-- In the example environment with a control store, the assignment
`(knob:value, a, dial:value) = 1` returns 1, writes 1 to the property `value` of
`knob` and of `dial` and binds `a` to 1; the assignment
`(knob:value, dial:colour, a) = 1` writes 1 to `knob`, then throws the error of
the property `colour` of `dial`, and `a` is not bound; in the example
environment without controls, `(a, b) = 1` binds `a` and `b` to 1. -/
theorem generateAssign_broadcast_witness :
    ((knobEnv sampleEnv).generateExpr knobBroadcast.right ⟨[], []⟩
        = (.ok ⟨true, .num 1 0⟩, ⟨[], []⟩) ∧
      knobBroadcast.left.length > 1 ∧ knobBroadcast.type = AssignType.ASSIGN ∧
      (knobEnv sampleEnv).generateExpr colourBroadcast.right ⟨[], []⟩
        = (.ok ⟨true, .num 1 0⟩, ⟨[], []⟩) ∧
      colourBroadcast.left.length > 1 ∧ colourBroadcast.type = AssignType.ASSIGN ∧
      sampleEnv.generateExpr sampleBroadcast.right emptyScope
        = (.ok ⟨true, .num 1 0⟩, emptyScope) ∧
      sampleBroadcast.left.length > 1 ∧ sampleBroadcast.type = AssignType.ASSIGN) ∧
    generateAssign (knobEnv sampleEnv) knobBroadcast ⟨[], []⟩
      = (.ok ⟨true, .num 1 0⟩,
          ⟨[("a", ⟨true, .num 1 0⟩)],
            [("dial", some ⟨true, .num 1 0⟩), ("knob", some ⟨true, .num 1 0⟩)]⟩) ∧
    generateAssign (knobEnv sampleEnv) colourBroadcast ⟨[], []⟩
      = (.error ⟨"A wise man once said, you can't bake your cake and eat it too. " ++
            "On a completely unrelated topic, " ++ "colour" ++
            " ISN\"T A VALID PROPERTY HERE!! D:", ⟨0, 13⟩, ⟨0, 24⟩⟩,
          ⟨[], [("dial", none), ("knob", some ⟨true, .num 1 0⟩)]⟩) ∧
    generateAssign sampleEnv sampleBroadcast emptyScope
      = (.ok ⟨true, .num 1 0⟩,
          ⟨[("b", ⟨true, .num 1 0⟩), ("a", ⟨true, .num 1 0⟩)], ()⟩) :=
  ⟨⟨rfl, by decide, rfl, rfl, by decide, rfl, rfl, by decide, rfl⟩,
    ((generateAssign_broadcast (knobEnv sampleEnv) knobBroadcast ⟨[], []⟩ ⟨[], []⟩
        ⟨true, .num 1 0⟩ rfl (by decide) (fun items h => by cases h) rfl).2.1
      (fun i t hi =>
        match i, hi with
        | 0, hi => by cases hi; rfl
        | 1, hi => by cases hi; rfl
        | 2, hi => by cases hi; rfl
        | _ + 3, hi => by cases hi)).1,
    (generateAssign_broadcast (knobEnv sampleEnv) colourBroadcast ⟨[], []⟩ ⟨[], []⟩
        ⟨true, .num 1 0⟩ rfl (by decide) (fun items h => by cases h) rfl).2.2.2.1
      1 "dial" 0 "colour" ⟨0, 13⟩ ⟨0, 24⟩ rfl
      (fun j t hj hi =>
        match j, hj, hi with
        | 0, _, hi => by cases hi; rfl)
      rfl,
    ((generateAssign_broadcast sampleEnv sampleBroadcast emptyScope emptyScope
        ⟨true, .num 1 0⟩ rfl (by decide) (fun items h => by cases h) rfl).2.2.1
      (fun t ht => by
        simp only [sampleBroadcast, List.mem_cons, List.mem_singleton, List.not_mem_nil,
          or_false] at ht
        rcases ht with rfl | rfl
        · exact ⟨_, _, _, rfl⟩
        · exact ⟨_, _, _, rfl⟩)).1⟩

/-- In the example environment, where no control property can be written, the
plain assignment `(a, knob:value) = 1` of a single value to two targets throws
the error of the rejected property, after `a` has been bound. -/
theorem broadcast_to_rejected_control_fails :
    rejectedBroadcast.left.length = 2 ∧
    rejectedBroadcast.type = AssignType.ASSIGN ∧
    sampleEnv.generateExpr rejectedBroadcast.right emptyScope
      = (.ok ⟨true, .num 1 0⟩, emptyScope) ∧
    generateAssign sampleEnv rejectedBroadcast emptyScope
      = (.error ⟨"A wise man once said, you can't bake your cake and eat it too. " ++
            "On a completely unrelated topic, " ++ "value" ++
            " ISN\"T A VALID PROPERTY HERE!! D:", ⟨0, 3⟩, ⟨0, 13⟩⟩,
          emptyScope.setValue "a" ⟨true, .num 1 0⟩) :=
  ⟨rfl, rfl, rfl, rfl⟩

/-! ## Postfix expressions -/

/-- What the code does for C13: the second operand of the `fadd` of an
increment and of the `fsub` of a decrement is the scalar constant
`getConstantFloat(1)`, beside the vector loaded from the target: the instruction
is not well typed and has no value. So for a first target that generates a
number, whatever its lanes, `generatePostfix` produces no updated number: no
variable is bound to lanes `(x + 1, y + 1)` and no tuple is returned. A first
target that cannot be read throws its error, a first target that is not a
number throws the type error, and without targets the result is the empty
constant tuple. On the vector of two constants 1, which no line builds here,
`fadd` and `fsub` add 1 to and subtract 1 from each lane. In the example, `a++`
with `a` bound to `{2, 2, LINEAR}` produces no value. -/
theorem generatePostfix_no_value {F Controls Expr : Type} (ops : FloatOps F)
    (env : Env (F × F) Controls Expr) (type : PostfixType) :
    (∀ leftVal : F × F, postfixResult ops type leftVal = none) ∧
    (∀ (t : Assignable) (rest : List Assignable) (scope scope1 : Scope (F × F) Controls)
        (isConst : Bool) (x y : F) (form : Nat),
      generateAssignable env t scope = (.ok ⟨isConst, .num (x, y) form⟩, scope1) →
      generatePostfix ops env ⟨t :: rest, type⟩ scope = none) ∧
    (∀ (a : String) (s e : SourcePos) (rest : List Assignable)
        (scope : Scope (F × F) Controls) (isConst : Bool) (x y : F) (form : Nat),
      scope.findValue a = some ⟨isConst, .num (x, y) form⟩ →
      generatePostfix ops env ⟨Assignable.variable a s e :: rest, type⟩ scope = none) ∧
    (∀ (t : Assignable) (rest : List Assignable) (scope scope1 : Scope (F × F) Controls)
        (err : CodegenError),
      generateAssignable env t scope = (.error err, scope1) →
      generatePostfix ops env ⟨t :: rest, type⟩ scope = some (.error err, scope1)) ∧
    (∀ (t : Assignable) (rest : List Assignable) (scope scope1 : Scope (F × F) Controls)
        (val : Value (F × F)),
      generateAssignable env t scope = (.ok val, scope1) → (∀ v f, val.value ≠ .num v f) →
      generatePostfix ops env ⟨t :: rest, type⟩ scope
        = some (.error (env.checkPtrTypeError val.value t.span.1 t.span.2), scope1)) ∧
    (∀ scope : Scope (F × F) Controls,
      generatePostfix ops env ⟨[], type⟩ scope = some (.ok ⟨true, .tuple []⟩, scope)) ∧
    (∀ x y : F,
      CreateFAdd ops (x, y) (ops.ofInt 1, ops.ofInt 1)
        = (ops.fadd x (ops.ofInt 1), ops.fadd y (ops.ofInt 1)) ∧
      CreateFSub ops (x, y) (ops.ofInt 1, ops.ofInt 1)
        = (ops.fsub x (ops.ofInt 1), ops.fsub y (ops.ofInt 1))) ∧
    generatePostfix sampleOps sampleLaneEnv ⟨[sampleVariable.target], .INCREMENT⟩ sampleScope
      = none := by
  have hres : ∀ leftVal : F × F, postfixResult ops type leftVal = none := by
    intro leftVal
    cases type <;> rfl
  have hnum : ∀ (t : Assignable) (rest : List Assignable)
      (scope scope1 : Scope (F × F) Controls) (isConst : Bool) (x y : F) (form : Nat),
      generateAssignable env t scope = (.ok ⟨isConst, .num (x, y) form⟩, scope1) →
      generatePostfix ops env ⟨t :: rest, type⟩ scope = none := by
    intro t rest scope scope1 isConst x y form h
    simp only [generatePostfix, postfixEach, h, hres]
  refine ⟨hres, hnum, ?_, ?_, ?_, fun _ => rfl, fun x y => ⟨rfl, rfl⟩, rfl⟩
  · intro a s e rest scope isConst x y form h
    exact hnum _ rest scope scope isConst x y form
      (by simp only [generateAssignable, generateVariable, h])
  · intro t rest scope scope1 err h
    simp only [generatePostfix, postfixEach, h]
  · intro t rest scope scope1 val h hnot
    obtain ⟨isConst, value⟩ := val
    cases value with
    | num v f => exact absurd rfl (hnot v f)
    | midi event => simp only [generatePostfix, postfixEach, h]
    | tuple items => simp only [generatePostfix, postfixEach, h]

/-- In the example, `a++` with `a` bound to `{2, 2}` of the form 0 produces no
value, and neither does `a--`; on the vector of two constants 1, `fadd` would
give the lanes `(3, 3)`. -/
theorem generatePostfix_no_value_witness :
    sampleScope.findValue "a" = some ⟨true, .num (2, 2) 0⟩ ∧
    generatePostfix sampleOps sampleLaneEnv ⟨[.variable "a" ⟨0, 0⟩ ⟨0, 1⟩], .INCREMENT⟩
      sampleScope = none ∧
    generatePostfix sampleOps sampleLaneEnv ⟨[.variable "a" ⟨0, 0⟩ ⟨0, 1⟩], .DECREMENT⟩
      sampleScope = none ∧
    CreateFAdd sampleOps (2, 2) (sampleOps.ofInt 1, sampleOps.ofInt 1) = (3, 3) :=
  ⟨rfl,
    (generatePostfix_no_value sampleOps sampleLaneEnv .INCREMENT).2.2.1 "a" ⟨0, 0⟩ ⟨0, 1⟩ []
      sampleScope true 2 2 0 rfl,
    (generatePostfix_no_value sampleOps sampleLaneEnv .DECREMENT).2.2.1 "a" ⟨0, 0⟩ ⟨0, 1⟩ []
      sampleScope true 2 2 0 rfl,
    ((generatePostfix_no_value sampleOps sampleLaneEnv .INCREMENT).2.2.2.2.2.2.1 2 2).1⟩

/-! ## Math expressions and compound assignment -/

/-- Every operator other than `POWER` gives lanes. -/
theorem generateFloatIntCompMath_isSome {F : Type} (ops : FloatOps F) (type : MathType)
    (leftVal rightVal : F × F) (h : type ≠ MathType.POWER) :
    ∃ newVal, generateFloatIntCompMath ops type leftVal rightVal = some newVal := by
  cases type <;>
    first
      | exact absurd rfl h
      | exact ⟨_, rfl⟩

/-- What `generateMath` returns on two operands that generate numbers. -/
theorem generateMath_nums {F Controls Expr : Type} (ops : FloatOps F)
    (env : Env (F × F) Controls Expr) (expr : MathExpression Expr)
    (scope scope1 scope2 : Scope (F × F) Controls) (cl cr : Bool) (lv rv : F × F) (lf rf : Nat)
    (hl : env.generateExpr expr.left scope = (.ok ⟨cl, .num lv lf⟩, scope1))
    (hr : env.generateExpr expr.right scope1 = (.ok ⟨cr, .num rv rf⟩, scope2)) :
    generateMath ops env expr scope
      = (generateFloatIntCompMath ops expr.type lv rv).map
          (fun newVal => (.ok ⟨cl && cr, .num newVal lf⟩, scope2)) := by
  simp only [generateMath, hl, hr]
  cases generateFloatIntCompMath ops expr.type lv rv <;> rfl

/-- What a compound assignment assigns when the target holds a number and the
right side is a number. -/
theorem generateSingleAssign_nums {Vec Controls Expr : Type} (env : Env Vec Controls Expr)
    (target : Assignable) (type : AssignType) (rightStart rightEnd : SourcePos)
    (scope scope1 : Scope Vec Controls) (cl cr : Bool) (lv rv : Vec) (lf rf : Nat)
    (ht : type ≠ AssignType.ASSIGN)
    (hl : generateAssignable env target scope = (.ok ⟨cl, .num lv lf⟩, scope1)) :
    generateSingleAssign env target ⟨cr, .num rv rf⟩ type rightStart rightEnd scope
      = generateBasicAssign env target ⟨cl && cr, .num (combine env type lv rv) lf⟩ scope1 := by
  simp only [generateSingleAssign, if_neg ht, hl]

/-- C14. The form of the value produced equals the form of the left or only
operand, whatever the form of the right operand is. A math expression of every
kind other than `POWER` on two operands that generate numbers produces a number
with the form of the left operand, and no math expression produces a value of
another form. A unary expression of kind `POSITIVE` on an operand that generates
a number produces a number with its form, and no unary expression produces a
value of another form. A compound assignment to a target that holds a number
assigns a number with the form of the target: a variable target is bound to it,
and the property of a control target is written with it. The results of
`NumIntOperator::call` and of `NumLogicalOperator::call` have the form of the
left operand. -/
theorem form_of_left_operand {F Controls Expr : Type} (ops : FloatOps F)
    (env : Env (F × F) Controls Expr) :
    (∀ (expr : MathExpression Expr) (scope scope1 scope2 : Scope (F × F) Controls)
        (cl cr : Bool) (lv rv : F × F) (lf rf : Nat),
      env.generateExpr expr.left scope = (.ok ⟨cl, .num lv lf⟩, scope1) →
      env.generateExpr expr.right scope1 = (.ok ⟨cr, .num rv rf⟩, scope2) →
      (expr.type ≠ MathType.POWER →
        ∃ newVal, generateMath ops env expr scope
          = some (.ok ⟨cl && cr, .num newVal lf⟩, scope2)) ∧
      (∀ val final, generateMath ops env expr scope = some (.ok val, final) →
        ∃ newVal, val.value = .num newVal lf)) ∧
    (∀ (expr : UnaryExpression Expr) (scope scope1 : Scope (F × F) Controls)
        (c : Bool) (v : F × F) (f : Nat),
      env.generateExpr expr.expr scope = (.ok ⟨c, .num v f⟩, scope1) →
      (expr.type = UnaryType.POSITIVE →
        generateUnary ops env expr scope = some (.ok ⟨c, .num v f⟩, scope1)) ∧
      (∀ val final, generateUnary ops env expr scope = some (.ok val, final) →
        ∃ newVal, val.value = .num newVal f)) ∧
    (∀ (target : Assignable) (type : AssignType) (rightStart rightEnd : SourcePos)
        (scope scope1 : Scope (F × F) Controls) (cl cr : Bool) (lv rv : F × F) (lf rf : Nat),
      type ≠ AssignType.ASSIGN →
      generateAssignable env target scope = (.ok ⟨cl, .num lv lf⟩, scope1) →
      ∃ newVal, generateSingleAssign env target ⟨cr, .num rv rf⟩ type rightStart rightEnd scope
        = generateBasicAssign env target ⟨cl && cr, .num newVal lf⟩ scope1) ∧
    (∀ (x : String) (s e : SourcePos) (type : AssignType) (rightStart rightEnd : SourcePos)
        (scope : Scope (F × F) Controls) (cl cr : Bool) (lv rv : F × F) (lf rf : Nat),
      type ≠ AssignType.ASSIGN → scope.findValue x = some ⟨cl, .num lv lf⟩ →
      ∃ newVal final,
        generateSingleAssign env (Assignable.variable x s e) ⟨cr, .num rv rf⟩ type rightStart
          rightEnd scope = (.ok (), final) ∧
        final.findValue x = some ⟨cl && cr, .num newVal lf⟩) ∧
    (∀ (name : String) (ctype : Nat) (prop : String) (s e : SourcePos) (type : AssignType)
        (rightStart rightEnd : SourcePos) (scope : Scope (F × F) Controls)
        (controls1 : Controls) (cl cr : Bool) (lv rv : F × F) (lf rf : Nat),
      type ≠ AssignType.ASSIGN →
      env.readProperty scope.controls name ctype prop = (controls1, some ⟨cl, .num lv lf⟩) →
      ∃ newVal,
        (generateSingleAssign env (Assignable.control name ctype prop s e) ⟨cr, .num rv rf⟩
          type rightStart rightEnd scope).2
          = { scope with
              controls :=
                (env.writeProperty controls1 name ctype prop ⟨cl && cr, .num newVal lf⟩).1 }) ∧
    (∀ (o : MaximCodegen.NumIntOperator) (numLeft numRight : MaximCodegen.Num F),
      (o.call ops numLeft numRight).form = numLeft.form) ∧
    (∀ (o : MaximCodegen.NumLogicalOperator) (numLeft numRight : MaximCodegen.Num F),
      (o.call ops numLeft numRight).form = numLeft.form) := by
  refine ⟨?_, ?_, ?_, ?_, ?_, fun _ _ _ => rfl, fun _ _ _ => rfl⟩
  · intro expr scope scope1 scope2 cl cr lv rv lf rf hl hr
    have hm := generateMath_nums ops env expr scope scope1 scope2 cl cr lv rv lf rf hl hr
    constructor
    · intro hp
      obtain ⟨newVal, hnew⟩ := generateFloatIntCompMath_isSome ops expr.type lv rv hp
      refine ⟨newVal, ?_⟩
      rw [hm, hnew]
      rfl
    · intro val final h
      rw [hm] at h
      cases hnew : generateFloatIntCompMath ops expr.type lv rv with
      | none => rw [hnew] at h; simp at h
      | some newVal =>
        rw [hnew] at h
        simp only [Option.map_some', Option.some.injEq, Prod.mk.injEq,
          Except.ok.injEq] at h
        exact ⟨newVal, by rw [← h.1]⟩
  · intro expr scope scope1 c v f h
    constructor
    · intro hpos
      simp only [generateUnary, h, hpos, unaryResult]
    · intro val final hval
      simp only [generateUnary, h] at hval
      cases hres : unaryResult ops expr.type v with
      | none => rw [hres] at hval; simp at hval
      | some result =>
        rw [hres] at hval
        simp only [Option.some.injEq, Prod.mk.injEq, Except.ok.injEq] at hval
        exact ⟨result, by rw [← hval.1]⟩
  · intro target type rightStart rightEnd scope scope1 cl cr lv rv lf rf ht hl
    exact ⟨combine env type lv rv,
      generateSingleAssign_nums env target type rightStart rightEnd scope scope1 cl cr lv rv
        lf rf ht hl⟩
  · intro x s e type rightStart rightEnd scope cl cr lv rv lf rf ht hx
    refine ⟨combine env type lv rv, scope.setValue x ⟨cl && cr, .num (combine env type lv rv) lf⟩,
      ?_, ?_⟩
    · rw [generateSingleAssign_nums env _ type rightStart rightEnd scope scope cl cr lv rv lf rf
        ht (by simp only [generateAssignable, generateVariable, hx])]
      rfl
    · rw [findValue_setValue, if_pos rfl]
  · intro name ctype prop s e type rightStart rightEnd scope controls1 cl cr lv rv lf rf ht hrd
    refine ⟨combine env type lv rv, ?_⟩
    rw [generateSingleAssign_nums env _ type rightStart rightEnd scope
      { scope with controls := controls1 } cl cr lv rv lf rf ht
      (by simp only [generateAssignable, generateControl, hrd])]
    simp only [generateBasicAssign, generateControlAssign]
    cases hwp : env.writeProperty controls1 name ctype prop
        ⟨cl && cr, .num (combine env type lv rv) lf⟩ with
    | mk controls accepted =>
      cases accepted <;> rfl

/-- In the examples the left or only operand has the form 3 and the right
operand the form 7: `{1, 1} + {2, 2}` produces `{3, 3}` of the form 3, `+{1, 2}`
produces a number of the form 3, `a += {3, 3}` binds `a`, which held a number
of the form 3, to `{5, 5}` of the form 3, and the bitwise and the logical
operator give a result of the form 3; `knob:value += {3, 3}` writes a number of
the form 4, the form of the number the property held. -/
theorem form_of_left_operand_witness :
    ((∃ newVal, generateMath sampleOps sampleLaneEnv sampleForms sampleScope
        = some (.ok ⟨true && false, .num newVal 3⟩, sampleScope)) ∧
      generateMath sampleOps sampleLaneEnv sampleForms sampleScope
        = some (.ok ⟨false, .num (3, 3) 3⟩, sampleScope)) ∧
    generateUnary sampleOps sampleLaneEnv samplePositive sampleScope
      = some (.ok ⟨true, .num (1, 2) 3⟩, sampleScope) ∧
    ((∃ newVal final,
        generateSingleAssign sampleLaneEnv (.variable "a" ⟨0, 0⟩ ⟨0, 1⟩) ⟨false, .num (3, 3) 7⟩
          .ADD ⟨0, 5⟩ ⟨0, 6⟩ ⟨[("a", ⟨true, .num (2, 2) 3⟩)], ()⟩ = (.ok (), final) ∧
        final.findValue "a" = some ⟨true && false, .num newVal 3⟩) ∧
      generateSingleAssign sampleLaneEnv (.variable "a" ⟨0, 0⟩ ⟨0, 1⟩) ⟨false, .num (3, 3) 7⟩
          .ADD ⟨0, 5⟩ ⟨0, 6⟩ ⟨[("a", ⟨true, .num (2, 2) 3⟩)], ()⟩
        = (.ok (), ⟨[("a", ⟨false, .num (5, 5) 3⟩)], ()⟩)) ∧
    ((∃ newVal,
        (generateSingleAssign (knobEnv sampleLaneEnv) (.control "knob" 0 "value" ⟨0, 0⟩ ⟨0, 10⟩)
          ⟨false, .num (3, 3) 7⟩ .ADD ⟨0, 14⟩ ⟨0, 15⟩ knobScope).2
          = { knobScope with
              controls :=
                ((knobEnv sampleLaneEnv).writeProperty knobScope.controls "knob" 0 "value"
                  ⟨true && false, .num newVal 4⟩).1 }) ∧
      (generateSingleAssign (knobEnv sampleLaneEnv) (.control "knob" 0 "value" ⟨0, 0⟩ ⟨0, 10⟩)
          ⟨false, .num (3, 3) 7⟩ .ADD ⟨0, 14⟩ ⟨0, 15⟩ knobScope).2
        = ⟨[], [("knob", some ⟨false, .num (5, 5) 4⟩),
            ("knob", some ⟨true, .num (2, 2) 4⟩)]⟩) ∧
    (MaximCodegen.NumIntOperator.call sampleOps ⟨.BITWISE_AND, .ANY_INPUT, .And, true⟩
      ⟨(5, 5), 3, true⟩ ⟨(3, 3), 7, false⟩).form = 3 ∧
    (MaximCodegen.NumLogicalOperator.call sampleOps ⟨.LOGICAL_OR, .ANY_INPUT, .Or⟩
      ⟨(5, 5), 3, true⟩ ⟨(3, 3), 7, false⟩).form = 3 :=
  ⟨⟨((form_of_left_operand sampleOps sampleLaneEnv).1 sampleForms sampleScope sampleScope
        sampleScope true false (1, 1) (2, 2) 3 7 rfl rfl).1 (by decide), rfl⟩,
    ((form_of_left_operand sampleOps sampleLaneEnv).2.1 samplePositive sampleScope sampleScope
      true (1, 2) 3 rfl).1 rfl,
    ⟨(form_of_left_operand sampleOps sampleLaneEnv).2.2.2.1 "a" ⟨0, 0⟩ ⟨0, 1⟩ .ADD ⟨0, 5⟩ ⟨0, 6⟩
        ⟨[("a", ⟨true, .num (2, 2) 3⟩)], ()⟩ true false (2, 2) (3, 3) 3 7 (by decide) rfl,
      rfl⟩,
    ⟨(form_of_left_operand sampleOps (knobEnv sampleLaneEnv)).2.2.2.2.1 "knob" 0 "value" ⟨0, 0⟩
        ⟨0, 10⟩ .ADD ⟨0, 14⟩ ⟨0, 15⟩ knobScope knobScope.controls true false (2, 2) (3, 3) 4 7
        (by decide) rfl,
      rfl⟩,
    (form_of_left_operand sampleOps sampleLaneEnv).2.2.2.2.2.1
      ⟨.BITWISE_AND, .ANY_INPUT, .And, true⟩ ⟨(5, 5), 3, true⟩ ⟨(3, 3), 7, false⟩,
    (form_of_left_operand sampleOps sampleLaneEnv).2.2.2.2.2.2
      ⟨.LOGICAL_OR, .ANY_INPUT, .Or⟩ ⟨(5, 5), 3, true⟩ ⟨(3, 3), 7, false⟩⟩

/-- What the code does for C19: the compound assignment `**=` to a variable
that holds a number, with a number on the right, does not abort; no case of the
`switch` assigns `newRight`, and the variable is bound anew, to the number made
of the vector that was never initialised, with the form of the old value. -/
theorem power_assign_rebinds {Vec Controls Expr : Type} (env : Env Vec Controls Expr)
    (x : String) (s e rightStart rightEnd : SourcePos) (scope : Scope Vec Controls)
    (cl cr : Bool) (lv rv : Vec) (lf rf : Nat)
    (hx : scope.findValue x = some ⟨cl, .num lv lf⟩) :
    generateSingleAssign env (Assignable.variable x s e) ⟨cr, .num rv rf⟩ AssignType.POWER
        rightStart rightEnd scope
      = (.ok (), scope.setValue x ⟨cl && cr, .num env.uninitialized lf⟩) := by
  rw [generateSingleAssign_nums env _ AssignType.POWER rightStart rightEnd scope scope cl cr lv
    rv lf rf (by decide) (by simp only [generateAssignable, generateVariable, hx])]
  rfl

/-- In the example, `a **= {3, 3}` with `a` bound to `{2, 2}` returns without an
error and binds `a` to the number made of the vector that was never
initialised. -/
theorem power_assign_witness :
    sampleScope.findValue "a" = some ⟨true, .num (2, 2) 0⟩ ∧
    generateSingleAssign sampleLaneEnv (.variable "a" ⟨0, 0⟩ ⟨0, 1⟩) ⟨true, .num (3, 3) 0⟩
        .POWER ⟨0, 6⟩ ⟨0, 7⟩ sampleScope
      = (.ok (), sampleScope.setValue "a" ⟨true, .num sampleLaneEnv.uninitialized 0⟩) :=
  ⟨rfl, power_assign_rebinds sampleLaneEnv "a" ⟨0, 0⟩ ⟨0, 1⟩ ⟨0, 6⟩ ⟨0, 7⟩ sampleScope true
    true (2, 2) (3, 3) 0 0 rfl⟩

/-- What the code does for C20: for a comparison of two operands that generate
numbers, a lane of the result is the float `-1` when the ordered predicate of
the comparison holds between the lanes of the operands, and `0` otherwise:
`sitofp` reads the one-bit result of `fcmp` as a signed integer. -/
theorem compare_lanes {F Controls Expr : Type} (ops : FloatOps F)
    (env : Env (F × F) Controls Expr) (expr : MathExpression Expr) (p : Predicate)
    (hp : (expr.type, p) ∈ [(MathType.LOGICAL_EQUAL, Predicate.FCMP_OEQ),
      (MathType.LOGICAL_NOT_EQUAL, Predicate.FCMP_ONE),
      (MathType.LOGICAL_GT, Predicate.FCMP_OGT), (MathType.LOGICAL_LT, Predicate.FCMP_OLT),
      (MathType.LOGICAL_GTE, Predicate.FCMP_OGE), (MathType.LOGICAL_LTE, Predicate.FCMP_OLE)])
    (scope scope1 scope2 : Scope (F × F) Controls) (cl cr : Bool) (l1 l2 r1 r2 : F)
    (lf rf : Nat)
    (hl : env.generateExpr expr.left scope = (.ok ⟨cl, .num (l1, l2) lf⟩, scope1))
    (hr : env.generateExpr expr.right scope1 = (.ok ⟨cr, .num (r1, r2) rf⟩, scope2)) :
    generateMath ops env expr scope
      = some (.ok ⟨cl && cr,
          .num (ops.ofInt (if ops.fcmp p l1 r1 then -1 else 0),
                ops.ofInt (if ops.fcmp p l2 r2 then -1 else 0)) lf⟩, scope2) := by
  rw [generateMath_nums ops env expr scope scope1 scope2 cl cr (l1, l2) (r1, r2) lf rf hl hr]
  simp only [List.mem_cons, Prod.mk.injEq, List.mem_singleton, List.not_mem_nil,
    or_false] at hp
  rcases hp with ⟨h, rfl⟩ | ⟨h, rfl⟩ | ⟨h, rfl⟩ | ⟨h, rfl⟩ | ⟨h, rfl⟩ | ⟨h, rfl⟩ <;>
    rw [h] <;> rfl

/-- In the example, `1 == 1` gives the lanes `(-1, -1)`. -/
theorem compare_lanes_witness :
    sampleLaneEnv.generateExpr sampleEqual.left sampleScope
      = (.ok ⟨true, .num (1, 1) 0⟩, sampleScope) ∧
    sampleLaneEnv.generateExpr sampleEqual.right sampleScope
      = (.ok ⟨true, .num (1, 1) 0⟩, sampleScope) ∧
    generateMath sampleOps sampleLaneEnv sampleEqual sampleScope
      = some (.ok ⟨true, .num (-1, -1) 0⟩, sampleScope) :=
  ⟨rfl, rfl,
    compare_lanes sampleOps sampleLaneEnv sampleEqual .FCMP_OEQ (List.mem_cons_self _ _)
      sampleScope sampleScope sampleScope true true 1 1 1 1 0 0 rfl rfl⟩

end ExpressionGenerator

namespace SurfaceMir

/-! ## What a run of `build` is made of -/

/-- A run of `build` that returns is made of the two grouping phases, the
classification loop and the wiring loop, and its result holds what they
produced. -/
theorem build_eq_some {s : Surface} {r : BuildResult} (h : build s = some r) :
    ∃ st cs ws, buildGroups s = some st ∧ classifyGroups s st.groups = some cs ∧
      wireNodes s st cs = some ws ∧ r.tables = st ∧
      r.valueGroupIndices = cs.valueGroupIndices ∧ r.sockets = cs.sockets ∧
      r.valueGroups = cs.mirGroups ∧ r.nodes = ws.mirNodes ∧
      r.compileIndices = ws.compileIndices ∧
      r.rootSockets = (if s.isRoot = true then cs.rootPortals.map (fun p => p.2) else []) ∧
      r.rootPortals
        = (if s.isRoot = true then cs.rootPortals.map (fun p => p.1.uuid) else []) ∧
      (s.isRoot = false → cs.sockets.mapM (socketPortal s st cs) = some r.groupPortals) ∧
      (s.isRoot = true → r.groupPortals = []) := by
  unfold build at h
  cases hst : buildGroups s with
  | none => rw [hst] at h; simp at h
  | some st =>
    rw [hst] at h
    simp only at h
    cases hcs : classifyGroups s st.groups with
    | none => rw [hcs] at h; simp at h
    | some cs =>
      rw [hcs] at h
      simp only at h
      cases hws : wireNodes s st cs with
      | none => rw [hws] at h; simp at h
      | some ws =>
        rw [hws] at h
        simp only at h
        by_cases hroot : s.isRoot = true
        · simp only [hroot, if_true, Option.some.injEq] at h
          subst h
          exact ⟨st, cs, ws, rfl, hcs, hws, rfl, rfl, rfl, rfl, rfl, rfl, by simp [hroot],
            by simp [hroot], by simp [hroot], fun _ => rfl⟩
        · have hroot' : s.isRoot = false := by simpa using hroot
          simp only [hroot', Bool.false_eq_true, if_false] at h
          cases hm : cs.sockets.mapM (socketPortal s st cs) with
          | none => rw [hm] at h; simp at h
          | some portals =>
            rw [hm] at h
            simp only [Option.some.injEq] at h
            subst h
            exact ⟨st, cs, ws, rfl, hcs, hws, rfl, rfl, rfl, rfl, rfl, rfl, by simp [hroot'],
              by simp [hroot'], fun _ => hm, by simp [hroot']⟩

/-! ## Root portals -/

theorem find?_filter_map_snd {f : Control → Bool} :
    ∀ (l : List (Node × Control)),
    (∀ q ∈ l, f q.2 = true → q.1.skipped = false) →
    ((l.filter (fun p => !p.1.skipped)).map (fun p => p.2)).find? f
      = (l.map (fun p => p.2)).find? f := by
  intro l
  induction l with
  | nil => intro _; rfl
  | cons q l ih =>
    intro h
    have ih' := ih (fun q' hq' => h q' (List.mem_cons_of_mem _ hq'))
    by_cases hs : q.1.skipped = true
    · have hf : f q.2 = false := by
        cases hfq : f q.2
        · rfl
        · have := h q (List.mem_cons_self _ _) hfq
          rw [hs] at this
          exact absurd this (by decide)
      simp only [List.filter_cons, hs, Bool.not_true, Bool.false_eq_true, if_false,
        List.map_cons, List.find?_cons, hf, ih']
    · have hs' : q.1.skipped = false := by simpa using hs
      simp only [List.filter_cons, hs', Bool.not_false, if_true, List.map_cons,
        List.find?_cons, ih']

/-- When no portal control is on a skipped node, `findPortal` on the filtered
controls of a member list finds the first portal member of the list. -/
theorem findPortal_controlPointers {s : Surface} (hk : s.PortalControlsKept)
    (ids : List QUuid) : findPortal (s.controlPointers ids) = s.firstPortalMember ids := by
  unfold findPortal Surface.controlPointers Surface.firstPortalMember
  have := @find?_filter_map_snd (fun c => c.isPortal) (s.findMap ids) (by
    intro q hq hport
    unfold Surface.findMap at hq
    obtain ⟨u, _, hu⟩ := List.mem_filterMap.1 hq
    obtain ⟨hn, hc, _⟩ := findControl_some hu
    exact hk q.1 hn q.2 hc hport)
  exact this

theorem firstPortalMember_isSome {s : Surface} {ids : List QUuid} :
    (∃ u ∈ ids, ∃ q, s.findControl u = some q ∧ q.2.isPortal = true) →
    ∃ portal, s.firstPortalMember ids = some portal := by
  rintro ⟨u, hu, q, hq, hport⟩
  unfold Surface.firstPortalMember
  cases hf : ((s.findMap ids).map (fun p => p.2)).find? (fun c => c.isPortal) with
  | some portal => exact ⟨portal, rfl⟩
  | none =>
    have hmem : q.2 ∈ (s.findMap ids).map (fun p => p.2) :=
      List.mem_map.2 ⟨q, List.mem_filterMap.2 ⟨u, hu, hq⟩, rfl⟩
    have := List.find?_eq_none.1 hf q.2 hmem
    exact absurd hport this

theorem classifyLoop_rootPortals (s : Surface) :
    ∀ (groups : List (Nat × List QUuid)) (cs cs' : ClassifyState),
    groups.foldlM (classifyStep s) cs = some cs' →
    cs'.rootPortals.map (fun p => p.1)
      = cs.rootPortals.map (fun p => p.1) ++
        groups.filterMap (fun p =>
          if s.isRoot = true then findPortal (s.controlPointers p.2) else none) ∧
    cs'.rootPortals.map (fun p => p.2)
      = cs.rootPortals.map (fun p => p.2) ++
        groups.filterMap (fun p =>
          if s.isRoot = true ∧ (findPortal (s.controlPointers p.2)).isSome = true then
            getGroupType (s.controlPointers p.2)
          else none) := by
  intro groups
  induction groups with
  | nil =>
    intro cs cs' h
    simp only [List.foldlM_nil, Option.pure_def, Option.some.injEq] at h
    subst h
    simp
  | cons p groups ih =>
    intro cs cs' h
    simp only [List.foldlM_cons, Option.bind_eq_bind] at h
    cases hstep : classifyStep s cs p with
    | none => rw [hstep] at h; simp at h
    | some cs1 =>
      rw [hstep] at h
      simp only [Option.some_bind] at h
      obtain ⟨ih1, ih2⟩ := ih cs1 cs' h
      cases hgt : getGroupType (s.controlPointers p.2) with
      | none => simp [classifyStep, hgt] at hstep
      | some groupType =>
        simp only [classifyStep, hgt] at hstep
        by_cases hroot : s.isRoot = true
        · cases hfp : findPortal (s.controlPointers p.2) with
          | some portal =>
            simp only [hroot, if_true, hfp, Option.some.injEq] at hstep
            subst hstep
            rw [ih1, ih2]
            simp [hroot, hfp, hgt, List.filterMap_cons]
          | none =>
            simp only [hroot, if_true, hfp, Option.some.injEq] at hstep
            subst hstep
            rw [ih1, ih2]
            simp [hroot, hfp, List.filterMap_cons]
        · simp only [hroot, Bool.false_eq_true, if_false, Option.some.injEq] at hstep
          subst hstep
          rw [ih1, ih2]
          simp [hroot, List.filterMap_cons]

theorem groupSource_socket_iff (cp : List Control) (groupType : ControlType) (k : Nat) :
    (∃ i, groupSource cp groupType k = ValueGroupSource.socket i) ↔
      areAnyExposed cp = true := by
  unfold groupSource
  by_cases he : areAnyExposed cp = true
  · simp [he]
  · have he' : areAnyExposed cp = false := by simpa using he
    rw [he']
    simp only [Bool.false_eq_true, if_false, iff_false, not_exists]
    intro i
    by_cases ht : groupType = ControlType.NUM_SCALAR
    · simp only [ht, if_true]
      by_cases hwr : isWrittenTo cp = true
      · simp [hwr]
      · have hwr' : isWrittenTo cp = false := by simpa using hwr
        simp only [hwr', Bool.not_false, if_true]
        cases cp with
        | nil => simp
        | cons c l =>
          simp only
          by_cases hc : isConstantValue c.value = true
          · simp [hc]
          · simp [hc]
    · simp [ht]

/-- C26. On a well-formed surface where no portal control is on a skipped node
`build` succeeds. On the root surface every group having a member of kind
`NUM_PORTAL` or `MIDI_PORTAL` is added with a socket source, whatever the
exposers and the values of its members are, and the root interface has exactly
one entry for each such group, in the order of the groups, made of the first
portal member of its member list and of the kind of the group. On a surface that
is not the root the root interface is empty, and a group is added with a socket
source if and only if one of its filtered members is exposed, whether it has a
portal member or not. -/
theorem root_portal_groups (s : Surface) (hw : s.WellFormed) (hp : s.PortalsResolved)
    (hk : s.PortalControlsKept) :
    ∃ r, build s = some r ∧
      (s.isRoot = true →
        List.Forall₂ (fun p g =>
          (∃ u ∈ p.2, ∃ q, s.findControl u = some q ∧ q.2.isPortal = true) →
            ∃ k, g.source = ValueGroupSource.socket k) r.tables.groups r.valueGroups ∧
        r.rootPortals
          = (r.tables.groups.filterMap (fun p => s.firstPortalMember p.2)).map
              (fun c => c.uuid) ∧
        r.rootSockets
          = r.tables.groups.filterMap (fun p =>
              if (s.firstPortalMember p.2).isSome = true then
                getGroupType (s.controlPointers p.2)
              else none)) ∧
      (s.isRoot = false →
        List.Forall₂ (fun p g =>
          (∃ k, g.source = ValueGroupSource.socket k) ↔
            areAnyExposed (s.controlPointers p.2) = true) r.tables.groups r.valueGroups ∧
        r.rootPortals = [] ∧ r.rootSockets = []) := by
  obtain ⟨st, r, _, hr, ht, _, _, hfa, _⟩ := build_spec hw hp
  obtain ⟨st', cs, ws, hst', hcs, _, ht', _, _, _, _, _, hrs, hrp, _, _⟩ := build_eq_some hr
  refine ⟨r, hr, ?_, ?_⟩
  · intro hroot
    refine ⟨?_, ?_, ?_⟩
    · rw [ht]
      refine forall₂_imp_of_mem hfa ?_
      rintro p _ g ⟨_, k, hk'⟩ hmem
      obtain ⟨portal, hportal⟩ := firstPortalMember_isSome hmem
      have hfp : (findPortal (s.controlPointers p.2)).isSome = true := by
        rw [findPortal_controlPointers hk, hportal]
        rfl
      exact ⟨k, by rw [hk', if_pos ⟨hroot, hfp⟩]⟩
    · have h1 := (classifyLoop_rootPortals s st'.groups ClassifyState.empty cs hcs).1
      rw [hrp, if_pos hroot, ht']
      have : cs.rootPortals.map (fun p => p.1.uuid)
          = (cs.rootPortals.map (fun p => p.1)).map (fun c => c.uuid) := by
        rw [List.map_map]
        rfl
      rw [this, h1]
      simp only [ClassifyState.empty, List.map_nil, List.nil_append, hroot, if_true,
        findPortal_controlPointers hk]
    · have h2 := (classifyLoop_rootPortals s st'.groups ClassifyState.empty cs hcs).2
      rw [hrs, if_pos hroot, ht', h2]
      simp only [ClassifyState.empty, List.map_nil, List.nil_append, hroot, true_and,
        findPortal_controlPointers hk]
  · intro hroot
    refine ⟨?_, ?_, ?_⟩
    · rw [ht]
      refine forall₂_imp_of_mem hfa ?_
      rintro p _ g ⟨_, k, hk'⟩
      have hnot : ¬ (s.isRoot = true ∧ (findPortal (s.controlPointers p.2)).isSome = true) := by
        rw [hroot]
        simp
      rw [hk', if_neg hnot]
      exact groupSource_socket_iff _ _ _
    · rw [hrp, hroot]
      simp
    · rw [hrs, hroot]
      simp

/-- On the root surface `rootPortalSurface` the group of the portal control 1
and the exposed control 2 holding `{1, 0, LINEAR}` is the socket 0 and gives the
one entry of the root interface, made of the portal control 1; on the group
surface `innerPortalSurface` the group of the portal control 1 and the control 2
is added with the constant `{1, 0, LINEAR}`, not with a socket source. -/
theorem root_portal_witness :
    (rootPortalSurface.WellFormed ∧ rootPortalSurface.PortalsResolved ∧
      rootPortalSurface.PortalControlsKept) ∧
    (∃ r, build rootPortalSurface = some r ∧
      (rootPortalSurface.isRoot = true →
        List.Forall₂ (fun p g =>
          (∃ u ∈ p.2, ∃ q, rootPortalSurface.findControl u = some q ∧ q.2.isPortal = true) →
            ∃ k, g.source = ValueGroupSource.socket k) r.tables.groups r.valueGroups ∧
        r.rootPortals
          = (r.tables.groups.filterMap (fun p => rootPortalSurface.firstPortalMember p.2)).map
              (fun c => c.uuid) ∧
        r.rootSockets
          = r.tables.groups.filterMap (fun p =>
              if (rootPortalSurface.firstPortalMember p.2).isSome = true then
                getGroupType (rootPortalSurface.controlPointers p.2)
              else none)) ∧
      (rootPortalSurface.isRoot = false →
        List.Forall₂ (fun p g =>
          (∃ k, g.source = ValueGroupSource.socket k) ↔
            areAnyExposed (rootPortalSurface.controlPointers p.2) = true)
          r.tables.groups r.valueGroups ∧
        r.rootPortals = [] ∧ r.rootSockets = [])) ∧
    (build rootPortalSurface).map
        (fun r => (r.tables.groups, r.valueGroups, r.rootPortals, r.rootSockets))
      = some ([(1, [3]), (0, [2, 1])],
          [⟨ControlType.NUM_SCALAR,
              ValueGroupSource.default_val ⟨Lane.ofNat 1, Lane.ofNat 0, FormType.LINEAR⟩⟩,
            ⟨ControlType.NUM_SCALAR, ValueGroupSource.socket 0⟩],
          [1], [ControlType.NUM_SCALAR]) ∧
    (build innerPortalSurface).map (fun r => (r.tables.groups, r.valueGroups, r.rootPortals))
      = some ([(1, [3]), (0, [2, 1])],
          [⟨ControlType.NUM_SCALAR,
              ValueGroupSource.default_val ⟨Lane.ofNat 1, Lane.ofNat 0, FormType.LINEAR⟩⟩,
            ⟨ControlType.NUM_SCALAR,
              ValueGroupSource.default_val ⟨Lane.ofNat 1, Lane.ofNat 0, FormType.LINEAR⟩⟩],
          []) :=
  ⟨⟨by decide, by decide, by decide⟩,
    root_portal_groups rootPortalSurface (by decide) (by decide) (by decide),
    by decide, by decide⟩

/-! ## The kind of a group -/

/-- C27. For a member list that is not empty `getGroupType` returns a kind: the
kind of the first member of kind `NUM_EXTRACT` or `MIDI_EXTRACT` when there is
one, and the kind of the first member otherwise. So a list of controls of the
kinds `NUM_SCALAR` and `NUM_EXTRACT` with a control of kind `NUM_EXTRACT`
anywhere has the kind `NUM_EXTRACT`. -/
theorem getGroupType_spec (controls : List Control) (hne : controls ≠ []) :
    (∃ kind, getGroupType controls = some kind) ∧
    (∀ pre c post, controls = pre ++ c :: post → c.isExtract = true →
      (∀ d ∈ pre, d.isExtract = false) → getGroupType controls = some c.controlType) ∧
    ((∀ d ∈ controls, d.isExtract = false) →
      getGroupType controls = controls.head?.map (fun c => c.controlType)) ∧
    ((∃ c ∈ controls, c.controlType = ControlType.NUM_EXTRACT) →
      (∀ d ∈ controls, d.controlType = ControlType.NUM_SCALAR ∨
        d.controlType = ControlType.NUM_EXTRACT) →
      getGroupType controls = some ControlType.NUM_EXTRACT) := by
  have hfind : ∀ pre c post, controls = pre ++ c :: post → c.isExtract = true →
      (∀ d ∈ pre, d.isExtract = false) → getGroupType controls = some c.controlType := by
    intro pre c post hsplit hc hpre
    have hf : controls.find? (fun control => control.isExtract) = some c := by
      rw [hsplit, List.find?_append]
      have hnone : pre.find? (fun control => control.isExtract) = none :=
        List.find?_eq_none.2 (fun d hd => by simp [hpre d hd])
      simp [hnone, List.find?_cons, hc]
    cases hcs : controls with
    | nil => exact absurd hcs hne
    | cons first rest =>
      rw [hcs] at hf
      unfold getGroupType
      have hf' : (first :: rest).find? (fun control =>
          decide (control.controlType = ControlType.NUM_EXTRACT) ||
            decide (control.controlType = ControlType.MIDI_EXTRACT)) = some c := hf
      simp only [hf']
  refine ⟨getGroupType_isSome hne, hfind, ?_, ?_⟩
  · intro hall
    cases hcs : controls with
    | nil => exact absurd hcs hne
    | cons first rest =>
      have hnone : (first :: rest).find? (fun control =>
          decide (control.controlType = ControlType.NUM_EXTRACT) ||
            decide (control.controlType = ControlType.MIDI_EXTRACT)) = none := by
        apply List.find?_eq_none.2
        intro d hd
        have := hall d (hcs ▸ hd)
        simpa [Control.isExtract] using this
      unfold getGroupType
      simp only [hnone, List.head?_cons, Option.map_some']
  · rintro ⟨c, hc, hkind⟩ hall
    cases hcs : controls with
    | nil => exact absurd hcs hne
    | cons first rest =>
      rw [hcs] at hc hall
      unfold getGroupType
      cases hf : (first :: rest).find? (fun control =>
          decide (control.controlType = ControlType.NUM_EXTRACT) ||
            decide (control.controlType = ControlType.MIDI_EXTRACT)) with
      | none =>
        have := List.find?_eq_none.1 hf c hc
        simp [hkind] at this
      | some d =>
        have hd := List.mem_of_find?_eq_some hf
        have hdx := List.find?_some hf
        simp only
        rcases hall d hd with h | h
        · simp [h] at hdx
        · rw [h]

/-- The list `extractMembers` is not empty, and its kind is `NUM_EXTRACT`, the
kind of its second control. -/
theorem getGroupType_witness :
    extractMembers ≠ [] ∧ getGroupType extractMembers = some ControlType.NUM_EXTRACT :=
  ⟨by decide,
    (getGroupType_spec extractMembers (by decide)).2.2.2
      ⟨{ numberControl 2 [] with controlType := .NUM_EXTRACT }, by decide, rfl⟩
      (by decide)⟩

/-! ## Wiring records -/

theorem mapM_some_forall₂ {α β : Type} {f : α → Option β} :
    ∀ (l : List α) (ys : List β), List.mapM f l = some ys →
      List.Forall₂ (fun x y => f x = some y) l ys := by
  intro l
  induction l with
  | nil =>
    intro ys h
    simp only [List.mapM_nil, Option.pure_def, Option.some.injEq] at h
    subst h
    exact List.Forall₂.nil
  | cons a l ih =>
    intro ys h
    rw [List.mapM_cons] at h
    cases hfa : f a with
    | none => rw [hfa] at h; simp at h
    | some y =>
      cases hl : List.mapM f l with
      | none => rw [hfa, hl] at h; simp at h
      | some ys' =>
        rw [hfa, hl] at h
        simp only [Option.pure_def, Option.bind_eq_bind, Option.some_bind,
          Option.some.injEq] at h
        subst h
        exact List.Forall₂.cons hfa (ih ys' hl)

theorem get?_of_lookup_zip_range {keys : List Nat} {g i : Nat}
    (h : (keys.zip (List.range keys.length)).lookup g = some i) : keys.get? i = some g := by
  have hmem := mem_of_lookup h
  obtain ⟨n, hn⟩ := List.mem_iff_get?.1 hmem
  rw [List.get?_eq_getElem?, List.getElem?_zip_eq_some] at hn
  obtain ⟨h1, h2⟩ := hn
  have hlt : n < keys.length := by
    by_contra hge
    rw [List.getElem?_eq_none (by simpa using hge)] at h1
    exact absurd h1 (by simp)
  rw [List.getElem?_range hlt] at h2
  simp only [Option.some.injEq] at h2
  subst h2
  rw [List.get?_eq_getElem?]
  exact h1

/-- The index `valueGroupIndices` gives for the group of an id is the position
in `groups` of a group whose member list holds the id. -/
theorem emittedHolds_of_lookup {st : GroupState} (hinv : st.Inv) {cs : ClassifyState}
    (hok : cs.Ok (st.groups.map Prod.fst)) {u : QUuid} {g i : Nat}
    (hg : st.controlGroups.lookup u = some g) (hi : cs.valueGroupIndices.lookup g = some i) :
    st.emittedHolds i u := by
  obtain ⟨ms, hms, hu⟩ := (hinv.consistent u g).1 hg
  rw [hok.indices_eq] at hi
  have hget := get?_of_lookup_zip_range hi
  rw [List.get?_eq_getElem?, List.getElem?_map] at hget
  cases hp : st.groups[i]? with
  | none => rw [hp] at hget; simp at hget
  | some p =>
    rw [hp] at hget
    simp only [Option.map_some', Option.some.injEq] at hget
    have hmem : p ∈ st.groups := List.getElem?_mem hp
    have hlook : st.groups.lookup g = some p.2 := by
      apply lookup_of_mem hinv.keysNodup
      rw [← hget]
      exact hmem
    rw [hms] at hlook
    simp only [Option.some.injEq] at hlook
    refine ⟨p, ?_, ?_⟩
    · rw [List.get?_eq_getElem?]
      exact hp
    · rw [← hlook]
      exact hu

theorem controlSocket_record {st : GroupState} (hinv : st.Inv) {cs : ClassifyState}
    (hok : cs.Ok (st.groups.map Prod.fst)) {c : Control} {v : ValueSocket}
    (h : controlSocket st cs c = some v) : ControlRecord st c v := by
  unfold controlSocket at h
  cases hg : st.controlGroups.lookup c.uuid with
  | none => rw [hg] at h; simp at h
  | some g =>
    rw [hg] at h
    simp only at h
    cases hi : cs.valueGroupIndices.lookup g with
    | none => rw [hi] at h; simp at h
    | some i =>
      rw [hi] at h
      simp only [Option.some.injEq] at h
      subst h
      exact ⟨emittedHolds_of_lookup hinv hok hg hi, rfl, rfl, rfl⟩

theorem portalSocket_record {st : GroupState} (hinv : st.Inv) {cs : ClassifyState}
    (hok : cs.Ok (st.groups.map Prod.fst)) {p : GroupSurfacePortal} {v : ValueSocket}
    (h : portalSocket st cs p = some v) : PortalRecord st p v := by
  unfold portalSocket at h
  cases hext : p.externalControls with
  | nil => rw [hext] at h; simp at h
  | cons first rest =>
    rw [hext] at h
    simp only at h
    cases hg : st.controlGroups.lookup first with
    | none => rw [hg] at h; simp at h
    | some g =>
      rw [hg] at h
      simp only at h
      cases hi : cs.valueGroupIndices.lookup g with
      | none => rw [hi] at h; simp at h
      | some i =>
        rw [hi] at h
        simp only [Option.some.injEq] at h
        subst h
        exact ⟨⟨first, by rw [hext]; rfl, emittedHolds_of_lookup hinv hok hg hi⟩, rfl, rfl, rfl⟩

theorem wireNode_records {st : GroupState} (hinv : st.Inv) {cs : ClassifyState}
    (hok : cs.Ok (st.groups.map Prod.fst)) (ws ws' : WireState) (n : Node)
    (h : wireNode st cs ws n = some ws') :
    ∃ added, ws'.mirNodes = ws.mirNodes ++ added ∧
      List.Forall₂ (NodeRecord st) ([n].filter Node.isWired) added := by
  unfold wireNode at h
  cases hk : n.kind with
  | custom valid =>
    rw [hk] at h
    cases valid with
    | false =>
      simp only [Bool.not_false, if_true, Option.some.injEq] at h
      subst h
      exact ⟨[], by simp, by simp [Node.isWired, hk]⟩
    | true =>
      simp only [Bool.not_true, Bool.false_eq_true, if_false] at h
      cases hm : (n.controls.insertionSort (fun a b => a.index ≤ b.index)).mapM
          (controlSocket st cs) with
      | none => rw [hm] at h; simp at h
      | some sockets =>
        rw [hm] at h
        simp only [Option.some.injEq] at h
        subst h
        refine ⟨[⟨false, n.runtimeId, sockets⟩], rfl, ?_⟩
        have hw : [n].filter Node.isWired = [n] := by simp [Node.isWired, hk]
        rw [hw]
        refine List.Forall₂.cons ?_ List.Forall₂.nil
        refine ⟨rfl, ?_⟩
        rw [hk]
        haveI : IsTotal Control (fun a b => a.index ≤ b.index) :=
          ⟨fun a b => Nat.le_total a.index b.index⟩
        haveI : IsTrans Control (fun a b => a.index ≤ b.index) :=
          ⟨fun a b c hab hbc => Nat.le_trans hab hbc⟩
        refine ⟨rfl, n.controls.insertionSort (fun a b => a.index ≤ b.index),
          List.perm_insertionSort _ _, List.sorted_insertionSort _ _, ?_⟩
        exact forall₂_imp_of_mem (mapM_some_forall₂ _ _ hm)
          (fun c _ v hv => controlSocket_record hinv hok hv)
  | group portals =>
    rw [hk] at h
    simp only at h
    cases hm : portals.mapM (portalSocket st cs) with
    | none => rw [hm] at h; simp at h
    | some sockets =>
      rw [hm] at h
      simp only [Option.some.injEq] at h
      subst h
      refine ⟨[⟨true, n.runtimeId, sockets⟩], rfl, ?_⟩
      have hw : [n].filter Node.isWired = [n] := by simp [Node.isWired, hk]
      rw [hw]
      refine List.Forall₂.cons ?_ List.Forall₂.nil
      refine ⟨rfl, ?_⟩
      rw [hk]
      exact ⟨rfl, forall₂_imp_of_mem (mapM_some_forall₂ _ _ hm)
        (fun p _ v hv => portalSocket_record hinv hok hv)⟩
  | other =>
    rw [hk] at h
    simp only [Option.some.injEq] at h
    subst h
    exact ⟨[], by simp, by simp [Node.isWired, hk]⟩

theorem wireLoop_records {st : GroupState} (hinv : st.Inv) {cs : ClassifyState}
    (hok : cs.Ok (st.groups.map Prod.fst)) :
    ∀ (nodes : List Node) (ws ws' : WireState),
    nodes.foldlM (wireNode st cs) ws = some ws' →
    ∃ added, ws'.mirNodes = ws.mirNodes ++ added ∧
      List.Forall₂ (NodeRecord st) (nodes.filter Node.isWired) added := by
  intro nodes
  induction nodes with
  | nil =>
    intro ws ws' h
    simp only [List.foldlM_nil, Option.pure_def, Option.some.injEq] at h
    subst h
    exact ⟨[], by simp, by simp⟩
  | cons n nodes ih =>
    intro ws ws' h
    simp only [List.foldlM_cons, Option.bind_eq_bind] at h
    cases hstep : wireNode st cs ws n with
    | none => rw [hstep] at h; simp at h
    | some ws1 =>
      rw [hstep] at h
      simp only [Option.some_bind] at h
      obtain ⟨a1, h1, hf1⟩ := wireNode_records hinv hok ws ws1 n hstep
      obtain ⟨a2, h2, hf2⟩ := ih ws1 ws' h
      refine ⟨a1 ++ a2, by rw [h2, h1, List.append_assoc], ?_⟩
      have : (n :: nodes).filter Node.isWired
          = [n].filter Node.isWired ++ nodes.filter Node.isWired := by
        rw [← List.filter_append]
        rfl
      rw [this]
      exact List.rel_append hf1 hf2

/-- C28. On a well-formed surface with resolved portals `build` succeeds and
adds one node record for each custom node with a valid block and each group
node, in node order. The record of a custom node holds exactly one wiring record
for each control of the node, the controls taken in a non-decreasing order of
their compile index; the record of a control is the index of the emitted group
whose member list holds the control, its `writtenTo`, its `readFrom`, and
whether its kind is `NUM_EXTRACT` or `MIDI_EXTRACT`. The record of a group node
holds one wiring record for each portal of the inner surface, in portal order:
the index of the emitted group that holds the first external control of the
portal, and the written, read and extractor flags of the portal. -/
theorem node_wiring_records (s : Surface) (hw : s.WellFormed) (hp : s.PortalsResolved) :
    ∃ r, build s = some r ∧
      List.Forall₂ (NodeRecord r.tables) (s.nodes.filter Node.isWired) r.nodes := by
  obtain ⟨st, r, hst, hr, ht, hrep, _, _, _⟩ := build_spec hw hp
  obtain ⟨st', cs, ws, hst', hcs, hws, ht', _, _, _, hnodes, _⟩ := build_eq_some hr
  have hst_eq : st' = st := by
    rw [hst] at hst'
    exact (Option.some.inj hst').symm
  subst hst_eq
  have hne : ∀ p ∈ st'.groups, s.controlPointers p.2 ≠ [] := by
    intro p hp'
    obtain ⟨u, hu, hP⟩ := hrep.heads p.1 p.2 (lookup_of_mem hrep.inv.keysNodup hp')
    exact controlPointers_ne_nil hw hu hP
  obtain ⟨cs2, hcs2, hok, _⟩ := classifyGroups_spec s st'.groups hne
  have hcs_eq : cs2 = cs := by
    rw [hcs] at hcs2
    exact (Option.some.inj hcs2).symm
  subst hcs_eq
  obtain ⟨added, hadd, hfa⟩ := wireLoop_records hrep.inv hok s.nodes ⟨[], [], 0⟩ ws hws
  refine ⟨r, hr, ?_⟩
  rw [ht, hnodes, hadd]
  simpa using hfa

/-- On `wiredSurface` the five groups are emitted in the order `{6, 7}`, `{5}`,
`{3}`, `{2, 4}`, `{1}`. The record of the custom node holds the wiring records
of its controls in the order of their compile indices 0, 1, 2, that is of the
controls 2, 3 and 1: the control 2 is in the emitted group 3 and read from, the
control 3 is in the emitted group 2, written to, read from and an extractor, and
the control 1 is in the emitted group 4 and written to. The record of the group
node holds the wiring records of its two portals in portal order: the first
names the emitted group 1 of the control 5, the second the emitted group 0 of
the control 6. On `portalSurface`, a root surface with a group node and a custom
node that failed to compile, both records name the only group. -/
theorem node_wiring_witness :
    ((wiredSurface.WellFormed ∧ wiredSurface.PortalsResolved) ∧
      (portalSurface.WellFormed ∧ portalSurface.PortalsResolved)) ∧
    (∃ r, build wiredSurface = some r ∧
      List.Forall₂ (NodeRecord r.tables) (wiredSurface.nodes.filter Node.isWired) r.nodes) ∧
    (build wiredSurface).map (fun r => (r.tables.groups, r.nodes))
      = some ([(4, [6, 7]), (3, [5]), (2, [3]), (1, [2, 4]), (0, [1])],
          [⟨false, 10,
              [⟨3, false, true, false⟩, ⟨2, true, true, true⟩, ⟨4, true, false, false⟩]⟩,
            ⟨true, 20, [⟨1, true, false, false⟩, ⟨0, false, true, true⟩]⟩]) ∧
    (∃ r, build portalSurface = some r ∧
      List.Forall₂ (NodeRecord r.tables) (portalSurface.nodes.filter Node.isWired) r.nodes) ∧
    (build portalSurface).map (fun r => (r.tables.groups, r.nodes))
      = some ([(0, [5, 1, 6])],
          [⟨true, 20, [⟨0, false, true, false⟩]⟩, ⟨false, 10, [⟨0, false, false, false⟩]⟩]) :=
  ⟨⟨⟨by decide, by decide⟩, ⟨by decide, by decide⟩⟩,
    node_wiring_records wiredSurface (by decide) (by decide), by decide,
    node_wiring_records portalSurface (by decide) (by decide), by decide⟩

/-! ## The merge phase and the partition of the union phase -/

/-- C29. On a well-formed surface with resolved portals the merge phase
succeeds, and after it: for every group node and every portal of its inner
surface, all external controls of the portal are mapped to one and the same
group; two ids that shared a group after the union phase still share one; and
two ids share a group only if they are related by the equivalence closure of
sharing a group after the union phase together with being external controls of
a common portal. -/
theorem merge_phase_groups (s : Surface) (hw : s.WellFormed) (hp : s.PortalsResolved) :
    ∃ st, buildGroups s = some st ∧
      (∀ n ∈ s.nodes, ∀ p ∈ n.portals, ∃ g, ∀ u ∈ p.externalControls,
        st.controlGroups.lookup u = some g) ∧
      (∀ u v, (unionPhase s).sameGroup u v → st.sameGroup u v) ∧
      (∀ u v, st.sameGroup u v →
        Relation.EqvGen (fun a b => (unionPhase s).sameGroup a b ∨
          ∃ n ∈ s.nodes, ∃ p ∈ n.portals,
            a ∈ p.externalControls ∧ b ∈ p.externalControls) u v) := by
  obtain ⟨st, hst, hrep⟩ := buildGroups_represents hw hp
  have hrep0 := unionPhase_represents hw
  refine ⟨st, hst, ?_, ?_, ?_⟩
  · intro n hn p hpn
    have hps : p ∈ s.portals := List.mem_flatMap.2 ⟨n, hn, hpn⟩
    obtain ⟨hne, hD⟩ := hp p hps
    have hDt : ∀ u ∈ p.externalControls, touched s.groupedControls u := by
      intro u hu
      obtain ⟨c, hc, hcu⟩ := hD u hu
      exact ⟨c, hc, Or.inl hcu.symm⟩
    cases hext : p.externalControls with
    | nil => exact absurd hext hne
    | cons first rest =>
      rw [hext] at hDt
      obtain ⟨g, hg⟩ := (hrep.tracks.dom first).2 (hDt first (List.mem_cons_self _ _))
      refine ⟨g, fun u hu => ?_⟩
      rcases List.mem_cons.1 hu with h | h
      · rw [h]
        exact hg
      · have hlink : Relation.EqvGen
            (fun a b => walked s.groupedControls a b ∨ portalLinks s.portals a b) first u :=
          Relation.EqvGen.rel _ _ (Or.inr ⟨p, hps, rest, hext, h⟩)
        obtain ⟨g', hg1, hg2⟩ := (hrep.tracks.rel first u).2
          ⟨hDt first (List.mem_cons_self _ _), hDt u hu, hlink⟩
        rw [hg] at hg1
        rw [Option.some.inj hg1]
        exact hg2
  · intro u v huv
    obtain ⟨hDu, hDv, he⟩ := (hrep0.tracks.rel u v).1 huv
    exact (hrep.tracks.rel u v).2 ⟨hDu, hDv,
      eqvGen_of_subset (fun x y hxy => Relation.EqvGen.rel _ _ (Or.inl hxy)) he⟩
  · intro u v huv
    obtain ⟨_, _, he⟩ := (hrep.tracks.rel u v).1 huv
    refine eqvGen_of_subset ?_ he
    rintro x y (hxy | ⟨p, hps, rest, hext, hy⟩)
    · obtain ⟨hDx, hDy⟩ := hrep0.tracks.edges x y hxy
      exact Relation.EqvGen.rel _ _
        (Or.inl ((hrep0.tracks.rel x y).2 ⟨hDx, hDy, Relation.EqvGen.rel _ _ hxy⟩))
    · obtain ⟨n, hn, hpn⟩ := List.mem_flatMap.1 hps
      refine Relation.EqvGen.rel _ _ (Or.inr ⟨n, hn, p, hpn, ?_, ?_⟩)
      · rw [hext]
        exact List.mem_cons_self _ _
      · rw [hext]
        exact List.mem_cons_of_mem _ hy

/-- On `portalSurface`, whose group node has a portal with the external
controls 5 and 6, the union phase maps the controls 5 and 1 to one group and
the control 6 to another, and after the merge phase the three of them are mapped
to one group. -/
theorem merge_phase_witness :
    (portalSurface.WellFormed ∧ portalSurface.PortalsResolved) ∧
    (∃ st, buildGroups portalSurface = some st ∧
      (∀ n ∈ portalSurface.nodes, ∀ p ∈ n.portals, ∃ g, ∀ u ∈ p.externalControls,
        st.controlGroups.lookup u = some g) ∧
      (∀ u v, (unionPhase portalSurface).sameGroup u v → st.sameGroup u v) ∧
      (∀ u v, st.sameGroup u v →
        Relation.EqvGen (fun a b => (unionPhase portalSurface).sameGroup a b ∨
          ∃ n ∈ portalSurface.nodes, ∃ p ∈ n.portals,
            a ∈ p.externalControls ∧ b ∈ p.externalControls) u v)) ∧
    (unionPhase portalSurface).controlGroups = [(6, 1), (1, 0), (5, 0)] ∧
    (buildGroups portalSurface).map (fun st => st.controlGroups)
      = some [(6, 0), (1, 0), (5, 0)] :=
  ⟨⟨by decide, by decide⟩, merge_phase_groups portalSurface (by decide) (by decide),
    by decide, by decide⟩

end SurfaceMir

namespace MaximCodegen

/-! ## Type assertions -/

/-- C30. The function `assertNum` returns the value itself if and only if the
value is a `Num`, and otherwise throws the error whose message names the type of
numbers and then the type of the value, with the span of the value; `assertMidi`
does the same for a `Midi` and the type of MIDI values; `assertTuple` and
`assertArray` return the value itself if and only if its type is the requested
type and it is a `Tuple`, respectively an `Array`, and otherwise throw the error
that names the requested type and then the type of the value; `assertType`
succeeds if and only if the type of the value is the requested type. -/
theorem assert_kind_spec {V T : Type} [DecidableEq T] (tc : TypeChecks V T) (val : V)
    (type : T) :
    (∀ res, assertNum tc val = .ok res ↔ (tc.isNum val = true ∧ res = val)) ∧
    (tc.isNum val = false →
      assertNum tc val
        = .error ⟨"Oyyyy m80, I need a " ++ tc.name tc.numType ++ " here, not this bad boi " ++
            tc.name (tc.type val), tc.startPos val, tc.endPos val⟩) ∧
    (∀ res, assertMidi tc val = .ok res ↔ (tc.isMidi val = true ∧ res = val)) ∧
    (tc.isMidi val = false →
      assertMidi tc val
        = .error ⟨"Oyyyy m80, I need a " ++ tc.name tc.midiType ++ " here, not this bad boi " ++
            tc.name (tc.type val), tc.startPos val, tc.endPos val⟩) ∧
    (∀ res, assertTuple tc val type = .ok res ↔
      (tc.type val = type ∧ tc.isTuple val = true ∧ res = val)) ∧
    (¬ (tc.type val = type ∧ tc.isTuple val = true) →
      assertTuple tc val type
        = .error ⟨"Oyyyy m80, I need a " ++ tc.name type ++ " here, not this bad boi " ++
            tc.name (tc.type val), tc.startPos val, tc.endPos val⟩) ∧
    (∀ res, assertArray tc val type = .ok res ↔
      (tc.type val = type ∧ tc.isArray val = true ∧ res = val)) ∧
    (¬ (tc.type val = type ∧ tc.isArray val = true) →
      assertArray tc val type
        = .error ⟨"Oyyyy m80, I need a " ++ tc.name type ++ " here, not this bad boi " ++
            tc.name (tc.type val), tc.startPos val, tc.endPos val⟩) ∧
    (assertType tc val type = .ok () ↔ tc.type val = type) ∧
    (tc.type val ≠ type →
      assertType tc val type
        = .error ⟨"Oyyyy m80, I need a " ++ tc.name type ++ " here, not this bad boi " ++
            tc.name (tc.type val), tc.startPos val, tc.endPos val⟩) := by
  refine ⟨?_, ?_, ?_, ?_, ?_, ?_, ?_, ?_, ?_, ?_⟩
  · intro res
    unfold assertNum
    cases h : tc.isNum val
    · simp
    · simp [eq_comm]
  · intro h
    simp only [assertNum, h, Bool.false_eq_true, if_false, typeAssertFailed]
  · intro res
    unfold assertMidi
    cases h : tc.isMidi val
    · simp
    · simp [eq_comm]
  · intro h
    simp only [assertMidi, h, Bool.false_eq_true, if_false, typeAssertFailed]
  · intro res
    unfold assertTuple
    by_cases ht : tc.type val = type
    · cases h : tc.isTuple val
      · simp [ht]
      · simp [ht, eq_comm]
    · simp [ht]
  · intro h
    unfold assertTuple
    by_cases ht : tc.type val = type
    · have hf : tc.isTuple val = false := by
        cases hi : tc.isTuple val
        · rfl
        · exact absurd ⟨ht, hi⟩ h
      simp only [ht, if_true, hf, Bool.false_eq_true, if_false, typeAssertFailed]
    · simp only [ht, if_false, typeAssertFailed]
  · intro res
    unfold assertArray
    by_cases ht : tc.type val = type
    · cases h : tc.isArray val
      · simp [ht]
      · simp [ht, eq_comm]
    · simp [ht]
  · intro h
    unfold assertArray
    by_cases ht : tc.type val = type
    · have hf : tc.isArray val = false := by
        cases hi : tc.isArray val
        · rfl
        · exact absurd ⟨ht, hi⟩ h
      simp only [ht, if_true, hf, Bool.false_eq_true, if_false, typeAssertFailed]
    · simp only [ht, if_false, typeAssertFailed]
  · unfold assertType
    by_cases ht : tc.type val = type
    · simp [ht]
    · simp [ht]
  · intro h
    simp only [assertType, ne_eq, h, not_false_eq_true, if_true, typeAssertFailed]

/-- In the example, `assertNum` returns a number itself; on the tuple of type
`(num, num)`, at the span from `(2, 0)` to `(2, 6)`, it throws the error that
names `num` and then `(num, num)`, with this span; `assertTuple` returns the
tuple for its own type and throws for another type. -/
theorem assert_kind_witness :
    assertNum sampleChecks sampleNum = .ok sampleNum ∧
    assertNum sampleChecks samplePair
      = .error ⟨"Oyyyy m80, I need a num here, not this bad boi (num, num)", ⟨2, 0⟩, ⟨2, 6⟩⟩ ∧
    assertTuple sampleChecks samplePair "(num, num)" = .ok samplePair ∧
    assertTuple sampleChecks samplePair "(num, midi)"
      = .error ⟨"Oyyyy m80, I need a (num, midi) here, not this bad boi (num, num)",
          ⟨2, 0⟩, ⟨2, 6⟩⟩ :=
  ⟨((assert_kind_spec sampleChecks sampleNum "num").1 sampleNum).2 ⟨rfl, rfl⟩,
    (assert_kind_spec sampleChecks samplePair "num").2.1 rfl,
    ((assert_kind_spec sampleChecks samplePair "(num, num)").2.2.2.2.1 samplePair).2
      ⟨rfl, rfl, rfl⟩,
    (assert_kind_spec sampleChecks samplePair "(num, midi)").2.2.2.2.2.1 (by decide)⟩

end MaximCodegen

namespace ExpressionGenerator

open MaximCodegen (SourcePos)
open Builder

/-! ## Logical math expressions -/

/-- What the code does for C21: for a math expression of kind `LOGICAL_AND` or
`LOGICAL_OR` on two operands that generate numbers, both comparisons read the
left operand, so a lane of the result depends on the left operand alone: it is
the float `-1` when the lane of the left operand is not zero, and `0` otherwise,
whatever the right operand is. -/
theorem logical_math_reads_left_operand {F Controls Expr : Type} (ops : FloatOps F)
    (env : Env (F × F) Controls Expr) (expr : MathExpression Expr)
    (hp : expr.type = MathType.LOGICAL_AND ∨ expr.type = MathType.LOGICAL_OR)
    (scope scope1 scope2 : Scope (F × F) Controls) (cl cr : Bool) (l1 l2 r1 r2 : F)
    (lf rf : Nat)
    (hl : env.generateExpr expr.left scope = (.ok ⟨cl, .num (l1, l2) lf⟩, scope1))
    (hr : env.generateExpr expr.right scope1 = (.ok ⟨cr, .num (r1, r2) rf⟩, scope2)) :
    generateMath ops env expr scope
      = some (.ok ⟨cl && cr,
          .num (ops.ofInt (if ops.fcmp .FCMP_ONE l1 (ops.ofInt 0) then -1 else 0),
                ops.ofInt (if ops.fcmp .FCMP_ONE l2 (ops.ofInt 0) then -1 else 0)) lf⟩,
          scope2) := by
  rw [generateMath_nums ops env expr scope scope1 scope2 cl cr (l1, l2) (r1, r2) lf rf hl hr]
  rcases hp with h | h <;> rw [h] <;>
    simp only [generateFloatIntCompMath, generateIntCompMath, generateCompareMath,
      CreateBinOpI1, boolBinOp, CreateFCmp, CreateSIToFPI1, Bool.and_self, Bool.or_self,
      Option.map_some']

/-- In the example, `1 && 0` gives the lanes `(-1, -1)`, which are not zero, and
`0 || 1` gives the lanes `(0, 0)`. -/
theorem logical_math_witness :
    (sampleAnd.type = MathType.LOGICAL_AND ∨ sampleAnd.type = MathType.LOGICAL_OR) ∧
    generateMath sampleOps sampleLaneEnv sampleAnd sampleScope
      = some (.ok ⟨true, .num (-1, -1) 0⟩, sampleScope) ∧
    generateMath sampleOps sampleLaneEnv sampleOr sampleScope
      = some (.ok ⟨true, .num (0, 0) 0⟩, sampleScope) :=
  ⟨Or.inl rfl,
    logical_math_reads_left_operand sampleOps sampleLaneEnv sampleAnd (Or.inl rfl)
      sampleScope sampleScope sampleScope true true 1 1 0 0 0 0 rfl rfl,
    logical_math_reads_left_operand sampleOps sampleLaneEnv sampleOr (Or.inr rfl)
      sampleScope sampleScope sampleScope true true 0 0 1 1 0 0 rfl rfl⟩

/-! ## Calls of unknown functions -/

/-- What the code does for C22: when no overload is registered under the name,
`MaximContext::callFunction` throws an error with the span of the call whose
message contains the name; when the lookup of `generateCall` finds nothing,
`generateCall` throws an error with the span of the call expression whose
message is a fixed text, the same for every name, and leaves the scope as it
was. -/
theorem unknown_function_errors {V T Vec Controls Expr Fn : Type} (type : V → T)
    (call : MaximCodegen.Function T → List V → SourcePos → SourcePos →
      Except MaximCodegen.CompileError V)
    (functionMap : MaximCodegen.FunctionMap T) (name : String) (values : List V)
    (startPos endPos : SourcePos)
    (env : Env Vec Controls Expr) (getFunction : String → Option Fn)
    (generate : Fn → List (Value Vec × SourcePos × SourcePos) → SourcePos → SourcePos →
      Except CodegenError (Value Vec))
    (expr : CallExpression Expr) (scope : Scope Vec Controls)
    (hmap : functionMap.lookup name = none ∨ functionMap.lookup name = some [])
    (hget : getFunction expr.name = none) :
    (∃ message, MaximCodegen.callFunction type call functionMap name values startPos endPos
        = .error ⟨message, startPos, endPos⟩ ∧ name.data <:+: message.data) ∧
    generateCall env getFunction generate expr scope
      = (.error ⟨"WHAT IS THIS??!?! def not a valid function name :(", expr.startPos,
          expr.endPos⟩, scope) := by
  constructor
  · refine ⟨"WHAT IS THIS??!?! " ++ name ++ " is def not a valid function :(", ?_, ?_⟩
    · have hnone : MaximCodegen.getFunction functionMap name (values.map type) = none := by
        unfold MaximCodegen.getFunction
        rcases hmap with h | h <;> rw [h]
      simp only [MaximCodegen.callFunction, hnone]
    · rw [String.data_append, String.data_append]
      exact ⟨_, _, rfl⟩
  · simp only [generateCall, hget]

/-- In the examples, where no function `foo` is registered, the call of `foo`
through `callFunction` throws an error whose message contains `foo`, and the call
expression `foo(1)` throws an error whose message does not contain `foo`. -/
theorem unknown_function_witness :
    ((([] : MaximCodegen.FunctionMap Nat).lookup "foo" = none ∨
        ([] : MaximCodegen.FunctionMap Nat).lookup "foo" = some []) ∧
      sampleGetFunction sampleCallExpression.name = none) ∧
    ((∃ message, MaximCodegen.callFunction (fun _ => 0) MaximCodegen.sampleCall [] "foo" [1]
        ⟨3, 0⟩ ⟨3, 6⟩ = .error ⟨message, ⟨3, 0⟩, ⟨3, 6⟩⟩ ∧ "foo".data <:+: message.data) ∧
      generateCall sampleLaneEnv sampleGetFunction sampleGenerateCall sampleCallExpression
          sampleScope
        = (.error ⟨"WHAT IS THIS??!?! def not a valid function name :(", ⟨3, 0⟩, ⟨3, 6⟩⟩,
            sampleScope)) ∧
    ¬ ("foo".data <:+: "WHAT IS THIS??!?! def not a valid function name :(".data) :=
  ⟨⟨Or.inl rfl, rfl⟩,
    unknown_function_errors (fun _ => 0) MaximCodegen.sampleCall [] "foo" [1] ⟨3, 0⟩ ⟨3, 6⟩
      sampleLaneEnv sampleGetFunction sampleGenerateCall sampleCallExpression sampleScope
      (Or.inl rfl) rfl,
    by decide⟩

/-! ## Control properties and variables -/

/-- C24. Reading the property `prop` of a control throws if and only if the
control has no such property; the error then has the span of the expression and
a message that contains `prop`, and otherwise the value of the property is
returned. Writing the property throws if and only if `setProperty` rejects it,
and the message of the error contains `prop`. -/
theorem control_property_errors {Vec Controls Expr : Type} (env : Env Vec Controls Expr)
    (name : String) (type : Nat) (prop : String) (startPos endPos : SourcePos)
    (rightValue : Value Vec) (scope : Scope Vec Controls) :
    ((∃ err, (generateControl env name type prop startPos endPos scope).1 = .error err) ↔
      (env.readProperty scope.controls name type prop).2 = none) ∧
    (∀ err, (generateControl env name type prop startPos endPos scope).1 = .error err →
      err.start = startPos ∧ err.finish = endPos ∧ prop.data <:+: err.message.data) ∧
    (∀ val, (env.readProperty scope.controls name type prop).2 = some val →
      (generateControl env name type prop startPos endPos scope).1 = .ok val) ∧
    ((∃ err, (generateControlAssign env name type prop startPos endPos rightValue scope).1
        = .error err) ↔
      (env.writeProperty scope.controls name type prop rightValue).2 = false) ∧
    (∀ err, (generateControlAssign env name type prop startPos endPos rightValue scope).1
        = .error err →
      err.start = startPos ∧ err.finish = endPos ∧ prop.data <:+: err.message.data) ∧
    ((env.writeProperty scope.controls name type prop rightValue).2 = true →
      (generateControlAssign env name type prop startPos endPos rightValue scope).1
        = .ok ()) := by
  have hread : prop.data <:+:
      ("My longest ye boi ever: before you tried to read the " ++ prop ++
        " property which doesn't freakin exist!").data := by
    rw [String.data_append, String.data_append]
    exact ⟨_, _, rfl⟩
  have hwrite : prop.data <:+:
      ("A wise man once said, you can't bake your cake and eat it too. " ++
        "On a completely unrelated topic, " ++ prop ++
        " ISN\"T A VALID PROPERTY HERE!! D:").data := by
    rw [String.data_append, String.data_append]
    exact ⟨_, _, rfl⟩
  refine ⟨?_, ?_, ?_, ?_, ?_, ?_⟩
  · unfold generateControl
    cases env.readProperty scope.controls name type prop with
    | mk controls found =>
      cases found with
      | none => simp
      | some val => simp
  · intro err h
    unfold generateControl at h
    cases hr : env.readProperty scope.controls name type prop with
    | mk controls found =>
      rw [hr] at h
      cases found with
      | none =>
        simp only [Except.error.injEq] at h
        subst h
        exact ⟨rfl, rfl, hread⟩
      | some val => simp at h
  · intro val h
    unfold generateControl
    cases hr : env.readProperty scope.controls name type prop with
    | mk controls found =>
      rw [hr] at h
      simp only at h
      subst h
      rfl
  · unfold generateControlAssign
    cases env.writeProperty scope.controls name type prop rightValue with
    | mk controls accepted =>
      cases accepted with
      | false => simp
      | true => simp
  · intro err h
    unfold generateControlAssign at h
    cases hr : env.writeProperty scope.controls name type prop rightValue with
    | mk controls accepted =>
      rw [hr] at h
      cases accepted with
      | false =>
        simp only [Except.error.injEq] at h
        subst h
        exact ⟨rfl, rfl, hwrite⟩
      | true => simp at h
  · intro h
    unfold generateControlAssign
    cases hr : env.writeProperty scope.controls name type prop rightValue with
    | mk controls accepted =>
      rw [hr] at h
      simp only at h
      subst h
      rfl

/-- In the example environment, where the node has no control property,
reading `knob:value` throws an error whose message contains `value`, with the
span of the expression, and so does writing it. -/
theorem control_property_witness :
    (∃ err, (generateControl sampleLaneEnv "knob" 0 "value" ⟨2, 0⟩ ⟨2, 10⟩ sampleScope).1
        = .error err ∧ err.start = ⟨2, 0⟩ ∧ err.finish = ⟨2, 10⟩ ∧
        "value".data <:+: err.message.data) ∧
    (∃ err, (generateControlAssign sampleLaneEnv "knob" 0 "value" ⟨2, 0⟩ ⟨2, 10⟩
        ⟨true, .num (1, 1) 0⟩ sampleScope).1 = .error err ∧
        "value".data <:+: err.message.data) :=
  have h := control_property_errors sampleLaneEnv "knob" 0 "value" ⟨2, 0⟩ ⟨2, 10⟩
    ⟨true, .num (1, 1) 0⟩ sampleScope
  ⟨(h.1.2 rfl).elim (fun err herr => ⟨err, herr, h.2.1 err herr⟩),
    (h.2.2.2.1.2 rfl).elim (fun err herr => ⟨err, herr, (h.2.2.2.2.1 err herr).2.2⟩)⟩

/-- C25. Reading the variable `x` throws if and only if `x` has no binding in
the scope, and the read leaves the scope as it was. After a plain assignment
`x = e` has succeeded with the value `v`, `v` is the value `e` generated, and
reading `x` in the scope the assignment leaves returns `v`; this still holds
after values have been assigned to targets other than the variable `x`. -/
theorem variable_read_after_assign {Vec Controls Expr : Type} (env : Env Vec Controls Expr)
    (x : String) (startPos endPos : SourcePos) (scope : Scope Vec Controls) :
    ((∃ err, (generateVariable x startPos endPos scope).1 = .error err) ↔
      scope.findValue x = none) ∧
    (generateVariable x startPos endPos scope).2 = scope ∧
    (∀ (expr : AssignExpression Expr) (s e : SourcePos) (v : Value Vec)
        (scope2 : Scope Vec Controls),
      expr.left = [Assignable.variable x s e] → expr.type = AssignType.ASSIGN →
      generateAssign env expr scope = (.ok v, scope2) →
      (∃ scope1, env.generateExpr expr.right scope = (.ok v, scope1) ∧
        scope2 = scope1.setValue x v) ∧
      generateVariable x startPos endPos scope2 = (.ok v, scope2) ∧
      ∀ (targets : List Assignable) (w : Value Vec),
        (∀ s' e', Assignable.variable x s' e' ∉ targets) →
        generateVariable x startPos endPos (targets.foldl (assignTarget env w) scope2)
          = (.ok v, targets.foldl (assignTarget env w) scope2)) := by
  refine ⟨?_, ?_, ?_⟩
  · unfold generateVariable
    cases scope.findValue x with
    | none => simp
    | some val => simp
  · unfold generateVariable
    cases scope.findValue x <;> rfl
  · intro expr s e v scope2 hleft htype hassign
    have hgen : ∃ scope1, env.generateExpr expr.right scope = (.ok v, scope1) ∧
        scope2 = scope1.setValue x v := by
      unfold generateAssign at hassign
      cases hr : env.generateExpr expr.right scope with
      | mk res scope1 =>
        rw [hr] at hassign
        cases res with
        | error err => simp at hassign
        | ok rightExpr =>
          simp only [hleft, htype, List.length_singleton, gt_iff_lt, lt_self_iff_false,
            if_false, generateSingleAssign, if_true, generateBasicAssign,
            generateVariableAssign, Prod.mk.injEq, Except.ok.injEq] at hassign
          obtain ⟨h1, h2⟩ := hassign
          subst h1
          exact ⟨scope1, rfl, h2.symm⟩
    obtain ⟨scope1, hright, hscope⟩ := hgen
    have hfind : scope2.findValue x = some v := by
      rw [hscope, findValue_setValue, if_pos rfl]
    refine ⟨⟨scope1, hright, hscope⟩, ?_, ?_⟩
    · simp only [generateVariable, hfind]
    · intro targets w hnot
      have hkeep : ∀ (targets : List Assignable) (sc : Scope Vec Controls),
          (∀ s' e', Assignable.variable x s' e' ∉ targets) → sc.findValue x = some v →
          (targets.foldl (assignTarget env w) sc).findValue x = some v := by
        intro targets
        induction targets with
        | nil => intro sc _ h; exact h
        | cons t targets ih =>
          intro sc hn h
          rw [List.foldl_cons]
          apply ih
          · intro s' e' hmem
            exact hn s' e' (List.mem_cons_of_mem _ hmem)
          · rcases t with ⟨y, s0, e0⟩ | ⟨cname, ctype, cprop, s0, e0⟩
            · rw [findValue_assignTarget_variable]
              by_cases hxy : x = y
              · subst hxy
                exact absurd (List.mem_cons_self _ _) (hn s0 e0)
              · rw [if_neg hxy]
                exact h
            · rw [findValue_assignTarget_control]
              exact h
      simp only [generateVariable, hkeep targets scope2 hnot hfind]

/-- In the example, after `a = {7, 7}` in the empty scope, reading `a` returns
`{7, 7}`, also after `b` has been assigned another value. -/
theorem variable_read_witness :
    samplePlainAssign.left = [Assignable.variable "a" ⟨0, 0⟩ ⟨0, 1⟩] ∧
    samplePlainAssign.type = AssignType.ASSIGN ∧
    generateAssign sampleLaneEnv samplePlainAssign ⟨[], ()⟩
      = (.ok ⟨true, .num (7, 7) 0⟩, ⟨[("a", ⟨true, .num (7, 7) 0⟩)], ()⟩) ∧
    generateVariable "a" ⟨1, 0⟩ ⟨1, 1⟩
        (([Assignable.variable "b" ⟨0, 0⟩ ⟨0, 1⟩].foldl
          (assignTarget sampleLaneEnv ⟨true, .num (9, 9) 0⟩)
          (⟨[("a", ⟨true, .num (7, 7) 0⟩)], ()⟩ : Scope (Int × Int) Unit)))
      = (.ok ⟨true, .num (7, 7) 0⟩,
          [Assignable.variable "b" ⟨0, 0⟩ ⟨0, 1⟩].foldl
            (assignTarget sampleLaneEnv ⟨true, .num (9, 9) 0⟩)
            (⟨[("a", ⟨true, .num (7, 7) 0⟩)], ()⟩ : Scope (Int × Int) Unit)) :=
  ⟨rfl, rfl, rfl,
    ((variable_read_after_assign sampleLaneEnv "a" ⟨1, 0⟩ ⟨1, 1⟩ ⟨[], ()⟩).2.2
      samplePlainAssign ⟨0, 0⟩ ⟨0, 1⟩ ⟨true, .num (7, 7) 0⟩
      ⟨[("a", ⟨true, .num (7, 7) 0⟩)], ()⟩ rfl rfl rfl).2.2
      [Assignable.variable "b" ⟨0, 0⟩ ⟨0, 1⟩] ⟨true, .num (9, 9) 0⟩
      (by
        intro s' e' h
        simp only [List.mem_singleton, Assignable.variable.injEq] at h
        exact absurd h.1 (by decide))⟩

/-! ## Cast expressions -/

theorem castArguments_numbers {Vec Controls Expr : Type} (env : Env Vec Controls Expr) :
    ∀ (args : List Expr) (scope final : Scope Vec Controls) (nums : List (Bool × Vec × Nat)),
    GeneratesNumbers env args scope nums final →
    castArguments env args scope
      = (.ok (nums.all (fun n => n.1), nums.map (fun n => n.2.1)), final) ∧
    nums.length = args.length := by
  intro args
  induction args with
  | nil =>
    rintro scope final nums ⟨rfl, rfl⟩
    exact ⟨rfl, rfl⟩
  | cons arg rest ih =>
    rintro scope final nums ⟨isConst, vec, form, scope1, tail, hgen, rfl, hrest⟩
    obtain ⟨h1, h2⟩ := ih scope1 final tail hrest
    refine ⟨?_, by simp [h2]⟩
    simp only [castArguments, hgen, h1, List.all_cons, List.map_cons]

theorem castArguments_not_number {Vec Controls Expr : Type} (env : Env Vec Controls Expr)
    (arg : Expr) (post : List Expr) (a : Value Vec) (scope3 : Scope Vec Controls)
    (ha : ∀ v f, a.value ≠ .num v f) :
    ∀ (pre : List Expr) (scope scope2 : Scope Vec Controls) (nums : List (Bool × Vec × Nat)),
    GeneratesNumbers env pre scope nums scope2 →
    env.generateExpr arg scope2 = (.ok a, scope3) →
    castArguments env (pre ++ arg :: post) scope
      = (.error (env.checkPtrTypeError a.value (env.span arg).1 (env.span arg).2), scope3) := by
  intro pre
  induction pre with
  | nil =>
    rintro scope scope2 nums ⟨rfl, rfl⟩ hgen
    obtain ⟨isConst, value⟩ := a
    cases value with
    | num v f => exact absurd rfl (ha v f)
    | midi event => simp only [List.nil_append, castArguments, hgen]
    | tuple items => simp only [List.nil_append, castArguments, hgen]
  | cons p pre ih =>
    rintro scope scope2 nums ⟨isConst, vec, form, scope1, tail, hgen, rfl, hrest⟩ harg
    rw [List.cons_append]
    simp only [castArguments, hgen]
    rw [ih scope1 scope2 tail hrest harg]

theorem paramArr_spec {Vec : Type} (formParamCount : Nat) (params : List Vec)
    (h : params.length ≤ formParamCount) :
    (paramArr formParamCount params).length = formParamCount ∧
    (paramArr formParamCount params).take params.length = params.map some := by
  unfold paramArr
  constructor
  · simp only [List.length_append, List.length_map, List.length_replicate]
    omega
  · rw [List.take_append_of_le_length (by simp)]
    rw [List.take_of_length_le (by simp)]

/-- C23. For a cast expression with `n` form arguments: when `n` is greater
than `formParamCount`, `generateCast` throws (when the base generates a number,
the error of the parameter count, spanning the arguments). Otherwise, for a cast
that does not convert, when the base generates the number `base` and the
arguments generate numbers, the result is a number with the lanes of `base`,
the form made of the target type and of the parameter array whose first `n`
entries are the generated arguments, and the constant flag of `base` and of all
arguments together. A base that is not a number throws the type error for the
base, and the first argument that is not a number throws the type error for
this argument. -/
theorem generateCast_spec {Vec Controls Expr : Type} (env : Env Vec Controls Expr)
    (formParamCount : Nat) (formValue : Nat → List (Option Vec) → Nat)
    (expr : CastExpression Expr) (scope : Scope Vec Controls) :
    (expr.target.arguments.length > formParamCount →
      ∃ err final, generateCast env formParamCount formValue expr scope
        = some (.error err, final)) ∧
    (∀ isConst vec form scope1,
      env.generateExpr expr.expr scope = (.ok ⟨isConst, .num vec form⟩, scope1) →
      expr.target.arguments.length > formParamCount →
      ∃ first last, expr.target.arguments.head? = some first ∧
        expr.target.arguments.getLast? = some last ∧
        generateCast env formParamCount formValue expr scope
          = some (.error ⟨castArityMessage formParamCount, (env.span first).1,
              (env.span last).2⟩, scope1)) ∧
    (∀ isConst vec form scope1 nums final,
      env.generateExpr expr.expr scope = (.ok ⟨isConst, .num vec form⟩, scope1) →
      expr.target.arguments.length ≤ formParamCount → expr.isConvert = false →
      GeneratesNumbers env expr.target.arguments scope1 nums final →
      generateCast env formParamCount formValue expr scope
        = some (.ok ⟨isConst && nums.all (fun n => n.1),
            .num vec (formValue expr.target.type
              (paramArr formParamCount (nums.map (fun n => n.2.1))))⟩, final) ∧
      (paramArr formParamCount (nums.map (fun n => n.2.1))).length = formParamCount ∧
      (paramArr formParamCount (nums.map (fun n => n.2.1))).take
          expr.target.arguments.length
        = (nums.map (fun n => n.2.1)).map some) ∧
    (∀ base scope1, env.generateExpr expr.expr scope = (.ok base, scope1) →
      (∀ v f, base.value ≠ .num v f) →
      generateCast env formParamCount formValue expr scope
        = some (.error (env.checkPtrTypeError base.value (env.span expr.expr).1
            (env.span expr.expr).2), scope1)) ∧
    (∀ isConst vec form scope1 pre arg post nums scope2 a scope3,
      env.generateExpr expr.expr scope = (.ok ⟨isConst, .num vec form⟩, scope1) →
      expr.target.arguments.length ≤ formParamCount →
      expr.target.arguments = pre ++ arg :: post →
      GeneratesNumbers env pre scope1 nums scope2 →
      env.generateExpr arg scope2 = (.ok a, scope3) → (∀ v f, a.value ≠ .num v f) →
      generateCast env formParamCount formValue expr scope
        = some (.error (env.checkPtrTypeError a.value (env.span arg).1 (env.span arg).2),
            scope3)) := by
  have harity : ∀ isConst vec form scope1,
      env.generateExpr expr.expr scope = (.ok ⟨isConst, .num vec form⟩, scope1) →
      expr.target.arguments.length > formParamCount →
      ∃ first last, expr.target.arguments.head? = some first ∧
        expr.target.arguments.getLast? = some last ∧
        generateCast env formParamCount formValue expr scope
          = some (.error ⟨castArityMessage formParamCount, (env.span first).1,
              (env.span last).2⟩, scope1) := by
    intro isConst vec form scope1 hbase hlen
    cases hargs : expr.target.arguments with
    | nil =>
      rw [hargs] at hlen
      exact absurd hlen (by simp)
    | cons first rest =>
      have hne : first :: rest ≠ [] := List.cons_ne_nil _ _
      refine ⟨first, (first :: rest).getLast hne, rfl, List.getLast?_eq_getLast _ hne, ?_⟩
      have hlen' : (first :: rest).length > formParamCount := by rw [← hargs]; exact hlen
      simp only [generateCast, hbase, hargs, hlen', if_true, List.head?_cons,
        List.getLast?_eq_getLast _ hne]
  refine ⟨?_, harity, ?_, ?_, ?_⟩
  · intro hlen
    cases hbase : env.generateExpr expr.expr scope with
    | mk res scope1 =>
      cases res with
      | error err => exact ⟨err, scope1, by simp only [generateCast, hbase]⟩
      | ok base =>
        obtain ⟨isConst, value⟩ := base
        cases value with
        | num vec form =>
          obtain ⟨first, last, _, _, h⟩ := harity isConst vec form scope1 hbase hlen
          exact ⟨_, _, h⟩
        | midi event =>
          exact ⟨env.checkPtrTypeError (.midi event) (env.span expr.expr).1
            (env.span expr.expr).2, scope1, by simp only [generateCast, hbase]⟩
        | tuple items =>
          exact ⟨env.checkPtrTypeError (.tuple items) (env.span expr.expr).1
            (env.span expr.expr).2, scope1, by simp only [generateCast, hbase]⟩
  · intro isConst vec form scope1 nums final hbase hlen hconv hnums
    obtain ⟨hargs, hcount⟩ := castArguments_numbers env _ _ _ _ hnums
    have hlen' : ¬ expr.target.arguments.length > formParamCount := Nat.not_lt.2 hlen
    have hp := paramArr_spec formParamCount (nums.map (fun n => n.2.1))
      (by rw [List.length_map, hcount]; exact hlen)
    refine ⟨?_, hp.1, ?_⟩
    · simp only [generateCast, hbase, hlen', if_false, hargs, hconv, Bool.false_eq_true]
    · have := hp.2
      rw [List.length_map, hcount] at this
      exact this
  · intro base scope1 hbase hnot
    obtain ⟨isConst, value⟩ := base
    cases value with
    | num vec form => exact absurd rfl (hnot vec form)
    | midi event => simp only [generateCast, hbase]
    | tuple items => simp only [generateCast, hbase]
  · intro isConst vec form scope1 pre arg post nums scope2 a scope3 hbase hlen hargs hnums
      harg ha
    have hlen' : ¬ expr.target.arguments.length > formParamCount := Nat.not_lt.2 hlen
    have herr := castArguments_not_number env arg post a scope3 ha pre scope1 scope2 nums
      hnums harg
    rw [← hargs] at herr
    simp only [generateCast, hbase, hlen', if_false, herr]

/-- In the example, with two form parameters, the cast of the constant `{5, 5}`
to the form 3 with the argument `{2, 2}`, which is not constant, gives the
number `{5, 5}` that is not constant, of the form made of the type 3 and of the
parameters `{2, 2}` and null. -/
theorem generateCast_witness :
    sampleLaneEnv.generateExpr sampleCast.expr sampleScope
      = (.ok ⟨true, .num (5, 5) 0⟩, sampleScope) ∧
    sampleCast.target.arguments.length ≤ 2 ∧ sampleCast.isConvert = false ∧
    GeneratesNumbers sampleLaneEnv sampleCast.target.arguments sampleScope
      [(false, (2, 2), 0)] sampleScope ∧
    generateCast sampleLaneEnv 2 sampleFormValue sampleCast sampleScope
      = some (.ok ⟨false, .num (5, 5) (sampleFormValue 3 [some (2, 2), none])⟩,
          sampleScope) :=
  ⟨rfl, by decide, rfl, ⟨false, (2, 2), 0, sampleScope, [], rfl, rfl, rfl, rfl⟩,
    ((generateCast_spec sampleLaneEnv 2 sampleFormValue sampleCast sampleScope).2.2.1
      true (5, 5) 0 sampleScope [(false, (2, 2), 0)] sampleScope rfl (by decide) rfl
      ⟨false, (2, 2), 0, sampleScope, [], rfl, rfl, rfl, rfl⟩).1⟩

end ExpressionGenerator

namespace SurfaceMir

/-! ## Socket indices -/

theorem get?_concat_eq_some {α : Type} (l : List α) (a b : α) (i : Nat) :
    (l ++ [a]).get? i = some b ↔ l.get? i = some b ∨ (i = l.length ∧ a = b) := by
  simp only [List.get?_eq_getElem?]
  by_cases h : i < l.length
  · rw [List.getElem?_append_left h]
    constructor
    · exact Or.inl
    · rintro (h1 | ⟨h1, _⟩)
      · exact h1
      · omega
  · rw [List.getElem?_append_right (Nat.le_of_not_lt h)]
    have hnone : l[i]? = none := List.getElem?_eq_none (Nat.le_of_not_lt h)
    rw [hnone]
    by_cases h2 : i = l.length
    · subst h2
      simp
    · have : i - l.length ≠ 0 := by omega
      obtain ⟨m, hm⟩ := Nat.exists_eq_succ_of_ne_zero this
      rw [hm]
      simp [h2]

theorem classifyStep_cases (s : Surface) (cs cs' : ClassifyState) (p : Nat × List QUuid)
    (h : classifyStep s cs p = some cs') :
    ∃ g, cs'.mirGroups = cs.mirGroups ++ [g] ∧ cs'.index = cs.index + 1 ∧
      ((g.source = ValueGroupSource.socket cs.sockets.length ∧
          cs'.sockets = cs.sockets ++ [cs.index]) ∨
        ((∀ k, g.source ≠ ValueGroupSource.socket k) ∧ cs'.sockets = cs.sockets)) := by
  cases hgt : getGroupType (s.controlPointers p.2) with
  | none => simp [classifyStep, hgt] at h
  | some groupType =>
    simp only [classifyStep, hgt] at h
    have hplain : ∀ cs1 : ClassifyState,
        cs1 = { mirGroups := cs.mirGroups ++
                  [⟨groupType, groupSource (s.controlPointers p.2) groupType cs.sockets.length⟩]
                valueGroupIndices := cs.valueGroupIndices ++ [(p.1, cs.index)]
                valueGroups := cs.valueGroups ++ [p.1]
                sockets :=
                  if areAnyExposed (s.controlPointers p.2) = true then cs.sockets ++ [cs.index]
                  else cs.sockets
                rootPortals := cs.rootPortals
                index := cs.index + 1 } →
        ∃ g, cs1.mirGroups = cs.mirGroups ++ [g] ∧ cs1.index = cs.index + 1 ∧
          ((g.source = ValueGroupSource.socket cs.sockets.length ∧
              cs1.sockets = cs.sockets ++ [cs.index]) ∨
            ((∀ k, g.source ≠ ValueGroupSource.socket k) ∧ cs1.sockets = cs.sockets)) := by
      intro cs1 hcs1
      subst hcs1
      refine ⟨_, rfl, rfl, ?_⟩
      by_cases he : areAnyExposed (s.controlPointers p.2) = true
      · left
        refine ⟨?_, by simp [he]⟩
        simp [groupSource, he]
      · right
        refine ⟨?_, by simp [he]⟩
        intro k hk
        exact he ((groupSource_socket_iff _ _ _).1 ⟨k, hk⟩)
    by_cases hroot : s.isRoot = true
    · cases hfp : findPortal (s.controlPointers p.2) with
      | some portal =>
        simp only [hroot, if_true, hfp, Option.some.injEq] at h
        subst h
        exact ⟨_, rfl, rfl, Or.inl ⟨rfl, rfl⟩⟩
      | none =>
        simp only [hroot, if_true, hfp, Option.some.injEq] at h
        exact hplain cs' h.symm
    · simp only [hroot, Bool.false_eq_true, if_false, Option.some.injEq] at h
      exact hplain cs' h.symm

theorem ClassifyState.SocketsOk.sockets_empty : ClassifyState.empty.SocketsOk where
  length_eq := rfl
  socket_of_source := by simp [ClassifyState.empty]
  source_of_socket := by simp [ClassifyState.empty]
  increasing := by simp [ClassifyState.empty]
  bound := by simp [ClassifyState.empty]

theorem ClassifyState.SocketsOk.sockets_step {cs cs' : ClassifyState} (hok : cs.SocketsOk)
    {g : MirValueGroup} (hm : cs'.mirGroups = cs.mirGroups ++ [g])
    (hi : cs'.index = cs.index + 1)
    (hs : (g.source = ValueGroupSource.socket cs.sockets.length ∧
          cs'.sockets = cs.sockets ++ [cs.index]) ∨
        ((∀ k, g.source ≠ ValueGroupSource.socket k) ∧ cs'.sockets = cs.sockets)) :
    cs'.SocketsOk := by
  have hlen := hok.length_eq
  have hsock_lt : ∀ k i, cs.sockets.get? k = some i → k < cs.sockets.length := by
    intro k i hk
    rw [List.get?_eq_getElem?] at hk
    by_contra hge
    rw [List.getElem?_eq_none (Nat.le_of_not_lt hge)] at hk
    exact absurd hk (by simp)
  have hmir_lt : ∀ i g', cs.mirGroups.get? i = some g' → i < cs.mirGroups.length := by
    intro i g' hk
    rw [List.get?_eq_getElem?] at hk
    by_contra hge
    rw [List.getElem?_eq_none (Nat.le_of_not_lt hge)] at hk
    exact absurd hk (by simp)
  rcases hs with ⟨hsrc, hsockets⟩ | ⟨hsrc, hsockets⟩
  · refine ⟨?_, ?_, ?_, ?_, ?_⟩
    · rw [hi, hm, hlen]
      simp
    · intro i g' k hg' hk
      rw [hm, get?_concat_eq_some] at hg'
      rw [hsockets, get?_concat_eq_some]
      rcases hg' with hg' | ⟨hil, hgg⟩
      · exact Or.inl (hok.socket_of_source i g' k hg' hk)
      · right
        subst hgg
        rw [hsrc] at hk
        injection hk with hk
        exact ⟨hk.symm, by rw [hil, hlen]⟩
    · intro k i hk
      rw [hsockets, get?_concat_eq_some] at hk
      rw [hm]
      rcases hk with hk | ⟨hkl, hki⟩
      · obtain ⟨g', hg', hsrc'⟩ := hok.source_of_socket k i hk
        exact ⟨g', (get?_concat_eq_some _ _ _ _).2 (Or.inl hg'), hsrc'⟩
      · refine ⟨g, (get?_concat_eq_some _ _ _ _).2 (Or.inr ⟨?_, rfl⟩), ?_⟩
        · rw [← hki, hlen]
        · rw [hsrc, hkl]
    · rw [hsockets, List.pairwise_append]
      refine ⟨hok.increasing, by simp, ?_⟩
      intro a ha b hb
      simp only [List.mem_singleton] at hb
      rw [hb]
      exact hok.bound a ha
    · intro i hmem
      rw [hsockets] at hmem
      rw [hi]
      rcases List.mem_append.1 hmem with h1 | h1
      · exact Nat.lt_succ_of_lt (hok.bound i h1)
      · simp only [List.mem_singleton] at h1
        rw [h1]
        exact Nat.lt_succ_self _
  · refine ⟨?_, ?_, ?_, ?_, ?_⟩
    · rw [hi, hm, hlen]
      simp
    · intro i g' k hg' hk
      rw [hm, get?_concat_eq_some] at hg'
      rw [hsockets]
      rcases hg' with hg' | ⟨_, hgg⟩
      · exact hok.socket_of_source i g' k hg' hk
      · subst hgg
        exact absurd hk (hsrc k)
    · intro k i hk
      rw [hsockets] at hk
      rw [hm]
      obtain ⟨g', hg', hsrc'⟩ := hok.source_of_socket k i hk
      exact ⟨g', (get?_concat_eq_some _ _ _ _).2 (Or.inl hg'), hsrc'⟩
    · rw [hsockets]
      exact hok.increasing
    · intro i hmem
      rw [hsockets] at hmem
      rw [hi]
      exact Nat.lt_succ_of_lt (hok.bound i hmem)

theorem classifyLoop_sockets (s : Surface) :
    ∀ (groups : List (Nat × List QUuid)) (cs cs' : ClassifyState), cs.SocketsOk →
    groups.foldlM (classifyStep s) cs = some cs' → cs'.SocketsOk := by
  intro groups
  induction groups with
  | nil =>
    intro cs cs' hok h
    simp only [List.foldlM_nil, Option.pure_def, Option.some.injEq] at h
    subst h
    exact hok
  | cons p groups ih =>
    intro cs cs' hok h
    simp only [List.foldlM_cons, Option.bind_eq_bind] at h
    cases hstep : classifyStep s cs p with
    | none => rw [hstep] at h; simp at h
    | some cs1 =>
      rw [hstep] at h
      simp only [Option.some_bind] at h
      obtain ⟨g, hm, hi, hs⟩ := classifyStep_cases s cs cs1 p hstep
      exact ih cs1 cs' (hok.sockets_step hm hi hs) h

/-- On a well-formed surface with resolved portals, the parts of the run of
`build`: its tables represent the graph, the classification adds the groups in
order and hands out the sockets in step with their sources, and the result holds
what the loops produced. -/
theorem build_parts {s : Surface} (hw : s.WellFormed) (hp : s.PortalsResolved) :
    ∃ st cs ws r, build s = some r ∧ buildGroups s = some st ∧
      classifyGroups s st.groups = some cs ∧ wireNodes s st cs = some ws ∧
      Represents (fun u => ∃ c ∈ s.groupedControls, c.uuid = u) st
        (touched s.groupedControls)
        (fun a b => walked s.groupedControls a b ∨ portalLinks s.portals a b) ∧
      cs.Ok (st.groups.map Prod.fst) ∧ cs.SocketsOk ∧
      List.Forall₂ (EmittedFor s) st.groups cs.mirGroups ∧
      r.tables = st ∧ r.valueGroupIndices = cs.valueGroupIndices ∧ r.sockets = cs.sockets ∧
      r.valueGroups = cs.mirGroups ∧ r.nodes = ws.mirNodes ∧
      r.compileIndices = ws.compileIndices ∧
      (s.isRoot = false → cs.sockets.mapM (socketPortal s st cs) = some r.groupPortals) := by
  obtain ⟨st, r, hst, hr, ht, hrep, hne, _, _⟩ := build_spec hw hp
  obtain ⟨st', cs, ws, hst', hcs, hws, ht', h1, h2, h3, h4, h5, _, _, h6, _⟩ :=
    build_eq_some hr
  have hst_eq : st' = st := by
    rw [hst] at hst'
    exact (Option.some.inj hst').symm
  subst hst_eq
  obtain ⟨cs2, hcs2, hok, hfa⟩ := classifyGroups_spec s st'.groups hne
  have hcs_eq : cs2 = cs := by
    rw [hcs] at hcs2
    exact (Option.some.inj hcs2).symm
  subst hcs_eq
  have hsock : cs2.SocketsOk :=
    classifyLoop_sockets s st'.groups ClassifyState.empty cs2
      ClassifyState.SocketsOk.sockets_empty hcs
  exact ⟨st', cs2, ws, r, hr, hst, hcs, hws, hrep, hok, hsock, hfa, ht', h1, h2, h3, h4, h5,
    h6⟩

theorem lookup_zip_range {keys : List Nat} (hn : keys.Nodup) {i g : Nat}
    (h : keys.get? i = some g) : (keys.zip (List.range keys.length)).lookup g = some i := by
  apply lookup_of_mem
  · rw [List.map_fst_zip]
    · exact hn
    · simp
  · rw [List.get?_eq_getElem?] at h
    have hlt : i < keys.length := by
      by_contra hge
      rw [List.getElem?_eq_none (Nat.le_of_not_lt hge)] at h
      exact absurd h (by simp)
    apply List.mem_iff_get?.2
    refine ⟨i, ?_⟩
    rw [List.get?_eq_getElem?, List.getElem?_zip_eq_some]
    exact ⟨h, by rw [List.getElem?_range hlt]⟩

/-- C35. On a well-formed surface with resolved portals `build` succeeds, and
within the run: every group of `groups` is added by `addValueGroup` exactly
once, in order; the group added `i`-th has the index `i` in `valueGroupIndices`;
a group added with the source `socket(k)` is the group `sockets[k]`, every entry
`sockets[k]` is the index of a group added with the source `socket(k)`, so the
socket indices handed out are `0`, ..., `sockets.size() - 1`; `sockets` is
increasing, so they are handed out in the order the groups are added; and no two
groups share a socket index. -/
theorem classification_indices (s : Surface) (hw : s.WellFormed) (hp : s.PortalsResolved) :
    ∃ r, build s = some r ∧
      List.Forall₂ (EmittedFor s) r.tables.groups r.valueGroups ∧
      (∀ i p, r.tables.groups.get? i = some p → r.valueGroupIndices.lookup p.1 = some i) ∧
      (∀ i g k, r.valueGroups.get? i = some g → g.source = ValueGroupSource.socket k →
        r.sockets.get? k = some i) ∧
      (∀ k i, r.sockets.get? k = some i →
        ∃ g, r.valueGroups.get? i = some g ∧ g.source = ValueGroupSource.socket k) ∧
      r.sockets.Pairwise (fun a b => a < b) ∧
      (∀ i j g g' k, r.valueGroups.get? i = some g → r.valueGroups.get? j = some g' →
        g.source = ValueGroupSource.socket k → g'.source = ValueGroupSource.socket k →
        i = j) := by
  obtain ⟨st, cs, ws, r, hr, _, _, _, hrep, hok, hsock, hfa, ht, hvi, hs, hvg, _, _, _⟩ :=
    build_parts hw hp
  refine ⟨r, hr, ?_, ?_, ?_, ?_, ?_, ?_⟩
  · rw [ht, hvg]
    exact hfa
  · intro i p hget
    rw [hvi, hok.indices_eq]
    apply lookup_zip_range hrep.inv.keysNodup
    rw [ht] at hget
    rw [List.get?_eq_getElem?, List.getElem?_map]
    rw [List.get?_eq_getElem?] at hget
    rw [hget]
    rfl
  · intro i g k hg hk
    rw [hs]
    rw [hvg] at hg
    exact hsock.socket_of_source i g k hg hk
  · intro k i hk
    rw [hvg]
    rw [hs] at hk
    exact hsock.source_of_socket k i hk
  · rw [hs]
    exact hsock.increasing
  · intro i j g g' k hg hg' hk hk'
    rw [hvg] at hg hg'
    have h1 := hsock.socket_of_source i g k hg hk
    have h2 := hsock.socket_of_source j g' k hg' hk'
    rw [h1] at h2
    exact Option.some.inj h2

/-- On `socketSurface` the three groups are added in order with the indices 0,
1 and 2; the groups 0 and 2 are the sockets 0 and 1. -/
theorem classification_witness :
    (socketSurface.WellFormed ∧ socketSurface.PortalsResolved) ∧
    (∃ r, build socketSurface = some r ∧
      List.Forall₂ (EmittedFor socketSurface) r.tables.groups r.valueGroups ∧
      (∀ i p, r.tables.groups.get? i = some p → r.valueGroupIndices.lookup p.1 = some i) ∧
      (∀ i g k, r.valueGroups.get? i = some g → g.source = ValueGroupSource.socket k →
        r.sockets.get? k = some i) ∧
      (∀ k i, r.sockets.get? k = some i →
        ∃ g, r.valueGroups.get? i = some g ∧ g.source = ValueGroupSource.socket k) ∧
      r.sockets.Pairwise (fun a b => a < b) ∧
      (∀ i j g g' k, r.valueGroups.get? i = some g → r.valueGroups.get? j = some g' →
        g.source = ValueGroupSource.socket k → g'.source = ValueGroupSource.socket k →
        i = j)) ∧
    (build socketSurface).map
        (fun r => (r.tables.groups, r.valueGroupIndices, r.sockets,
          r.valueGroups.map (fun g => g.source)))
      = some ([(2, [4]), (1, [3]), (0, [1, 2])], [(2, 0), (1, 1), (0, 2)], [0, 2],
          [ValueGroupSource.socket 0,
            ValueGroupSource.default_val ⟨Lane.ofNat 1, Lane.ofNat 0, FormType.LINEAR⟩,
            ValueGroupSource.socket 1]) :=
  ⟨⟨by decide, by decide⟩, classification_indices socketSurface (by decide) (by decide),
    by decide⟩

/-! ## The metadata of a group surface -/

theorem forall₂_get? {α β : Type} {R : α → β → Prop} :
    ∀ {l : List α} {l' : List β}, List.Forall₂ R l l' →
    l.length = l'.length ∧
      (∀ k b, l'.get? k = some b → ∃ a, l.get? k = some a ∧ R a b) ∧
      (∀ k a, l.get? k = some a → ∃ b, l'.get? k = some b ∧ R a b) := by
  intro l l' h
  induction h with
  | nil => simp
  | cons hab _ ih =>
    obtain ⟨h1, h2, h3⟩ := ih
    refine ⟨by simp [h1], ?_, ?_⟩
    · intro k b hk
      cases k with
      | zero =>
        simp only [List.get?_cons_zero, Option.some.injEq] at hk
        subst hk
        exact ⟨_, rfl, hab⟩
      | succ k =>
        simp only [List.get?_cons_succ] at hk
        exact h2 k b hk
    · intro k a hk
      cases k with
      | zero =>
        simp only [List.get?_cons_zero, Option.some.injEq] at hk
        subst hk
        exact ⟨_, rfl, hab⟩
      | succ k =>
        simp only [List.get?_cons_succ] at hk
        exact h3 k a hk

theorem controlPointers_subset_members {s : Surface} {ids : List QUuid} {c : Control}
    (h : c ∈ s.controlPointers ids) : c ∈ s.members ids := by
  obtain ⟨u, hu, n, hf, _⟩ := mem_controlPointers.1 h
  unfold Surface.members Surface.findMap
  exact List.mem_map.2 ⟨(n, c), List.mem_filterMap.2 ⟨u, hu, hf⟩, rfl⟩

/-- C32. On a well-formed group surface with resolved portals `build` succeeds
and writes back one portal record for each group added with a socket source, the
record number `k` for the group added with the source `socket(k)`. Its list of
external controls holds the exposer ids of exactly the members of the group with
an exposer that is not null, in member order, and is not empty; its written,
read and extractor flags tell whether some member of the group has `writtenTo`
set, has `readFrom` set, respectively is of kind `NUM_EXTRACT` or
`MIDI_EXTRACT`. -/
theorem group_portal_records (s : Surface) (hw : s.WellFormed) (hp : s.PortalsResolved)
    (hroot : s.isRoot = false) :
    ∃ r, build s = some r ∧ r.groupPortals.length = r.sockets.length ∧
      (∀ k portal, r.groupPortals.get? k = some portal →
        ∃ i p g, r.sockets.get? k = some i ∧ r.tables.groups.get? i = some p ∧
          r.valueGroups.get? i = some g ∧ g.source = ValueGroupSource.socket k ∧
          portal.externalControls
            = ((s.members p.2).filter (fun c => !c.exposerUuid.isNull)).map
                (fun c => c.exposerUuid) ∧
          portal.valueWritten = (s.members p.2).any (fun c => c.writtenTo) ∧
          portal.valueRead = (s.members p.2).any (fun c => c.readFrom) ∧
          portal.isExtractor = (s.members p.2).any (fun c => c.isExtract) ∧
          portal.externalControls ≠ []) ∧
      (∀ i g k, r.valueGroups.get? i = some g → g.source = ValueGroupSource.socket k →
        ∃ portal, r.groupPortals.get? k = some portal) := by
  obtain ⟨st, cs, ws, r, hr, _, _, _, hrep, hok, hsock, hfa, ht, _, hs, hvg, _, _, hgp⟩ :=
    build_parts hw hp
  have hf2 := mapM_some_forall₂ _ _ (hgp hroot)
  obtain ⟨hlen, hback, hforth⟩ := forall₂_get? hf2
  refine ⟨r, hr, by rw [hs, hlen], ?_, ?_⟩
  · intro k portal hk
    obtain ⟨i, hi, hsp⟩ := hback k portal hk
    obtain ⟨g, hg, hsrc⟩ := hsock.source_of_socket k i hi
    obtain ⟨_, hfa_back, _⟩ := forall₂_get? hfa
    obtain ⟨p, hpget, hem⟩ := hfa_back i g hg
    have hpmem : p ∈ st.groups := List.get?_mem hpget
    have hlook : st.groups.lookup p.1 = some p.2 :=
      lookup_of_mem hrep.inv.keysNodup hpmem
    have hkey : cs.valueGroups.get? i = some p.1 := by
      rw [hok.valueGroups_eq, List.get?_eq_getElem?, List.getElem?_map]
      rw [List.get?_eq_getElem?] at hpget
      rw [hpget]
      rfl
    have hcontrols : st.controlsOf p.1 = p.2 := by
      unfold GroupState.controlsOf
      rw [hlook]
      rfl
    simp only [socketPortal, hkey, hcontrols, Option.some.injEq] at hsp
    subst hsp
    refine ⟨i, p, g, by rw [hs]; exact hi, by rw [ht]; exact hpget, by rw [hvg]; exact hg,
      hsrc, rfl, rfl, rfl, rfl, ?_⟩
    obtain ⟨_, k', hk'⟩ := hem
    have hnot : ¬ (s.isRoot = true ∧ (findPortal (s.controlPointers p.2)).isSome = true) := by
      rw [hroot]
      simp
    rw [if_neg hnot, hsrc] at hk'
    have hexp := (groupSource_socket_iff _ _ _).1 ⟨k, hk'.symm⟩
    obtain ⟨c, hc, hce⟩ := areAnyExposed_iff.1 hexp
    have hcm := controlPointers_subset_members hc
    intro hnil
    have hmem : c.exposerUuid ∈ ((s.members p.2).filter (fun c => !c.exposerUuid.isNull)).map
        (fun c => c.exposerUuid) :=
      List.mem_map.2 ⟨c, List.mem_filter.2 ⟨hcm, by simp [hce]⟩, rfl⟩
    change ((s.members p.2).filter (fun c => !c.exposerUuid.isNull)).map
        (fun c => c.exposerUuid) = [] at hnil
    rw [hnil] at hmem
    exact List.not_mem_nil _ hmem
  · intro i g k hg hk
    rw [hvg] at hg
    have hi := hsock.socket_of_source i g k hg hk
    obtain ⟨portal, hportal, _⟩ := hforth k i hi
    exact ⟨portal, hportal⟩

/-- On `socketSurface`, a group surface, the two portal records written back
are the one of the group of the extract control 4, exposed by 8, and the one of
the group of the controls 1 and 2, exposed by 7 and written to. -/
theorem group_portal_witness :
    (socketSurface.WellFormed ∧ socketSurface.PortalsResolved ∧
      socketSurface.isRoot = false) ∧
    (∃ r, build socketSurface = some r ∧ r.groupPortals.length = r.sockets.length ∧
      (∀ k portal, r.groupPortals.get? k = some portal →
        ∃ i p g, r.sockets.get? k = some i ∧ r.tables.groups.get? i = some p ∧
          r.valueGroups.get? i = some g ∧ g.source = ValueGroupSource.socket k ∧
          portal.externalControls
            = ((socketSurface.members p.2).filter (fun c => !c.exposerUuid.isNull)).map
                (fun c => c.exposerUuid) ∧
          portal.valueWritten = (socketSurface.members p.2).any (fun c => c.writtenTo) ∧
          portal.valueRead = (socketSurface.members p.2).any (fun c => c.readFrom) ∧
          portal.isExtractor = (socketSurface.members p.2).any (fun c => c.isExtract) ∧
          portal.externalControls ≠ []) ∧
      (∀ i g k, r.valueGroups.get? i = some g → g.source = ValueGroupSource.socket k →
        ∃ portal, r.groupPortals.get? k = some portal)) ∧
    (build socketSurface).map (fun r => r.groupPortals)
      = some [⟨[8], false, false, true⟩, ⟨[7], true, false, false⟩] :=
  ⟨⟨by decide, by decide, rfl⟩,
    group_portal_records socketSurface (by decide) (by decide) rfl, by decide⟩

/-! ## The assertions of `build` -/

theorem portalsResolved_of_onGroupNodes {s : Surface} (hg : s.PortalsOnGroupNodes) :
    s.PortalsResolved := by
  intro p hp
  obtain ⟨n, hn, hpn⟩ := List.mem_flatMap.1 hp
  obtain ⟨hne, hall⟩ := hg n hn p hpn
  refine ⟨hne, fun u hu => ?_⟩
  obtain ⟨c, hc, hcu⟩ := hall u hu
  have hs : n.skipped = false := by
    unfold Node.portals at hpn
    unfold Node.skipped
    cases hk : n.kind with
    | custom valid => rw [hk] at hpn; simp at hpn
    | group portals => rfl
    | other => rfl
  exact ⟨c, mem_groupedControls.2 ⟨n, hn, hs, hc⟩, hcu⟩

/-- C36. On a surface with symmetric connections where every external control
listed by a portal of a group node is a control of this group node, no assertion
of `build` fails, so `build` returns; in particular the filtered member list
passed to `getGroupType` is not empty for every group, every external control of
a portal is a key of `controlGroups` when the merge phase looks it up, every
control of a custom node with a valid block and the first external control of
every portal is a key of `controlGroups`, and the group it is mapped to is a key
of `valueGroupIndices`. -/
theorem lookup_assertions_hold (s : Surface) (hw : s.WellFormed)
    (hg : s.PortalsOnGroupNodes) :
    ∃ r, build s = some r ∧ buildGroups s = some r.tables ∧
      (∀ p ∈ r.tables.groups, s.controlPointers p.2 ≠ [] ∧
        ∃ kind, getGroupType (s.controlPointers p.2) = some kind) ∧
      (∀ n ∈ s.nodes, ∀ p ∈ n.portals, ∀ u ∈ p.externalControls,
        (∃ g, (unionPhase s).controlGroups.lookup u = some g) ∧
          ∃ g, r.tables.controlGroups.lookup u = some g) ∧
      (∀ n ∈ s.nodes, n.kind = NodeKind.custom true → ∀ c ∈ n.controls,
        ∃ g i, r.tables.controlGroups.lookup c.uuid = some g ∧
          r.valueGroupIndices.lookup g = some i) ∧
      (∀ n ∈ s.nodes, ∀ p ∈ n.portals,
        ∃ first g i, p.externalControls.head? = some first ∧
          r.tables.controlGroups.lookup first = some g ∧
          r.valueGroupIndices.lookup g = some i) := by
  have hp := portalsResolved_of_onGroupNodes hg
  obtain ⟨st, cs, ws, r, hr, hst, _, _, hrep, hok, _, _, ht, hvi, _, _, _, _, _⟩ :=
    build_parts hw hp
  have hrep0 := unionPhase_represents hw
  have hindex : ∀ u, touched s.groupedControls u →
      ∃ g i, r.tables.controlGroups.lookup u = some g ∧
        r.valueGroupIndices.lookup g = some i := by
    intro u hu
    obtain ⟨g, hgl⟩ := (hrep.tracks.dom u).2 hu
    obtain ⟨ms, hms, _⟩ := (hrep.inv.consistent u g).1 hgl
    obtain ⟨i, hi⟩ := hok.ok_lookup (key_mem_of_lookup hms)
    exact ⟨g, i, by rw [ht]; exact hgl, by rw [hvi]; exact hi⟩
  have hext : ∀ n ∈ s.nodes, ∀ p ∈ n.portals, ∀ u ∈ p.externalControls,
      touched s.groupedControls u := by
    intro n hn p hpn u hu
    obtain ⟨_, hall⟩ := hp p (List.mem_flatMap.2 ⟨n, hn, hpn⟩)
    obtain ⟨c, hc, hcu⟩ := hall u hu
    exact ⟨c, hc, Or.inl hcu.symm⟩
  refine ⟨r, hr, by rw [ht]; exact hst, ?_, ?_, ?_, ?_⟩
  · intro p hpmem
    rw [ht] at hpmem
    obtain ⟨u, hu, hP⟩ := hrep.heads p.1 p.2 (lookup_of_mem hrep.inv.keysNodup hpmem)
    have hne := controlPointers_ne_nil hw hu hP
    exact ⟨hne, getGroupType_isSome hne⟩
  · intro n hn p hpn u hu
    have htouch := hext n hn p hpn u hu
    refine ⟨(hrep0.tracks.dom u).2 htouch, ?_⟩
    obtain ⟨g, _, hgl, _⟩ := hindex u htouch
    exact ⟨g, hgl⟩
  · intro n hn hkind c hc
    have hs : n.skipped = false := by simp [Node.skipped, hkind]
    exact hindex c.uuid ⟨c, mem_groupedControls.2 ⟨n, hn, hs, hc⟩, Or.inl rfl⟩
  · intro n hn p hpn
    obtain ⟨hne, _⟩ := hg n hn p hpn
    cases hextc : p.externalControls with
    | nil => exact absurd hextc hne
    | cons first rest =>
      obtain ⟨g, i, h1, h2⟩ :=
        hindex first (hext n hn p hpn first (by rw [hextc]; exact List.mem_cons_self _ _))
      exact ⟨first, g, i, rfl, h1, h2⟩

/-- The surface `portalSurface`, whose group node has a portal with the external
controls 5 and 6, both controls of the group node, has symmetric connections,
and `build` returns on it. -/
theorem lookup_assertions_witness :
    (portalSurface.WellFormed ∧ portalSurface.PortalsOnGroupNodes) ∧
    (∃ r, build portalSurface = some r ∧ buildGroups portalSurface = some r.tables ∧
      (∀ p ∈ r.tables.groups, portalSurface.controlPointers p.2 ≠ [] ∧
        ∃ kind, getGroupType (portalSurface.controlPointers p.2) = some kind) ∧
      (∀ n ∈ portalSurface.nodes, ∀ p ∈ n.portals, ∀ u ∈ p.externalControls,
        (∃ g, (unionPhase portalSurface).controlGroups.lookup u = some g) ∧
          ∃ g, r.tables.controlGroups.lookup u = some g) ∧
      (∀ n ∈ portalSurface.nodes, n.kind = NodeKind.custom true → ∀ c ∈ n.controls,
        ∃ g i, r.tables.controlGroups.lookup c.uuid = some g ∧
          r.valueGroupIndices.lookup g = some i) ∧
      (∀ n ∈ portalSurface.nodes, ∀ p ∈ n.portals,
        ∃ first g i, p.externalControls.head? = some first ∧
          r.tables.controlGroups.lookup first = some g ∧
          r.valueGroupIndices.lookup g = some i)) :=
  ⟨⟨by decide, by decide⟩, lookup_assertions_hold portalSurface (by decide) (by decide)⟩

/-! ## Compile indices -/

theorem wireLoop_indices (st : GroupState) (cs : ClassifyState) :
    ∀ (nodes : List Node) (ws ws' : WireState),
    nodes.foldlM (wireNode st cs) ws = some ws' →
    ws'.compileIndices = ws.compileIndices ++ numberWired ws.nodeIndex nodes := by
  intro nodes
  induction nodes with
  | nil =>
    intro ws ws' h
    simp only [List.foldlM_nil, Option.pure_def, Option.some.injEq] at h
    subst h
    simp [numberWired]
  | cons n nodes ih =>
    intro ws ws' h
    simp only [List.foldlM_cons, Option.bind_eq_bind] at h
    cases hstep : wireNode st cs ws n with
    | none => rw [hstep] at h; simp at h
    | some ws1 =>
      rw [hstep] at h
      simp only [Option.some_bind] at h
      have ih' := ih ws1 ws' h
      unfold wireNode at hstep
      cases hk : n.kind with
      | custom valid =>
        rw [hk] at hstep
        cases valid with
        | false =>
          simp only [Bool.not_false, if_true, Option.some.injEq] at hstep
          subst hstep
          rw [ih']
          simp [numberWired, Node.isWired, hk]
        | true =>
          simp only [Bool.not_true, Bool.false_eq_true, if_false] at hstep
          cases hm : (n.controls.insertionSort (fun a b => a.index ≤ b.index)).mapM
              (controlSocket st cs) with
          | none => rw [hm] at hstep; simp at hstep
          | some sockets =>
            rw [hm] at hstep
            simp only [Option.some.injEq] at hstep
            subst hstep
            rw [ih']
            simp [numberWired, Node.isWired, hk]
      | group portals =>
        rw [hk] at hstep
        simp only at hstep
        cases hm : portals.mapM (portalSocket st cs) with
        | none => rw [hm] at hstep; simp at hstep
        | some sockets =>
          rw [hm] at hstep
          simp only [Option.some.injEq] at hstep
          subst hstep
          rw [ih']
          simp [numberWired, Node.isWired, hk]
      | other =>
        rw [hk] at hstep
        simp only [Option.some.injEq] at hstep
        subst hstep
        rw [ih']
        simp [numberWired, Node.isWired, hk]

theorem numberWired_get? :
    ∀ (pre : List Node) (start : Nat) (n : Node) (post : List Node),
    (numberWired start (pre ++ n :: post)).get? pre.length
      = some (if n.isWired = true then some (start + (pre.filter Node.isWired).length)
          else none) := by
  intro pre
  induction pre with
  | nil =>
    intro start n post
    by_cases hn : n.isWired = true
    · simp [numberWired, hn]
    · simp [numberWired, hn]
  | cons m pre ih =>
    intro start n post
    rw [List.cons_append]
    by_cases hm : m.isWired = true
    · have h1 : numberWired start (m :: (pre ++ n :: post))
          = some start :: numberWired (start + 1) (pre ++ n :: post) := by
        simp [numberWired, hm]
      rw [h1, List.length_cons, List.get?_cons_succ, ih, List.filter_cons, if_pos hm,
        List.length_cons]
      by_cases hn : n.isWired = true
      · rw [if_pos hn, if_pos hn]
        congr 2
        omega
      · rw [if_neg hn, if_neg hn]
    · have h1 : numberWired start (m :: (pre ++ n :: post))
          = none :: numberWired start (pre ++ n :: post) := by
        simp [numberWired, hm]
      rw [h1, List.length_cons, List.get?_cons_succ, ih, List.filter_cons, if_neg hm]

theorem numberWired_filterMap :
    ∀ (nodes : List Node) (start : Nat),
    (numberWired start nodes).filterMap id
      = List.range' start (nodes.filter Node.isWired).length := by
  intro nodes
  induction nodes with
  | nil => intro start; rfl
  | cons n nodes ih =>
    intro start
    by_cases hn : n.isWired = true
    · simp [numberWired, hn, ih, List.range'_succ]
    · simp [numberWired, hn, ih]

/-- C38. On a well-formed surface with resolved portals `build` succeeds and
writes back the compile indices 0, 1, 2, ... to the custom nodes with a valid
block and the group nodes, in node order; the other nodes get no index and do
not consume one. So the index of such a node is the number of nodes with a
record before it, which is its position among the node records added; and the
indices written back are exactly `0`, ..., `count - 1` for the `count` node
records, each once. -/
theorem compile_indices (s : Surface) (hw : s.WellFormed) (hp : s.PortalsResolved) :
    ∃ r, build s = some r ∧ r.compileIndices = numberWired 0 s.nodes ∧
      (∀ pre n post, s.nodes = pre ++ n :: post →
        r.compileIndices.get? pre.length
          = some (if n.isWired = true then some (pre.filter Node.isWired).length else none)) ∧
      (∀ pre n post, s.nodes = pre ++ n :: post → n.isWired = true →
        (r.nodes.get? (pre.filter Node.isWired).length).map MirNode.key
          = some n.recordKey) ∧
      r.compileIndices.filterMap id = List.range r.nodes.length := by
  obtain ⟨st, r, _, hr, _, _, _, _, hkeys⟩ := build_spec hw hp
  obtain ⟨st', cs, ws, _, _, hws, _, _, _, _, hnodes, hci, _⟩ := build_eq_some hr
  have hidx := wireLoop_indices st' cs s.nodes ⟨[], [], 0⟩ ws hws
  simp only [List.nil_append] at hidx
  have hlen : r.nodes.length = (s.nodes.filter Node.isWired).length := by
    have := congrArg List.length hkeys
    simpa using this
  refine ⟨r, hr, by rw [hci, hidx], ?_, ?_, ?_⟩
  · intro pre n post hsplit
    rw [hci, hidx, hsplit, numberWired_get?]
    simp
  · intro pre n post hsplit hn
    have hmap : (r.nodes.map MirNode.key).get? (pre.filter Node.isWired).length
        = some n.recordKey := by
      rw [hkeys, hsplit, List.filter_append, List.map_append, List.filter_cons, if_pos hn,
        List.map_cons]
      rw [List.get?_eq_getElem?, List.getElem?_append_right (by simp)]
      simp
    rw [List.get?_eq_getElem?, List.getElem?_map] at hmap
    rw [List.get?_eq_getElem?]
    exact hmap
  · rw [hci, hidx, numberWired_filterMap, hlen, List.range_eq_range']

/-- On `portalSurface`, whose nodes are a group node, a compiled custom node and
a custom node that failed to compile, the compile indices written back are 0, 1
and none, and the two node records are added in this order. -/
theorem compile_indices_witness :
    (portalSurface.WellFormed ∧ portalSurface.PortalsResolved) ∧
    (∃ r, build portalSurface = some r ∧ r.compileIndices = numberWired 0 portalSurface.nodes ∧
      (∀ pre n post, portalSurface.nodes = pre ++ n :: post →
        r.compileIndices.get? pre.length
          = some (if n.isWired = true then some (pre.filter Node.isWired).length else none)) ∧
      (∀ pre n post, portalSurface.nodes = pre ++ n :: post → n.isWired = true →
        (r.nodes.get? (pre.filter Node.isWired).length).map MirNode.key
          = some n.recordKey) ∧
      r.compileIndices.filterMap id = List.range r.nodes.length) ∧
    (build portalSurface).map (fun r => (r.compileIndices, r.nodes.map MirNode.key))
      = some ([some 0, some 1, none], [(true, 20), (false, 10)]) :=
  ⟨⟨by decide, by decide⟩, compile_indices portalSurface (by decide) (by decide), by decide⟩

end SurfaceMir

namespace MaximCodegen

open Builder

/-! ## The logical and the bitwise operators -/

/-- What the code does for C33: for a registered logical operator, a lane of
the result of `NumLogicalOperator::call` is the float 1 when the logical result
of the lane is true and the float 0 otherwise. The logical result is the `and`
(for `LOGICAL_AND`) or the `or` (for `LOGICAL_OR`) of the two comparisons
`fcmp one` of the lanes of the operands with zero; `one` is an ordered
predicate, so a lane counts as true when it is not a NaN and is not equal to
zero, and a NaN lane counts as false, although a NaN is not equal to zero. The
form is the one of the left operand. The flag is the result of `CreateAnd` on
the combination of the flags of the operands, a value of type `i1`, and the
logical result, a vector of type `<2 x i1>`: the instruction is not well typed
and the result has no flag. On two vectors `CreateAnd` is the conjunction lane
by lane, which is false on a lane where the logical result is false. -/
theorem logical_operator_call {F : Type} (ops : FloatOps F) (o : NumLogicalOperator)
    (ho : o ∈ logicalOperators) (numLeft numRight : Num F)
    (hzero : ops.isNaN (ops.ofInt 0) = false) :
    (o.type = OperatorType.LOGICAL_AND ∨ o.type = OperatorType.LOGICAL_OR) ∧
    (o.type = OperatorType.LOGICAL_AND →
      (NumLogicalOperator.call ops o numLeft numRight).vec
        = (ops.ofInt (if ((!ops.isNaN numLeft.vec.1 && !ops.feq numLeft.vec.1 (ops.ofInt 0)) &&
              (!ops.isNaN numRight.vec.1 && !ops.feq numRight.vec.1 (ops.ofInt 0))) = true
              then 1 else 0),
           ops.ofInt (if ((!ops.isNaN numLeft.vec.2 && !ops.feq numLeft.vec.2 (ops.ofInt 0)) &&
              (!ops.isNaN numRight.vec.2 && !ops.feq numRight.vec.2 (ops.ofInt 0))) = true
              then 1 else 0))) ∧
    (o.type = OperatorType.LOGICAL_OR →
      (NumLogicalOperator.call ops o numLeft numRight).vec
        = (ops.ofInt (if ((!ops.isNaN numLeft.vec.1 && !ops.feq numLeft.vec.1 (ops.ofInt 0)) ||
              (!ops.isNaN numRight.vec.1 && !ops.feq numRight.vec.1 (ops.ofInt 0))) = true
              then 1 else 0),
           ops.ofInt (if ((!ops.isNaN numLeft.vec.2 && !ops.feq numLeft.vec.2 (ops.ofInt 0)) ||
              (!ops.isNaN numRight.vec.2 && !ops.feq numRight.vec.2 (ops.ofInt 0))) = true
              then 1 else 0))) ∧
    (ops.isNaN numLeft.vec.1 = true → ops.isNaN numRight.vec.1 = true →
      (NumLogicalOperator.call ops o numLeft numRight).vec.1 = ops.ofInt 0) ∧
    (NumLogicalOperator.call ops o numLeft numRight).form = numLeft.form ∧
    (NumLogicalOperator.call ops o numLeft numRight).active = none ∧
    (∀ (a : Bool) (v : Bool × Bool), CreateAndBits (.bit a) (.lanes v) = none) ∧
    (∀ a v : Bool × Bool,
      CreateAndBits (.lanes a) (.lanes v) = some (.lanes (a.1 && v.1, a.2 && v.2))) := by
  have hone : ∀ x : F, ops.fcmp .FCMP_ONE x (ops.ofInt 0)
      = (!ops.isNaN x && !ops.feq x (ops.ofInt 0)) := by
    intro x
    simp only [FloatOps.fcmp, hzero, Bool.not_false, Bool.and_true]
  simp only [logicalOperators, List.mem_cons, List.mem_singleton, List.not_mem_nil,
    or_false] at ho
  refine ⟨?_, ?_, ?_, ?_, rfl, rfl, fun _ _ => rfl, fun _ _ => rfl⟩
  · rcases ho with rfl | rfl
    · exact Or.inl rfl
    · exact Or.inr rfl
  · intro htype
    rcases ho with rfl | rfl
    · simp only [NumLogicalOperator.call, CreateUIToFPI1, CreateBinOpI1, boolBinOp, CreateFCmp,
        hone]
    · exact absurd htype (by decide)
  · intro htype
    rcases ho with rfl | rfl
    · exact absurd htype (by decide)
    · simp only [NumLogicalOperator.call, CreateUIToFPI1, CreateBinOpI1, boolBinOp, CreateFCmp,
        hone]
  · intro hl hr
    rcases ho with rfl | rfl <;>
      simp [NumLogicalOperator.call, CreateUIToFPI1, CreateBinOpI1, boolBinOp, CreateFCmp,
        hone, hl, hr]

/-- In the example with a NaN, `LOGICAL_OR` on the active number with the lanes
`(NaN, 5)` of the form 3 and the number with the lanes `(0, 0)` of the form 7
gives the lanes `(0, 1)`, the NaN lane counting as false, the form 3 and no
flag; in the example without a NaN, `5 and 3` gives the lanes `(1, 1)` and
`0 or 0` on two active numbers the lanes `(0, 0)`, both without a flag. -/
theorem logical_operator_witness :
    ((⟨.LOGICAL_OR, .ANY_INPUT, .Or⟩ : NumLogicalOperator) ∈ logicalOperators ∧
      nanOps.isNaN (nanOps.ofInt 0) = false) ∧
    (NumLogicalOperator.call nanOps ⟨.LOGICAL_OR, .ANY_INPUT, .Or⟩ sampleNaN
      sampleInactiveZero).vec = (some 0, some 1) ∧
    (NumLogicalOperator.call nanOps ⟨.LOGICAL_OR, .ANY_INPUT, .Or⟩ sampleNaN
      sampleInactiveZero).form = 3 ∧
    (NumLogicalOperator.call nanOps ⟨.LOGICAL_OR, .ANY_INPUT, .Or⟩ sampleNaN
      sampleInactiveZero).active = none ∧
    (NumLogicalOperator.call sampleOps ⟨.LOGICAL_AND, .ALL_INPUTS, .And⟩ sampleFive
      sampleThree).vec = (1, 1) ∧
    (NumLogicalOperator.call sampleOps ⟨.LOGICAL_OR, .ANY_INPUT, .Or⟩ sampleZero
      sampleZero).vec = (0, 0) ∧
    (NumLogicalOperator.call sampleOps ⟨.LOGICAL_OR, .ANY_INPUT, .Or⟩ sampleZero
      sampleZero).active = none :=
  ⟨⟨by decide, rfl⟩,
    (logical_operator_call nanOps ⟨.LOGICAL_OR, .ANY_INPUT, .Or⟩ (by decide) sampleNaN
      sampleInactiveZero rfl).2.2.1 rfl,
    (logical_operator_call nanOps ⟨.LOGICAL_OR, .ANY_INPUT, .Or⟩ (by decide) sampleNaN
      sampleInactiveZero rfl).2.2.2.2.1,
    (logical_operator_call nanOps ⟨.LOGICAL_OR, .ANY_INPUT, .Or⟩ (by decide) sampleNaN
      sampleInactiveZero rfl).2.2.2.2.2.1,
    (logical_operator_call sampleOps ⟨.LOGICAL_AND, .ALL_INPUTS, .And⟩ (by decide) sampleFive
      sampleThree rfl).2.1 rfl,
    (logical_operator_call sampleOps ⟨.LOGICAL_OR, .ANY_INPUT, .Or⟩ (by decide) sampleZero
      sampleZero rfl).2.2.1 rfl,
    (logical_operator_call sampleOps ⟨.LOGICAL_OR, .ANY_INPUT, .Or⟩ (by decide) sampleZero
      sampleZero rfl).2.2.2.2.2.1⟩

/-- C34. For a registered bitwise operator (`BITWISE_AND`, `BITWISE_OR`,
`BITWISE_XOR`, all signed), a lane of the result of `NumIntOperator::call` is
the float of the bitwise operation of the operator on the signed integers the
lanes of the operands convert to; so for operands whose lanes hold integers that
the two conversions keep, the lane holds the bitwise operation on these
integers. The function `generateIntCompMath` computes the same lanes for the
math expression of the same kind. -/
theorem bitwise_operator_call {F : Type} (ops : FloatOps F) (o : NumIntOperator)
    (ho : o ∈ intOperators) (numLeft numRight : Num F) :
    (o.isSigned = true ∧
      (o.type, o.op) ∈ [(OperatorType.BITWISE_AND, BinaryOps.And),
        (OperatorType.BITWISE_OR, BinaryOps.Or), (OperatorType.BITWISE_XOR, BinaryOps.Xor)]) ∧
    (NumIntOperator.call ops o numLeft numRight).vec
      = (ops.ofInt (intBinOp o.op (ops.fptosi numLeft.vec.1) (ops.fptosi numRight.vec.1)),
         ops.ofInt (intBinOp o.op (ops.fptosi numLeft.vec.2) (ops.fptosi numRight.vec.2))) ∧
    (∀ l1 l2 r1 r2 : Int, numLeft.vec = (ops.ofInt l1, ops.ofInt l2) →
      numRight.vec = (ops.ofInt r1, ops.ofInt r2) →
      ops.fptosi (ops.ofInt l1) = l1 → ops.fptosi (ops.ofInt l2) = l2 →
      ops.fptosi (ops.ofInt r1) = r1 → ops.fptosi (ops.ofInt r2) = r2 →
      (NumIntOperator.call ops o numLeft numRight).vec
        = (ops.ofInt (intBinOp o.op l1 r1), ops.ofInt (intBinOp o.op l2 r2))) ∧
    (∀ type, (type, o.type) ∈ [(ExpressionGenerator.MathType.BITWISE_AND,
          OperatorType.BITWISE_AND),
        (ExpressionGenerator.MathType.BITWISE_OR, OperatorType.BITWISE_OR),
        (ExpressionGenerator.MathType.BITWISE_XOR, OperatorType.BITWISE_XOR)] →
      ExpressionGenerator.generateIntCompMath ops type numLeft.vec numRight.vec
        = some (NumIntOperator.call ops o numLeft numRight).vec) ∧
    intBinOp BinaryOps.And 5 3 = 1 ∧ intBinOp BinaryOps.Or 5 3 = 7 ∧
    intBinOp BinaryOps.Xor 5 3 = 6 := by
  simp only [intOperators, List.mem_cons, List.mem_singleton, List.not_mem_nil,
    or_false] at ho
  refine ⟨?_, ?_, ?_, ?_, by decide, by decide, by decide⟩
  · rcases ho with rfl | rfl | rfl <;> exact ⟨rfl, by simp⟩
  · rcases ho with rfl | rfl | rfl <;> rfl
  · intro l1 l2 r1 r2 hl hr h1 h2 h3 h4
    have hvec : (NumIntOperator.call ops o numLeft numRight).vec
        = (ops.ofInt (intBinOp o.op (ops.fptosi numLeft.vec.1) (ops.fptosi numRight.vec.1)),
           ops.ofInt (intBinOp o.op (ops.fptosi numLeft.vec.2) (ops.fptosi numRight.vec.2))) := by
      rcases ho with rfl | rfl | rfl <;> rfl
    rw [hvec, hl, hr]
    simp only [h1, h2, h3, h4]
  · intro type htype
    simp only [List.mem_cons, Prod.mk.injEq, List.mem_singleton, List.not_mem_nil,
      or_false] at htype
    rcases ho with rfl | rfl | rfl <;>
      rcases htype with ⟨rfl, h⟩ | ⟨rfl, h⟩ | ⟨rfl, h⟩ <;>
      first
        | rfl
        | exact absurd h (by decide)

/-- In the example, where a lane is the integer it holds, `5 & 3`, `5 | 3` and
`5 ^ 3` give the lanes 1, 7 and 6, through the operator and through the math
expression. -/
theorem bitwise_operator_witness :
    (⟨OperatorType.BITWISE_AND, ActiveMode.ANY_INPUT, BinaryOps.And, true⟩ : NumIntOperator)
      ∈ intOperators ∧
    (NumIntOperator.call sampleOps ⟨.BITWISE_AND, .ANY_INPUT, .And, true⟩ sampleFive
      sampleThree).vec = (1, 1) ∧
    (NumIntOperator.call sampleOps ⟨.BITWISE_OR, .ANY_INPUT, .Or, true⟩ sampleFive
      sampleThree).vec = (7, 7) ∧
    (NumIntOperator.call sampleOps ⟨.BITWISE_XOR, .ANY_INPUT, .Xor, true⟩ sampleFive
      sampleThree).vec = (6, 6) ∧
    ExpressionGenerator.generateIntCompMath sampleOps .BITWISE_AND (5, 5) (3, 3)
      = some (1, 1) :=
  ⟨by decide,
    (bitwise_operator_call sampleOps ⟨.BITWISE_AND, .ANY_INPUT, .And, true⟩ (by decide)
      sampleFive sampleThree).2.2.1 5 5 3 3 rfl rfl rfl rfl rfl rfl,
    (bitwise_operator_call sampleOps ⟨.BITWISE_OR, .ANY_INPUT, .Or, true⟩ (by decide)
      sampleFive sampleThree).2.2.1 5 5 3 3 rfl rfl rfl rfl rfl rfl,
    (bitwise_operator_call sampleOps ⟨.BITWISE_XOR, .ANY_INPUT, .Xor, true⟩ (by decide)
      sampleFive sampleThree).2.2.1 5 5 3 3 rfl rfl rfl rfl rfl rfl,
    by decide⟩

end MaximCodegen

namespace ExpressionGenerator

open MaximCodegen (SourcePos)
open Builder

/-! ## Unary expressions -/

/-- What the code does for C31: for a unary expression on an operand that
generates the number with the lanes `(x, y)`, `POSITIVE` returns the number with
the lanes `(x, y)` and the constant flag and the form of the operand. For
`NEGATIVE` and for `NOT` the second operand of `fmul` and of `fcmp` is the
scalar constant `getConstantFloat(-1)` or `getConstantFloat(0)`, beside the
vector of the operand: the instruction is not well typed and no value is
produced. On the vector of two such constants, which no line builds here,
`fmul` multiplies each lane by `-1`, and `sitofp` of the comparison gives the
float `-1` for a lane that equals zero and `0` for another lane, since it reads
the one-bit result of `fcmp` as a signed integer. An operand that is not a
number throws the type error, and an error of the operand is thrown on. -/
theorem unary_lanes {F Controls Expr : Type} (ops : FloatOps F)
    (env : Env (F × F) Controls Expr) (expr : UnaryExpression Expr)
    (scope : Scope (F × F) Controls) :
    (∀ isConst x y form scope1,
      env.generateExpr expr.expr scope = (.ok ⟨isConst, .num (x, y) form⟩, scope1) →
      generateUnary ops env expr scope
        = match expr.type with
          | .POSITIVE => some (.ok ⟨isConst, .num (x, y) form⟩, scope1)
          | .NEGATIVE => none
          | .NOT => none) ∧
    (∀ x y : F,
      CreateFMul ops (x, y) (ops.ofInt (-1), ops.ofInt (-1))
        = (ops.fmul x (ops.ofInt (-1)), ops.fmul y (ops.ofInt (-1))) ∧
      CreateSIToFPI1 ops (CreateFCmp ops .FCMP_OEQ (x, y) (ops.ofInt 0, ops.ofInt 0))
        = (ops.ofInt (if ops.fcmp .FCMP_OEQ x (ops.ofInt 0) then -1 else 0),
           ops.ofInt (if ops.fcmp .FCMP_OEQ y (ops.ofInt 0) then -1 else 0))) ∧
    (∀ val scope1, env.generateExpr expr.expr scope = (.ok val, scope1) →
      (∀ v f, val.value ≠ .num v f) →
      generateUnary ops env expr scope
        = some (.error (env.checkPtrTypeError val.value (env.span expr.expr).1
            (env.span expr.expr).2), scope1)) ∧
    (∀ err scope1, env.generateExpr expr.expr scope = (.error err, scope1) →
      generateUnary ops env expr scope = some (.error err, scope1)) := by
  refine ⟨?_, fun x y => ⟨rfl, rfl⟩, ?_, ?_⟩
  · intro isConst x y form scope1 h
    simp only [generateUnary, h]
    cases expr.type <;> rfl
  · intro val scope1 h hnot
    obtain ⟨isConst, value⟩ := val
    cases value with
    | num v f => exact absurd rfl (hnot v f)
    | midi event => simp only [generateUnary, h]
    | tuple items => simp only [generateUnary, h]
  · intro err scope1 h
    simp only [generateUnary, h]

/-- In the example, `!0` on the constant number with the lanes `(0, 0)` produces
no value, and neither does `-{1, 2}`; `+{1, 2}` returns `{1, 2}`. On the vector
of two constants 0, the conversion of the comparison of the lanes `(0, 0)` with
zero gives the lanes `(-1, -1)`. -/
theorem unary_lanes_witness :
    sampleLaneEnv.generateExpr sampleNot.expr sampleScope
      = (.ok ⟨true, .num (0, 0) 0⟩, sampleScope) ∧
    generateUnary sampleOps sampleLaneEnv sampleNot sampleScope = none ∧
    generateUnary sampleOps sampleLaneEnv sampleNegative sampleScope = none ∧
    generateUnary sampleOps sampleLaneEnv samplePositive sampleScope
      = some (.ok ⟨true, .num (1, 2) 3⟩, sampleScope) ∧
    CreateSIToFPI1 sampleOps (CreateFCmp sampleOps .FCMP_OEQ (0, 0) (0, 0)) = (-1, -1) :=
  ⟨rfl,
    (unary_lanes sampleOps sampleLaneEnv sampleNot sampleScope).1 true 0 0 0 sampleScope rfl,
    (unary_lanes sampleOps sampleLaneEnv sampleNegative sampleScope).1 true 1 2 3 sampleScope
      rfl,
    (unary_lanes sampleOps sampleLaneEnv samplePositive sampleScope).1 true 1 2 3 sampleScope
      rfl,
    ((unary_lanes sampleOps sampleLaneEnv sampleNot sampleScope).2.1 0 0).2⟩

/-! ## The value of an assignment -/

theorem generateSingleAssign_generateExpr {Vec Controls Expr : Type}
    (env : Env Vec Controls Expr)
    (g : Expr → Scope Vec Controls → Except CodegenError (Value Vec) × Scope Vec Controls)
    (leftExpr : Assignable) (rightValue : Value Vec) (type : AssignType)
    (rightStart rightEnd : SourcePos) (scope : Scope Vec Controls) :
    generateSingleAssign { env with generateExpr := g } leftExpr rightValue type rightStart
        rightEnd scope
      = generateSingleAssign env leftExpr rightValue type rightStart rightEnd scope := by
  rfl

theorem assignEach_generateExpr {Vec Controls Expr : Type} (env : Env Vec Controls Expr)
    (g : Expr → Scope Vec Controls → Except CodegenError (Value Vec) × Scope Vec Controls)
    (type : AssignType) (rightStart rightEnd : SourcePos) :
    ∀ (pairs : List (Assignable × Value Vec)) (scope : Scope Vec Controls),
    assignEach { env with generateExpr := g } type rightStart rightEnd pairs scope
      = assignEach env type rightStart rightEnd pairs scope := by
  intro pairs
  induction pairs with
  | nil => intro scope; rfl
  | cons p pairs ih =>
    intro scope
    obtain ⟨t, v⟩ := p
    simp only [assignEach, generateSingleAssign_generateExpr, ih]

/-- C37. The function `generateAssign` generates its right-hand expression once,
in the scope it is called in: an error of the right-hand expression is thrown
on, the result does not depend on what the generator gives for any other
expression or scope, and whenever `generateAssign` returns a value, for every
operator and every list of targets, this value is the value the right-hand
expression generated. So `a += {3, 3}` with `a` bound to `{2, 2}` returns
`{3, 3}` and binds `a` to `{5, 5}`. -/
theorem generateAssign_returns_right {Vec Controls Expr : Type}
    (env : Env Vec Controls Expr) (expr : AssignExpression Expr)
    (scope : Scope Vec Controls) :
    (∀ err scope1, env.generateExpr expr.right scope = (.error err, scope1) →
      generateAssign env expr scope = (.error err, scope1)) ∧
    (∀ v final, generateAssign env expr scope = (.ok v, final) →
      ∃ scope1, env.generateExpr expr.right scope = (.ok v, scope1)) ∧
    (∀ g, g expr.right scope = env.generateExpr expr.right scope →
      generateAssign { env with generateExpr := g } expr scope
        = generateAssign env expr scope) ∧
    generateAssign sampleLaneEnv sampleCompound sampleScope
      = (.ok ⟨true, .num (3, 3) 0⟩, sampleScope.setValue "a" ⟨true, .num (5, 5) 0⟩) := by
  refine ⟨?_, ?_, ?_, rfl⟩
  · intro err scope1 h
    simp only [generateAssign, h]
  · intro v final h
    unfold generateAssign at h
    cases hr : env.generateExpr expr.right scope with
    | mk res scope1 =>
      rw [hr] at h
      cases res with
      | error err => simp at h
      | ok rightExpr =>
        simp only at h
        split at h
        · simp at h
        · simp only [Prod.mk.injEq, Except.ok.injEq] at h
          rw [← h.1]
          exact ⟨scope1, rfl⟩
  · intro g hg
    unfold generateAssign
    simp only [hg, assignEach_generateExpr, generateSingleAssign_generateExpr]

/-- In the example, `a += {3, 3}` returns the value `{3, 3}` of its right side,
which the right side generates in the scope of the call. -/
theorem generateAssign_returns_witness :
    generateAssign sampleLaneEnv sampleCompound sampleScope
      = (.ok ⟨true, .num (3, 3) 0⟩, sampleScope.setValue "a" ⟨true, .num (5, 5) 0⟩) ∧
    ∃ scope1, sampleLaneEnv.generateExpr sampleCompound.right sampleScope
      = (.ok ⟨true, .num (3, 3) 0⟩, scope1) :=
  ⟨rfl, (generateAssign_returns_right sampleLaneEnv sampleCompound sampleScope).2.1
    ⟨true, .num (3, 3) 0⟩ (sampleScope.setValue "a" ⟨true, .num (5, 5) 0⟩) rfl⟩

end ExpressionGenerator

namespace AxiomModel

/-! ## Composite actions -/

theorem backwardFrom_take {S : Type} (actions : List (Action S)) :
    ∀ (pos : Nat) (state : S), pos ≤ actions.length →
    CompositeAction.backwardFrom actions pos state
      = (actions.take pos).reverse.foldl (fun st action => action.backward st) state := by
  intro pos
  induction pos with
  | zero =>
    intro state _
    simp [CompositeAction.backwardFrom]
  | succ pos ih =>
    intro state hle
    have hlt : pos < actions.length := hle
    have hget : actions.get? pos = some (actions.get ⟨pos, hlt⟩) := List.get?_eq_get hlt
    have htake : actions.take (pos + 1) = actions.take pos ++ [actions.get ⟨pos, hlt⟩] := by
      rw [List.take_succ, List.getElem?_eq_getElem hlt]
      rfl
    simp only [CompositeAction.backwardFrom, hget]
    rw [ih _ (Nat.le_of_lt hlt), htake, List.reverse_append, List.reverse_singleton,
      List.singleton_append, List.foldl_cons]

/-- On a list that is not empty `backward` calls the sub-actions in the
reverse of the list order. -/
theorem backward_eq_reverse {S : Type} (actions : List (Action S)) (hne : actions ≠ [])
    (state : S) :
    CompositeAction.backward actions state
      = some (actions.reverse.foldl (fun st action => action.backward st) state) := by
  unfold CompositeAction.backward
  have hemp : actions.isEmpty = false := by
    cases actions with
    | nil => exact absurd rfl hne
    | cons a l => rfl
  rw [hemp, backwardFrom_take actions actions.length state (Nat.le_refl _), List.take_length]
  rfl

theorem foldl_recorder_forward (first : Bool) :
    ∀ (ids : List Nat) (calls : List Call),
    (ids.map recorder).foldl (fun st action => action.forward first st) calls
      = calls ++ ids.map (fun i => Call.forward i first) := by
  intro ids
  induction ids with
  | nil => intro calls; simp
  | cons i ids ih =>
    intro calls
    simp only [List.map_cons, List.foldl_cons, ih, recorder, List.append_assoc,
      List.singleton_append]

theorem foldl_recorder_backward :
    ∀ (ids : List Nat) (calls : List Call),
    (ids.map recorder).foldl (fun st action => action.backward st) calls
      = calls ++ ids.map (fun i => Call.backward i) := by
  intro ids
  induction ids with
  | nil => intro calls; simp
  | cons i ids ih =>
    intro calls
    simp only [List.map_cons, List.foldl_cons, ih, recorder, List.append_assoc,
      List.singleton_append]

/-- C39. For every list of sub-actions that is not empty, `forward` calls
`forward` on each sub-action exactly once, in list order, with its own flag,
and `backward` returns after calling `backward` on each sub-action exactly once,
in the reverse of the list order: on every state the result is the one of these
calls in this order, and the calls received by sub-actions that record their
calls are these. So when the `backward` of every sub-action undoes its
`forward`, `backward` after `forward` of the composite restores the state. -/
theorem composite_forward_backward {S : Type} (actions : List (Action S))
    (hne : actions ≠ []) (first : Bool) (state : S) :
    CompositeAction.forward actions first state
      = actions.foldl (fun st action => action.forward first st) state ∧
    CompositeAction.backward actions state
      = some (actions.foldr (fun action st => action.backward st) state) ∧
    (∀ ids : List Nat, ids ≠ [] →
      CompositeAction.forward (ids.map recorder) first []
        = ids.map (fun i => Call.forward i first) ∧
      CompositeAction.backward (ids.map recorder) []
        = some (ids.reverse.map (fun i => Call.backward i))) ∧
    ((∀ action ∈ actions, ∀ st, action.backward (action.forward first st) = st) →
      CompositeAction.backward actions (CompositeAction.forward actions first state)
        = some state) := by
  refine ⟨rfl, ?_, ?_, ?_⟩
  · rw [backward_eq_reverse actions hne, List.foldl_reverse]
  · intro ids hids
    constructor
    · unfold CompositeAction.forward
      rw [foldl_recorder_forward]
      rfl
    · have hmap : ids.map recorder ≠ [] := by
        intro h
        exact hids (List.map_eq_nil_iff.1 h)
      rw [backward_eq_reverse _ hmap, ← List.map_reverse, foldl_recorder_backward]
      rfl
  · intro hundo
    rw [backward_eq_reverse actions hne, List.foldl_reverse]
    unfold CompositeAction.forward
    congr 1
    clear hne
    induction actions generalizing state with
    | nil => rfl
    | cons a actions ih =>
      simp only [List.foldl_cons, List.foldr_cons]
      have hrest : ∀ action ∈ actions, ∀ st,
          action.backward (action.forward first st) = st :=
        fun action hmem => hundo action (List.mem_cons_of_mem _ hmem)
      rw [ih (a.forward first state) hrest]
      exact hundo a (List.mem_cons_self _ _) state

/-- In the example, the composite of three recording sub-actions receives the
calls `forward(true)` on 0, 1 and 2 in this order and `backward` on 2, 1 and 0
in this order, and the composite of the actions adding 2 and 5 takes the state 1
to 8 and back to 1; on the empty list `backward` does not return. -/
theorem composite_witness :
    [addAction 2, addAction 5] ≠ [] ∧
    (CompositeAction.forward [recorder 0, recorder 1, recorder 2] true []
        = [Call.forward 0 true, Call.forward 1 true, Call.forward 2 true] ∧
      CompositeAction.backward [recorder 0, recorder 1, recorder 2] []
        = some [Call.backward 2, Call.backward 1, Call.backward 0]) ∧
    CompositeAction.forward [addAction 2, addAction 5] true 1 = 8 ∧
    CompositeAction.backward [addAction 2, addAction 5]
      (CompositeAction.forward [addAction 2, addAction 5] true 1) = some 1 ∧
    CompositeAction.backward ([] : List (Action Int)) 1 = none :=
  ⟨by simp,
    (composite_forward_backward [addAction 2, addAction 5] (by simp) true 1).2.2.1
      [0, 1, 2] (by simp),
    by decide,
    (composite_forward_backward [addAction 2, addAction 5] (by simp) true 1).2.2.2
      (by
        intro action hmem st
        simp only [List.mem_cons, List.mem_singleton, List.not_mem_nil, or_false] at hmem
        rcases hmem with rfl | rfl <;> simp [addAction]),
    rfl⟩

end AxiomModel
